import Mathlib

/-!
# Fragmented MP4 writer: a shallow embedding

The development follows the fragment-building samples of the repository
(`sample5.cpp`, `sample6.cpp`, `sample9.cpp`, `sample10.cpp`).  Buffers are lists
of bytes, a byte is a natural number, and every C++ machine integer is a natural
number reduced explicitly modulo `2 ^ 32` or `2 ^ 64` where the source does
unsigned arithmetic on it.
-/

set_option autoImplicit false

namespace FMP4

/-! ## Bytes and big-endian fields -/

/-- One byte of a buffer. -/
abbrev Byte := Nat

/-- Modulus of `unsigned int` / `AP4_UI32`. -/
def U32 : Nat := 4294967296

/-- Modulus of `AP4_UI64`. -/
def U64 : Nat := 18446744073709551616

/-- The four bytes `AP4_ByteStream::WriteUI32` (and `htonl` through a pointer store)
produces for a 32-bit value, most significant byte first. -/
def be32 (v : Nat) : List Byte :=
  [v / 16777216 % 256, v / 65536 % 256, v / 256 % 256, v % 256]

/-- The three bytes of the 24-bit flags field of a full atom header. -/
def be24 (v : Nat) : List Byte :=
  [v / 65536 % 256, v / 256 % 256, v % 256]

/-- The eight bytes `AP4_ByteStream::WriteUI64` produces. -/
def be64 (v : Nat) : List Byte :=
  be32 (v / 4294967296) ++ be32 v

/-- The value `ntohl` reads back from four bytes stored in network order. -/
def ntohl (bs : List Byte) : Nat :=
  bs.getD 0 0 * 16777216 + bs.getD 1 0 * 65536 + bs.getD 2 0 * 256 + bs.getD 3 0

/-- The bytes `[off, off + len)` of a buffer. -/
def slice (data : List Byte) (off len : Nat) : List Byte :=
  (data.drop off).take len

/-- A store of the bytes `bs` at index `pos` of a memory image (a `memcpy` or a
store through a cast pointer); bytes outside the image are not materialised. -/
def pokeBytes (mem : List Byte) (pos : Nat) (bs : List Byte) : List Byte :=
  mem.take pos ++ (bs.take (mem.length - pos)) ++ mem.drop (pos + bs.length)

/-! ## Constants of the samples -/

/-- `AP4_ATOM_HEADER_SIZE`. -/
def AP4_ATOM_HEADER_SIZE : Nat := 8
/-- `AP4_FULL_ATOM_HEADER_SIZE`. -/
def AP4_FULL_ATOM_HEADER_SIZE : Nat := 12

def AP4_ATOM_TYPE_MOOF : Nat := 0x6d6f6f66
def AP4_ATOM_TYPE_MFHD : Nat := 0x6d666864
def AP4_ATOM_TYPE_TRAF : Nat := 0x74726166
def AP4_ATOM_TYPE_TFHD : Nat := 0x74666864
def AP4_ATOM_TYPE_TFDT : Nat := 0x74666474
def AP4_ATOM_TYPE_TRUN : Nat := 0x7472756e
def AP4_ATOM_TYPE_MDAT : Nat := 0x6d646174

def AP4_TFHD_FLAG_BASE_DATA_OFFSET_PRESENT : Nat := 0x1
def AP4_TFHD_FLAG_SAMPLE_DESCRIPTION_INDEX_PRESENT : Nat := 0x2
def AP4_TFHD_FLAG_DEFAULT_SAMPLE_DURATION_PRESENT : Nat := 0x8
def AP4_TFHD_FLAG_DEFAULT_SAMPLE_SIZE_PRESENT : Nat := 0x10
def AP4_TFHD_FLAG_DEFAULT_SAMPLE_FLAGS_PRESENT : Nat := 0x20
def AP4_TFHD_FLAG_DEFAULT_BASE_IS_MOOF : Nat := 0x20000

def AP4_TRUN_FLAG_DATA_OFFSET_PRESENT : Nat := 0x1
def AP4_TRUN_FLAG_FIRST_SAMPLE_FLAGS_PRESENT : Nat := 0x4
def AP4_TRUN_FLAG_SAMPLE_DURATION_PRESENT : Nat := 0x100
def AP4_TRUN_FLAG_SAMPLE_SIZE_PRESENT : Nat := 0x200
def AP4_TRUN_FLAG_SAMPLE_FLAGS_PRESENT : Nat := 0x400
def AP4_TRUN_FLAG_SAMPLE_COMPOSITION_TIME_OFFSET_PRESENT : Nat := 0x800

def GST_H264_NAL_SLICE : Nat := 1
def GST_H264_NAL_SLICE_IDR : Nat := 5
def GST_H264_NAL_SPS : Nat := 7
def GST_H264_NAL_PPS : Nat := 8
def GST_H264_NAL_AU_DELIMITER : Nat := 9
def GST_H264_NAL_SEQ_END : Nat := 10
def GST_H264_NAL_STREAM_END : Nat := 11

/-- `MP4_DEFAULT_VIDEO_TRACK_ID` of sample9.cpp and sample10.cpp. -/
def MP4_DEFAULT_VIDEO_TRACK_ID : Nat := 1
/-- `MP4_DEFAULT_VIDEO_TIMESCALE` of sample10.cpp. -/
def MP4_DEFAULT_VIDEO_TIMESCALE : Nat := 9000
/-- `MP4_DEFAULT_TRACK_TIMESCALE` of sample9.cpp. -/
def MP4_DEFAULT_TRACK_TIMESCALE : Nat := 9000

/-! ## Samples and the segment builder state -/

/-- Modelled from the spec: `AP4_ConvertTime` of the Bento4 library (its body is not
under src/).  Section 4.4 gives `convert(value, fromScale, toScale) =
round(value * toScale / fromScale)`; the library returns 0 for a zero source scale. -/
def AP4_ConvertTime (time_value from_time_scale to_time_scale : Nat) : Nat :=
  if from_time_scale = 0 then 0
  else (2 * time_value * to_time_scale + from_time_scale) / (2 * from_time_scale)

/-- An `AP4_Sample` as built by `Feed`: the arguments of the constructor
`AP4_Sample(data_stream, offset, size, duration, description_index, dts, cts_delta, sync)`.
The data stream is the content of the `AP4_MemoryByteStream`. -/
structure AP4_Sample where
  data_stream : List Byte
  offset : Nat
  size : Nat
  duration : Nat
  description_index : Nat
  dts : Nat
  cts_delta : Nat
  sync : Bool
  deriving DecidableEq, Repr

/-- The state an `AP4_FeedSegmentBuilder` carries (the fields the samples use). -/
structure AP4_SegmentBuilder where
  m_TrackId : Nat
  m_Timescale : Nat
  m_SampleStartNumber : Nat
  m_MediaTimeOrigin : Nat
  m_MediaStartTime : Nat
  m_MediaDuration : Nat
  m_Samples : List AP4_Sample
  deriving DecidableEq, Repr

/-- Modelled from the spec: `AP4_SegmentBuilder::AddSample` of the Bento4 library (not
under src/): the sample joins the pending list and its duration is added to the
pending media duration, which `flush` later adds to the base media decode time. -/
def AP4_SegmentBuilder.AddSample (b : AP4_SegmentBuilder) (sample : AP4_Sample) :
    AP4_SegmentBuilder :=
  { b with m_Samples := b.m_Samples ++ [sample],
           m_MediaDuration := (b.m_MediaDuration + sample.duration) % U64 }

/-- The effect of `data_stream->Seek(offset); data_stream->CopyTo(stream, size)` on a
memory stream: the bytes that reach the destination, and whether both calls succeed
(they fail when the stream holds fewer than `size` bytes from `offset` on, after the
bytes that are there have been copied). -/
def AP4_Sample.CopyTo (s : AP4_Sample) : List Byte × Bool :=
  (slice s.data_stream s.offset s.size, decide (s.offset + s.size ≤ s.data_stream.length))

/-! ## Fragment atoms -/

/-- `AP4_TrunAtom::Entry`. -/
structure Entry where
  sample_duration : Nat
  sample_size : Nat
  sample_flags : Nat
  sample_composition_time_offset : Nat
  deriving DecidableEq, Repr

/-- `AP4_MfhdAtom`. -/
structure AP4_MfhdAtom where
  sequence_number : Nat
  deriving DecidableEq, Repr

/-- `AP4_TfhdAtom`, with the arguments of its constructor. -/
structure AP4_TfhdAtom where
  flags : Nat
  track_id : Nat
  base_data_offset : Nat
  sample_description_index : Nat
  default_sample_duration : Nat
  default_sample_size : Nat
  default_sample_flags : Nat
  deriving DecidableEq, Repr

/-- `AP4_TfdtAtom`. -/
structure AP4_TfdtAtom where
  version : Nat
  base_media_decode_time : Nat
  deriving DecidableEq, Repr

/-- `AP4_TrunAtom`; `m_Size32` is the size the atom tracks for itself. -/
structure AP4_TrunAtom where
  m_Size32 : Nat
  flags : Nat
  data_offset : Nat
  first_sample_flags : Nat
  entries : List Entry
  deriving DecidableEq, Repr

/-- The `traf` container with its three children in the order they are added. -/
structure TrafAtom where
  tfhd : AP4_TfhdAtom
  tfdt : AP4_TfdtAtom
  trun : AP4_TrunAtom
  deriving DecidableEq, Repr

/-- The `moof` container: `mfhd` then `traf`. -/
structure MoofAtom where
  mfhd : AP4_MfhdAtom
  traf : TrafAtom
  deriving DecidableEq, Repr

/-- Number of set bits among the given masks. -/
def countFlags (flags : Nat) (masks : List Nat) : Nat :=
  (masks.filter (fun m => flags &&& m != 0)).length

/-- `AP4_TrunAtom::ComputeOptionalFieldsCount`. -/
def ComputeOptionalFieldsCount (flags : Nat) : Nat :=
  countFlags flags [AP4_TRUN_FLAG_DATA_OFFSET_PRESENT, AP4_TRUN_FLAG_FIRST_SAMPLE_FLAGS_PRESENT]

/-- `AP4_TrunAtom::ComputeRecordFieldsCount`. -/
def ComputeRecordFieldsCount (flags : Nat) : Nat :=
  countFlags flags [AP4_TRUN_FLAG_SAMPLE_DURATION_PRESENT, AP4_TRUN_FLAG_SAMPLE_SIZE_PRESENT,
    AP4_TRUN_FLAG_SAMPLE_FLAGS_PRESENT, AP4_TRUN_FLAG_SAMPLE_COMPOSITION_TIME_OFFSET_PRESENT]

/-- The constructor `AP4_TrunAtom(flags, data_offset, first_sample_flags)`. -/
def AP4_TrunAtom.new (flags data_offset first_sample_flags : Nat) : AP4_TrunAtom :=
  { m_Size32 := AP4_FULL_ATOM_HEADER_SIZE + 4 + 4 * ComputeOptionalFieldsCount flags,
    flags := flags, data_offset := data_offset, first_sample_flags := first_sample_flags,
    entries := [] }

/-- `AP4_TrunAtom::SetEntries`: copies the entries and grows the tracked size. -/
def AP4_TrunAtom.SetEntries (t : AP4_TrunAtom) (entries : List Entry) : AP4_TrunAtom :=
  { t with entries := entries,
           m_Size32 := t.m_Size32 + entries.length * ComputeRecordFieldsCount t.flags * 4 }

/-- `AP4_TfhdAtom::ComputeSize`. -/
def AP4_TfhdAtom.ComputeSize (flags : Nat) : Nat :=
  AP4_FULL_ATOM_HEADER_SIZE + 4
    + (if flags &&& AP4_TFHD_FLAG_BASE_DATA_OFFSET_PRESENT != 0 then 8 else 0)
    + (if flags &&& AP4_TFHD_FLAG_SAMPLE_DESCRIPTION_INDEX_PRESENT != 0 then 4 else 0)
    + (if flags &&& AP4_TFHD_FLAG_DEFAULT_SAMPLE_DURATION_PRESENT != 0 then 4 else 0)
    + (if flags &&& AP4_TFHD_FLAG_DEFAULT_SAMPLE_SIZE_PRESENT != 0 then 4 else 0)
    + (if flags &&& AP4_TFHD_FLAG_DEFAULT_SAMPLE_FLAGS_PRESENT != 0 then 4 else 0)

/-- Size of the `mfhd` atom. -/
def AP4_MfhdAtom.GetSize (_ : AP4_MfhdAtom) : Nat := AP4_FULL_ATOM_HEADER_SIZE + 4

/-- Size of the `tfhd` atom, fixed by its flags at construction. -/
def AP4_TfhdAtom.GetSize (a : AP4_TfhdAtom) : Nat := AP4_TfhdAtom.ComputeSize a.flags

/-- Size of the `tfdt` atom: a 32-bit time for version 0, a 64-bit time otherwise. -/
def AP4_TfdtAtom.GetSize (a : AP4_TfdtAtom) : Nat :=
  AP4_FULL_ATOM_HEADER_SIZE + (if a.version = 0 then 4 else 8)

/-- Size of the `traf` container as `OnChildChanged` recomputes it. -/
def TrafAtom.GetSize (t : TrafAtom) : Nat :=
  AP4_ATOM_HEADER_SIZE + t.tfhd.GetSize + t.tfdt.GetSize + t.trun.m_Size32

/-- Size of the `moof` container as `OnChildChanged` recomputes it. -/
def MoofAtom.GetSize (m : MoofAtom) : Nat :=
  AP4_ATOM_HEADER_SIZE + m.mfhd.GetSize + m.traf.GetSize

/-- Header of a plain atom: 32-bit size, then the type. -/
def atomHeader (size type : Nat) : List Byte := be32 size ++ be32 type

/-- Header of a full atom: size, type, one version byte, 24 bits of flags. -/
def fullAtomHeader (size type version flags : Nat) : List Byte :=
  be32 size ++ be32 type ++ [version % 256] ++ be24 flags

/-- `AP4_MfhdAtom::Write`. -/
def AP4_MfhdAtom.Write (a : AP4_MfhdAtom) : List Byte :=
  fullAtomHeader a.GetSize AP4_ATOM_TYPE_MFHD 0 0 ++ be32 a.sequence_number

/-- `AP4_TfhdAtom::Write`: the optional fields follow the flags. -/
def AP4_TfhdAtom.Write (a : AP4_TfhdAtom) : List Byte :=
  fullAtomHeader a.GetSize AP4_ATOM_TYPE_TFHD 0 a.flags ++ be32 a.track_id
    ++ (if a.flags &&& AP4_TFHD_FLAG_BASE_DATA_OFFSET_PRESENT != 0
          then be64 a.base_data_offset else [])
    ++ (if a.flags &&& AP4_TFHD_FLAG_SAMPLE_DESCRIPTION_INDEX_PRESENT != 0
          then be32 a.sample_description_index else [])
    ++ (if a.flags &&& AP4_TFHD_FLAG_DEFAULT_SAMPLE_DURATION_PRESENT != 0
          then be32 a.default_sample_duration else [])
    ++ (if a.flags &&& AP4_TFHD_FLAG_DEFAULT_SAMPLE_SIZE_PRESENT != 0
          then be32 a.default_sample_size else [])
    ++ (if a.flags &&& AP4_TFHD_FLAG_DEFAULT_SAMPLE_FLAGS_PRESENT != 0
          then be32 a.default_sample_flags else [])

/-- `AP4_TfdtAtom::Write`. -/
def AP4_TfdtAtom.Write (a : AP4_TfdtAtom) : List Byte :=
  fullAtomHeader a.GetSize AP4_ATOM_TYPE_TFDT a.version 0
    ++ (if a.version = 0 then be32 a.base_media_decode_time else be64 a.base_media_decode_time)

/-- One record of `AP4_TrunAtom::WriteFields`. -/
def Entry.Write (flags : Nat) (e : Entry) : List Byte :=
  (if flags &&& AP4_TRUN_FLAG_SAMPLE_DURATION_PRESENT != 0 then be32 e.sample_duration else [])
    ++ (if flags &&& AP4_TRUN_FLAG_SAMPLE_SIZE_PRESENT != 0 then be32 e.sample_size else [])
    ++ (if flags &&& AP4_TRUN_FLAG_SAMPLE_FLAGS_PRESENT != 0 then be32 e.sample_flags else [])
    ++ (if flags &&& AP4_TRUN_FLAG_SAMPLE_COMPOSITION_TIME_OFFSET_PRESENT != 0
          then be32 e.sample_composition_time_offset else [])

/-- `AP4_TrunAtom::Write`. -/
def AP4_TrunAtom.Write (t : AP4_TrunAtom) : List Byte :=
  fullAtomHeader t.m_Size32 AP4_ATOM_TYPE_TRUN 0 t.flags ++ be32 t.entries.length
    ++ (if t.flags &&& AP4_TRUN_FLAG_DATA_OFFSET_PRESENT != 0 then be32 t.data_offset else [])
    ++ (if t.flags &&& AP4_TRUN_FLAG_FIRST_SAMPLE_FLAGS_PRESENT != 0
          then be32 t.first_sample_flags else [])
    ++ (t.entries.map (Entry.Write t.flags)).flatten

/-- Serialisation of the `traf` container. -/
def TrafAtom.Write (t : TrafAtom) : List Byte :=
  atomHeader t.GetSize AP4_ATOM_TYPE_TRAF ++ t.tfhd.Write ++ t.tfdt.Write ++ t.trun.Write

/-- Serialisation of the `moof` container (`moof->Write(stream)`). -/
def MoofAtom.Write (m : MoofAtom) : List Byte :=
  atomHeader m.GetSize AP4_ATOM_TYPE_MOOF ++ m.mfhd.Write ++ m.traf.Write

/-! ## The output stream -/

/-- The two bytes `htons` stores for an `unsigned short`. -/
def be16 (v : Nat) : List Byte := [v / 256 % 256, v % 256]

/-- The arguments the samples give the constructor of `AP4_AvcSampleDescription`
after the format `avc1`, the depth 24 and the empty compressor name: profile, level,
profile compatibility, NAL length size and the two parameter-set arrays.  Width and
height, which come from the variable-length part of the SPS, are left out. -/
structure AP4_AvcSampleDescription where
  profile : Nat
  level : Nat
  profile_compatibility : Nat
  nalu_length_size : Nat
  sequence_parameters : List (List Byte)
  picture_parameters : List (List Byte)
  deriving DecidableEq, Repr

/-- Modelled from the spec: the payload of the `avcC` atom Bento4 writes for a sample
description (not under src/), in the layout of section 4.6: configurationVersion 1,
AVCProfileIndication, profile_compatibility, AVCLevelIndication, the length size
minus one under six reserved bits, the number of SPS under three reserved bits with
each SPS behind its 16-bit length, the number of PPS with each PPS behind its length. -/
def AP4_AvcSampleDescription.avcC (d : AP4_AvcSampleDescription) : List Byte :=
  [0x01, d.profile % 256, d.profile_compatibility % 256, d.level % 256,
   0xFC ||| ((d.nalu_length_size - 1) % 4), 0xE0 ||| (d.sequence_parameters.length % 32)]
    ++ (d.sequence_parameters.map (fun ps => be16 ps.length ++ ps)).flatten
    ++ [d.picture_parameters.length % 256]
    ++ (d.picture_parameters.map (fun ps => be16 ps.length ++ ps)).flatten

/-- One write reaching the `FileOutputStream`, in the order issued.  The init
segment atoms carry the values they are built from: the `moov` its track id, the
media timescale of the track and the sample description. -/
inductive Written where
  | ftyp (major_brand minor_version : Nat) (compatible_brands : List Nat)
  | moov (track_id timescale : Nat) (description : AP4_AvcSampleDescription)
  | moof (m : MoofAtom)
  | ui32 (v : Nat)
  | data (bs : List Byte)
  deriving DecidableEq, Repr

/-- The append-only sink: `FileOutputStream::WritePartial` accepts every write. -/
abbrev Stream := List Written

/-- The `moof` atoms of the stream, in write order. -/
def moofs : Stream → List MoofAtom
  | [] => []
  | Written.moof m :: rest => m :: moofs rest
  | _ :: rest => moofs rest

/-! ## NAL unit scanning (GStreamer codecparsers) -/

/-- The fields of `GstH264NalUnit` the samples read; `data` is the scanned buffer. -/
structure GstH264NalUnit where
  type : Nat
  sc_offset : Nat
  offset : Nat
  size : Nat
  deriving DecidableEq, Repr

/-- Modelled from the spec: `scan_for_start_codes` of the GStreamer H.264 parser (not
under src/): the index of the first `00 00 01` that is followed by at least one more
byte, as section 4.1 describes the start codes. -/
def scan_for_start_codes : List Byte → Option Nat
  | [] => none
  | a :: tl =>
    if a = 0 ∧ tl.take 2 = [0, 1] ∧ 3 ≤ tl.length then some 0
    else (scan_for_start_codes tl).map (· + 1)

/-- Modelled from the spec: `gst_h264_parser_identify_nalu_unchecked` (GStreamer, not
under src/): the NAL unit after the first start code at or after `offset`, bounded by
the end of the buffer as section 4.1 says of the final NAL unit; `none` stands for
every result other than `GST_H264_PARSER_OK`. -/
def gst_h264_parser_identify_nalu_unchecked (data : List Byte) (offset size : Nat) :
    Option GstH264NalUnit :=
  if size < offset + 4 then none
  else
    match scan_for_start_codes (slice data offset (size - offset)) with
    | none => none
    | some off1 =>
      let nal_offset := offset + off1 + 3
      let nal_size := size - nal_offset
      if nal_size < 1 then none
      else
        let type := data.getD nal_offset 0 &&& 0x1f
        let sc := offset + off1
        let sc_offset :=
          if 0 < sc ∧ data.getD (sc - 1) 1 = 0 ∧
              (type = GST_H264_NAL_SPS ∨ type = GST_H264_NAL_PPS ∨
                type = GST_H264_NAL_AU_DELIMITER)
          then sc - 1 else sc
        some { type := type, sc_offset := sc_offset, offset := nal_offset, size := nal_size }

/-- The `while (off2 > 0 && data[nalu->offset + off2 - 1] == 00) off2--;` loop. -/
def stripTrailingZeros (data : List Byte) (nal_offset : Nat) : Nat → Nat
  | 0 => 0
  | off2 + 1 => if data.getD (nal_offset + off2) 1 = 0 then stripTrailingZeros data nal_offset off2
                else off2 + 1

/-- Modelled from the spec: `gst_h264_parser_identify_nalu` (GStreamer, not under
src/): as the unchecked variant, but the NAL unit must be followed by another start
code, which bounds it; the zero bytes in front of that start code are not part of it. -/
def gst_h264_parser_identify_nalu (data : List Byte) (offset size : Nat) :
    Option GstH264NalUnit :=
  match gst_h264_parser_identify_nalu_unchecked data offset size with
  | none => none
  | some nalu =>
    match scan_for_start_codes (slice data nalu.offset (size - nalu.offset)) with
    | none => none
    | some off2 =>
      let off2 := stripTrailingZeros data nalu.offset off2
      if off2 < 2 then none else some { nalu with size := off2 }

/-- The scanning loop of `ParseH264NALU` (identical in sample6, sample9 and sample10):
complete NAL units while `gst_h264_parser_identify_nalu` succeeds, then the last one,
which no start code follows.  Every round moves `offset` forward, so `fuel` equal to
the buffer length is never exhausted before the scan fails. -/
def ParseH264NALU.scan (data : List Byte) (length : Nat) : Nat → Nat → List GstH264NalUnit
  | 0, offset =>
    match gst_h264_parser_identify_nalu_unchecked data offset length with
    | some nalu => [nalu]
    | none => []
  | fuel + 1, offset =>
    match gst_h264_parser_identify_nalu data offset length with
    | some nalu => nalu :: ParseH264NALU.scan data length fuel (nalu.size + nalu.offset)
    | none =>
      match gst_h264_parser_identify_nalu_unchecked data offset length with
      | some nalu => [nalu]
      | none => []

/-- `MP4Writer::ParseH264NALU(data, length)` with `length` the size of the buffer. -/
def ParseH264NALU (data : List Byte) : List GstH264NalUnit :=
  ParseH264NALU.scan data data.length data.length 0

/-- The payload `nalu.data + nalu.offset`, `nalu.size` bytes long. -/
def GstH264NalUnit.payload (data : List Byte) (nalu : GstH264NalUnit) : List Byte :=
  slice data nalu.offset nalu.size

/-- The test `nalu.type == GST_H264_NAL_SLICE_IDR || nalu.type == GST_H264_NAL_SLICE`. -/
def GstH264NalUnit.isSlice (nalu : GstH264NalUnit) : Bool :=
  nalu.type == GST_H264_NAL_SLICE_IDR || nalu.type == GST_H264_NAL_SLICE

/-- The loop `if (type == SPS) nal_sps = nalu; else if (type == PPS) nal_pps = nalu;`
over the scanned NAL units, starting from the given pair. -/
def selectParameterSets (nalus : List GstH264NalUnit)
    (init : GstH264NalUnit × GstH264NalUnit) : GstH264NalUnit × GstH264NalUnit :=
  nalus.foldl (fun acc nalu =>
    if nalu.type = GST_H264_NAL_SPS then (nalu, acc.2)
    else if nalu.type = GST_H264_NAL_PPS then (acc.1, nalu)
    else acc) init

/-- The zero-initialised `GstH264NalUnit nalu = {0}`. -/
def GstH264NalUnit.zero : GstH264NalUnit := { type := 0, sc_offset := 0, offset := 0, size := 0 }

/-- The fields of `GstH264SPS` that the samples read for the `avcC` record. -/
structure GstH264SPS where
  profile_idc : Nat
  constraint_set0_flag : Nat
  constraint_set1_flag : Nat
  constraint_set2_flag : Nat
  constraint_set3_flag : Nat
  level_idc : Nat
  deriving DecidableEq, Repr

/-- Modelled from the spec: `gst_h264_parser_parse_sps` (GStreamer, not under src/),
for the fixed-position fields only: after the NAL header byte come `profile_idc`, the
constraint-flag byte and `level_idc` (section 4.3).  A field the NAL unit is too short
to hold keeps the 0 of the zero-initialised `GstH264SPS sps = {0}`. -/
def gst_h264_parser_parse_sps (data : List Byte) (nalu : GstH264NalUnit) : GstH264SPS :=
  let flags := (nalu.payload data).getD 2 0
  { profile_idc := (nalu.payload data).getD 1 0 % 256,
    constraint_set0_flag := flags / 128 % 2,
    constraint_set1_flag := flags / 64 % 2,
    constraint_set2_flag := flags / 32 % 2,
    constraint_set3_flag := flags / 16 % 2,
    level_idc := (nalu.payload data).getD 3 0 % 256 }

/-- One step of the entry loop shared by `AddTrafAtom` (sample10) and
`WriteMediaSegment` (sample9): the state is the trun flags, the entries so far and
the running `mdat_size`. -/
def trunEntryStep (acc : Nat × List Entry × Nat) (s : AP4_Sample) : Nat × List Entry × Nat :=
  let flags := if s.cts_delta ≠ 0
    then acc.1 ||| AP4_TRUN_FLAG_SAMPLE_COMPOSITION_TIME_OFFSET_PRESENT else acc.1
  let trun_entry : Entry :=
    { sample_duration := s.duration,
      sample_size := s.size,
      sample_composition_time_offset := s.cts_delta,
      sample_flags := if s.sync then 0x02000000 else 0x01010000 }
  (flags, acc.2.1 ++ [trun_entry], (acc.2.2 + trun_entry.sample_size) % U32)

/-- One call of `WriteH264VideoSample`: the sample buffer, the key-frame flag and the
duration in milliseconds (an `unsigned long long`). -/
structure Call where
  sample : List Byte
  is_key_frame : Bool
  duration : Nat
  deriving DecidableEq, Repr

/-! ## sample10.cpp -/

namespace Sample10

/-- `AVCSegmentBuilder`: an `AP4_FeedSegmentBuilder` for the video track. -/
abbrev AVCSegmentBuilder := AP4_SegmentBuilder

/-- The constructor `AVCSegmentBuilder()`. -/
def AVCSegmentBuilder.new : AVCSegmentBuilder :=
  { m_TrackId := MP4_DEFAULT_VIDEO_TRACK_ID, m_Timescale := MP4_DEFAULT_VIDEO_TIMESCALE,
    m_SampleStartNumber := 0, m_MediaTimeOrigin := 0, m_MediaStartTime := 0,
    m_MediaDuration := 0, m_Samples := [] }

/-- `AVCSegmentBuilder::AddTrafAtom(moof)`, for a `moof` that holds the given `mfhd`:
the finished `moof`. -/
def AVCSegmentBuilder.AddTrafAtom (b : AVCSegmentBuilder) (mfhd : AP4_MfhdAtom) : MoofAtom :=
  let tfhd : AP4_TfhdAtom :=
    { flags := AP4_TFHD_FLAG_DEFAULT_BASE_IS_MOOF ||| AP4_TFHD_FLAG_DEFAULT_SAMPLE_FLAGS_PRESENT,
      track_id := b.m_TrackId, base_data_offset := 0, sample_description_index := 1,
      default_sample_duration := 0, default_sample_size := 0,
      default_sample_flags := 0x1010000 }
  let tfdt : AP4_TfdtAtom :=
    { version := 1, base_media_decode_time := (b.m_MediaTimeOrigin + b.m_MediaStartTime) % U64 }
  let trun_flags := AP4_TRUN_FLAG_DATA_OFFSET_PRESENT ||| AP4_TRUN_FLAG_SAMPLE_DURATION_PRESENT |||
    AP4_TRUN_FLAG_SAMPLE_SIZE_PRESENT ||| AP4_TRUN_FLAG_SAMPLE_FLAGS_PRESENT
  let trun := AP4_TrunAtom.new trun_flags 0 0
  let r := b.m_Samples.foldl trunEntryStep (trun.flags, [], AP4_ATOM_HEADER_SIZE)
  let trun := { trun with flags := r.1 }
  let trun := trun.SetEntries r.2.1
  let moof : MoofAtom := { mfhd := mfhd, traf := { tfhd := tfhd, tfdt := tfdt, trun := trun } }
  { moof with traf := { moof.traf with trun :=
      { trun with data_offset := (moof.GetSize + AP4_ATOM_HEADER_SIZE) % U32 } } }

/-- `AVCSegmentBuilder::GetSampleSize`. -/
def AVCSegmentBuilder.GetSampleSize (b : AVCSegmentBuilder) : Nat :=
  b.m_Samples.foldl (fun size s => (size + s.size) % U32) 0

/-- The copy loop of `AVCSegmentBuilder::WriteMdat`: the stream after the loop and
whether every copy succeeded (the loop returns at the first failure). -/
def copySamples : List AP4_Sample → Stream → Stream × Bool
  | [], stream => (stream, true)
  | s :: rest, stream =>
    let r := s.CopyTo
    if r.2 then copySamples rest (stream ++ [Written.data r.1])
    else (stream ++ [Written.data r.1], false)

/-- `AVCSegmentBuilder::WriteMdat(stream)`: the result, the builder and the stream. -/
def AVCSegmentBuilder.WriteMdat (b : AVCSegmentBuilder) (stream : Stream) :
    Bool × AVCSegmentBuilder × Stream :=
  let r := copySamples b.m_Samples stream
  if r.2 then
    (true, { b with m_MediaStartTime := (b.m_MediaStartTime + b.m_MediaDuration) % U64,
                    m_MediaDuration := 0, m_Samples := [] }, r.1)
  else (false, b, r.1)

/-- `AVCSegmentBuilder::Feed(data, data_size, is_key_frame, duration)`; it returns
`true` on every path. -/
def AVCSegmentBuilder.Feed (b : AVCSegmentBuilder) (data : List Byte) (data_size : Nat)
    (is_key_frame : Bool) (duration : Nat) : AVCSegmentBuilder :=
  let sample_data := be32 data_size ++ data.take data_size
  let duration := if duration = 0 then 50 else duration
  let timescale_duration := AP4_ConvertTime duration 1000 b.m_Timescale % U32
  let timescale_dts := b.m_MediaStartTime
  let sample : AP4_Sample :=
    { data_stream := sample_data, offset := 0, size := (data_size + 4) % U32,
      duration := timescale_duration, description_index := 0, dts := timescale_dts,
      cts_delta := 0, sync := is_key_frame }
  b.AddSample sample

/-- The state of sample10's `MP4Writer`.  `avc_segment_builder` is the
`std::unique_ptr`, empty until the init segment is written. -/
structure MP4Writer where
  is_write_init_segment : Bool
  avc_segment_builder : Option AVCSegmentBuilder
  file_output_stream : Stream
  sequence_number : Nat
  deriving DecidableEq, Repr

/-- The constructor `MP4Writer(file_path)`. -/
def MP4Writer.new : MP4Writer :=
  { is_write_init_segment := false, avc_segment_builder := none, file_output_stream := [],
    sequence_number := 0 }

/-- `MP4Writer::WriteFtypAtom`. -/
def WriteFtypAtom (stream : Stream) : Stream :=
  stream ++ [Written.ftyp 0x69736f35 512 [0x69736f36, 0x6d703431]]

/-- `AVCSegmentBuilder::AddTrack(movie, nal_sps, nal_pps)`: the sample description of
the track; it copies `nal.data + nal.offset`, `nal.size` bytes of each parameter set. -/
def AVCSegmentBuilder.AddTrack (data : List Byte) (nal_sps nal_pps : GstH264NalUnit) :
    AP4_AvcSampleDescription :=
  let sps := gst_h264_parser_parse_sps data nal_sps
  { profile := sps.profile_idc, level := sps.level_idc, profile_compatibility := 0,
    nalu_length_size := 4, sequence_parameters := [nal_sps.payload data],
    picture_parameters := [nal_pps.payload data] }

/-- `MP4Writer::WriteMoovAtom`, on the builder just created: the last SPS and the last
PPS of the sample go into the track. -/
def WriteMoovAtom (stream : Stream) (data : List Byte) (nalus : List GstH264NalUnit) : Stream :=
  let sel := selectParameterSets nalus (GstH264NalUnit.zero, GstH264NalUnit.zero)
  stream ++ [Written.moov AVCSegmentBuilder.new.m_TrackId AVCSegmentBuilder.new.m_Timescale
    (AVCSegmentBuilder.AddTrack data sel.1 sel.2)]

/-- `MP4Writer::WriteMoofAtom(stream, sequence_number)`. -/
def WriteMoofAtom (b : AVCSegmentBuilder) (stream : Stream) (sequence_number : Nat) : Stream :=
  stream ++ [Written.moof (b.AddTrafAtom { sequence_number := sequence_number })]

/-- `MP4Writer::WriteMdat(stream)`: the builder and the stream afterwards. -/
def WriteMdat (b : AVCSegmentBuilder) (stream : Stream) : AVCSegmentBuilder × Stream :=
  let mdat_size := (AP4_ATOM_HEADER_SIZE + b.GetSampleSize) % U32
  let stream := stream ++ [Written.ui32 mdat_size]
  let stream := stream ++ [Written.ui32 AP4_ATOM_TYPE_MDAT]
  let r := b.WriteMdat stream
  (r.2.1, r.2.2)

/-- The body of the `for (auto nalu : nalus)` loop of `WriteH264VideoSample` for one
NAL unit; `none` is the dereference of the empty `avc_segment_builder`. -/
def writeNalu (data : List Byte) (is_key_frame : Bool) (duration : Nat)
    (w : MP4Writer) (nalu : GstH264NalUnit) : Option MP4Writer :=
  if nalu.isSlice then
    match w.avc_segment_builder with
    | none => none
    | some b =>
      let b := b.Feed (data.drop nalu.offset) nalu.size is_key_frame duration
      let sequence_number := (w.sequence_number + 1) % U32
      let stream := WriteMoofAtom b w.file_output_stream sequence_number
      let r := WriteMdat b stream
      some { w with avc_segment_builder := some r.1, file_output_stream := r.2,
                    sequence_number := sequence_number }
  else some w

/-- The `for (auto nalu : nalus)` loop. -/
def writeNalus (data : List Byte) (is_key_frame : Bool) (duration : Nat) :
    MP4Writer → List GstH264NalUnit → Option MP4Writer
  | w, [] => some w
  | w, nalu :: rest =>
    match writeNalu data is_key_frame duration w nalu with
    | none => none
    | some w1 => writeNalus data is_key_frame duration w1 rest

/-- `MP4Writer::WriteH264VideoSample(sample, sample_size, is_key_frame, duration)` with
`sample_size` the size of the buffer.  The call returns `true` whenever it returns;
`none` is the crash on the empty `avc_segment_builder`. -/
def WriteH264VideoSample (w : MP4Writer) (sample : List Byte) (is_key_frame : Bool)
    (duration : Nat) : Option MP4Writer :=
  let nalus := ParseH264NALU sample
  let w :=
    if is_key_frame && !w.is_write_init_segment then
      let stream := WriteFtypAtom w.file_output_stream
      let stream := WriteMoovAtom stream sample nalus
      { w with avc_segment_builder := some AVCSegmentBuilder.new,
               file_output_stream := stream, is_write_init_segment := true }
    else w
  writeNalus sample is_key_frame duration w nalus

/-- A sequence of `WriteH264VideoSample` calls on one writer, as in `main`; `none`
once a call has crashed. -/
def run : MP4Writer → List Call → Option MP4Writer
  | w, [] => some w
  | w, c :: rest =>
    match WriteH264VideoSample w c.sample c.is_key_frame c.duration with
    | none => none
    | some w1 => run w1 rest

end Sample10

/-! ## sample9.cpp -/

namespace Sample9

/-- The value of the member `FileOutputStream *file_output_stream`: null, a non-null
value that is the address of no stream, or the stream that `WriteH264VideoSample`
opened, with the writes made to it. -/
inductive StreamPointer where
  | null
  | invalid
  | stream (s : Stream)
  deriving DecidableEq, Repr

/-- The writes made through the pointer so far. -/
def StreamPointer.written : StreamPointer → Stream
  | .stream s => s
  | _ => []

/-- A `GstH264NalUnit` kept in a member, with the buffer that its `data` field points
to. -/
structure StoredNalUnit where
  nalu : GstH264NalUnit
  data : List Byte
  deriving DecidableEq, Repr

/-- The state of sample9's `MP4Writer`, which is itself the `AP4_FeedSegmentBuilder`.
`nal_sps` and `nal_pps` are `none` while they hold the indeterminate value that the
constructor leaves in them. -/
structure MP4Writer where
  builder : AP4_SegmentBuilder
  file_output_stream : StreamPointer
  sequence_number : Nat
  nal_sps : Option StoredNalUnit
  nal_pps : Option StoredNalUnit
  deriving DecidableEq, Repr

/-- The constructor `MP4Writer(file_path, is_open_new_file)`.  Its initialiser list
names the base class, `file_path`, `is_open_new_file`, `sequence_number` and
`h264_parser`, so `file_output_stream`, `nal_sps` and `nal_pps` keep what the memory
of the object held; `non_null` tells whether the pointer found there is non-null. -/
def MP4Writer.new (non_null : Bool) : MP4Writer :=
  { builder :=
      { m_TrackId := MP4_DEFAULT_VIDEO_TRACK_ID, m_Timescale := MP4_DEFAULT_TRACK_TIMESCALE,
        m_SampleStartNumber := 0, m_MediaTimeOrigin := 0, m_MediaStartTime := 0,
        m_MediaDuration := 0, m_Samples := [] },
    file_output_stream := if non_null then StreamPointer.invalid else StreamPointer.null,
    sequence_number := 0,
    nal_sps := none, nal_pps := none }

/-- The copy loop of `WriteMediaSegment`. -/
def copySamples : List AP4_Sample → Stream → Stream × Bool
  | [], stream => (stream, true)
  | s :: rest, stream =>
    let r := s.CopyTo
    if r.2 then copySamples rest (stream ++ [Written.data r.1])
    else (stream ++ [Written.data r.1], false)

/-- The `moof` that `WriteMediaSegment` builds and writes.  `m_TrackType` is
`TYPE_VIDEO` from the constructor on and is never assigned, so the test of it that
adds the second `tfhd` flag always holds. -/
def buildMoof (b : AP4_SegmentBuilder) (sequence_number : Nat) : MoofAtom × Nat :=
  let tfhd_flags := AP4_TFHD_FLAG_DEFAULT_BASE_IS_MOOF ||| AP4_TFHD_FLAG_DEFAULT_SAMPLE_FLAGS_PRESENT
  let mfhd : AP4_MfhdAtom := { sequence_number := sequence_number }
  let tfhd : AP4_TfhdAtom :=
    { flags := tfhd_flags, track_id := b.m_TrackId, base_data_offset := 0,
      sample_description_index := 1, default_sample_duration := 0, default_sample_size := 0,
      default_sample_flags :=
        if tfhd_flags &&& AP4_TFHD_FLAG_DEFAULT_SAMPLE_FLAGS_PRESENT != 0 then 0x1010000 else 0 }
  let tfdt : AP4_TfdtAtom :=
    { version := 1, base_media_decode_time := (b.m_MediaTimeOrigin + b.m_MediaStartTime) % U64 }
  let trun_flags := AP4_TRUN_FLAG_DATA_OFFSET_PRESENT ||| AP4_TRUN_FLAG_SAMPLE_DURATION_PRESENT |||
    AP4_TRUN_FLAG_SAMPLE_SIZE_PRESENT ||| AP4_TRUN_FLAG_SAMPLE_FLAGS_PRESENT
  let trun := AP4_TrunAtom.new trun_flags 0 0
  let r := b.m_Samples.foldl trunEntryStep (trun.flags, [], AP4_ATOM_HEADER_SIZE)
  let trun := { trun with flags := r.1 }
  let trun := trun.SetEntries r.2.1
  let moof : MoofAtom := { mfhd := mfhd, traf := { tfhd := tfhd, tfdt := tfdt, trun := trun } }
  ({ moof with traf := { moof.traf with trun :=
      { trun with data_offset := (moof.GetSize + AP4_ATOM_HEADER_SIZE) % U32 } } }, r.2.2)

/-- `MP4Writer::WriteMediaSegment(stream, sequence_number)`: whether it returned
`AP4_SUCCESS`, the builder and the stream afterwards. -/
def WriteMediaSegment (b : AP4_SegmentBuilder) (stream : Stream) (sequence_number : Nat) :
    Bool × AP4_SegmentBuilder × Stream :=
  let m := buildMoof b sequence_number
  let mdat_size := m.2
  let stream := stream ++ [Written.moof m.1]
  let stream := stream ++ [Written.ui32 mdat_size]
  let stream := stream ++ [Written.ui32 AP4_ATOM_TYPE_MDAT]
  let r := copySamples b.m_Samples stream
  if r.2 then
    (true, { b with m_SampleStartNumber := b.m_SampleStartNumber + b.m_Samples.length,
                    m_MediaStartTime := (b.m_MediaStartTime + b.m_MediaDuration) % U64,
                    m_MediaDuration := 0, m_Samples := [] }, r.1)
  else (false, b, r.1)

/-- `MP4Writer::WriteInitSegment(nal_sps, nal_pps, stream)`: `ftyp`, then the `moov`
of the track with its sample description; each parameter set is read at
`nal.data + nal.offset`. -/
def WriteInitSegment (b : AP4_SegmentBuilder) (nal_sps nal_pps : StoredNalUnit)
    (stream : Stream) : Stream :=
  let sps := gst_h264_parser_parse_sps nal_sps.data nal_sps.nalu
  let sample_description : AP4_AvcSampleDescription :=
    { profile := sps.profile_idc, level := sps.level_idc, profile_compatibility := 0,
      nalu_length_size := 4, sequence_parameters := [nal_sps.nalu.payload nal_sps.data],
      picture_parameters := [nal_pps.nalu.payload nal_pps.data] }
  stream ++ [Written.ftyp 0x69736f35 512 [0x69736f36, 0x6d703431],
             Written.moov b.m_TrackId b.m_Timescale sample_description]

/-- `MP4Writer::Feed(data, data_size, is_key_frame, duration)`; it returns `true` on
every path. -/
def Feed (b : AP4_SegmentBuilder) (data : List Byte) (data_size : Nat)
    (is_key_frame : Bool) (duration : Nat) : AP4_SegmentBuilder :=
  let sample_data := be32 data_size ++ data.take data_size
  let duration := if duration = 0 then 50 else duration
  let timescale_duration := AP4_ConvertTime duration 1000 b.m_Timescale % U32
  let timescale_dts := b.m_MediaStartTime
  let sample : AP4_Sample :=
    { data_stream := sample_data, offset := 0, size := (data_size + 4) % U32,
      duration := timescale_duration, description_index := 0, dts := timescale_dts,
      cts_delta := 0, sync := is_key_frame }
  b.AddSample sample

/-- The loop `if (type == SPS) nal_sps = nalu; else if (type == PPS) nal_pps = nalu;`
of `WriteH264VideoSample` over the NAL units scanned in `data`, on the two members. -/
def assignParameterSets (data : List Byte) (nalus : List GstH264NalUnit)
    (members : Option StoredNalUnit × Option StoredNalUnit) :
    Option StoredNalUnit × Option StoredNalUnit :=
  nalus.foldl (fun acc nalu =>
    if nalu.type = GST_H264_NAL_SPS then (some { nalu := nalu, data := data }, acc.2)
    else if nalu.type = GST_H264_NAL_PPS then (acc.1, some { nalu := nalu, data := data })
    else acc) members

/-- The body of the `for (auto nalu : nalus)` loop of `WriteH264VideoSample` for one
NAL unit; `none` is the call of `WriteMediaSegment` on `*file_output_stream` when the
pointer is the non-null value left by the constructor. -/
def writeNalu (data : List Byte) (is_key_frame : Bool) (duration : Nat)
    (w : MP4Writer) (nalu : GstH264NalUnit) : Option MP4Writer :=
  if nalu.isSlice then
    let b := Feed w.builder (data.drop nalu.offset) nalu.size is_key_frame duration
    match w.file_output_stream with
    | StreamPointer.stream stream =>
      let sequence_number := (w.sequence_number + 1) % U32
      let r := WriteMediaSegment b stream sequence_number
      some { w with builder := r.2.1, file_output_stream := StreamPointer.stream r.2.2,
                    sequence_number := sequence_number }
    | StreamPointer.null => some { w with builder := b }
    | StreamPointer.invalid => none
  else some w

/-- The `for (auto nalu : nalus)` loop. -/
def writeNalus (data : List Byte) (is_key_frame : Bool) (duration : Nat) :
    MP4Writer → List GstH264NalUnit → Option MP4Writer
  | w, [] => some w
  | w, nalu :: rest =>
    match writeNalu data is_key_frame duration w nalu with
    | none => none
    | some w1 => writeNalus data is_key_frame duration w1 rest

/-- The block "Write init segment" of `WriteH264VideoSample`, entered when the pointer
is null: on a key frame the parameter sets are assigned, the stream is opened and
`WriteInitSegment` is called on the two members.  `none` is that call on a member that
still holds its indeterminate value. -/
def openStream (w : MP4Writer) (sample : List Byte) (nalus : List GstH264NalUnit)
    (is_key_frame : Bool) : Option MP4Writer :=
  match w.file_output_stream with
  | StreamPointer.null =>
    if is_key_frame then
      let sel := assignParameterSets sample nalus (w.nal_sps, w.nal_pps)
      match sel.1, sel.2 with
      | some nal_sps, some nal_pps =>
        some { w with nal_sps := sel.1, nal_pps := sel.2,
                      file_output_stream :=
                        StreamPointer.stream (WriteInitSegment w.builder nal_sps nal_pps []) }
      | _, _ => none
    else some w
  | _ => some w

/-- `MP4Writer::WriteH264VideoSample(sample, sample_size, is_key_frame, duration)` with
`sample_size` the size of the buffer.  The call returns `true` whenever it returns;
`none` is a use of a member that the constructor left indeterminate. -/
def WriteH264VideoSample (w : MP4Writer) (sample : List Byte) (is_key_frame : Bool)
    (duration : Nat) : Option MP4Writer :=
  let nalus := ParseH264NALU sample
  match openStream w sample nalus is_key_frame with
  | none => none
  | some w => writeNalus sample is_key_frame duration w nalus

/-- A sequence of `WriteH264VideoSample` calls on one writer, as in `main`; `none`
once a call has used an indeterminate member. -/
def run : MP4Writer → List Call → Option MP4Writer
  | w, [] => some w
  | w, c :: rest =>
    match WriteH264VideoSample w c.sample c.is_key_frame c.duration with
    | none => none
    | some w1 => run w1 rest

end Sample9

/-! ## sample5.cpp -/

namespace Sample5

/-- The step "Convert AnnexB format to AVCC" of `MP4Writer::WriteH264VideoSample`:
`if (sample_size >= 4) *p = htonl(sample_size - 4)` on the first four bytes. -/
def ConvertAnnexBToAVCC (sample : List Byte) : List Byte :=
  if 4 ≤ sample.length then pokeBytes sample 0 (be32 (sample.length - 4)) else sample

/-- The step "Convert AVC1 format to AnnexB" of `MP4Reader::GetNextH264VideoSample`:
`if (sample_size >= 4) *p = htonl(1)` on the first four bytes. -/
def ConvertAVC1ToAnnexB (sample : List Byte) : List Byte :=
  if 4 ≤ sample.length then pokeBytes sample 0 (be32 1) else sample

end Sample5

namespace Sample10

/-- The `while` loop of "Convert AVC1 format to AnnexB" in
`MP4Reader::GetNextH264VideoSample` (the same in sample9), with `tmp` the index
`tmp_addr - video_sample_start_addr`.  `none` is a read of `tmp_addr[4]` outside the
sample, or a loop that does not end (`header_size + 4` wraps to 0). -/
def ConvertAVC1ToAnnexB.loop : Nat → List Byte → Nat → Option (List Byte)
  | 0, _, _ => none
  | fuel + 1, mem, tmp =>
    if tmp + 4 < mem.length then
      let t := mem.getD (tmp + 4) 0 &&& 0x1F
      if t ≠ GST_H264_NAL_SLICE_IDR ∧ t ≠ GST_H264_NAL_SLICE then
        let header_size := ntohl (slice mem tmp 4)
        ConvertAVC1ToAnnexB.loop fuel (pokeBytes mem tmp (be32 1)) (tmp + (header_size + 4) % U32)
      else some (pokeBytes mem tmp (be32 1))
    else none

/-- The step "Convert AVC1 format to AnnexB" of `MP4Reader::GetNextH264VideoSample` on
the sample read from the file. -/
def ConvertAVC1ToAnnexB (sample : List Byte) : Option (List Byte) :=
  if 4 ≤ sample.length then ConvertAVC1ToAnnexB.loop (sample.length + 1) sample 0
  else some sample

end Sample10

/-! ## sample6.cpp -/

namespace Sample6

/-- The conversion of an unsigned value to `int` (`static_cast<int>(duration)`, the
assignment to `packet.size`): the low 32 bits read as a two's-complement number. -/
def toInt (v : Nat) : Int :=
  if v % U32 < 2147483648 then ((v % U32 : Nat) : Int) else ((v % U32 : Nat) : Int) - 4294967296

/-- `static_cast<int64_t>(v)` of an `unsigned long long`: the 64 bits read as a
two's-complement number. -/
def toInt64 (v : Nat) : Int :=
  if v % U64 < 9223372036854775808 then ((v % U64 : Nat) : Int)
  else ((v % U64 : Nat) : Int) - 18446744073709551616

/-- The packet handed to `av_interleaved_write_frame`: the `packet.size` bytes at
`packet.data`, and the fields as the sample sets them, before `av_packet_rescale_ts`
(FFmpeg) converts the time stamps to the time base of the stream. -/
structure AVPacket where
  data : List Byte
  size : Int
  pts : Int
  duration : Int
  key : Bool
  deriving DecidableEq, Repr

/-- The `extradata` that `MP4Writer::AddH264VideoTrack(nal_sps, nal_pps)` fills in:
`av_mallocz(extradata_size)` gives `extradata_size` zero bytes, and the stores follow
one another at `extradata_offset`. -/
def AddH264VideoTrack.extradata (data : List Byte) (nal_sps nal_pps : GstH264NalUnit) :
    List Byte :=
  let sps := gst_h264_parser_parse_sps data nal_sps
  let profile_idc := sps.profile_idc
  let profile_compatibility :=
    ((sps.constraint_set0_flag * 128) ||| (sps.constraint_set1_flag * 64) |||
      (sps.constraint_set2_flag * 32) ||| (sps.constraint_set3_flag * 16)) % 256
  let level_idc := sps.level_idc
  let extradata_offset := 0
  let extradata_size := nal_sps.size + nal_pps.size + 11
  let extradata := List.replicate extradata_size 0
  let extradata := pokeBytes extradata extradata_offset [0x01]
  let extradata_offset := extradata_offset + 1
  let extradata := pokeBytes extradata extradata_offset [profile_idc]
  let extradata_offset := extradata_offset + 1
  let extradata := pokeBytes extradata extradata_offset [profile_compatibility]
  let extradata_offset := extradata_offset + 1
  let extradata := pokeBytes extradata extradata_offset [level_idc]
  let extradata_offset := extradata_offset + 1
  let extradata := pokeBytes extradata extradata_offset [0xff]
  let extradata_offset := extradata_offset + 1
  let extradata := pokeBytes extradata extradata_offset [0xe1]
  let extradata_offset := extradata_offset + 1
  let sps_size := nal_sps.size % 65536
  let extradata := pokeBytes extradata extradata_offset (be16 sps_size)
  let extradata_offset := extradata_offset + 2
  let extradata := pokeBytes extradata extradata_offset (nal_sps.payload data)
  let extradata_offset := extradata_offset + nal_sps.size
  let extradata := pokeBytes extradata extradata_offset [0x01]
  let extradata_offset := extradata_offset + 1
  let pps_size := nal_pps.size % 65536
  let extradata := pokeBytes extradata extradata_offset (be16 pps_size)
  let extradata_offset := extradata_offset + 2
  let extradata := pokeBytes extradata extradata_offset (nal_pps.payload data)
  extradata

/-- The state of sample6's `MP4Writer`: `format_context` (null until the track is
added; the model keeps its `extradata`), `file_duration`, and the packets that
reached the muxer. -/
structure MP4Writer where
  format_context : Option (List Byte)
  file_duration : Nat
  packets : List AVPacket
  deriving DecidableEq, Repr

/-- The constructor of `MP4Writer`. -/
def MP4Writer.new : MP4Writer := { format_context := none, file_duration := 0, packets := [] }

/-- The store `*p = htonl(nalu.size)` with `p = nalu.data + nalu.offset - 4`, in a
memory image in which the sample buffer starts at index `base`; `none` when `p` lies
below the image. -/
def rewriteStartCode (mem : List Byte) (base : Nat) (nalu : GstH264NalUnit) :
    Option (List Byte) :=
  if base + nalu.offset < 4 then none
  else some (pokeBytes mem (base + nalu.offset - 4) (be32 nalu.size))

/-- The body of the `for (auto nalu : nalus)` loop of `WriteH264VideoSample` for one
NAL unit: the writer and the memory image afterwards.  `none` is a store below the
image or the dereference of the null `format_context`; the muxer calls succeed. -/
def writeNalu (base : Nat) (is_key_frame : Bool) (duration : Nat)
    (st : MP4Writer × List Byte) (nalu : GstH264NalUnit) : Option (MP4Writer × List Byte) :=
  if nalu.isSlice then
    match rewriteStartCode st.2 base nalu with
    | none => none
    | some mem =>
      match st.1.format_context with
      | none => none
      | some _ =>
        let size := toInt (nalu.size + 4)
        let packet : AVPacket :=
          { data := slice mem (base + nalu.offset - 4) size.toNat, size := size,
            pts := toInt64 st.1.file_duration, duration := toInt duration,
            key := is_key_frame }
        some ({ st.1 with packets := st.1.packets ++ [packet],
                          file_duration := (st.1.file_duration + duration) % U64 }, mem)
  else some st

/-- The `for (auto nalu : nalus)` loop. -/
def writeNalus (base : Nat) (is_key_frame : Bool) (duration : Nat) :
    MP4Writer × List Byte → List GstH264NalUnit → Option (MP4Writer × List Byte)
  | st, [] => some st
  | st, nalu :: rest =>
    match writeNalu base is_key_frame duration st nalu with
    | none => none
    | some st1 => writeNalus base is_key_frame duration st1 rest

/-- `MP4Writer::WriteH264VideoSample(sample, sample_size, is_key_frame, duration)` of
sample6, with the sample buffer at `[base, base + sample_size)` of the memory image
`mem`: the writer and the memory image afterwards. -/
def WriteH264VideoSample (w : MP4Writer) (mem : List Byte) (base sample_size : Nat)
    (is_key_frame : Bool) (duration : Nat) : Option (MP4Writer × List Byte) :=
  let sample := slice mem base sample_size
  let nalus := ParseH264NALU sample
  let w :=
    if w.format_context.isNone && is_key_frame then
      let sel := selectParameterSets nalus (GstH264NalUnit.zero, GstH264NalUnit.zero)
      { w with format_context := some (AddH264VideoTrack.extradata sample sel.1 sel.2) }
    else w
  writeNalus base is_key_frame duration (w, mem) nalus

end Sample6

/-! ## Observations on the written stream -/

/-- The bytes a write puts on the stream: `WriteUI32` writes four bytes, a sample copy
its bytes, a `moof` its serialisation.  The init segment atoms are not serialised in
this development. -/
def Written.bytes? : Written → Option (List Byte)
  | Written.ui32 v => some (be32 v)
  | Written.data bs => some bs
  | Written.moof m => some m.Write
  | Written.ftyp _ _ _ => none
  | Written.moov _ _ _ => none

/-- The bytes of a run of writes, when each of them is serialised here. -/
def streamBytes? : List Written → Option (List Byte)
  | [] => some []
  | w :: rest =>
    match w.bytes?, streamBytes? rest with
    | some a, some b => some (a ++ b)
    | _, _ => none

/-- The `sample_duration` fields of the `trun` of a fragment. -/
def trunDurations (m : MoofAtom) : List Nat :=
  m.traf.trun.entries.map (fun e => e.sample_duration)

/-- The `sample_size` fields of the `trun` of a fragment. -/
def trunSizes (m : MoofAtom) : List Nat :=
  m.traf.trun.entries.map (fun e => e.sample_size)

/-- The trun entry the entry loop builds for a pending sample. -/
def entryOf (s : AP4_Sample) : Entry :=
  { sample_duration := s.duration, sample_size := s.size,
    sample_composition_time_offset := s.cts_delta,
    sample_flags := if s.sync then 0x02000000 else 0x01010000 }

/-- The duration in track timescale of a sample fed with `duration` milliseconds: the
conversion of section 4.7 (`0` stands for 50 ms), as a 32-bit value. -/
def timescaleDuration (timescale duration : Nat) : Nat :=
  AP4_ConvertTime (if duration = 0 then 50 else duration) 1000 timescale % U32

/-- The slice NAL units of a sample, in scan order. -/
def sliceNalus (sample : List Byte) : List GstH264NalUnit :=
  (ParseH264NALU sample).filter GstH264NalUnit.isSlice

/-- The converted durations of all samples fed by a sequence of calls: one per slice
NAL unit, in feed order. -/
def fedDurations (timescale : Nat) (calls : List Call) : List Nat :=
  calls.flatMap (fun c => (sliceNalus c.sample).map (fun _ => timescaleDuration timescale c.duration))

/-- The base media decode times that a run of fragments must carry when the first
one starts at `acc`: each fragment starts where the durations before it end. -/
def decodeTimesFrom : Nat → List MoofAtom → List Nat
  | _, [] => []
  | acc, m :: rest => acc % U64 :: decodeTimesFrom (acc + (trunDurations m).sum) rest

/-- Successive `Feed` calls of sample10's builder on whole payloads, each with its
key-frame flag and its duration. -/
def Sample10.feedAll (b : AP4_SegmentBuilder) (ps : List (List Byte × Bool × Nat)) :
    AP4_SegmentBuilder :=
  ps.foldl (fun b p => Sample10.AVCSegmentBuilder.Feed b p.1 p.1.length p.2.1 p.2.2) b

/-- The sample `Feed` stores for a whole payload. -/
def fedSample (timescale dts : Nat) (p : List Byte × Bool × Nat) : AP4_Sample :=
  { data_stream := be32 p.1.length ++ p.1, offset := 0, size := (p.1.length + 4) % U32,
    duration := timescaleDuration timescale p.2.2, description_index := 0, dts := dts,
    cts_delta := 0, sync := p.2.1 }

/-- A builder with two pending samples: a key frame slice and a non-key slice fed with
duration 0. -/
def demoBuilder : AP4_SegmentBuilder :=
  Sample10.feedAll Sample10.AVCSegmentBuilder.new
    [([0x65, 0x88], true, 40), ([0x41, 0x9a, 0x01], false, 0)]

/-- The base media decode times of a run of fragments. -/
def decodeTimes (ms : List MoofAtom) : List Nat :=
  ms.map (fun m => m.traf.tfdt.base_media_decode_time)

/-- The `mfhd` sequence numbers of a run of fragments. -/
def sequenceNumbers (ms : List MoofAtom) : List Nat :=
  ms.map (fun m => m.mfhd.sequence_number)

/-- What stays true of sample10's writer between the steps of its NAL loop, with `fed`
the converted durations of the samples fed so far: the fragments written carry
consecutive decode times and sequence numbers (as machine integers), their trun
durations are `fed`, and the builder, once created, has nothing pending and stands at
the sum of `fed`. -/
def Sample10.Inv (w : Sample10.MP4Writer) (fed : List Nat) : Prop :=
  decodeTimes (moofs w.file_output_stream) = decodeTimesFrom 0 (moofs w.file_output_stream)
  ∧ sequenceNumbers (moofs w.file_output_stream)
      = (List.range (moofs w.file_output_stream).length).map (fun i => (i + 1) % U32)
  ∧ w.sequence_number = (moofs w.file_output_stream).length % U32
  ∧ (moofs w.file_output_stream).flatMap trunDurations = fed
  ∧ match w.avc_segment_builder with
    | none => moofs w.file_output_stream = [] ∧ w.is_write_init_segment = false
    | some b => b.m_Samples = [] ∧ b.m_MediaDuration = 0 ∧ b.m_MediaTimeOrigin = 0
        ∧ b.m_Timescale = MP4_DEFAULT_VIDEO_TIMESCALE ∧ b.m_MediaStartTime = fed.sum % U64
        ∧ w.is_write_init_segment = true

/-- What stays true of sample9's writer between the steps of its NAL loop, with `fed`
the converted durations of the samples fed so far: as for sample10, but samples fed
before the stream exists stay pending, and every pending sample can be copied. -/
def Sample9.Inv (w : Sample9.MP4Writer) (fed : List Nat) : Prop :=
  decodeTimes (moofs (w.file_output_stream.written))
      = decodeTimesFrom 0 (moofs (w.file_output_stream.written))
  ∧ sequenceNumbers (moofs (w.file_output_stream.written))
      = (List.range (moofs (w.file_output_stream.written)).length).map (fun i => (i + 1) % U32)
  ∧ w.sequence_number = (moofs (w.file_output_stream.written)).length % U32
  ∧ (moofs (w.file_output_stream.written)).flatMap trunDurations
      ++ w.builder.m_Samples.map (fun s => s.duration) = fed
  ∧ (∀ s ∈ w.builder.m_Samples, s.CopyTo.2 = true)
  ∧ w.builder.m_MediaDuration = (w.builder.m_Samples.map (fun s => s.duration)).sum % U64
  ∧ w.builder.m_MediaTimeOrigin = 0
  ∧ w.builder.m_Timescale = MP4_DEFAULT_TRACK_TIMESCALE
  ∧ w.builder.m_MediaStartTime
      = ((moofs (w.file_output_stream.written)).flatMap trunDurations).sum % U64

/-- The payloads of the NAL units of an Annex-B sample, in scan order. -/
def nalPayloads (sample : List Byte) : List (List Byte) :=
  (ParseH264NALU sample).map (fun n => n.payload sample)

/-- The payload writes (sample copies) of a stream, in write order. -/
def dataWrites : Stream → List (List Byte)
  | [] => []
  | Written.data bs :: rest => bs :: dataWrites rest
  | _ :: rest => dataWrites rest

/-- The length-prefixed payloads of the slice NAL units of a sample, in scan order:
what section 4.7 lets into the `mdat`. -/
def slicePayloads (sample : List Byte) : List (List Byte) :=
  (sliceNalus sample).map (fun n => be32 n.size ++ n.payload sample)

/-- NAL units that follow one another in a buffer of the given length: each starts at
least 3 bytes after the end of the one before (after `o` for the first), is not
empty, and ends inside the buffer. -/
def nalusFrom (length : Nat) : Nat → List GstH264NalUnit → Prop
  | _, [] => True
  | o, n :: rest =>
    o + 3 ≤ n.offset ∧ 1 ≤ n.size ∧ n.offset + n.size ≤ length ∧
      nalusFrom length (n.offset + n.size) rest

/-- A sample6 writer whose track has been added (`format_context` is set). -/
def Sample6.demoWriter : Sample6.MP4Writer :=
  { format_context := some [], file_duration := 0, packets := [] }

/-- Three calls as `main` issues them: a key frame holding SPS, PPS and an IDR slice
(40 ms), a non-key frame with one slice and duration 0, and a non-key frame with an
SEI and two slices (40 ms). -/
def demoCalls : List Call :=
  [{ sample := [0, 0, 0, 1, 0x67, 0x42, 0, 0, 0, 1, 0x68, 0xce, 0, 0, 0, 1, 0x65, 0x88],
     is_key_frame := true, duration := 40 },
   { sample := [0, 0, 0, 1, 0x41, 0x9a], is_key_frame := false, duration := 0 },
   { sample := [0, 0, 0, 1, 0x06, 0x05, 0, 0, 0, 1, 0x41, 0x9b, 0, 0, 1, 0x41, 0x9c],
     is_key_frame := false, duration := 40 }]

/-- Successive `Feed` calls of sample9's writer on whole payloads, each with its
key-frame flag and its duration. -/
def Sample9.feedAll (b : AP4_SegmentBuilder) (ps : List (List Byte × Bool × Nat)) :
    AP4_SegmentBuilder :=
  ps.foldl (fun b p => Sample9.Feed b p.1 p.1.length p.2.1 p.2.2) b

/-- Whether a write is an atom of the init segment (`ftyp` or `moov`). -/
def Written.isInit : Written → Bool
  | Written.ftyp _ _ _ => true
  | Written.moov _ _ _ => true
  | _ => false

/-- The init segment atoms of a stream, in write order. -/
def initWrites (s : Stream) : List Written := s.filter Written.isInit

/-- The `avcC` payloads of the `moov` atoms of a stream, in write order. -/
def avcCs : Stream → List (List Byte)
  | [] => []
  | Written.moov _ _ d :: rest => d.avcC :: avcCs rest
  | _ :: rest => avcCs rest

/-- The init segment sample10 writes for the key frame `sample`: `WriteFtypAtom`, then
`WriteMoovAtom` on the NAL units of the sample. -/
def Sample10.initSegment (sample : List Byte) : Stream :=
  Sample10.WriteMoovAtom (Sample10.WriteFtypAtom []) sample (ParseH264NALU sample)

/-- The init segment sample9 writes on a key frame `sample` that holds an SPS and a
PPS: the two members are then the last SPS and the last PPS scanned in the sample. -/
def Sample9.initSegment (sample : List Byte) : Stream :=
  let sel := selectParameterSets (ParseH264NALU sample)
    (GstH264NalUnit.zero, GstH264NalUnit.zero)
  Sample9.WriteInitSegment (Sample9.MP4Writer.new false).builder
    { nalu := sel.1, data := sample } { nalu := sel.2, data := sample } []

/-- What stays true of sample10's writer from call to call, with `first` the first
key-frame call so far: before it nothing is written and no builder exists; after it
the stream starts with the init segment of that call and holds no other init atom. -/
def Sample10.Shape (first : Option Call) (w : Sample10.MP4Writer) : Prop :=
  match first with
  | none => w.is_write_init_segment = false ∧ w.avc_segment_builder = none
      ∧ w.file_output_stream = []
  | some c => w.is_write_init_segment = true ∧ w.avc_segment_builder.isSome = true
      ∧ ∃ rest, w.file_output_stream = Sample10.initSegment c.sample ++ rest
          ∧ initWrites rest = []

/-- What stays true from call to call of a sample9 writer whose pointer started null,
with `first` the first key-frame call so far: before it the pointer is null and the
parameter-set members are indeterminate; after it that call has found an SPS and a
PPS, and the stream starts with its init segment and holds no other init atom. -/
def Sample9.Shape (first : Option Call) (w : Sample9.MP4Writer) : Prop :=
  w.builder.m_TrackId = MP4_DEFAULT_VIDEO_TRACK_ID
  ∧ w.builder.m_Timescale = MP4_DEFAULT_TRACK_TIMESCALE
  ∧ match first with
    | none => w.file_output_stream = Sample9.StreamPointer.null ∧ w.nal_sps = none
        ∧ w.nal_pps = none
    | some c => (∃ sps pps, Sample9.assignParameterSets c.sample (ParseH264NALU c.sample)
          (none, none) = (some sps, some pps))
        ∧ ∃ rest, w.file_output_stream
            = Sample9.StreamPointer.stream (Sample9.initSegment c.sample ++ rest)
          ∧ initWrites rest = []

/-- A key frame as an encoder emits it: SPS (profile 0x42, constraint byte 0xC0, level
0x1E), PPS and one IDR slice, each behind a 4-byte start code. -/
def demoKeyFrame : List Byte :=
  [0, 0, 0, 1, 0x67, 0x42, 0xC0, 0x1E, 0, 0, 0, 1, 0x68, 0xCE, 0, 0, 0, 1, 0x65, 0x88]

/-- A key frame whose single slice NAL unit has a 1000-byte payload: SPS, PPS and an
IDR slice of the header byte 0x65 and 999 bytes 0x88, each behind a 4-byte start code. -/
def bigKeyFrame : List Byte :=
  [0, 0, 0, 1, 0x67, 0x42, 0xC0, 0x1E, 0, 0, 0, 1, 0x68, 0xCE, 0, 0, 0, 1]
    ++ 0x65 :: List.replicate 999 0x88

/-- The file behind sample10's `FileOutputStream`: the bytes `fwrite` has stored, the
number of bytes the device still takes (a full device takes none), and the member
`position`. -/
structure FileOutputStream where
  stored : List Byte
  room : Nat
  position : Nat
  deriving DecidableEq, Repr

/-- `FileOutputStream::WritePartial(buffer, buf_size, bytes_written)` of sample10: it
sets `bytes_written = buf_size`, advances `position`, calls
`fwrite(buf, 1, buf_size, fptr)` without looking at its result, and returns
`AP4_SUCCESS`.  The result is whether `AP4_SUCCESS` was returned, `bytes_written` and
the stream afterwards; `fwrite` stores the bytes the device has room for. -/
def FileOutputStream.WritePartial (f : FileOutputStream) (buffer : List Byte) :
    Bool × Nat × FileOutputStream :=
  let bytes_written := buffer.length
  let position := (f.position + bytes_written) % U64
  let fwrite := buffer.take f.room
  (true, bytes_written,
    { stored := f.stored ++ fwrite, room := f.room - fwrite.length, position := position })

/-- The buffers written to the stream, handed to `WritePartial` in order: whether
every call returned `AP4_SUCCESS`, and the stream afterwards. -/
def FileOutputStream.writeAll : FileOutputStream → List (List Byte) → Bool × FileOutputStream
  | f, [] => (true, f)
  | f, buffer :: rest =>
    let r := f.WritePartial buffer
    let r2 := FileOutputStream.writeAll r.2.2 rest
    (r.1 && r2.1, r2.2)

/-- The `bool` that sample10's `WriteH264VideoSample` returns on an open stream: its
body ends in `return true`, and the `return false` of the null-stream test is not
reached; `none` is the crash. -/
def Sample10.WriteH264VideoSample.result (w : Sample10.MP4Writer) (sample : List Byte)
    (is_key_frame : Bool) (duration : Nat) : Option Bool :=
  match Sample10.WriteH264VideoSample w sample is_key_frame duration with
  | none => none
  | some _ => some true

/-- A sample10 writer whose builder holds one pending sample that cannot be copied:
its stream holds 2 bytes of the 5 its size announces. -/
def Sample10.stuckWriter : Sample10.MP4Writer :=
  { is_write_init_segment := true,
    avc_segment_builder := some
      { Sample10.AVCSegmentBuilder.new with
        m_MediaDuration := 360,
        m_Samples := [{ data_stream := [0x41, 0x9a], offset := 0, size := 5, duration := 360,
                        description_index := 0, dts := 0, cts_delta := 0, sync := false }] },
    file_output_stream := [],
    sequence_number := 0 }

/-- The last SPS NAL unit of a sample in scan order, `dflt` when there is none. -/
def lastSPS (sample : List Byte) (dflt : GstH264NalUnit) : GstH264NalUnit :=
  (((ParseH264NALU sample).filter (fun n => decide (n.type = GST_H264_NAL_SPS))).getLast?).getD dflt

/-- The last PPS NAL unit of a sample in scan order, `dflt` when there is none. -/
def lastPPS (sample : List Byte) (dflt : GstH264NalUnit) : GstH264NalUnit :=
  (((ParseH264NALU sample).filter (fun n => decide (n.type = GST_H264_NAL_PPS))).getLast?).getD dflt

/-- A key frame with two SPS and two PPS NAL units in front of the IDR slice. -/
def twoSpsKeyFrame : List Byte :=
  [0, 0, 0, 1, 0x67, 0x42, 0xC0, 0x1E, 0, 0, 0, 1, 0x68, 0xCE,
   0, 0, 0, 1, 0x67, 0x64, 0x10, 0x28, 0, 0, 0, 1, 0x68, 0xEE, 0, 0, 0, 1, 0x65, 0x88]

/-- A fragment as the entry loop of `AddTrafAtom` (sample10) or `WriteMediaSegment`
(sample9) builds it from at least one pending sample, all of them with
composition-time offset 0. -/
def builtFragment (m : MoofAtom) : Prop :=
  ∃ b mfhd, m = Sample10.AVCSegmentBuilder.AddTrafAtom b mfhd ∧ b.m_Samples ≠ []
    ∧ ∀ s ∈ b.m_Samples, s.cts_delta = 0

/-- What stays true of sample10's writer between the steps of its NAL loop: every
fragment written is a `builtFragment`, and every pending sample has composition-time
offset 0. -/
def Sample10.Built (w : Sample10.MP4Writer) : Prop :=
  (∀ m ∈ moofs w.file_output_stream, builtFragment m)
  ∧ ∀ b, w.avc_segment_builder = some b → ∀ s ∈ b.m_Samples, s.cts_delta = 0

/-- What stays true of sample9's writer between the steps of its NAL loop: every
fragment written is a `builtFragment`, and every pending sample has composition-time
offset 0. -/
def Sample9.Built (w : Sample9.MP4Writer) : Prop :=
  (∀ m ∈ moofs (w.file_output_stream.written), builtFragment m)
  ∧ ∀ s ∈ w.builder.m_Samples, s.cts_delta = 0

/-- Three calls: the key frame `demoKeyFrame` (40 ms), a non-key slice fed with a
duration of 2^32 ms, and a non-key slice (40 ms). -/
def stallCalls : List Call :=
  [{ sample := demoKeyFrame, is_key_frame := true, duration := 40 },
   { sample := [0, 0, 0, 1, 0x41, 0x9a], is_key_frame := false, duration := 4294967296 },
   { sample := [0, 0, 0, 1, 0x41, 0x9b], is_key_frame := false, duration := 40 }]

/-- A key frame with SPS, PPS and two IDR slices. -/
def twoSliceKeyFrame : List Byte :=
  [0, 0, 0, 1, 0x67, 0x42, 0, 0, 0, 1, 0x68, 0xce, 0, 0, 0, 1, 0x65, 0x88,
   0, 0, 1, 0x65, 0x89]

/-- An AVCC sample as `MP4ReadSample` delivers it: each NAL unit behind its 4-byte
big-endian length. -/
def avccSample (nals : List (List Byte)) : List Byte :=
  (nals.map (fun p => be32 p.length ++ p)).flatten

/-- The NAL units each behind the start code `00 00 00 01`. -/
def annexBSample (nals : List (List Byte)) : List Byte :=
  (nals.map (fun p => [0, 0, 0, 1] ++ p)).flatten

/-- Whether the first byte of a NAL unit gives the type SLICE_IDR or SLICE, the test the
conversion loop makes on `tmp_addr[4]`. -/
def isSlicePayload (p : List Byte) : Bool :=
  p.headD 0 &&& 0x1F == GST_H264_NAL_SLICE_IDR || p.headD 0 &&& 0x1F == GST_H264_NAL_SLICE

/-! ## sample8: `CircularBuffer` -/

namespace Sample8

/-- Subtraction of two `unsigned int` values: the result wraps around below zero. -/
def sub32 (a b : Nat) : Nat := (a % U32 + U32 - b % U32) % U32

/-- The fields of `CircularBuffer`; `data_` is the array of `capacity` bytes that the
constructor allocates. -/
structure CircularBuffer where
  beg_index_ : Nat
  end_index_ : Nat
  size_ : Nat
  capacity_ : Nat
  data_ : List Byte
  deriving DecidableEq, Repr

/-- `CircularBuffer::CircularBuffer(capacity)`.  The bytes of the fresh array are
indeterminate in the source; `fill` stands for whatever they are. -/
def CircularBuffer.new (capacity : Nat) (fill : Nat → Byte) : CircularBuffer :=
  { beg_index_ := 0
    end_index_ := 0
    size_ := 0
    capacity_ := capacity
    data_ := (List.range capacity).map fill }

/-- `CircularBuffer::write(data, bytes)`: the new state and the returned count.  `data`
is the caller's memory from the pointer on; each `memcpy` is a `pokeBytes` of a slice
of it. -/
def CircularBuffer.write (cb : CircularBuffer) (data : List Byte) (bytes : Nat) :
    CircularBuffer × Nat :=
  if bytes = 0 then (cb, 0)
  else
    let capacity := cb.capacity_
    let bytes_to_write := min bytes (sub32 capacity cb.size_)
    if bytes_to_write ≤ sub32 capacity cb.end_index_ then
      let data1 := pokeBytes cb.data_ cb.end_index_ (slice data 0 bytes_to_write)
      let end1 := (cb.end_index_ + bytes_to_write) % U32
      let end2 := if end1 = capacity then 0 else end1
      ({ cb with
          data_ := data1
          end_index_ := end2
          size_ := (cb.size_ + bytes_to_write) % U32 }, bytes_to_write)
    else
      let size_1 := sub32 capacity cb.end_index_
      let data1 := pokeBytes cb.data_ cb.end_index_ (slice data 0 size_1)
      let size_2 := sub32 bytes_to_write size_1
      let data2 := pokeBytes data1 0 (slice data size_1 size_2)
      ({ cb with
          data_ := data2
          end_index_ := size_2
          size_ := (cb.size_ + bytes_to_write) % U32 }, bytes_to_write)

/-- `CircularBuffer::read(data, bytes)`: the new state, the bytes stored through `data`
(from its first byte on) and the returned count. -/
def CircularBuffer.read (cb : CircularBuffer) (bytes : Nat) :
    CircularBuffer × List Byte × Nat :=
  if bytes = 0 then (cb, [], 0)
  else
    let capacity := cb.capacity_
    let bytes_to_read := min bytes cb.size_
    if bytes_to_read ≤ sub32 capacity cb.beg_index_ then
      let out := slice cb.data_ cb.beg_index_ bytes_to_read
      let beg1 := (cb.beg_index_ + bytes_to_read) % U32
      let beg2 := if beg1 = capacity then 0 else beg1
      ({ cb with
          beg_index_ := beg2
          size_ := sub32 cb.size_ bytes_to_read }, out, bytes_to_read)
    else
      let size_1 := sub32 capacity cb.beg_index_
      let out1 := slice cb.data_ cb.beg_index_ size_1
      let size_2 := sub32 bytes_to_read size_1
      let out2 := slice cb.data_ 0 size_2
      ({ cb with
          beg_index_ := size_2
          size_ := sub32 cb.size_ bytes_to_read }, out1 ++ out2, bytes_to_read)

/-- The relations between the fields that hold between calls. -/
def CircularBuffer.Valid (cb : CircularBuffer) : Prop :=
  cb.size_ ≤ cb.capacity_ ∧ cb.beg_index_ < cb.capacity_ ∧ cb.end_index_ < cb.capacity_
    ∧ cb.end_index_ = (cb.beg_index_ + cb.size_) % cb.capacity_

/-- The queued bytes, oldest first: the `size_` bytes from `beg_index_` on, around the
end of the array. -/
def CircularBuffer.contents (cb : CircularBuffer) : List Byte :=
  (List.range cb.size_).map
    (fun i => cb.data_.getD ((cb.beg_index_ + i) % cb.capacity_) 0)

/-- A call of one of the two member functions. -/
inductive Op where
  | write (data : List Byte) (bytes : Nat)
  | read (bytes : Nat)
  deriving DecidableEq, Repr

/-- The caller's memory holds the `bytes` bytes that a write may copy. -/
def Op.ok : Op → Bool
  | .write data bytes => decide (bytes ≤ data.length)
  | .read _ => true

/-- A buffer with the history of its calls: the bytes that the writes have accepted and
the bytes that the reads have returned, each in call order. -/
structure Trace where
  buffer : CircularBuffer
  accepted : List Byte
  returned : List Byte
  deriving DecidableEq, Repr

def Trace.step (t : Trace) : Op → Trace
  | .write data bytes =>
    let r := t.buffer.write data bytes
    { buffer := r.1, accepted := t.accepted ++ data.take r.2, returned := t.returned }
  | .read bytes =>
    let r := t.buffer.read bytes
    { buffer := r.1, accepted := t.accepted, returned := t.returned ++ r.2.1 }

/-- A sequence of calls on a freshly constructed buffer. -/
def run (capacity : Nat) (fill : Nat → Byte) (ops : List Op) : Trace :=
  ops.foldl Trace.step { buffer := CircularBuffer.new capacity fill, accepted := [], returned := [] }

end Sample8

namespace Sample8

/-- Calls that fill a buffer of four bytes, wrap around its end and drain it. -/
def demoOps : List Op :=
  [.write [1, 2, 3] 3, .read 2, .write [4, 5, 6, 7] 4, .read 1, .write [8, 9] 2, .read 9]

end Sample8

theorem be32_length (v : Nat) : (be32 v).length = 4 := rfl

theorem be24_length (v : Nat) : (be24 v).length = 3 := rfl

theorem be64_length (v : Nat) : (be64 v).length = 8 := rfl

theorem be32_mod (v : Nat) : be32 (v % U32) = be32 v := by
  unfold be32 U32
  have h1 : v % 4294967296 / 16777216 % 256 = v / 16777216 % 256 := by omega
  have h2 : v % 4294967296 / 65536 % 256 = v / 65536 % 256 := by omega
  have h3 : v % 4294967296 / 256 % 256 = v / 256 % 256 := by omega
  have h4 : v % 4294967296 % 256 = v % 256 := by omega
  rw [h1, h2, h3, h4]

theorem slice_append_left (a b : List Byte) : slice (a ++ b) 0 a.length = a := by
  simp [slice]

/-! ## Feed -/

theorem feed10_samples (b : AP4_SegmentBuilder) (data : List Byte) (n : Nat)
    (key : Bool) (d : Nat) :
    (Sample10.AVCSegmentBuilder.Feed b data n key d).m_Samples = b.m_Samples ++
      [{ data_stream := be32 n ++ data.take n, offset := 0, size := (n + 4) % U32,
         duration := timescaleDuration b.m_Timescale d, description_index := 0,
         dts := b.m_MediaStartTime, cts_delta := 0, sync := key }] := by
  simp [Sample10.AVCSegmentBuilder.Feed, AP4_SegmentBuilder.AddSample, timescaleDuration]

theorem feed9_samples (b : AP4_SegmentBuilder) (data : List Byte) (n : Nat)
    (key : Bool) (d : Nat) :
    (Sample9.Feed b data n key d).m_Samples = b.m_Samples ++
      [{ data_stream := be32 n ++ data.take n, offset := 0, size := (n + 4) % U32,
         duration := timescaleDuration b.m_Timescale d, description_index := 0,
         dts := b.m_MediaStartTime, cts_delta := 0, sync := key }] := by
  simp [Sample9.Feed, AP4_SegmentBuilder.AddSample, timescaleDuration]

/-- C6: `Feed` on a slice NAL payload of `n` bytes (the first `n` bytes at the data
pointer) appends one sample whose data is the 4-byte big-endian `n` followed by the
payload unchanged and whose recorded size is `n + 4`; a 1000-byte payload gives size
1004.  Holds for sample10's `AVCSegmentBuilder::Feed` and sample9's `MP4Writer::Feed`,
for every payload whose size plus 4 fits the 32-bit size field. -/
theorem C6_feed_length_prefixed (b : AP4_SegmentBuilder) (payload rest : List Byte)
    (key : Bool) (d : Nat) (hn : payload.length + 4 < U32) :
    (∃ s, (Sample10.AVCSegmentBuilder.Feed b (payload ++ rest) payload.length key d).m_Samples
          = b.m_Samples ++ [s]
        ∧ s.data_stream = be32 payload.length ++ payload ∧ s.offset = 0
        ∧ s.size = payload.length + 4
        ∧ s.CopyTo = (be32 payload.length ++ payload, true)
        ∧ (payload.length = 1000 → s.size = 1004)) ∧
    (∃ s, (Sample9.Feed b (payload ++ rest) payload.length key d).m_Samples
          = b.m_Samples ++ [s]
        ∧ s.data_stream = be32 payload.length ++ payload ∧ s.offset = 0
        ∧ s.size = payload.length + 4
        ∧ s.CopyTo = (be32 payload.length ++ payload, true)
        ∧ (payload.length = 1000 → s.size = 1004)) := by
  have hsz : (payload.length + 4) % U32 = payload.length + 4 := Nat.mod_eq_of_lt hn
  have hcopy : slice (be32 payload.length ++ payload) 0 (payload.length + 4)
      = be32 payload.length ++ payload := by
    have := slice_append_left (be32 payload.length ++ payload) []
    simpa [be32_length, Nat.add_comm] using this
  refine ⟨⟨_, feed10_samples b _ _ key d, ?_, rfl, hsz, ?_, ?_⟩,
          ⟨_, feed9_samples b _ _ key d, ?_, rfl, hsz, ?_, ?_⟩⟩
  all_goals first
    | (simp; done)
    | (intro h; simp [hsz, h]; done)
    | (simp only [AP4_Sample.CopyTo, List.take_left', hsz, hcopy]
       simp [be32_length]
       try omega)

theorem C6_feed_length_prefixed_witness :
    (∃ s, (Sample10.AVCSegmentBuilder.Feed Sample10.AVCSegmentBuilder.new
            ([0x65, 0x88, 0x84] ++ [0, 0, 1, 0x41]) [0x65, 0x88, 0x84].length true 40).m_Samples
          = Sample10.AVCSegmentBuilder.new.m_Samples ++ [s]
        ∧ s.data_stream = be32 [0x65, 0x88, 0x84].length ++ [0x65, 0x88, 0x84] ∧ s.offset = 0
        ∧ s.size = [0x65, 0x88, 0x84].length + 4
        ∧ s.CopyTo = (be32 [0x65, 0x88, 0x84].length ++ [0x65, 0x88, 0x84], true)
        ∧ ([0x65, 0x88, 0x84].length = 1000 → s.size = 1004)) ∧
    (∃ s, (Sample9.Feed Sample10.AVCSegmentBuilder.new
            ([0x65, 0x88, 0x84] ++ [0, 0, 1, 0x41]) [0x65, 0x88, 0x84].length true 40).m_Samples
          = Sample10.AVCSegmentBuilder.new.m_Samples ++ [s]
        ∧ s.data_stream = be32 [0x65, 0x88, 0x84].length ++ [0x65, 0x88, 0x84] ∧ s.offset = 0
        ∧ s.size = [0x65, 0x88, 0x84].length + 4
        ∧ s.CopyTo = (be32 [0x65, 0x88, 0x84].length ++ [0x65, 0x88, 0x84], true)
        ∧ ([0x65, 0x88, 0x84].length = 1000 → s.size = 1004)) :=
  C6_feed_length_prefixed Sample10.AVCSegmentBuilder.new [0x65, 0x88, 0x84] [0, 0, 1, 0x41]
    true 40 (by decide)

/-- C10: `Feed` with duration 0 leaves the builder exactly as `Feed` with duration 50
does, the sample carrying the track-timescale conversion of 50 ms; every non-zero
duration is the value that is converted.  Holds for sample10's and sample9's `Feed`. -/
theorem C10_zero_duration_is_50ms (b : AP4_SegmentBuilder) (data : List Byte) (n : Nat)
    (key : Bool) :
    Sample10.AVCSegmentBuilder.Feed b data n key 0 = Sample10.AVCSegmentBuilder.Feed b data n key 50
    ∧ Sample9.Feed b data n key 0 = Sample9.Feed b data n key 50
    ∧ ((Sample10.AVCSegmentBuilder.Feed b data n key 0).m_Samples.map (fun s => s.duration)
        = b.m_Samples.map (fun s => s.duration) ++ [AP4_ConvertTime 50 1000 b.m_Timescale % U32])
    ∧ ((Sample9.Feed b data n key 0).m_Samples.map (fun s => s.duration)
        = b.m_Samples.map (fun s => s.duration) ++ [AP4_ConvertTime 50 1000 b.m_Timescale % U32])
    ∧ (∀ d, d ≠ 0 →
        (Sample10.AVCSegmentBuilder.Feed b data n key d).m_Samples.map (fun s => s.duration)
          = b.m_Samples.map (fun s => s.duration) ++ [AP4_ConvertTime d 1000 b.m_Timescale % U32]
        ∧ (Sample9.Feed b data n key d).m_Samples.map (fun s => s.duration)
          = b.m_Samples.map (fun s => s.duration) ++ [AP4_ConvertTime d 1000 b.m_Timescale % U32]) := by
  refine ⟨by simp [Sample10.AVCSegmentBuilder.Feed], by simp [Sample9.Feed], ?_, ?_, ?_⟩
  · simp [feed10_samples, timescaleDuration]
  · simp [feed9_samples, timescaleDuration]
  · intro d hd
    simp [feed10_samples, feed9_samples, timescaleDuration, hd]

/-! ## The entry loop and the size of the moof -/

theorem foldl_trunEntryStep_entries (ss : List AP4_Sample) (acc : Nat × List Entry × Nat) :
    (ss.foldl trunEntryStep acc).2.1 = acc.2.1 ++ ss.map entryOf := by
  induction ss generalizing acc with
  | nil => simp
  | cons s rest ih => simp [List.foldl_cons, ih, trunEntryStep, entryOf]

theorem foldl_trunEntryStep_size (ss : List AP4_Sample) (acc : Nat × List Entry × Nat) :
    (ss.foldl trunEntryStep acc).2.2 % U32 = (acc.2.2 + (ss.map (fun s => s.size)).sum) % U32 := by
  induction ss generalizing acc with
  | nil => simp
  | cons s rest ih =>
    simp only [List.foldl_cons, ih, List.map_cons, List.sum_cons]
    simp only [trunEntryStep]
    rw [Nat.add_mod, Nat.mod_mod, ← Nat.add_mod, Nat.add_assoc]

theorem foldl_trunEntryStep_size_lt (ss : List AP4_Sample) (acc : Nat × List Entry × Nat)
    (h : acc.2.2 < U32) : (ss.foldl trunEntryStep acc).2.2 < U32 := by
  induction ss generalizing acc with
  | nil => simpa using h
  | cons s rest ih =>
    simp only [List.foldl_cons]
    apply ih
    simp only [trunEntryStep]
    exact Nat.mod_lt _ (by decide)

theorem foldl_trunEntryStep_flags (ss : List AP4_Sample) (acc : Nat × List Entry × Nat)
    (h : acc.1 = 0x701 ∨ acc.1 = 0xF01) :
    (ss.foldl trunEntryStep acc).1 = 0x701 ∨ (ss.foldl trunEntryStep acc).1 = 0xF01 := by
  induction ss generalizing acc with
  | nil => simpa using h
  | cons s rest ih =>
    simp only [List.foldl_cons]
    apply ih
    simp only [trunEntryStep]
    by_cases hc : s.cts_delta ≠ 0
    · rcases h with h | h <;> simp [hc, h, AP4_TRUN_FLAG_SAMPLE_COMPOSITION_TIME_OFFSET_PRESENT]
    · simpa [hc] using h

theorem foldl_trunEntryStep_flags_zero (ss : List AP4_Sample) (acc : Nat × List Entry × Nat)
    (h : ∀ s ∈ ss, s.cts_delta = 0) : (ss.foldl trunEntryStep acc).1 = acc.1 := by
  induction ss generalizing acc with
  | nil => simp
  | cons s rest ih =>
    simp only [List.foldl_cons]
    rw [ih _ (fun x hx => h x (List.mem_cons_of_mem _ hx))]
    simp [trunEntryStep, h s (List.mem_cons_self _ _)]

theorem GetSampleSize_eq (b : AP4_SegmentBuilder) :
    Sample10.AVCSegmentBuilder.GetSampleSize b = (b.m_Samples.map (fun s => s.size)).sum % U32 := by
  unfold Sample10.AVCSegmentBuilder.GetSampleSize
  have key : ∀ (ss : List AP4_Sample) (a : Nat),
      ss.foldl (fun size s => (size + s.size) % U32) (a % U32)
        = (a + (ss.map (fun s => s.size)).sum) % U32 := by
    intro ss
    induction ss with
    | nil => intro a; simp
    | cons s rest ih =>
      intro a
      simp only [List.foldl_cons, List.map_cons, List.sum_cons]
      rw [← Nat.add_assoc, ← ih (a + s.size)]
      congr 1
      rw [Nat.add_mod, Nat.mod_mod, ← Nat.add_mod]
  simpa using key b.m_Samples 0

theorem entries_flatten_length (flags k : Nat) (es : List Entry)
    (h : ∀ e : Entry, (Entry.Write flags e).length = k) :
    ((es.map (Entry.Write flags)).flatten).length = es.length * k := by
  induction es with
  | nil => simp
  | cons e rest ih =>
    simp only [List.map_cons, List.flatten_cons, List.length_append, ih, h, List.length_cons]
    rw [Nat.succ_mul, Nat.add_comm]

theorem Sample9.buildMoof_eq (b : AP4_SegmentBuilder) (seq : Nat) :
    (Sample9.buildMoof b seq).1 = Sample10.AVCSegmentBuilder.AddTrafAtom b { sequence_number := seq } := by
  simp [Sample9.buildMoof, Sample10.AVCSegmentBuilder.AddTrafAtom,
    AP4_TFHD_FLAG_DEFAULT_BASE_IS_MOOF, AP4_TFHD_FLAG_DEFAULT_SAMPLE_FLAGS_PRESENT]

theorem AddTrafAtom_entries (b : AP4_SegmentBuilder) (mfhd : AP4_MfhdAtom) :
    (Sample10.AVCSegmentBuilder.AddTrafAtom b mfhd).traf.trun.entries = b.m_Samples.map entryOf := by
  simp [Sample10.AVCSegmentBuilder.AddTrafAtom, AP4_TrunAtom.SetEntries,
    foldl_trunEntryStep_entries]

theorem AddTrafAtom_mfhd (b : AP4_SegmentBuilder) (mfhd : AP4_MfhdAtom) :
    (Sample10.AVCSegmentBuilder.AddTrafAtom b mfhd).mfhd = mfhd := rfl

theorem AddTrafAtom_tfdt (b : AP4_SegmentBuilder) (mfhd : AP4_MfhdAtom) :
    (Sample10.AVCSegmentBuilder.AddTrafAtom b mfhd).traf.tfdt.base_media_decode_time
      = (b.m_MediaTimeOrigin + b.m_MediaStartTime) % U64 := rfl

/-- The moof of a fragment: its serialisation is as long as its tracked size, the
data offset is that size plus 8 (as a 32-bit value), and the size is 92 bytes plus 12
or 16 bytes for each entry. -/
theorem AddTrafAtom_size (b : AP4_SegmentBuilder) (mfhd : AP4_MfhdAtom) :
    (Sample10.AVCSegmentBuilder.AddTrafAtom b mfhd).Write.length
        = (Sample10.AVCSegmentBuilder.AddTrafAtom b mfhd).GetSize
    ∧ (Sample10.AVCSegmentBuilder.AddTrafAtom b mfhd).traf.trun.data_offset
        = ((Sample10.AVCSegmentBuilder.AddTrafAtom b mfhd).GetSize + 8) % U32
    ∧ (Sample10.AVCSegmentBuilder.AddTrafAtom b mfhd).GetSize ≤ 92 + 16 * b.m_Samples.length := by
  have hfl := foldl_trunEntryStep_flags b.m_Samples
    ((AP4_TrunAtom.new (AP4_TRUN_FLAG_DATA_OFFSET_PRESENT ||| AP4_TRUN_FLAG_SAMPLE_DURATION_PRESENT |||
      AP4_TRUN_FLAG_SAMPLE_SIZE_PRESENT ||| AP4_TRUN_FLAG_SAMPLE_FLAGS_PRESENT) 0 0).flags, [],
      AP4_ATOM_HEADER_SIZE) (Or.inl rfl)
  have hen := foldl_trunEntryStep_entries b.m_Samples
    ((AP4_TrunAtom.new (AP4_TRUN_FLAG_DATA_OFFSET_PRESENT ||| AP4_TRUN_FLAG_SAMPLE_DURATION_PRESENT |||
      AP4_TRUN_FLAG_SAMPLE_SIZE_PRESENT ||| AP4_TRUN_FLAG_SAMPLE_FLAGS_PRESENT) 0 0).flags, [],
      AP4_ATOM_HEADER_SIZE)
  simp only [List.nil_append] at hen
  rcases hfl with hf | hf
  · have hrec : ∀ e : Entry, (Entry.Write 0x701 e).length = 12 := fun e => by
      simp +decide [Entry.Write, be32]
    simp only [Sample10.AVCSegmentBuilder.AddTrafAtom, MoofAtom.Write, MoofAtom.GetSize,
      TrafAtom.Write, TrafAtom.GetSize, AP4_TrunAtom.Write, AP4_TrunAtom.SetEntries, hf, hen,
      List.length_append, entries_flatten_length _ 12 _ hrec, List.length_map]
    refine ⟨?_, rfl, ?_⟩
    · simp +decide [atomHeader, fullAtomHeader, AP4_MfhdAtom.Write, AP4_TfhdAtom.Write,
        AP4_TfdtAtom.Write, be32_length, be24_length, be64_length, AP4_MfhdAtom.GetSize,
        AP4_TfhdAtom.GetSize, AP4_TfdtAtom.GetSize, AP4_TfhdAtom.ComputeSize, AP4_TrunAtom.new,
        ComputeOptionalFieldsCount, ComputeRecordFieldsCount, countFlags, AP4_ATOM_HEADER_SIZE,
        AP4_FULL_ATOM_HEADER_SIZE, AP4_TFHD_FLAG_DEFAULT_BASE_IS_MOOF,
        AP4_TFHD_FLAG_DEFAULT_SAMPLE_FLAGS_PRESENT, AP4_TFHD_FLAG_BASE_DATA_OFFSET_PRESENT,
        AP4_TFHD_FLAG_SAMPLE_DESCRIPTION_INDEX_PRESENT,
        AP4_TFHD_FLAG_DEFAULT_SAMPLE_DURATION_PRESENT, AP4_TFHD_FLAG_DEFAULT_SAMPLE_SIZE_PRESENT,
        AP4_TRUN_FLAG_DATA_OFFSET_PRESENT, AP4_TRUN_FLAG_FIRST_SAMPLE_FLAGS_PRESENT,
        AP4_TRUN_FLAG_SAMPLE_DURATION_PRESENT, AP4_TRUN_FLAG_SAMPLE_SIZE_PRESENT,
        AP4_TRUN_FLAG_SAMPLE_FLAGS_PRESENT, AP4_TRUN_FLAG_SAMPLE_COMPOSITION_TIME_OFFSET_PRESENT]
      omega
    · simp +decide [AP4_MfhdAtom.GetSize, AP4_TfhdAtom.GetSize,
        AP4_TfdtAtom.GetSize, AP4_TfhdAtom.ComputeSize, AP4_TrunAtom.new,
        ComputeOptionalFieldsCount, ComputeRecordFieldsCount, countFlags, AP4_ATOM_HEADER_SIZE,
        AP4_FULL_ATOM_HEADER_SIZE, AP4_TFHD_FLAG_DEFAULT_BASE_IS_MOOF,
        AP4_TFHD_FLAG_DEFAULT_SAMPLE_FLAGS_PRESENT, AP4_TFHD_FLAG_BASE_DATA_OFFSET_PRESENT,
        AP4_TFHD_FLAG_SAMPLE_DESCRIPTION_INDEX_PRESENT,
        AP4_TFHD_FLAG_DEFAULT_SAMPLE_DURATION_PRESENT, AP4_TFHD_FLAG_DEFAULT_SAMPLE_SIZE_PRESENT,
        AP4_TRUN_FLAG_DATA_OFFSET_PRESENT, AP4_TRUN_FLAG_FIRST_SAMPLE_FLAGS_PRESENT,
        AP4_TRUN_FLAG_SAMPLE_DURATION_PRESENT, AP4_TRUN_FLAG_SAMPLE_SIZE_PRESENT,
        AP4_TRUN_FLAG_SAMPLE_FLAGS_PRESENT, AP4_TRUN_FLAG_SAMPLE_COMPOSITION_TIME_OFFSET_PRESENT]
      omega
  · have hrec : ∀ e : Entry, (Entry.Write 0xF01 e).length = 16 := fun e => by
      simp +decide [Entry.Write, be32]
    simp only [Sample10.AVCSegmentBuilder.AddTrafAtom, MoofAtom.Write, MoofAtom.GetSize,
      TrafAtom.Write, TrafAtom.GetSize, AP4_TrunAtom.Write, AP4_TrunAtom.SetEntries, hf, hen,
      List.length_append, entries_flatten_length _ 16 _ hrec, List.length_map]
    refine ⟨?_, rfl, ?_⟩
    · simp +decide [atomHeader, fullAtomHeader, AP4_MfhdAtom.Write, AP4_TfhdAtom.Write,
        AP4_TfdtAtom.Write, be32_length, be24_length, be64_length, AP4_MfhdAtom.GetSize,
        AP4_TfhdAtom.GetSize, AP4_TfdtAtom.GetSize, AP4_TfhdAtom.ComputeSize, AP4_TrunAtom.new,
        ComputeOptionalFieldsCount, ComputeRecordFieldsCount, countFlags, AP4_ATOM_HEADER_SIZE,
        AP4_FULL_ATOM_HEADER_SIZE, AP4_TFHD_FLAG_DEFAULT_BASE_IS_MOOF,
        AP4_TFHD_FLAG_DEFAULT_SAMPLE_FLAGS_PRESENT, AP4_TFHD_FLAG_BASE_DATA_OFFSET_PRESENT,
        AP4_TFHD_FLAG_SAMPLE_DESCRIPTION_INDEX_PRESENT,
        AP4_TFHD_FLAG_DEFAULT_SAMPLE_DURATION_PRESENT, AP4_TFHD_FLAG_DEFAULT_SAMPLE_SIZE_PRESENT,
        AP4_TRUN_FLAG_DATA_OFFSET_PRESENT, AP4_TRUN_FLAG_FIRST_SAMPLE_FLAGS_PRESENT,
        AP4_TRUN_FLAG_SAMPLE_DURATION_PRESENT, AP4_TRUN_FLAG_SAMPLE_SIZE_PRESENT,
        AP4_TRUN_FLAG_SAMPLE_FLAGS_PRESENT, AP4_TRUN_FLAG_SAMPLE_COMPOSITION_TIME_OFFSET_PRESENT]
      omega
    · simp +decide [AP4_MfhdAtom.GetSize, AP4_TfhdAtom.GetSize,
        AP4_TfdtAtom.GetSize, AP4_TfhdAtom.ComputeSize, AP4_TrunAtom.new,
        ComputeOptionalFieldsCount, ComputeRecordFieldsCount, countFlags, AP4_ATOM_HEADER_SIZE,
        AP4_FULL_ATOM_HEADER_SIZE, AP4_TFHD_FLAG_DEFAULT_BASE_IS_MOOF,
        AP4_TFHD_FLAG_DEFAULT_SAMPLE_FLAGS_PRESENT, AP4_TFHD_FLAG_BASE_DATA_OFFSET_PRESENT,
        AP4_TFHD_FLAG_SAMPLE_DESCRIPTION_INDEX_PRESENT,
        AP4_TFHD_FLAG_DEFAULT_SAMPLE_DURATION_PRESENT, AP4_TFHD_FLAG_DEFAULT_SAMPLE_SIZE_PRESENT,
        AP4_TRUN_FLAG_DATA_OFFSET_PRESENT, AP4_TRUN_FLAG_FIRST_SAMPLE_FLAGS_PRESENT,
        AP4_TRUN_FLAG_SAMPLE_DURATION_PRESENT, AP4_TRUN_FLAG_SAMPLE_SIZE_PRESENT,
        AP4_TRUN_FLAG_SAMPLE_FLAGS_PRESENT, AP4_TRUN_FLAG_SAMPLE_COMPOSITION_TIME_OFFSET_PRESENT]
      omega

/-! ## The mdat writes -/

theorem Sample9.copySamples_eq (ss : List AP4_Sample) (stream : Stream) :
    Sample9.copySamples ss stream = Sample10.copySamples ss stream := by
  induction ss generalizing stream with
  | nil => rfl
  | cons s rest ih => simp [Sample9.copySamples, Sample10.copySamples, ih]

theorem copySamples_extends (ss : List AP4_Sample) (stream : Stream) :
    ∃ rest, (Sample10.copySamples ss stream).1 = stream ++ rest := by
  induction ss generalizing stream with
  | nil => exact ⟨[], by simp [Sample10.copySamples]⟩
  | cons s tl ih =>
    simp only [Sample10.copySamples]
    split
    · obtain ⟨rest, h⟩ := ih (stream ++ [Written.data s.CopyTo.1])
      exact ⟨Written.data s.CopyTo.1 :: rest, by simp [h]⟩
    · exact ⟨[Written.data s.CopyTo.1], rfl⟩

theorem copySamples_cons_extends (s : AP4_Sample) (ss : List AP4_Sample) (stream : Stream) :
    ∃ rest, (Sample10.copySamples (s :: ss) stream).1
      = stream ++ Written.data s.CopyTo.1 :: rest := by
  simp only [Sample10.copySamples]
  split
  · obtain ⟨rest, h⟩ := copySamples_extends ss (stream ++ [Written.data s.CopyTo.1])
    exact ⟨rest, by simp [h]⟩
  · exact ⟨[], rfl⟩

theorem copySamples_ok (ss : List AP4_Sample) (stream : Stream)
    (h : ∀ s ∈ ss, s.CopyTo.2 = true) :
    Sample10.copySamples ss stream = (stream ++ ss.map (fun s => Written.data s.CopyTo.1), true) := by
  induction ss generalizing stream with
  | nil => simp [Sample10.copySamples]
  | cons s tl ih =>
    simp only [Sample10.copySamples, h s (List.mem_cons_self _ _), if_true]
    rw [ih _ (fun x hx => h x (List.mem_cons_of_mem _ hx))]
    simp

theorem Sample10.WriteMdat_stream (b : AP4_SegmentBuilder) (stream : Stream) :
    (Sample10.WriteMdat b stream).2
      = (Sample10.copySamples b.m_Samples
          (stream ++ [Written.ui32 ((8 + (b.m_Samples.map (fun s => s.size)).sum) % U32),
                      Written.ui32 AP4_ATOM_TYPE_MDAT])).1 := by
  have h : (AP4_ATOM_HEADER_SIZE + Sample10.AVCSegmentBuilder.GetSampleSize b) % U32
      = (8 + (b.m_Samples.map (fun s => s.size)).sum) % U32 := by
    rw [GetSampleSize_eq]
    simp [AP4_ATOM_HEADER_SIZE]
  simp only [Sample10.WriteMdat, Sample10.AVCSegmentBuilder.WriteMdat, h]
  split <;> simp

theorem Sample9.buildMoof_mdat_size (b : AP4_SegmentBuilder) (seq : Nat) :
    (Sample9.buildMoof b seq).2 = (8 + (b.m_Samples.map (fun s => s.size)).sum) % U32 := by
  have h1 := foldl_trunEntryStep_size b.m_Samples
    ((AP4_TrunAtom.new (AP4_TRUN_FLAG_DATA_OFFSET_PRESENT ||| AP4_TRUN_FLAG_SAMPLE_DURATION_PRESENT |||
      AP4_TRUN_FLAG_SAMPLE_SIZE_PRESENT ||| AP4_TRUN_FLAG_SAMPLE_FLAGS_PRESENT) 0 0).flags, [],
      AP4_ATOM_HEADER_SIZE)
  have h2 := foldl_trunEntryStep_size_lt b.m_Samples
    ((AP4_TrunAtom.new (AP4_TRUN_FLAG_DATA_OFFSET_PRESENT ||| AP4_TRUN_FLAG_SAMPLE_DURATION_PRESENT |||
      AP4_TRUN_FLAG_SAMPLE_SIZE_PRESENT ||| AP4_TRUN_FLAG_SAMPLE_FLAGS_PRESENT) 0 0).flags, [],
      AP4_ATOM_HEADER_SIZE) (by decide)
  rw [Nat.mod_eq_of_lt h2] at h1
  simpa [Sample9.buildMoof, AP4_ATOM_HEADER_SIZE] using h1

theorem Sample9.WriteMediaSegment_stream (b : AP4_SegmentBuilder) (stream : Stream) (seq : Nat) :
    (Sample9.WriteMediaSegment b stream seq).2.2
      = (Sample10.copySamples b.m_Samples
          (stream ++ [Written.moof (Sample10.AVCSegmentBuilder.AddTrafAtom b { sequence_number := seq }),
                      Written.ui32 ((8 + (b.m_Samples.map (fun s => s.size)).sum) % U32),
                      Written.ui32 AP4_ATOM_TYPE_MDAT])).1 := by
  simp only [Sample9.WriteMediaSegment, Sample9.buildMoof_mdat_size, Sample9.buildMoof_eq,
    Sample9.copySamples_eq]
  split <;> simp

/-- C3: for a fragment with n >= 1 pending samples, the `trun` data offset written is
the serialised size of the whole `moof` (with its n entries set) plus 8, the length of
everything written from the first byte of the `moof` up to the first copied sample
byte: the `moof`, the 32-bit `mdat` size and the `mdat` type.  Holds for sample10
(`WriteMoofAtom` then `WriteMdat`) and sample9 (`WriteMediaSegment`), for one and for
several samples, as long as the `moof` size fits 32 bits. -/
theorem C3_trun_data_offset (b : AP4_SegmentBuilder) (stream : Stream) (seq : Nat)
    (hn : 1 ≤ b.m_Samples.length) (hfit : 100 + 16 * b.m_Samples.length < U32) :
    (∃ m sz s rest,
        (Sample10.WriteMdat b (Sample10.WriteMoofAtom b stream seq)).2
          = stream ++ [Written.moof m, Written.ui32 sz, Written.ui32 AP4_ATOM_TYPE_MDAT,
                       Written.data s.CopyTo.1] ++ rest
        ∧ b.m_Samples.head? = some s
        ∧ m.traf.trun.entries.length = b.m_Samples.length
        ∧ m.traf.trun.data_offset = m.Write.length + 8
        ∧ m.traf.trun.data_offset = (m.Write ++ be32 sz ++ be32 AP4_ATOM_TYPE_MDAT).length) ∧
    (∃ m sz s rest,
        (Sample9.WriteMediaSegment b stream seq).2.2
          = stream ++ [Written.moof m, Written.ui32 sz, Written.ui32 AP4_ATOM_TYPE_MDAT,
                       Written.data s.CopyTo.1] ++ rest
        ∧ b.m_Samples.head? = some s
        ∧ m.traf.trun.entries.length = b.m_Samples.length
        ∧ m.traf.trun.data_offset = m.Write.length + 8
        ∧ m.traf.trun.data_offset = (m.Write ++ be32 sz ++ be32 AP4_ATOM_TYPE_MDAT).length) := by
  obtain ⟨hw, hoff, hle⟩ := AddTrafAtom_size b { sequence_number := seq }
  have hoff2 : (Sample10.AVCSegmentBuilder.AddTrafAtom b { sequence_number := seq }).traf.trun.data_offset
      = (Sample10.AVCSegmentBuilder.AddTrafAtom b { sequence_number := seq }).Write.length + 8 := by
    rw [hoff, hw]
    apply Nat.mod_eq_of_lt
    omega
  obtain ⟨s, ss, hs⟩ : ∃ s ss, b.m_Samples = s :: ss := by
    cases h : b.m_Samples with
    | nil => simp [h] at hn
    | cons s ss => exact ⟨s, ss, rfl⟩
  have hlen : (Sample10.AVCSegmentBuilder.AddTrafAtom b { sequence_number := seq }).traf.trun.entries.length
      = b.m_Samples.length := by
    rw [AddTrafAtom_entries]; simp
  have hbytes : ∀ sz : Nat,
      (Sample10.AVCSegmentBuilder.AddTrafAtom b { sequence_number := seq }).traf.trun.data_offset
        = ((Sample10.AVCSegmentBuilder.AddTrafAtom b { sequence_number := seq }).Write
            ++ be32 sz ++ be32 AP4_ATOM_TYPE_MDAT).length := by
    intro sz
    rw [hoff2]; simp [be32_length]
  constructor
  · obtain ⟨rest, hr⟩ := copySamples_cons_extends s ss
      (stream ++ [Written.moof (Sample10.AVCSegmentBuilder.AddTrafAtom b { sequence_number := seq })]
        ++ [Written.ui32 ((8 + (b.m_Samples.map (fun s => s.size)).sum) % U32),
            Written.ui32 AP4_ATOM_TYPE_MDAT])
    refine ⟨Sample10.AVCSegmentBuilder.AddTrafAtom b { sequence_number := seq },
      (8 + (b.m_Samples.map (fun s => s.size)).sum) % U32, s, rest, ?_, by simp [hs], hlen, hoff2,
      hbytes _⟩
    rw [Sample10.WriteMdat_stream, Sample10.WriteMoofAtom, hs]
    rw [hs] at hr
    simpa using hr
  · obtain ⟨rest, hr⟩ := copySamples_cons_extends s ss
      (stream ++ [Written.moof (Sample10.AVCSegmentBuilder.AddTrafAtom b { sequence_number := seq }),
            Written.ui32 ((8 + (b.m_Samples.map (fun s => s.size)).sum) % U32),
            Written.ui32 AP4_ATOM_TYPE_MDAT])
    refine ⟨Sample10.AVCSegmentBuilder.AddTrafAtom b { sequence_number := seq },
      (8 + (b.m_Samples.map (fun s => s.size)).sum) % U32, s, rest, ?_, by simp [hs], hlen, hoff2,
      hbytes _⟩
    rw [Sample9.WriteMediaSegment_stream, hs]
    rw [hs] at hr
    simpa using hr

theorem C3_trun_data_offset_witness :
    1 ≤ demoBuilder.m_Samples.length ∧ 100 + 16 * demoBuilder.m_Samples.length < U32 ∧
    (∃ m sz s rest,
        (Sample10.WriteMdat demoBuilder (Sample10.WriteMoofAtom demoBuilder [] 1)).2
          = [] ++ [Written.moof m, Written.ui32 sz, Written.ui32 AP4_ATOM_TYPE_MDAT,
                       Written.data s.CopyTo.1] ++ rest
        ∧ demoBuilder.m_Samples.head? = some s
        ∧ m.traf.trun.entries.length = demoBuilder.m_Samples.length
        ∧ m.traf.trun.data_offset = m.Write.length + 8
        ∧ m.traf.trun.data_offset = (m.Write ++ be32 sz ++ be32 AP4_ATOM_TYPE_MDAT).length) ∧
    (∃ m sz s rest,
        (Sample9.WriteMediaSegment demoBuilder [] 1).2.2
          = [] ++ [Written.moof m, Written.ui32 sz, Written.ui32 AP4_ATOM_TYPE_MDAT,
                       Written.data s.CopyTo.1] ++ rest
        ∧ demoBuilder.m_Samples.head? = some s
        ∧ m.traf.trun.entries.length = demoBuilder.m_Samples.length
        ∧ m.traf.trun.data_offset = m.Write.length + 8
        ∧ m.traf.trun.data_offset = (m.Write ++ be32 sz ++ be32 AP4_ATOM_TYPE_MDAT).length) :=
  ⟨by decide, by decide, C3_trun_data_offset demoBuilder [] 1 (by decide) (by decide)⟩

theorem feedAll_samples (b : AP4_SegmentBuilder) (ps : List (List Byte × Bool × Nat)) :
    (Sample10.feedAll b ps).m_Samples
        = b.m_Samples ++ ps.map (fedSample b.m_Timescale b.m_MediaStartTime)
    ∧ (Sample10.feedAll b ps).m_Timescale = b.m_Timescale
    ∧ (Sample10.feedAll b ps).m_MediaStartTime = b.m_MediaStartTime := by
  induction ps generalizing b with
  | nil => simp [Sample10.feedAll]
  | cons p rest ih =>
    have h := ih (Sample10.AVCSegmentBuilder.Feed b p.1 p.1.length p.2.1 p.2.2)
    have ht : (Sample10.AVCSegmentBuilder.Feed b p.1 p.1.length p.2.1 p.2.2).m_Timescale
        = b.m_Timescale := rfl
    have hm : (Sample10.AVCSegmentBuilder.Feed b p.1 p.1.length p.2.1 p.2.2).m_MediaStartTime
        = b.m_MediaStartTime := rfl
    rw [ht, hm, feed10_samples] at h
    simp only [Sample10.feedAll, List.foldl_cons] at h ⊢
    refine ⟨?_, h.2.1, h.2.2⟩
    rw [h.1]
    simp [fedSample]

theorem sum_map_mod_of_lt (ps : List (List Byte × Bool × Nat))
    (h : (ps.map (fun p => p.1.length + 4)).sum < U32) :
    ps.map (fun p => (p.1.length + 4) % U32) = ps.map (fun p => p.1.length + 4) := by
  induction ps with
  | nil => rfl
  | cons p rest ih =>
    simp only [List.map_cons, List.sum_cons] at h ⊢
    rw [ih (by omega), Nat.mod_eq_of_lt (by omega)]

theorem streamBytes_data (bss : List (List Byte)) :
    streamBytes? (bss.map Written.data) = some bss.flatten := by
  induction bss with
  | nil => rfl
  | cons a rest ih => simp [streamBytes?, Written.bytes?, ih]

theorem length_flatten_prefixed (ps : List (List Byte × Bool × Nat)) :
    ((ps.map (fun p => be32 p.1.length ++ p.1)).flatten).length
      = (ps.map (fun p => p.1.length + 4)).sum := by
  induction ps with
  | nil => rfl
  | cons p rest ih =>
    simp only [List.map_cons, List.flatten_cons, List.length_append, ih, List.sum_cons, be32_length]
    omega

/-- C4: when payloads have been fed to a builder with no pending sample, sample10's
`MP4Writer::WriteMdat` writes the 32-bit value 8 + (sum of the pending sample sizes),
then the type `mdat`, then each pending sample's 4-byte length and payload, in feed
order; the bytes written are exactly as many as the size field declares, and the
pending list is empty afterwards.  Holds whenever the box size fits 32 bits. -/
theorem C4_mdat_box (b : AP4_SegmentBuilder) (stream : Stream)
    (ps : List (List Byte × Bool × Nat)) (hb : b.m_Samples = [])
    (hfit : 8 + (ps.map (fun p => p.1.length + 4)).sum < U32) :
    ((Sample10.feedAll b ps).m_Samples.map (fun s => s.size)).sum
        = (ps.map (fun p => p.1.length + 4)).sum
    ∧ (Sample10.WriteMdat (Sample10.feedAll b ps) stream).2
        = stream ++ ([Written.ui32 (8 + (ps.map (fun p => p.1.length + 4)).sum),
                      Written.ui32 AP4_ATOM_TYPE_MDAT]
                     ++ ps.map (fun p => Written.data (be32 p.1.length ++ p.1)))
    ∧ streamBytes? ([Written.ui32 (8 + (ps.map (fun p => p.1.length + 4)).sum),
                      Written.ui32 AP4_ATOM_TYPE_MDAT]
                     ++ ps.map (fun p => Written.data (be32 p.1.length ++ p.1)))
        = some (be32 (8 + (ps.map (fun p => p.1.length + 4)).sum) ++ [0x6d, 0x64, 0x61, 0x74]
                ++ (ps.map (fun p : List Byte × Bool × Nat => be32 p.1.length ++ p.1)).flatten)
    ∧ List.length (be32 (8 + (ps.map (fun p => p.1.length + 4)).sum) ++ [0x6d, 0x64, 0x61, 0x74]
                ++ (ps.map (fun p => be32 p.1.length ++ p.1)).flatten)
        = 8 + (ps.map (fun p => p.1.length + 4)).sum
    ∧ (Sample10.WriteMdat (Sample10.feedAll b ps) stream).1.m_Samples = [] := by
  obtain ⟨hsam, -, -⟩ := feedAll_samples b ps
  rw [hb, List.nil_append] at hsam
  have hsizes : (Sample10.feedAll b ps).m_Samples.map (fun s => s.size)
      = ps.map (fun p => p.1.length + 4) := by
    rw [hsam, List.map_map, ← sum_map_mod_of_lt ps (by omega)]
    rfl
  have hok : ∀ s ∈ (Sample10.feedAll b ps).m_Samples, s.CopyTo.2 = true := by
    intro s hs
    rw [hsam] at hs
    obtain ⟨p, -, rfl⟩ := List.mem_map.1 hs
    have : (p.1.length + 4) % U32 ≤ p.1.length + 4 := Nat.mod_le _ _
    simp [AP4_Sample.CopyTo, fedSample, be32_length]
    omega
  have hdata : (Sample10.feedAll b ps).m_Samples.map (fun s => Written.data s.CopyTo.1)
      = ps.map (fun p => Written.data (be32 p.1.length ++ p.1)) := by
    rw [hsam, List.map_map]
    apply List.map_congr_left
    intro p hp
    have hp4 : p.1.length + 4 < U32 := by
      have := List.single_le_sum (fun x _ => Nat.zero_le x) _
        (List.mem_map_of_mem (fun p : List Byte × Bool × Nat => p.1.length + 4) hp)
      simp only at this
      omega
    have hsl := slice_append_left (be32 p.1.length ++ p.1) []
    simp only [List.append_nil, List.length_append, be32_length] at hsl
    simp only [Function.comp, AP4_Sample.CopyTo, fedSample, Nat.mod_eq_of_lt hp4]
    rw [Nat.add_comm p.1.length 4, hsl]
  refine ⟨by rw [hsizes], ?_, ?_, ?_, ?_⟩
  · rw [Sample10.WriteMdat_stream, copySamples_ok _ _ hok, hsizes, hdata,
      Nat.mod_eq_of_lt hfit]
    simp
  · simp only [List.cons_append, List.nil_append, streamBytes?, Written.bytes?]
    have hd := streamBytes_data (ps.map (fun p => be32 p.1.length ++ p.1))
    rw [List.map_map] at hd
    rw [show (fun p : List Byte × Bool × Nat => Written.data (be32 p.1.length ++ p.1))
        = (Written.data ∘ fun p : List Byte × Bool × Nat => be32 p.1.length ++ p.1) from rfl]
    have hnil : ∀ l : List Written, ([] : List Written).append l = l := fun _ => rfl
    rw [hnil, hd]
    simp [be32, AP4_ATOM_TYPE_MDAT]
  · simp only [List.length_append, be32_length, length_flatten_prefixed, List.length_cons,
      List.length_nil]
  · simp [Sample10.WriteMdat, Sample10.AVCSegmentBuilder.WriteMdat, copySamples_ok _ _ hok]

theorem C4_mdat_box_witness :
    Sample10.AVCSegmentBuilder.new.m_Samples = [] ∧
    ((Sample10.feedAll Sample10.AVCSegmentBuilder.new
        [([0x65, 0x88], true, 40), ([0x41, 0x9a, 0x01], false, 0)]).m_Samples.map
          (fun s => s.size)).sum = 13
    ∧ (Sample10.WriteMdat (Sample10.feedAll Sample10.AVCSegmentBuilder.new
        [([0x65, 0x88], true, 40), ([0x41, 0x9a, 0x01], false, 0)]) []).2
        = [Written.ui32 21, Written.ui32 AP4_ATOM_TYPE_MDAT,
           Written.data [0, 0, 0, 2, 0x65, 0x88], Written.data [0, 0, 0, 3, 0x41, 0x9a, 0x01]] := by
  have h := C4_mdat_box Sample10.AVCSegmentBuilder.new []
    [([0x65, 0x88], true, 40), ([0x41, 0x9a, 0x01], false, 0)] rfl (by decide)
  exact ⟨rfl, h.1, h.2.1⟩

/-- C5: in every fragment the `trun` has one entry per pending sample, entry i carries
the size and the duration of the i-th pending sample, and the `mdat` size written
right after the `moof` is 8 plus the sum of the entries' `sample_size` fields.  Holds
for sample10 (`AddTrafAtom`, `GetSampleSize`) and sample9 (`WriteMediaSegment`),
whenever the `mdat` size fits 32 bits. -/
theorem C5_trun_entries_match_mdat (b : AP4_SegmentBuilder) (stream : Stream) (seq : Nat)
    (hfit : 8 + (b.m_Samples.map (fun s => s.size)).sum < U32) :
    (∃ m rest,
        (Sample10.WriteMdat b (Sample10.WriteMoofAtom b stream seq)).2
          = stream ++ [Written.moof m, Written.ui32 (8 + (trunSizes m).sum),
                       Written.ui32 AP4_ATOM_TYPE_MDAT] ++ rest
        ∧ m.traf.trun.entries.length = b.m_Samples.length
        ∧ ∀ i : Nat, (m.traf.trun.entries[i]?).map (fun e : Entry => e.sample_size)
                  = (b.m_Samples[i]?).map (fun s : AP4_Sample => s.size)
             ∧ (m.traf.trun.entries[i]?).map (fun e : Entry => e.sample_duration)
                  = (b.m_Samples[i]?).map (fun s : AP4_Sample => s.duration)) ∧
    (∃ m rest,
        (Sample9.WriteMediaSegment b stream seq).2.2
          = stream ++ [Written.moof m, Written.ui32 (8 + (trunSizes m).sum),
                       Written.ui32 AP4_ATOM_TYPE_MDAT] ++ rest
        ∧ m.traf.trun.entries.length = b.m_Samples.length
        ∧ ∀ i : Nat, (m.traf.trun.entries[i]?).map (fun e : Entry => e.sample_size)
                  = (b.m_Samples[i]?).map (fun s : AP4_Sample => s.size)
             ∧ (m.traf.trun.entries[i]?).map (fun e : Entry => e.sample_duration)
                  = (b.m_Samples[i]?).map (fun s : AP4_Sample => s.duration)) := by
  have hen := AddTrafAtom_entries b { sequence_number := seq }
  have hsz : trunSizes (Sample10.AVCSegmentBuilder.AddTrafAtom b { sequence_number := seq })
      = b.m_Samples.map (fun s => s.size) := by
    simp [trunSizes, hen, entryOf]
  have hi : ∀ i : Nat,
      ((Sample10.AVCSegmentBuilder.AddTrafAtom b { sequence_number := seq }).traf.trun.entries[i]?).map
          (fun e : Entry => e.sample_size) = (b.m_Samples[i]?).map (fun s : AP4_Sample => s.size)
      ∧ ((Sample10.AVCSegmentBuilder.AddTrafAtom b { sequence_number := seq }).traf.trun.entries[i]?).map
          (fun e : Entry => e.sample_duration) = (b.m_Samples[i]?).map (fun s : AP4_Sample => s.duration) := by
    intro i
    rw [hen, List.getElem?_map]
    cases b.m_Samples[i]? <;> simp [entryOf]
  constructor
  · obtain ⟨rest, hr⟩ := copySamples_extends b.m_Samples
      (stream ++ [Written.moof (Sample10.AVCSegmentBuilder.AddTrafAtom b { sequence_number := seq })]
        ++ [Written.ui32 ((8 + (b.m_Samples.map (fun s => s.size)).sum) % U32),
            Written.ui32 AP4_ATOM_TYPE_MDAT])
    refine ⟨_, rest, ?_, by rw [hen]; simp, hi⟩
    rw [Sample10.WriteMdat_stream, Sample10.WriteMoofAtom, hr, hsz, Nat.mod_eq_of_lt hfit]
    simp
  · obtain ⟨rest, hr⟩ := copySamples_extends b.m_Samples
      (stream ++ [Written.moof (Sample10.AVCSegmentBuilder.AddTrafAtom b { sequence_number := seq }),
            Written.ui32 ((8 + (b.m_Samples.map (fun s => s.size)).sum) % U32),
            Written.ui32 AP4_ATOM_TYPE_MDAT])
    refine ⟨_, rest, ?_, by rw [hen]; simp, hi⟩
    rw [Sample9.WriteMediaSegment_stream, hr, hsz, Nat.mod_eq_of_lt hfit]

theorem C5_trun_entries_match_mdat_witness :
    8 + (demoBuilder.m_Samples.map (fun s => s.size)).sum < U32 ∧
    (∃ m rest,
        (Sample10.WriteMdat demoBuilder (Sample10.WriteMoofAtom demoBuilder [] 1)).2
          = [] ++ [Written.moof m, Written.ui32 (8 + (trunSizes m).sum),
                       Written.ui32 AP4_ATOM_TYPE_MDAT] ++ rest
        ∧ m.traf.trun.entries.length = demoBuilder.m_Samples.length
        ∧ ∀ i : Nat, (m.traf.trun.entries[i]?).map (fun e : Entry => e.sample_size)
                  = (demoBuilder.m_Samples[i]?).map (fun s : AP4_Sample => s.size)
             ∧ (m.traf.trun.entries[i]?).map (fun e : Entry => e.sample_duration)
                  = (demoBuilder.m_Samples[i]?).map (fun s : AP4_Sample => s.duration)) ∧
    (∃ m rest,
        (Sample9.WriteMediaSegment demoBuilder [] 1).2.2
          = [] ++ [Written.moof m, Written.ui32 (8 + (trunSizes m).sum),
                       Written.ui32 AP4_ATOM_TYPE_MDAT] ++ rest
        ∧ m.traf.trun.entries.length = demoBuilder.m_Samples.length
        ∧ ∀ i : Nat, (m.traf.trun.entries[i]?).map (fun e : Entry => e.sample_size)
                  = (demoBuilder.m_Samples[i]?).map (fun s : AP4_Sample => s.size)
             ∧ (m.traf.trun.entries[i]?).map (fun e : Entry => e.sample_duration)
                  = (demoBuilder.m_Samples[i]?).map (fun s : AP4_Sample => s.duration)) :=
  ⟨by decide, C5_trun_entries_match_mdat demoBuilder [] 1 (by decide)⟩

/-! ## Bounds of the scanned NAL units -/

theorem slice_length_le (data : List Byte) (off len : Nat) :
    (slice data off len).length ≤ len ∧ (slice data off len).length ≤ data.length - off := by
  simp only [slice, List.length_take, List.length_drop]
  omega

theorem scan_for_start_codes_bound (l : List Byte) (i : Nat)
    (h : scan_for_start_codes l = some i) : i + 4 ≤ l.length := by
  induction l generalizing i with
  | nil => simp [scan_for_start_codes] at h
  | cons a tl ih =>
    simp only [scan_for_start_codes] at h
    split at h
    · rename_i hc
      simp only [Option.some.injEq] at h
      simp only [List.length_cons]
      omega
    · cases hs : scan_for_start_codes tl with
      | none => simp [hs] at h
      | some j =>
        simp only [hs, Option.map_some', Option.some.injEq] at h
        have := ih j hs
        simp only [List.length_cons]
        omega

theorem identify_nalu_unchecked_bound (data : List Byte) (offset size : Nat)
    (nalu : GstH264NalUnit)
    (h : gst_h264_parser_identify_nalu_unchecked data offset size = some nalu) :
    offset + 3 ≤ nalu.offset ∧ 1 ≤ nalu.size ∧ nalu.offset + nalu.size ≤ size := by
  unfold gst_h264_parser_identify_nalu_unchecked at h
  split at h
  · simp at h
  · split at h
    · simp at h
    · rename_i off1 hscan
      have hb := scan_for_start_codes_bound _ _ hscan
      have hl := (slice_length_le data offset (size - offset)).1
      simp only at h
      split at h
      · simp at h
      · rename_i hsz
        simp only [Option.some.injEq] at h
        subst h
        simp only
        omega

theorem stripTrailingZeros_le (data : List Byte) (o k : Nat) :
    stripTrailingZeros data o k ≤ k := by
  induction k with
  | zero => simp [stripTrailingZeros]
  | succ k ih =>
    simp only [stripTrailingZeros]
    split
    · omega
    · omega

theorem identify_nalu_bound (data : List Byte) (offset size : Nat) (nalu : GstH264NalUnit)
    (h : gst_h264_parser_identify_nalu data offset size = some nalu) :
    offset + 3 ≤ nalu.offset ∧ 1 ≤ nalu.size ∧ nalu.offset + nalu.size ≤ size := by
  unfold gst_h264_parser_identify_nalu at h
  split at h
  · simp at h
  · rename_i n0 hu
    have hb := identify_nalu_unchecked_bound _ _ _ _ hu
    split at h
    · simp at h
    · rename_i off2 hscan
      have hb2 := scan_for_start_codes_bound _ _ hscan
      have hl := (slice_length_le data n0.offset (size - n0.offset)).1
      have hst := stripTrailingZeros_le data n0.offset off2
      simp only at h
      split at h
      · simp at h
      · simp only [Option.some.injEq] at h
        subst h
        simp only
        omega

theorem scan_nalus_bound (data : List Byte) (length fuel offset : Nat) :
    ∀ nalu ∈ ParseH264NALU.scan data length fuel offset,
      offset + 3 ≤ nalu.offset ∧ 1 ≤ nalu.size ∧ nalu.offset + nalu.size ≤ length := by
  induction fuel generalizing offset with
  | zero =>
    intro nalu hn
    simp only [ParseH264NALU.scan] at hn
    split at hn
    · rename_i n0 hu
      simp only [List.mem_singleton] at hn
      subst hn
      exact identify_nalu_unchecked_bound _ _ _ _ hu
    · simp at hn
  | succ fuel ih =>
    intro nalu hn
    simp only [ParseH264NALU.scan] at hn
    split at hn
    · rename_i n0 hi
      have hb := identify_nalu_bound _ _ _ _ hi
      rcases List.mem_cons.1 hn with h | h
      · subst h; exact hb
      · have := ih (n0.size + n0.offset) nalu h
        omega
    · split at hn
      · rename_i n0 hu
        simp only [List.mem_singleton] at hn
        subst hn
        exact identify_nalu_unchecked_bound _ _ _ _ hu
      · simp at hn

/-- Every scanned NAL unit lies inside the buffer, after a start code. -/
theorem ParseH264NALU_bound (data : List Byte) :
    ∀ nalu ∈ ParseH264NALU data,
      3 ≤ nalu.offset ∧ 1 ≤ nalu.size ∧ nalu.offset + nalu.size ≤ data.length := by
  intro nalu hn
  have := scan_nalus_bound data data.length data.length 0 nalu hn
  omega

theorem moofs_append (a b : Stream) : moofs (a ++ b) = moofs a ++ moofs b := by
  induction a with
  | nil => rfl
  | cons x rest ih => cases x <;> simp [moofs, ih]

theorem moofs_map_data (bss : List (List Byte)) : moofs (bss.map Written.data) = [] := by
  induction bss with
  | nil => rfl
  | cons x rest ih => simp [moofs, ih]

theorem decodeTimesFrom_append (a : Nat) (ms : List MoofAtom) (m : MoofAtom) :
    decodeTimesFrom a (ms ++ [m])
      = decodeTimesFrom a ms ++ [(a + (ms.flatMap trunDurations).sum) % U64] := by
  induction ms generalizing a with
  | nil => simp [decodeTimesFrom]
  | cons x rest ih =>
    show a % U64 :: decodeTimesFrom (a + (trunDurations x).sum) (rest ++ [m]) = _
    rw [ih]
    simp [decodeTimesFrom, List.flatMap_cons, Nat.add_assoc]

theorem decodeTimesFrom_closed (a : Nat) (ms : List MoofAtom) :
    decodeTimesFrom a ms
      = (List.range ms.length).map (fun k => (a + ((ms.take k).flatMap trunDurations).sum) % U64) := by
  induction ms using List.reverseRecOn with
  | nil => rfl
  | append_singleton ms m ih =>
    rw [decodeTimesFrom_append, ih, List.length_append, List.length_singleton, List.range_succ,
      List.map_append]
    congr 1
    · apply List.map_congr_left
      intro k hk
      have hk2 : k ≤ ms.length := Nat.le_of_lt (List.mem_range.1 hk)
      rw [List.take_append_of_le_length hk2]
    · simp

theorem sum_take_flatMap_le (ms : List MoofAtom) (k : Nat) :
    ((ms.take k).flatMap trunDurations).sum ≤ (ms.flatMap trunDurations).sum := by
  conv_rhs => rw [← List.take_append_drop k ms]
  rw [List.flatMap_append, List.sum_append]
  omega

/-- With consecutive decode times starting at 0 and a total below 2^64, the k-th
fragment starts exactly at the sum of the durations of the fragments before it. -/
theorem decodeTimes_exact (ms : List MoofAtom) (h : decodeTimes ms = decodeTimesFrom 0 ms)
    (hfit : (ms.flatMap trunDurations).sum < U64) :
    decodeTimes ms
      = (List.range ms.length).map (fun k => ((ms.take k).flatMap trunDurations).sum) := by
  rw [h, decodeTimesFrom_closed]
  apply List.map_congr_left
  intro k _
  have := sum_take_flatMap_le ms k
  rw [Nat.zero_add, Nat.mod_eq_of_lt (by omega)]

/-- Sequence numbers that are consecutive as 32-bit values are 1, 2, 3, ... while
fewer than 2^32 fragments have been written. -/
theorem sequenceNumbers_exact (ms : List MoofAtom)
    (h : sequenceNumbers ms = (List.range ms.length).map (fun i => (i + 1) % U32))
    (hfit : ms.length < U32) : sequenceNumbers ms = List.range' 1 ms.length := by
  rw [h, List.range_eq_range', List.range'_eq_map_range, List.range'_eq_map_range]
  simp only [List.map_map, Nat.zero_add]
  apply List.map_congr_left
  intro i hi
  have hi2 := List.mem_range.1 hi
  simp only [Function.comp]
  rw [Nat.mod_eq_of_lt (by omega), Nat.add_comm]

/-! ## sample10: one fragment per slice -/

theorem WriteMdat10_ok (b : AP4_SegmentBuilder) (stream : Stream)
    (h : ∀ s ∈ b.m_Samples, s.CopyTo.2 = true) :
    Sample10.WriteMdat b stream
      = ({ b with m_MediaStartTime := (b.m_MediaStartTime + b.m_MediaDuration) % U64,
                  m_MediaDuration := 0, m_Samples := [] },
         stream ++ [Written.ui32 ((8 + (b.m_Samples.map (fun s => s.size)).sum) % U32),
                    Written.ui32 AP4_ATOM_TYPE_MDAT]
                ++ b.m_Samples.map (fun s => Written.data s.CopyTo.1)) := by
  have hsz : (AP4_ATOM_HEADER_SIZE + Sample10.AVCSegmentBuilder.GetSampleSize b) % U32
      = (8 + (b.m_Samples.map (fun s => s.size)).sum) % U32 := by
    rw [GetSampleSize_eq]
    simp [AP4_ATOM_HEADER_SIZE]
  simp [Sample10.WriteMdat, Sample10.AVCSegmentBuilder.WriteMdat, hsz, copySamples_ok _ _ h]

theorem moofs_fragment (stream : Stream) (m : MoofAtom) (a c : Nat) (bss : List Written)
    (h : moofs bss = []) :
    moofs (stream ++ [Written.moof m] ++ [Written.ui32 a, Written.ui32 c] ++ bss)
      = moofs stream ++ [m] := by
  simp [moofs_append, moofs, h]

theorem moofs_map_copy (ss : List AP4_Sample) :
    moofs (ss.map (fun s => Written.data s.CopyTo.1)) = [] := by
  induction ss with
  | nil => rfl
  | cons x rest ih => simp [moofs, ih]

theorem fed_sample_copy_ok (data : List Byte) (off n : Nat) (h : off + n ≤ data.length) :
    decide (0 + (n + 4) % U32 ≤ (be32 n ++ (data.drop off).take n).length) = true := by
  have : (n + 4) % U32 ≤ n + 4 := Nat.mod_le _ _
  simp only [List.length_append, be32_length, List.length_take, List.length_drop,
    decide_eq_true_eq]
  omega

theorem inv_extend (ms : List MoofAtom) (m : MoofAtom) (fed : List Nat)
    (h1 : decodeTimes ms = decodeTimesFrom 0 ms)
    (h2 : sequenceNumbers ms = (List.range ms.length).map (fun i => (i + 1) % U32))
    (h4 : ms.flatMap trunDurations = fed)
    (hm1 : m.traf.tfdt.base_media_decode_time = fed.sum % U64)
    (hm2 : m.mfhd.sequence_number = (ms.length + 1) % U32) :
    decodeTimes (ms ++ [m]) = decodeTimesFrom 0 (ms ++ [m])
    ∧ sequenceNumbers (ms ++ [m])
        = (List.range (ms ++ [m]).length).map (fun i => (i + 1) % U32) := by
  constructor
  · rw [decodeTimesFrom_append, ← h1, h4]
    simp [decodeTimes, hm1]
  · rw [List.length_append, List.length_singleton, List.range_succ, List.map_append, ← h2]
    simp [sequenceNumbers, hm2]

theorem writeNalu10_step (data : List Byte) (key : Bool) (d : Nat) (w : Sample10.MP4Writer)
    (nalu : GstH264NalUnit) (fed : List Nat) (b : AP4_SegmentBuilder)
    (hb : w.avc_segment_builder = some b) (hI : Sample10.Inv w fed)
    (hbound : nalu.offset + nalu.size ≤ data.length) :
    ∃ w1 b1, Sample10.writeNalu data key d w nalu = some w1
      ∧ w1.avc_segment_builder = some b1
      ∧ Sample10.Inv w1
          (fed ++ (if nalu.isSlice then [timescaleDuration MP4_DEFAULT_VIDEO_TIMESCALE d] else [])) := by
  by_cases hs : nalu.isSlice = true
  · obtain ⟨h1, h2, h3, h4, h5⟩ := hI
    rw [hb] at h5
    obtain ⟨hs0, hd0, ho0, ht0, hst0, hinit⟩ := h5
    have hfeed := feed10_samples b (data.drop nalu.offset) nalu.size key d
    rw [hs0, List.nil_append, ht0] at hfeed
    have hok : ∀ s ∈ (Sample10.AVCSegmentBuilder.Feed b (data.drop nalu.offset) nalu.size key d).m_Samples,
        s.CopyTo.2 = true := by
      intro s hmem
      rw [hfeed, List.mem_singleton] at hmem
      subst hmem
      exact fed_sample_copy_ok data nalu.offset nalu.size hbound
    have hw : Sample10.writeNalu data key d w nalu = some
        { w with
          avc_segment_builder := some (Sample10.WriteMdat
            (Sample10.AVCSegmentBuilder.Feed b (data.drop nalu.offset) nalu.size key d)
            (Sample10.WriteMoofAtom
              (Sample10.AVCSegmentBuilder.Feed b (data.drop nalu.offset) nalu.size key d)
              w.file_output_stream ((w.sequence_number + 1) % U32))).1,
          file_output_stream := (Sample10.WriteMdat
            (Sample10.AVCSegmentBuilder.Feed b (data.drop nalu.offset) nalu.size key d)
            (Sample10.WriteMoofAtom
              (Sample10.AVCSegmentBuilder.Feed b (data.drop nalu.offset) nalu.size key d)
              w.file_output_stream ((w.sequence_number + 1) % U32))).2,
          sequence_number := (w.sequence_number + 1) % U32 } := by
      simp [Sample10.writeNalu, hs, hb]
    refine ⟨_, _, hw, rfl, ?_⟩
    rw [WriteMdat10_ok _ _ hok]
    simp only [hs, if_true, Sample10.WriteMoofAtom]
    have hmo := moofs_fragment w.file_output_stream
      (Sample10.AVCSegmentBuilder.AddTrafAtom
        (Sample10.AVCSegmentBuilder.Feed b (data.drop nalu.offset) nalu.size key d)
        { sequence_number := (w.sequence_number + 1) % U32 })
      ((8 + ((Sample10.AVCSegmentBuilder.Feed b (data.drop nalu.offset) nalu.size key d).m_Samples.map
        (fun s => s.size)).sum) % U32) AP4_ATOM_TYPE_MDAT _
      (moofs_map_copy (Sample10.AVCSegmentBuilder.Feed b (data.drop nalu.offset) nalu.size key d).m_Samples)
    have hseq : (w.sequence_number + 1) % U32 = ((moofs w.file_output_stream).length + 1) % U32 := by
      rw [h3, Nat.add_mod, Nat.mod_mod, ← Nat.add_mod]
    have hext := inv_extend (moofs w.file_output_stream)
      (Sample10.AVCSegmentBuilder.AddTrafAtom
        (Sample10.AVCSegmentBuilder.Feed b (data.drop nalu.offset) nalu.size key d)
        { sequence_number := (w.sequence_number + 1) % U32 }) fed
      h1 h2 h4
      (by
        rw [AddTrafAtom_tfdt]
        show (b.m_MediaTimeOrigin + b.m_MediaStartTime) % U64 = _
        rw [ho0, hst0, Nat.zero_add, Nat.mod_mod])
      (by rw [AddTrafAtom_mfhd]; exact hseq)
    have hdur : trunDurations (Sample10.AVCSegmentBuilder.AddTrafAtom
        (Sample10.AVCSegmentBuilder.Feed b (data.drop nalu.offset) nalu.size key d)
        { sequence_number := (w.sequence_number + 1) % U32 })
        = [timescaleDuration MP4_DEFAULT_VIDEO_TIMESCALE d] := by
      simp [trunDurations, AddTrafAtom_entries, hfeed, entryOf]
    have hlt : timescaleDuration MP4_DEFAULT_VIDEO_TIMESCALE d < U64 := by
      have : timescaleDuration MP4_DEFAULT_VIDEO_TIMESCALE d < U32 := Nat.mod_lt _ (by decide)
      have : U32 < U64 := by decide
      omega
    refine ⟨?_, ?_, ?_, ?_, ?_⟩
    · simp only [hmo]; exact hext.1
    · simp only [hmo]; exact hext.2
    · simp only [hmo, List.length_append, List.length_singleton]; exact hseq
    · simp only [hmo, List.flatMap_append, h4]; simp [hdur]
    · refine ⟨rfl, rfl, ho0, ht0, ?_, hinit⟩
      show (b.m_MediaStartTime + (b.m_MediaDuration +
        timescaleDuration b.m_Timescale d) % U64) % U64 = _
      rw [hd0, hst0, ht0, Nat.zero_add, List.sum_append, Nat.mod_eq_of_lt hlt]
      simp [Nat.add_mod]
  · have hs2 : nalu.isSlice = false := by simpa using hs
    refine ⟨w, b, by simp [Sample10.writeNalu, hs2], hb, ?_⟩
    simpa [hs2] using hI

theorem writeNalus10_inv (data : List Byte) (key : Bool) (d : Nat)
    (nalus : List GstH264NalUnit) (w : Sample10.MP4Writer) (fed : List Nat)
    (b : AP4_SegmentBuilder) (hb : w.avc_segment_builder = some b) (hI : Sample10.Inv w fed)
    (hbound : ∀ n ∈ nalus, n.offset + n.size ≤ data.length) :
    ∃ w1 b1, Sample10.writeNalus data key d w nalus = some w1
      ∧ w1.avc_segment_builder = some b1
      ∧ Sample10.Inv w1 (fed ++ (nalus.filter GstH264NalUnit.isSlice).map
          (fun _ => timescaleDuration MP4_DEFAULT_VIDEO_TIMESCALE d)) := by
  induction nalus generalizing w fed b with
  | nil => exact ⟨w, b, rfl, hb, by simpa using hI⟩
  | cons n rest ih =>
    obtain ⟨w1, b1, hw1, hb1, hI1⟩ := writeNalu10_step data key d w n fed b hb hI
      (hbound n (List.mem_cons_self _ _))
    obtain ⟨w2, b2, hw2, hb2, hI2⟩ := ih w1 _ b1 hb1 hI1
      (fun x hx => hbound x (List.mem_cons_of_mem _ hx))
    refine ⟨w2, b2, by simp [Sample10.writeNalus, hw1, hw2], hb2, ?_⟩
    by_cases hs : n.isSlice = true
    · simpa [List.filter_cons, hs, List.append_assoc] using hI2
    · have hs2 : n.isSlice = false := by simpa using hs
      simpa [List.filter_cons, hs2] using hI2

theorem writeNalus10_none (data : List Byte) (key : Bool) (d : Nat)
    (nalus : List GstH264NalUnit) (w w1 : Sample10.MP4Writer)
    (hb : w.avc_segment_builder = none)
    (h : Sample10.writeNalus data key d w nalus = some w1) :
    w1 = w ∧ nalus.filter GstH264NalUnit.isSlice = [] := by
  induction nalus with
  | nil => simp [Sample10.writeNalus] at h; exact ⟨h.symm, rfl⟩
  | cons n rest ih =>
    by_cases hs : n.isSlice = true
    · simp [Sample10.writeNalus, Sample10.writeNalu, hs, hb] at h
    · have hs2 : n.isSlice = false := by simpa using hs
      simp only [Sample10.writeNalus, Sample10.writeNalu, hs2] at h
      have := ih h
      simpa [List.filter_cons, hs2] using this

theorem inv10_new : Sample10.Inv Sample10.MP4Writer.new [] := by
  simp [Sample10.Inv, Sample10.MP4Writer.new, moofs, decodeTimes, decodeTimesFrom,
    sequenceNumbers]

theorem WriteH264VideoSample10_inv (w w1 : Sample10.MP4Writer) (fed : List Nat) (c : Call)
    (hI : Sample10.Inv w fed)
    (h : Sample10.WriteH264VideoSample w c.sample c.is_key_frame c.duration = some w1) :
    Sample10.Inv w1 (fed ++ (sliceNalus c.sample).map
      (fun _ => timescaleDuration MP4_DEFAULT_VIDEO_TIMESCALE c.duration)) := by
  have hbound : ∀ n ∈ ParseH264NALU c.sample, n.offset + n.size ≤ c.sample.length :=
    fun n hn => (ParseH264NALU_bound c.sample n hn).2.2
  unfold Sample10.WriteH264VideoSample at h
  simp only at h
  by_cases hk : (c.is_key_frame && !w.is_write_init_segment) = true
  · rw [if_pos hk] at h
    obtain ⟨h1, h2, h3, h4, h5⟩ := hI
    have hinit : w.is_write_init_segment = false := by
      simp only [Bool.and_eq_true, Bool.not_eq_true'] at hk
      exact hk.2
    have hnone : w.avc_segment_builder = none := by
      cases hb : w.avc_segment_builder with
      | none => rfl
      | some b =>
        rw [hb] at h5
        rw [h5.2.2.2.2.2] at hinit
        exact absurd hinit (by decide)
    rw [hnone] at h5
    have hfed : fed = [] := by rw [← h4, h5.1]; rfl
    have hI0 : Sample10.Inv
        { w with avc_segment_builder := some Sample10.AVCSegmentBuilder.new,
                 file_output_stream := Sample10.WriteMoovAtom
                   (Sample10.WriteFtypAtom w.file_output_stream) c.sample (ParseH264NALU c.sample),
                 is_write_init_segment := true } fed := by
      have hm : moofs (Sample10.WriteMoovAtom (Sample10.WriteFtypAtom w.file_output_stream)
          c.sample (ParseH264NALU c.sample)) = [] := by
        simp [Sample10.WriteMoovAtom, Sample10.WriteFtypAtom, moofs_append, moofs, h5.1]
      simp only [Sample10.Inv, hm, hfed]
      simp [decodeTimes, decodeTimesFrom, sequenceNumbers, Sample10.AVCSegmentBuilder.new, h3,
        h5.1]
    obtain ⟨w2, b2, hw2, -, hI2⟩ := writeNalus10_inv c.sample c.is_key_frame c.duration
      (ParseH264NALU c.sample) _ fed _ rfl hI0 hbound
    rw [hw2] at h
    simp only [Option.some.injEq] at h
    subst h
    exact hI2
  · rw [if_neg hk] at h
    cases hb : w.avc_segment_builder with
    | none =>
      obtain ⟨he, hf⟩ := writeNalus10_none _ _ _ _ _ _ hb h
      subst he
      simpa [sliceNalus, hf] using hI
    | some b =>
      obtain ⟨w2, b2, hw2, -, hI2⟩ := writeNalus10_inv c.sample c.is_key_frame c.duration
        (ParseH264NALU c.sample) w fed b hb hI hbound
      rw [hw2] at h
      simp only [Option.some.injEq] at h
      subst h
      exact hI2

theorem run10_inv (calls : List Call) (w w1 : Sample10.MP4Writer) (fed : List Nat)
    (hI : Sample10.Inv w fed) (h : Sample10.run w calls = some w1) :
    Sample10.Inv w1 (fed ++ fedDurations MP4_DEFAULT_VIDEO_TIMESCALE calls) := by
  induction calls generalizing w fed with
  | nil =>
    simp only [Sample10.run, Option.some.injEq] at h
    subst h
    simpa [fedDurations] using hI
  | cons c rest ih =>
    simp only [Sample10.run] at h
    cases hc : Sample10.WriteH264VideoSample w c.sample c.is_key_frame c.duration with
    | none => simp [hc] at h
    | some w2 =>
      rw [hc] at h
      have := ih w2 _ (WriteH264VideoSample10_inv w w2 fed c hI hc) h
      simpa [fedDurations, List.flatMap_cons, List.append_assoc] using this

/-! ## sample9: pending samples are flushed with the next fragment -/

theorem WriteMediaSegment9_ok (b : AP4_SegmentBuilder) (stream : Stream) (seq : Nat)
    (h : ∀ s ∈ b.m_Samples, s.CopyTo.2 = true) :
    Sample9.WriteMediaSegment b stream seq
      = (true,
         { b with m_SampleStartNumber := b.m_SampleStartNumber + b.m_Samples.length,
                  m_MediaStartTime := (b.m_MediaStartTime + b.m_MediaDuration) % U64,
                  m_MediaDuration := 0, m_Samples := [] },
         stream ++ [Written.moof (Sample10.AVCSegmentBuilder.AddTrafAtom b { sequence_number := seq })]
                ++ [Written.ui32 ((8 + (b.m_Samples.map (fun s => s.size)).sum) % U32),
                    Written.ui32 AP4_ATOM_TYPE_MDAT]
                ++ b.m_Samples.map (fun s => Written.data s.CopyTo.1)) := by
  simp [Sample9.WriteMediaSegment, Sample9.buildMoof_mdat_size, Sample9.buildMoof_eq,
    Sample9.copySamples_eq, copySamples_ok _ _ h]

/-- What one round of sample9's NAL loop does when it returns. -/
theorem writeNalu9_cases (data : List Byte) (key : Bool) (d : Nat) (w w1 : Sample9.MP4Writer)
    (nalu : GstH264NalUnit) (h : Sample9.writeNalu data key d w nalu = some w1) :
    (nalu.isSlice = false ∧ w1 = w)
    ∨ (nalu.isSlice = true ∧ w.file_output_stream = Sample9.StreamPointer.null
      ∧ w1 = { w with
          builder := Sample9.Feed w.builder (data.drop nalu.offset) nalu.size key d })
    ∨ (nalu.isSlice = true ∧ ∃ stream, w.file_output_stream = Sample9.StreamPointer.stream stream
      ∧ w1 = { w with
          builder := (Sample9.WriteMediaSegment
            (Sample9.Feed w.builder (data.drop nalu.offset) nalu.size key d) stream
            ((w.sequence_number + 1) % U32)).2.1,
          file_output_stream := Sample9.StreamPointer.stream (Sample9.WriteMediaSegment
            (Sample9.Feed w.builder (data.drop nalu.offset) nalu.size key d) stream
            ((w.sequence_number + 1) % U32)).2.2,
          sequence_number := (w.sequence_number + 1) % U32 }) := by
  by_cases hs : nalu.isSlice = true
  · cases hst : w.file_output_stream with
    | invalid => simp [Sample9.writeNalu, hs, hst] at h
    | null =>
      simp only [Sample9.writeNalu, hs, if_true, hst, Option.some.injEq] at h
      exact Or.inr (Or.inl ⟨hs, rfl, h.symm⟩)
    | stream stream =>
      simp only [Sample9.writeNalu, hs, if_true, hst, Option.some.injEq] at h
      exact Or.inr (Or.inr ⟨hs, stream, rfl, h.symm⟩)
  · have hs2 : nalu.isSlice = false := by simpa using hs
    simp only [Sample9.writeNalu, hs2, Bool.false_eq_true, if_false, Option.some.injEq] at h
    exact Or.inl ⟨hs2, h.symm⟩

theorem writeNalu9_step (data : List Byte) (key : Bool) (d : Nat) (w w1 : Sample9.MP4Writer)
    (nalu : GstH264NalUnit) (fed : List Nat) (hI : Sample9.Inv w fed)
    (hbound : nalu.offset + nalu.size ≤ data.length)
    (h : Sample9.writeNalu data key d w nalu = some w1) :
    Sample9.Inv w1
      (fed ++ (if nalu.isSlice then [timescaleDuration MP4_DEFAULT_TRACK_TIMESCALE d] else [])) := by
  by_cases hs : nalu.isSlice = true
  · obtain ⟨h1, h2, h3, h4, h5, h6, h7, h8, h9⟩ := hI
    have hfeed := feed9_samples w.builder (data.drop nalu.offset) nalu.size key d
    rw [h8] at hfeed
    have hok : ∀ s ∈ (Sample9.Feed w.builder (data.drop nalu.offset) nalu.size key d).m_Samples,
        s.CopyTo.2 = true := by
      intro s hmem
      rw [hfeed, List.mem_append, List.mem_singleton] at hmem
      rcases hmem with hmem | hmem
      · exact h5 s hmem
      · subst hmem
        exact fed_sample_copy_ok data nalu.offset nalu.size hbound
    have hlt : timescaleDuration MP4_DEFAULT_TRACK_TIMESCALE d < U64 := by
      have : timescaleDuration MP4_DEFAULT_TRACK_TIMESCALE d < U32 := Nat.mod_lt _ (by decide)
      have : U32 < U64 := by decide
      omega
    have hdursum : (Sample9.Feed w.builder (data.drop nalu.offset) nalu.size key d).m_MediaDuration
        = ((w.builder.m_Samples.map (fun s => s.duration)).sum
            + timescaleDuration MP4_DEFAULT_TRACK_TIMESCALE d) % U64 := by
      show (w.builder.m_MediaDuration + timescaleDuration w.builder.m_Timescale d) % U64 = _
      rw [h6, h8, Nat.add_mod, Nat.mod_mod, ← Nat.add_mod]
    cases hst : w.file_output_stream with
    | invalid => simp [Sample9.writeNalu, hs, hst] at h
    | null =>
      rw [hst] at h1 h2 h3 h4 h9
      simp only [Sample9.StreamPointer.written] at h1 h2 h3 h4 h9
      have hw : w1 = { w with
          builder := Sample9.Feed w.builder (data.drop nalu.offset) nalu.size key d } := by
        simp only [Sample9.writeNalu, hs, if_true, hst, Option.some.injEq] at h
        rw [hst]
        exact h.symm
      subst hw
      simp only [hs, if_true]
      refine ⟨by simpa [hst, Sample9.StreamPointer.written] using h1,
        by simpa [hst, Sample9.StreamPointer.written] using h2,
        by simpa [hst, Sample9.StreamPointer.written] using h3,
        ?_, hok, ?_, h7, h8, by simpa [hst, Sample9.StreamPointer.written] using h9⟩
      · simp only [hst, Sample9.StreamPointer.written, hfeed, List.map_append,
          ← List.append_assoc, h4]
        simp
      · rw [hdursum, hfeed]
        simp
    | stream stream =>
      rw [hst] at h1 h2 h3 h4 h9
      simp only [Sample9.StreamPointer.written] at h1 h2 h3 h4 h9
      have hw : w1 = { w with
          builder := { Sample9.Feed w.builder (data.drop nalu.offset) nalu.size key d with
            m_SampleStartNumber :=
              (Sample9.Feed w.builder (data.drop nalu.offset) nalu.size key d).m_SampleStartNumber
              + (Sample9.Feed w.builder (data.drop nalu.offset) nalu.size key d).m_Samples.length,
            m_MediaStartTime :=
              ((Sample9.Feed w.builder (data.drop nalu.offset) nalu.size key d).m_MediaStartTime
              + (Sample9.Feed w.builder (data.drop nalu.offset) nalu.size key d).m_MediaDuration)
                % U64,
            m_MediaDuration := 0, m_Samples := [] },
          file_output_stream := Sample9.StreamPointer.stream
            (stream ++ [Written.moof (Sample10.AVCSegmentBuilder.AddTrafAtom
                (Sample9.Feed w.builder (data.drop nalu.offset) nalu.size key d)
                { sequence_number := (w.sequence_number + 1) % U32 })]
              ++ [Written.ui32 ((8 + ((Sample9.Feed w.builder (data.drop nalu.offset) nalu.size
                    key d).m_Samples.map (fun s => s.size)).sum) % U32),
                  Written.ui32 AP4_ATOM_TYPE_MDAT]
              ++ (Sample9.Feed w.builder (data.drop nalu.offset) nalu.size key d).m_Samples.map
                  (fun s => Written.data s.CopyTo.1)),
          sequence_number := (w.sequence_number + 1) % U32 } := by
        simp only [Sample9.writeNalu, hs, if_true, hst, WriteMediaSegment9_ok _ _ _ hok,
          Option.some.injEq] at h
        exact h.symm
      subst hw
      simp only [hs, if_true]
      have hmo := moofs_fragment stream
        (Sample10.AVCSegmentBuilder.AddTrafAtom
          (Sample9.Feed w.builder (data.drop nalu.offset) nalu.size key d)
          { sequence_number := (w.sequence_number + 1) % U32 })
        ((8 + ((Sample9.Feed w.builder (data.drop nalu.offset) nalu.size key d).m_Samples.map
          (fun s => s.size)).sum) % U32) AP4_ATOM_TYPE_MDAT _
        (moofs_map_copy (Sample9.Feed w.builder (data.drop nalu.offset) nalu.size key d).m_Samples)
      have hseq : (w.sequence_number + 1) % U32 = ((moofs stream).length + 1) % U32 := by
        rw [h3, Nat.add_mod, Nat.mod_mod, ← Nat.add_mod]
      have hext := inv_extend (moofs stream)
        (Sample10.AVCSegmentBuilder.AddTrafAtom
          (Sample9.Feed w.builder (data.drop nalu.offset) nalu.size key d)
          { sequence_number := (w.sequence_number + 1) % U32 })
        ((moofs stream).flatMap trunDurations) h1 h2 rfl
        (by
          rw [AddTrafAtom_tfdt]
          show (w.builder.m_MediaTimeOrigin + w.builder.m_MediaStartTime) % U64 = _
          rw [h7, h9, Nat.zero_add, Nat.mod_mod])
        (by rw [AddTrafAtom_mfhd]; exact hseq)
      have hdur : trunDurations (Sample10.AVCSegmentBuilder.AddTrafAtom
          (Sample9.Feed w.builder (data.drop nalu.offset) nalu.size key d)
          { sequence_number := (w.sequence_number + 1) % U32 })
          = w.builder.m_Samples.map (fun s => s.duration)
              ++ [timescaleDuration MP4_DEFAULT_TRACK_TIMESCALE d] := by
        simp [trunDurations, AddTrafAtom_entries, hfeed, entryOf]
      refine ⟨?_, ?_, ?_, ?_, ?_, ?_, h7, h8, ?_⟩
      · simp only [Sample9.StreamPointer.written, hmo]; exact hext.1
      · simp only [Sample9.StreamPointer.written, hmo]; exact hext.2
      · simp only [Sample9.StreamPointer.written, hmo, List.length_append,
          List.length_singleton]
        exact hseq
      · simp only [Sample9.StreamPointer.written, hmo, List.flatMap_append, List.map_nil,
          List.append_nil]
        rw [← h4]
        simp [hdur]
      · intro s hmem; simp at hmem
      · simp
      · show (w.builder.m_MediaStartTime
          + (Sample9.Feed w.builder (data.drop nalu.offset) nalu.size key d).m_MediaDuration) % U64 = _
        simp only [Sample9.StreamPointer.written, hmo, List.flatMap_append, List.sum_append]
        rw [hdursum, h9]
        simp only [List.flatMap_singleton, hdur, List.sum_append, List.sum_singleton]
        rw [Nat.add_mod, Nat.mod_mod, Nat.mod_mod, ← Nat.add_mod]
  · have hs2 : nalu.isSlice = false := by simpa using hs
    have hw : w1 = w := by
      simp only [Sample9.writeNalu, hs2, Bool.false_eq_true, if_false, Option.some.injEq] at h
      exact h.symm
    subst hw
    simpa [hs2] using hI

theorem writeNalus9_inv (data : List Byte) (key : Bool) (d : Nat)
    (nalus : List GstH264NalUnit) (w w1 : Sample9.MP4Writer) (fed : List Nat)
    (hI : Sample9.Inv w fed) (hbound : ∀ n ∈ nalus, n.offset + n.size ≤ data.length)
    (h : Sample9.writeNalus data key d w nalus = some w1) :
    Sample9.Inv w1
      (fed ++ (nalus.filter GstH264NalUnit.isSlice).map
        (fun _ => timescaleDuration MP4_DEFAULT_TRACK_TIMESCALE d)) := by
  induction nalus generalizing w fed with
  | nil =>
    simp only [Sample9.writeNalus, Option.some.injEq] at h
    subst h
    simpa using hI
  | cons n rest ih =>
    simp only [Sample9.writeNalus] at h
    cases hn : Sample9.writeNalu data key d w n with
    | none => simp [hn] at h
    | some w2 =>
      rw [hn] at h
      have h1 := writeNalu9_step data key d w w2 n fed hI (hbound n (List.mem_cons_self _ _)) hn
      have h2 := ih w2 _ h1 (fun x hx => hbound x (List.mem_cons_of_mem _ hx)) h
      by_cases hs : n.isSlice = true
      · simpa [List.filter_cons, hs, List.append_assoc] using h2
      · have hs2 : n.isSlice = false := by simpa using hs
        simpa [List.filter_cons, hs2] using h2

theorem inv9_new (non_null : Bool) : Sample9.Inv (Sample9.MP4Writer.new non_null) [] := by
  cases non_null <;>
    simp [Sample9.Inv, Sample9.MP4Writer.new, Sample9.StreamPointer.written, moofs, decodeTimes,
      decodeTimesFrom, sequenceNumbers]

/-- What the block "Write init segment" does when it returns: nothing, or, on a key
frame with the pointer null and both members assigned, the stream is opened with the
init segment in it. -/
theorem openStream9_cases (w w0 : Sample9.MP4Writer) (sample : List Byte)
    (nalus : List GstH264NalUnit) (key : Bool)
    (h : Sample9.openStream w sample nalus key = some w0) :
    (w0 = w ∧ (w.file_output_stream = Sample9.StreamPointer.null → key = false))
    ∨ (w.file_output_stream = Sample9.StreamPointer.null ∧ key = true
      ∧ ∃ sps pps, Sample9.assignParameterSets sample nalus (w.nal_sps, w.nal_pps)
          = (some sps, some pps)
        ∧ w0 = { w with
            nal_sps := some sps, nal_pps := some pps,
            file_output_stream := Sample9.StreamPointer.stream
              (Sample9.WriteInitSegment w.builder sps pps []) }) := by
  unfold Sample9.openStream at h
  cases hst : w.file_output_stream with
  | invalid =>
    simp only [hst, Option.some.injEq] at h
    exact Or.inl ⟨h.symm, fun hc => by simp at hc⟩
  | stream s =>
    simp only [hst, Option.some.injEq] at h
    exact Or.inl ⟨h.symm, fun hc => by simp at hc⟩
  | null =>
    simp only [hst] at h
    cases key with
    | false =>
      simp only [Bool.false_eq_true, if_false, Option.some.injEq] at h
      exact Or.inl ⟨h.symm, fun _ => rfl⟩
    | true =>
      simp only [if_true] at h
      cases h1 : (Sample9.assignParameterSets sample nalus (w.nal_sps, w.nal_pps)).1 with
      | none => simp [h1] at h
      | some sps =>
        cases h2 : (Sample9.assignParameterSets sample nalus (w.nal_sps, w.nal_pps)).2 with
        | none => simp [h1, h2] at h
        | some pps =>
          simp only [h1, h2, Option.some.injEq] at h
          exact Or.inr ⟨rfl, rfl, sps, pps, Prod.ext h1 h2, h.symm⟩

theorem openStream9_inv (w w0 : Sample9.MP4Writer) (sample : List Byte)
    (nalus : List GstH264NalUnit) (key : Bool) (fed : List Nat) (hI : Sample9.Inv w fed)
    (h : Sample9.openStream w sample nalus key = some w0) : Sample9.Inv w0 fed := by
  rcases openStream9_cases w w0 sample nalus key h with ⟨rfl, -⟩ | ⟨hst, -, sps, pps, -, rfl⟩
  · exact hI
  · obtain ⟨h1, h2, h3, h4, h5, h6, h7, h8, h9⟩ := hI
    simp only [hst, Sample9.StreamPointer.written] at h1 h2 h3 h4 h9
    have hm : moofs (Sample9.WriteInitSegment w.builder sps pps []) = [] := by
      simp [Sample9.WriteInitSegment, moofs]
    exact ⟨by simpa [Sample9.StreamPointer.written, hm] using h1,
      by simpa [Sample9.StreamPointer.written, hm] using h2,
      by simpa [Sample9.StreamPointer.written, hm] using h3,
      by simpa [Sample9.StreamPointer.written, hm] using h4, h5, h6, h7, h8,
      by simpa [Sample9.StreamPointer.written, hm] using h9⟩

theorem WriteH264VideoSample9_inv (w w1 : Sample9.MP4Writer) (fed : List Nat) (c : Call)
    (hI : Sample9.Inv w fed)
    (h : Sample9.WriteH264VideoSample w c.sample c.is_key_frame c.duration = some w1) :
    Sample9.Inv w1
      (fed ++ (sliceNalus c.sample).map
        (fun _ => timescaleDuration MP4_DEFAULT_TRACK_TIMESCALE c.duration)) := by
  have hbound : ∀ n ∈ ParseH264NALU c.sample, n.offset + n.size ≤ c.sample.length :=
    fun n hn => (ParseH264NALU_bound c.sample n hn).2.2
  unfold Sample9.WriteH264VideoSample at h
  simp only at h
  cases ho : Sample9.openStream w c.sample (ParseH264NALU c.sample) c.is_key_frame with
  | none => simp [ho] at h
  | some w0 =>
    rw [ho] at h
    exact writeNalus9_inv _ _ _ _ w0 w1 fed (openStream9_inv _ _ _ _ _ _ hI ho) hbound h

theorem run9_inv (calls : List Call) (w w1 : Sample9.MP4Writer) (fed : List Nat)
    (hI : Sample9.Inv w fed) (h : Sample9.run w calls = some w1) :
    Sample9.Inv w1 (fed ++ fedDurations MP4_DEFAULT_TRACK_TIMESCALE calls) := by
  induction calls generalizing w fed with
  | nil =>
    simp only [Sample9.run, Option.some.injEq] at h
    subst h
    simpa [fedDurations] using hI
  | cons c rest ih =>
    simp only [Sample9.run] at h
    cases hc : Sample9.WriteH264VideoSample w c.sample c.is_key_frame c.duration with
    | none => simp [hc] at h
    | some w2 =>
      rw [hc] at h
      have := ih w2 _ (WriteH264VideoSample9_inv w w2 fed c hI hc) h
      simpa [fedDurations, List.flatMap_cons, List.append_assoc] using this

/-- A sample9 writer whose pointer is the non-null value left by the constructor
writes nothing: a call that returns leaves the writer as it was. -/
theorem run9_invalid (calls : List Call) (w w1 : Sample9.MP4Writer)
    (hp : w.file_output_stream = Sample9.StreamPointer.invalid)
    (h : Sample9.run w calls = some w1) : w1 = w := by
  have hn : ∀ (data : List Byte) (key : Bool) (d : Nat) (nalus : List GstH264NalUnit)
      (w2 : Sample9.MP4Writer), Sample9.writeNalus data key d w nalus = some w2 → w2 = w := by
    intro data key d nalus
    induction nalus with
    | nil =>
      intro w2 h2
      simp only [Sample9.writeNalus, Option.some.injEq] at h2
      exact h2.symm
    | cons n rest ih =>
      intro w2 h2
      by_cases hs : n.isSlice = true
      · simp [Sample9.writeNalus, Sample9.writeNalu, hs, hp] at h2
      · have hs2 : n.isSlice = false := by simpa using hs
        simp only [Sample9.writeNalus, Sample9.writeNalu, hs2, Bool.false_eq_true,
          if_false] at h2
        exact ih w2 h2
  induction calls with
  | nil =>
    simp only [Sample9.run, Option.some.injEq] at h
    exact h.symm
  | cons c rest ih =>
    simp only [Sample9.run] at h
    cases hc : Sample9.WriteH264VideoSample w c.sample c.is_key_frame c.duration with
    | none => simp [hc] at h
    | some w2 =>
      rw [hc] at h
      have hw2 : w2 = w := by
        unfold Sample9.WriteH264VideoSample at hc
        simp only [Sample9.openStream, hp] at hc
        exact hn _ _ _ _ _ hc
      subst hw2
      exact ih h

/-! ## Decode times and sequence numbers over a whole run -/

/-- C1: over every sequence of calls on one writer, the `tfdt` base media decode time
of the first fragment is 0 and that of each later fragment is the sum of the `trun`
sample durations of all fragments before it; those durations are, in feed order, the
timescale-converted durations of the samples fed (in sample9 the samples fed before
the stream exists are still pending and go into the next fragment).  Holds for
sample10 (for every run that does not crash on the empty builder) and for sample9
(whatever the constructor left in `file_output_stream`, for every run that does not
use an indeterminate member), however many samples a fragment holds, while the total
stays below 2^64. -/
theorem C1_base_media_decode_time (calls : List Call)
    (hfit10 : (fedDurations MP4_DEFAULT_VIDEO_TIMESCALE calls).sum < U64)
    (hfit9 : (fedDurations MP4_DEFAULT_TRACK_TIMESCALE calls).sum < U64) :
    (∀ w, Sample10.run Sample10.MP4Writer.new calls = some w →
        decodeTimes (moofs w.file_output_stream)
          = (List.range (moofs w.file_output_stream).length).map
              (fun k => (((moofs w.file_output_stream).take k).flatMap trunDurations).sum)
        ∧ (∀ m rest, moofs w.file_output_stream = m :: rest →
              m.traf.tfdt.base_media_decode_time = 0)
        ∧ (moofs w.file_output_stream).flatMap trunDurations
            = fedDurations MP4_DEFAULT_VIDEO_TIMESCALE calls) ∧
    (∀ non_null w, Sample9.run (Sample9.MP4Writer.new non_null) calls = some w →
        decodeTimes (moofs w.file_output_stream.written)
          = (List.range (moofs w.file_output_stream.written).length).map
              (fun k => (((moofs w.file_output_stream.written).take k).flatMap
                trunDurations).sum)
        ∧ (∀ m rest, moofs w.file_output_stream.written = m :: rest →
              m.traf.tfdt.base_media_decode_time = 0)
        ∧ (moofs w.file_output_stream.written).flatMap trunDurations
            ++ w.builder.m_Samples.map (fun s => s.duration)
          = fedDurations MP4_DEFAULT_TRACK_TIMESCALE calls) := by
  have first : ∀ ms : List MoofAtom,
      decodeTimes ms = (List.range ms.length).map
        (fun k => ((ms.take k).flatMap trunDurations).sum) →
      ∀ m rest, ms = m :: rest → m.traf.tfdt.base_media_decode_time = 0 := by
    intro ms h m rest hms
    subst hms
    simp only [decodeTimes, List.map_cons, List.length_cons, List.range_succ_eq_map,
      List.cons.injEq] at h
    simpa using h.1
  constructor
  · intro w hw
    have hI := run10_inv calls _ w [] inv10_new hw
    rw [List.nil_append] at hI
    obtain ⟨h1, -, -, h4, -⟩ := hI
    have hd := decodeTimes_exact _ h1 (by rw [h4]; exact hfit10)
    exact ⟨hd, first _ hd, h4⟩
  · intro non_null w hw
    have hI := run9_inv calls _ w [] (inv9_new non_null) hw
    rw [List.nil_append] at hI
    obtain ⟨h1, -, -, h4, -⟩ := hI
    have hle : ((moofs w.file_output_stream.written).flatMap trunDurations).sum < U64 := by
      have := congrArg List.sum h4
      rw [List.sum_append] at this
      omega
    have hd := decodeTimes_exact _ h1 hle
    exact ⟨hd, first _ hd, h4⟩

theorem C1_base_media_decode_time_witness :
    (fedDurations MP4_DEFAULT_VIDEO_TIMESCALE demoCalls).sum < U64 ∧
    (fedDurations MP4_DEFAULT_TRACK_TIMESCALE demoCalls).sum < U64 ∧
    (∃ w, Sample10.run Sample10.MP4Writer.new demoCalls = some w
        ∧ decodeTimes (moofs w.file_output_stream)
          = (List.range (moofs w.file_output_stream).length).map
              (fun k => (((moofs w.file_output_stream).take k).flatMap trunDurations).sum)
        ∧ (moofs w.file_output_stream).flatMap trunDurations = [360, 450, 360, 360]) ∧
    (∃ w, Sample9.run (Sample9.MP4Writer.new false) demoCalls = some w
        ∧ decodeTimes (moofs w.file_output_stream.written)
          = (List.range (moofs w.file_output_stream.written).length).map
              (fun k => (((moofs w.file_output_stream.written).take k).flatMap
                trunDurations).sum)
        ∧ decodeTimes (moofs w.file_output_stream.written) = [0, 360, 810, 1170]) := by
  have h := C1_base_media_decode_time demoCalls (by decide) (by decide)
  refine ⟨by decide, by decide, ?_, ?_⟩
  · cases hr : Sample10.run Sample10.MP4Writer.new demoCalls with
    | none => exact absurd hr (by decide)
    | some w =>
      obtain ⟨h1, -, h3⟩ := h.1 w hr
      exact ⟨w, rfl, h1, by rw [h3]; decide⟩
  · cases hr : Sample9.run (Sample9.MP4Writer.new false) demoCalls with
    | none => exact absurd hr (by decide)
    | some w =>
      obtain ⟨h1, -, -⟩ := h.2 false w hr
      have hd : (Sample9.run (Sample9.MP4Writer.new false) demoCalls).map
          (fun w => decodeTimes (moofs w.file_output_stream.written))
          = some [0, 360, 810, 1170] := by decide
      rw [hr] at hd
      exact ⟨w, rfl, h1, by simpa using hd⟩

/-- C2: over every sequence of `WriteH264VideoSample` calls on one writer, the `mfhd`
sequence numbers of the fragments written are 1, 2, 3, ... in write order, with no gap
and no repeat, whatever NAL units are fed.  Holds for sample10 (for every run that
does not crash on the empty builder) and for sample9 (whatever the constructor left in
`file_output_stream`, for every run that does not use an indeterminate member), while
fewer than 2^32 fragments have been written. -/
theorem C2_sequence_numbers (calls : List Call) :
    (∀ w, Sample10.run Sample10.MP4Writer.new calls = some w →
        (moofs w.file_output_stream).length < U32 →
        sequenceNumbers (moofs w.file_output_stream)
          = List.range' 1 (moofs w.file_output_stream).length) ∧
    (∀ non_null w, Sample9.run (Sample9.MP4Writer.new non_null) calls = some w →
        (moofs w.file_output_stream.written).length < U32 →
        sequenceNumbers (moofs w.file_output_stream.written)
          = List.range' 1 (moofs w.file_output_stream.written).length) := by
  constructor
  · intro w hw hlt
    have hI := run10_inv calls _ w [] inv10_new hw
    exact sequenceNumbers_exact _ hI.2.1 hlt
  · intro non_null w hw hlt
    have hI := run9_inv calls _ w [] (inv9_new non_null) hw
    exact sequenceNumbers_exact _ hI.2.1 hlt

theorem C2_sequence_numbers_witness :
    (∃ w, Sample10.run Sample10.MP4Writer.new demoCalls = some w
        ∧ (moofs w.file_output_stream).length < U32
        ∧ sequenceNumbers (moofs w.file_output_stream) = [1, 2, 3, 4]) ∧
    (∃ w, Sample9.run (Sample9.MP4Writer.new false) demoCalls = some w
        ∧ (moofs w.file_output_stream.written).length < U32
        ∧ sequenceNumbers (moofs w.file_output_stream.written) = [1, 2, 3, 4]) := by
  have h := C2_sequence_numbers demoCalls
  refine ⟨?_, ?_⟩
  · cases hr : Sample10.run Sample10.MP4Writer.new demoCalls with
    | none => exact absurd hr (by decide)
    | some w =>
      have hl : (moofs w.file_output_stream).length = 4 := by
        have : (Sample10.run Sample10.MP4Writer.new demoCalls).map
            (fun w => (moofs w.file_output_stream).length) = some 4 := by decide
        rw [hr] at this
        simpa using this
      exact ⟨w, rfl, by rw [hl]; decide, by rw [h.1 w hr (by rw [hl]; decide), hl]; rfl⟩
  · cases hr : Sample9.run (Sample9.MP4Writer.new false) demoCalls with
    | none => exact absurd hr (by decide)
    | some w =>
      have hl : (moofs w.file_output_stream.written).length = 4 := by
        have : (Sample9.run (Sample9.MP4Writer.new false) demoCalls).map
            (fun w => (moofs w.file_output_stream.written).length) = some 4 := by decide
        rw [hr] at this
        simpa using this
      exact ⟨w, rfl, by rw [hl]; decide,
        by rw [h.2 false w hr (by rw [hl]; decide), hl]; rfl⟩

/-! ## Annex-B and AVCC conversions in place -/

theorem pokeBytes_head4 (a b c d : Byte) (rest bs : List Byte) (h : bs.length = 4) :
    pokeBytes (a :: b :: c :: d :: rest) 0 bs = bs ++ rest := by
  simp [pokeBytes, h, List.take_of_length_le]

/-- C7 (counterexample): the sample `00 00 01 65 88`, one IDR slice behind a 3-byte
start code, has the payload `65 88`; after sample5's Annex-B-to-AVCC step and its
AVC1-to-AnnexB step the buffer is `00 00 00 01 88` and the payload is `88`.  The
sample `00 00 00 01 67 42 00 00 00 01 65 88`, converted by sample5's writer step, makes
sample10's reader loop read outside the sample. -/
theorem C7_roundtrip_counterexample :
    nalPayloads [0, 0, 1, 0x65, 0x88] = [[0x65, 0x88]]
    ∧ Sample5.ConvertAVC1ToAnnexB (Sample5.ConvertAnnexBToAVCC [0, 0, 1, 0x65, 0x88])
        = [0, 0, 0, 1, 0x88]
    ∧ nalPayloads (Sample5.ConvertAVC1ToAnnexB (Sample5.ConvertAnnexBToAVCC [0, 0, 1, 0x65, 0x88]))
        ≠ nalPayloads [0, 0, 1, 0x65, 0x88]
    ∧ Sample10.ConvertAVC1ToAnnexB
        (Sample5.ConvertAnnexBToAVCC [0, 0, 0, 1, 0x67, 0x42, 0, 0, 0, 1, 0x65, 0x88]) = none := by
  decide

/-- C7 (amended): for every sample that begins with the 4-byte start code
`00 00 00 01`, sample5's Annex-B-to-AVCC step followed by sample5's AVC1-to-AnnexB
step gives back the sample byte for byte, so every NAL payload is reproduced; followed
by sample10's AVC1-to-AnnexB step it does so when the first NAL unit is a slice
(type 1 or 5). -/
theorem C7_roundtrip_four_byte_start_code (rest : List Byte) :
    Sample5.ConvertAVC1ToAnnexB (Sample5.ConvertAnnexBToAVCC ([0, 0, 0, 1] ++ rest))
        = [0, 0, 0, 1] ++ rest
    ∧ nalPayloads (Sample5.ConvertAVC1ToAnnexB (Sample5.ConvertAnnexBToAVCC ([0, 0, 0, 1] ++ rest)))
        = nalPayloads ([0, 0, 0, 1] ++ rest)
    ∧ (∀ hd tl, rest = hd :: tl →
        (hd &&& 0x1F = GST_H264_NAL_SLICE_IDR ∨ hd &&& 0x1F = GST_H264_NAL_SLICE) →
        Sample10.ConvertAVC1ToAnnexB (Sample5.ConvertAnnexBToAVCC ([0, 0, 0, 1] ++ rest))
          = some ([0, 0, 0, 1] ++ rest)) := by
  have h1 : Sample5.ConvertAnnexBToAVCC ([0, 0, 0, 1] ++ rest)
      = be32 (([0, 0, 0, 1] ++ rest).length - 4) ++ rest := by
    simp only [Sample5.ConvertAnnexBToAVCC]
    rw [if_pos (by simp)]
    exact pokeBytes_head4 0 0 0 1 rest _ (be32_length _)
  have h2 : Sample5.ConvertAVC1ToAnnexB (Sample5.ConvertAnnexBToAVCC ([0, 0, 0, 1] ++ rest))
      = [0, 0, 0, 1] ++ rest := by
    rw [h1]
    simp only [Sample5.ConvertAVC1ToAnnexB, be32, List.cons_append, List.nil_append]
    rw [if_pos (by simp)]
    exact pokeBytes_head4 _ _ _ _ rest _ rfl
  refine ⟨h2, by rw [h2], ?_⟩
  intro hd tl hr hs
  subst hr
  rw [h1]
  simp only [Sample10.ConvertAVC1ToAnnexB, be32, List.cons_append, List.nil_append]
  rw [if_pos (by simp)]
  simp only [List.length_cons, Sample10.ConvertAVC1ToAnnexB.loop]
  rw [if_pos (by omega)]
  have hget : ∀ (a b c d : Byte),
      (a :: b :: c :: d :: hd :: tl).getD (0 + 4) 0 = hd := fun _ _ _ _ => rfl
  rw [hget, if_neg (by
    intro hc
    rcases hs with hs | hs
    · exact hc.1 hs
    · exact hc.2 hs)]
  rw [pokeBytes_head4 _ _ _ _ (hd :: tl) (be32 1) rfl]
  rfl

theorem C7_roundtrip_four_byte_start_code_witness :
    Sample5.ConvertAVC1ToAnnexB
        (Sample5.ConvertAnnexBToAVCC ([0, 0, 0, 1] ++ [0x65, 0x88, 0, 0, 1, 0x65, 0x89]))
      = [0, 0, 0, 1] ++ [0x65, 0x88, 0, 0, 1, 0x65, 0x89]
    ∧ Sample10.ConvertAVC1ToAnnexB
        (Sample5.ConvertAnnexBToAVCC ([0, 0, 0, 1] ++ [0x65, 0x88, 0, 0, 1, 0x65, 0x89]))
      = some ([0, 0, 0, 1] ++ [0x65, 0x88, 0, 0, 1, 0x65, 0x89]) :=
  ⟨(C7_roundtrip_four_byte_start_code [0x65, 0x88, 0, 0, 1, 0x65, 0x89]).1,
   (C7_roundtrip_four_byte_start_code [0x65, 0x88, 0, 0, 1, 0x65, 0x89]).2.2 0x65
     [0x88, 0, 0, 1, 0x65, 0x89] rfl (Or.inl (by decide))⟩

/-- C8 (the code at the failing inputs): in sample6, with the sample buffer at index 1
of the memory image behind the byte `EE`, the sample `00 00 01 41 9A` (a slice behind a
3-byte start code) makes `WriteH264VideoSample` overwrite the byte in front of the
buffer; and in the sample `00 00 00 01 41 9A 00 00 01 41 9B` the rewrite of the second
slice overwrites the last payload byte `9A` of the first slice. -/
theorem C8_rewrite_clobbers_neighbour_byte :
    (Sample6.WriteH264VideoSample Sample6.demoWriter [0xEE, 0, 0, 1, 0x41, 0x9A] 1 5 false 40).map
        (fun r => r.2) = some [0, 0, 0, 2, 0x41, 0x9A]
    ∧ nalPayloads [0, 0, 0, 1, 0x41, 0x9A, 0, 0, 1, 0x41, 0x9B] = [[0x41, 0x9A], [0x41, 0x9B]]
    ∧ (Sample6.WriteH264VideoSample Sample6.demoWriter
          [0xEE, 0, 0, 0, 1, 0x41, 0x9A, 0, 0, 1, 0x41, 0x9B] 1 11 false 40).map (fun r => r.2)
        = some [0xEE, 0, 0, 0, 2, 0x41, 0, 0, 0, 2, 0x41, 0x9B] := by
  decide

/-! ## Which bytes reach the mdat -/

theorem dataWrites_append (a b : Stream) : dataWrites (a ++ b) = dataWrites a ++ dataWrites b := by
  induction a with
  | nil => rfl
  | cons x rest ih => cases x <;> simp [dataWrites, ih]

theorem dataWrites_map_copy (ss : List AP4_Sample) :
    dataWrites (ss.map (fun s => Written.data s.CopyTo.1)) = ss.map (fun s => s.CopyTo.1) := by
  induction ss with
  | nil => rfl
  | cons x rest ih => simp [dataWrites, ih]

theorem dataWrites_map_data {α : Type} (f : α → List Byte) (xs : List α) :
    dataWrites (xs.map (fun x => Written.data (f x))) = xs.map f := by
  induction xs with
  | nil => rfl
  | cons x rest ih => simp [dataWrites, ih]

theorem dataWrites_fragment (stream : Stream) (m : MoofAtom) (a c : Nat) (ss : List AP4_Sample) :
    dataWrites (stream ++ [Written.moof m] ++ [Written.ui32 a, Written.ui32 c]
        ++ ss.map (fun s => Written.data s.CopyTo.1))
      = dataWrites stream ++ ss.map (fun s => s.CopyTo.1) := by
  simp [dataWrites_append, dataWrites, dataWrites_map_copy]

theorem fed_sample_copy (data : List Byte) (off n : Nat) (h : off + n ≤ data.length)
    (hn : n + 4 < U32) :
    slice (be32 n ++ (data.drop off).take n) 0 ((n + 4) % U32)
      = be32 n ++ slice data off n := by
  rw [Nat.mod_eq_of_lt hn]
  have hl : (be32 n ++ (data.drop off).take n).length = n + 4 := by
    simp only [List.length_append, be32_length, List.length_take, List.length_drop]
    omega
  simp only [slice, List.drop_zero]
  rw [List.take_of_length_le (by omega)]

theorem writeNalu10_data (data : List Byte) (key : Bool) (d : Nat) (w w1 : Sample10.MP4Writer)
    (nalu : GstH264NalUnit) (b : AP4_SegmentBuilder)
    (hb : w.avc_segment_builder = some b) (hs0 : b.m_Samples = [])
    (hbound : nalu.offset + nalu.size ≤ data.length) (hn : nalu.size + 4 < U32)
    (h : Sample10.writeNalu data key d w nalu = some w1) :
    dataWrites w1.file_output_stream = dataWrites w.file_output_stream
      ++ (if nalu.isSlice then [be32 nalu.size ++ nalu.payload data] else []) := by
  by_cases hs : nalu.isSlice = true
  · have hfeed := feed10_samples b (data.drop nalu.offset) nalu.size key d
    rw [hs0, List.nil_append] at hfeed
    have hok : ∀ s ∈ (Sample10.AVCSegmentBuilder.Feed b (data.drop nalu.offset) nalu.size key d).m_Samples,
        s.CopyTo.2 = true := by
      intro s hmem
      rw [hfeed, List.mem_singleton] at hmem
      subst hmem
      exact fed_sample_copy_ok data nalu.offset nalu.size hbound
    simp only [Sample10.writeNalu, hs, if_true, hb, Option.some.injEq] at h
    subst h
    simp only [WriteMdat10_ok _ _ hok, Sample10.WriteMoofAtom, dataWrites_fragment, hfeed,
      List.map_cons, List.map_nil, AP4_Sample.CopyTo, fed_sample_copy data _ _ hbound hn,
      GstH264NalUnit.payload]
    simp [dataWrites_append, dataWrites, hs]
  · have hs2 : nalu.isSlice = false := by simpa using hs
    simp [Sample10.writeNalu, hs2] at h
    subst h
    simp [hs2]

theorem writeNalus10_data (data : List Byte) (key : Bool) (d : Nat)
    (nalus : List GstH264NalUnit) (w w1 : Sample10.MP4Writer) (fed : List Nat)
    (b : AP4_SegmentBuilder) (hb : w.avc_segment_builder = some b) (hI : Sample10.Inv w fed)
    (hbound : ∀ n ∈ nalus, n.offset + n.size ≤ data.length ∧ n.size + 4 < U32)
    (h : Sample10.writeNalus data key d w nalus = some w1) :
    dataWrites w1.file_output_stream = dataWrites w.file_output_stream
      ++ (nalus.filter GstH264NalUnit.isSlice).map (fun n => be32 n.size ++ n.payload data) := by
  induction nalus generalizing w fed b with
  | nil =>
    simp only [Sample10.writeNalus, Option.some.injEq] at h
    subst h
    simp
  | cons n rest ih =>
    have hbn := hbound n (List.mem_cons_self _ _)
    obtain ⟨w2, b2, hw2, hb2, hI2⟩ := writeNalu10_step data key d w n fed b hb hI hbn.1
    simp only [Sample10.writeNalus, hw2] at h
    have hs0 : b.m_Samples = [] := by
      have := hI.2.2.2.2
      rw [hb] at this
      exact this.1
    have h1 := writeNalu10_data data key d w w2 n b hb hs0 hbn.1 hbn.2 hw2
    have h2 := ih w2 _ b2 hb2 hI2 (fun x hx => hbound x (List.mem_cons_of_mem _ hx)) h
    rw [h2, h1]
    by_cases hs : n.isSlice = true
    · simp [List.filter_cons, hs]
    · have hs2 : n.isSlice = false := by simpa using hs
      simp [List.filter_cons, hs2]

theorem nalu_fits (sample : List Byte) (hsz : sample.length + 4 < U32) :
    ∀ n ∈ ParseH264NALU sample, n.offset + n.size ≤ sample.length ∧ n.size + 4 < U32 := by
  intro n hn
  have := ParseH264NALU_bound sample n hn
  omega

theorem WriteH264VideoSample10_data (w w1 : Sample10.MP4Writer) (fed : List Nat) (c : Call)
    (hI : Sample10.Inv w fed) (hsz : c.sample.length + 4 < U32)
    (h : Sample10.WriteH264VideoSample w c.sample c.is_key_frame c.duration = some w1) :
    dataWrites w1.file_output_stream = dataWrites w.file_output_stream ++ slicePayloads c.sample := by
  have hbound := nalu_fits c.sample hsz
  unfold Sample10.WriteH264VideoSample at h
  simp only at h
  by_cases hk : (c.is_key_frame && !w.is_write_init_segment) = true
  · rw [if_pos hk] at h
    obtain ⟨h1, h2, h3, h4, h5⟩ := hI
    have hinit : w.is_write_init_segment = false := by
      simp only [Bool.and_eq_true, Bool.not_eq_true'] at hk
      exact hk.2
    have hnone : w.avc_segment_builder = none := by
      cases hb : w.avc_segment_builder with
      | none => rfl
      | some b =>
        rw [hb] at h5
        rw [h5.2.2.2.2.2] at hinit
        exact absurd hinit (by decide)
    rw [hnone] at h5
    have hfed : fed = [] := by rw [← h4, h5.1]; rfl
    have hI0 : Sample10.Inv
        { w with avc_segment_builder := some Sample10.AVCSegmentBuilder.new,
                 file_output_stream := Sample10.WriteMoovAtom
                   (Sample10.WriteFtypAtom w.file_output_stream) c.sample (ParseH264NALU c.sample),
                 is_write_init_segment := true } fed := by
      have hm : moofs (Sample10.WriteMoovAtom (Sample10.WriteFtypAtom w.file_output_stream)
          c.sample (ParseH264NALU c.sample)) = [] := by
        simp [Sample10.WriteMoovAtom, Sample10.WriteFtypAtom, moofs_append, moofs, h5.1]
      simp only [Sample10.Inv, hm, hfed]
      simp [decodeTimes, decodeTimesFrom, sequenceNumbers, Sample10.AVCSegmentBuilder.new, h3,
        h5.1]
    have := writeNalus10_data c.sample c.is_key_frame c.duration (ParseH264NALU c.sample) _ w1
      fed _ rfl hI0 hbound h
    rw [this]
    simp [Sample10.WriteMoovAtom, Sample10.WriteFtypAtom, dataWrites_append, dataWrites,
      slicePayloads, sliceNalus]
  · rw [if_neg hk] at h
    cases hb : w.avc_segment_builder with
    | none =>
      obtain ⟨he, hf⟩ := writeNalus10_none _ _ _ _ _ _ hb h
      subst he
      simp [slicePayloads, sliceNalus, hf]
    | some b =>
      have := writeNalus10_data c.sample c.is_key_frame c.duration (ParseH264NALU c.sample) w w1
        fed b hb hI hbound h
      rw [this]
      simp [slicePayloads, sliceNalus]

theorem run10_data (calls : List Call) (w w1 : Sample10.MP4Writer) (fed : List Nat)
    (hI : Sample10.Inv w fed) (hsz : ∀ c ∈ calls, c.sample.length + 4 < U32)
    (h : Sample10.run w calls = some w1) :
    dataWrites w1.file_output_stream
      = dataWrites w.file_output_stream ++ calls.flatMap (fun c => slicePayloads c.sample) := by
  induction calls generalizing w fed with
  | nil =>
    simp only [Sample10.run, Option.some.injEq] at h
    subst h
    simp
  | cons c rest ih =>
    simp only [Sample10.run] at h
    cases hc : Sample10.WriteH264VideoSample w c.sample c.is_key_frame c.duration with
    | none => simp [hc] at h
    | some w2 =>
      rw [hc] at h
      have h1 := WriteH264VideoSample10_data w w2 fed c hI (hsz c (List.mem_cons_self _ _)) hc
      have h2 := ih w2 _ (WriteH264VideoSample10_inv w w2 fed c hI hc)
        (fun x hx => hsz x (List.mem_cons_of_mem _ hx)) h
      rw [h2, h1]
      simp [List.flatMap_cons, List.append_assoc]

theorem writeNalu9_data (data : List Byte) (key : Bool) (d : Nat) (w w1 : Sample9.MP4Writer)
    (nalu : GstH264NalUnit) (fed : List Nat) (hI : Sample9.Inv w fed)
    (hbound : nalu.offset + nalu.size ≤ data.length) (hn : nalu.size + 4 < U32)
    (h : Sample9.writeNalu data key d w nalu = some w1) :
    dataWrites w1.file_output_stream.written ++ w1.builder.m_Samples.map (fun s => s.CopyTo.1)
      = dataWrites (w.file_output_stream.written) ++ w.builder.m_Samples.map (fun s => s.CopyTo.1)
        ++ (if nalu.isSlice then [be32 nalu.size ++ nalu.payload data] else []) := by
  have h5 := hI.2.2.2.2.1
  have hfeed := feed9_samples w.builder (data.drop nalu.offset) nalu.size key d
  have hok : ∀ s ∈ (Sample9.Feed w.builder (data.drop nalu.offset) nalu.size key d).m_Samples,
      s.CopyTo.2 = true := by
    intro s hmem
    rw [hfeed, List.mem_append, List.mem_singleton] at hmem
    rcases hmem with hmem | hmem
    · exact h5 s hmem
    · subst hmem
      exact fed_sample_copy_ok data nalu.offset nalu.size hbound
  rcases writeNalu9_cases data key d w w1 nalu h with
    ⟨hs2, rfl⟩ | ⟨hs, hst, rfl⟩ | ⟨hs, stream, hst, rfl⟩
  · simp [hs2]
  · simp only [hs, if_true, hst, Sample9.StreamPointer.written, hfeed, List.map_append,
      List.map_cons, List.map_nil, AP4_Sample.CopyTo, fed_sample_copy data _ _ hbound hn,
      GstH264NalUnit.payload]
    simp [dataWrites]
  · simp only [hs, if_true, hst, Sample9.StreamPointer.written,
      WriteMediaSegment9_ok _ _ _ hok, dataWrites_fragment, hfeed, List.map_append,
      List.map_cons, List.map_nil, AP4_Sample.CopyTo, fed_sample_copy data _ _ hbound hn,
      GstH264NalUnit.payload]
    simp [dataWrites_append, dataWrites, dataWrites_map_data]

theorem writeNalus9_data (data : List Byte) (key : Bool) (d : Nat)
    (nalus : List GstH264NalUnit) (w w1 : Sample9.MP4Writer) (fed : List Nat)
    (hI : Sample9.Inv w fed)
    (hbound : ∀ n ∈ nalus, n.offset + n.size ≤ data.length ∧ n.size + 4 < U32)
    (h : Sample9.writeNalus data key d w nalus = some w1) :
    dataWrites w1.file_output_stream.written ++ w1.builder.m_Samples.map (fun s => s.CopyTo.1)
      = dataWrites (w.file_output_stream.written) ++ w.builder.m_Samples.map (fun s => s.CopyTo.1)
        ++ (nalus.filter GstH264NalUnit.isSlice).map (fun n => be32 n.size ++ n.payload data) := by
  induction nalus generalizing w fed with
  | nil =>
    simp only [Sample9.writeNalus, Option.some.injEq] at h
    subst h
    simp
  | cons n rest ih =>
    have hbn := hbound n (List.mem_cons_self _ _)
    simp only [Sample9.writeNalus] at h
    cases hw : Sample9.writeNalu data key d w n with
    | none => simp [hw] at h
    | some w2 =>
      rw [hw] at h
      have h1 := writeNalu9_data data key d w w2 n fed hI hbn.1 hbn.2 hw
      have hI1 := writeNalu9_step data key d w w2 n fed hI hbn.1 hw
      have h2 := ih w2 _ hI1 (fun x hx => hbound x (List.mem_cons_of_mem _ hx)) h
      rw [h2, h1]
      by_cases hs : n.isSlice = true
      · simp [List.filter_cons, hs]
      · have hs2 : n.isSlice = false := by simpa using hs
        simp [List.filter_cons, hs2]

theorem WriteH264VideoSample9_data (w w1 : Sample9.MP4Writer) (fed : List Nat) (c : Call)
    (hI : Sample9.Inv w fed) (hsz : c.sample.length + 4 < U32)
    (h : Sample9.WriteH264VideoSample w c.sample c.is_key_frame c.duration = some w1) :
    dataWrites w1.file_output_stream.written ++ w1.builder.m_Samples.map (fun s => s.CopyTo.1)
      = dataWrites (w.file_output_stream.written) ++ w.builder.m_Samples.map (fun s => s.CopyTo.1)
        ++ slicePayloads c.sample := by
  have hbound := nalu_fits c.sample hsz
  unfold Sample9.WriteH264VideoSample at h
  simp only at h
  cases ho : Sample9.openStream w c.sample (ParseH264NALU c.sample) c.is_key_frame with
  | none => simp [ho] at h
  | some w0 =>
    rw [ho] at h
    have hI0 := openStream9_inv _ _ _ _ _ _ hI ho
    have := writeNalus9_data c.sample c.is_key_frame c.duration (ParseH264NALU c.sample) w0 w1
      fed hI0 hbound h
    rw [this]
    rcases openStream9_cases w w0 c.sample _ c.is_key_frame ho with
      ⟨rfl, -⟩ | ⟨hst, -, sps, pps, -, rfl⟩
    · simp [slicePayloads, sliceNalus]
    · simp [hst, Sample9.StreamPointer.written, Sample9.WriteInitSegment, dataWrites,
        slicePayloads, sliceNalus]

theorem run9_data (calls : List Call) (w w1 : Sample9.MP4Writer) (fed : List Nat)
    (hI : Sample9.Inv w fed) (hsz : ∀ c ∈ calls, c.sample.length + 4 < U32)
    (h : Sample9.run w calls = some w1) :
    dataWrites w1.file_output_stream.written ++ w1.builder.m_Samples.map (fun s => s.CopyTo.1)
      = dataWrites (w.file_output_stream.written) ++ w.builder.m_Samples.map (fun s => s.CopyTo.1)
        ++ calls.flatMap (fun c => slicePayloads c.sample) := by
  induction calls generalizing w fed with
  | nil =>
    simp only [Sample9.run, Option.some.injEq] at h
    subst h
    simp
  | cons c rest ih =>
    simp only [Sample9.run] at h
    cases hc : Sample9.WriteH264VideoSample w c.sample c.is_key_frame c.duration with
    | none => simp [hc] at h
    | some w2 =>
      rw [hc] at h
      have h1 := WriteH264VideoSample9_data w w2 fed c hI (hsz c (List.mem_cons_self _ _)) hc
      have h2 := ih w2 _ (WriteH264VideoSample9_inv w w2 fed c hI hc)
        (fun x hx => hsz x (List.mem_cons_of_mem _ hx)) h
      rw [h2, h1]
      simp [List.flatMap_cons, List.append_assoc]

/-! ## sample6: packets cut out of the sample buffer -/

theorem scan_nalusFrom (data : List Byte) (length fuel offset : Nat) :
    nalusFrom length offset (ParseH264NALU.scan data length fuel offset) := by
  induction fuel generalizing offset with
  | zero =>
    simp only [ParseH264NALU.scan]
    split
    · rename_i n0 hu
      have := identify_nalu_unchecked_bound _ _ _ _ hu
      exact ⟨this.1, this.2.1, this.2.2, trivial⟩
    · trivial
  | succ fuel ih =>
    simp only [ParseH264NALU.scan]
    split
    · rename_i n0 hi
      have := identify_nalu_bound _ _ _ _ hi
      refine ⟨this.1, this.2.1, this.2.2, ?_⟩
      rw [Nat.add_comm]
      exact ih _
    · split
      · rename_i n0 hu
        have := identify_nalu_unchecked_bound _ _ _ _ hu
        exact ⟨this.1, this.2.1, this.2.2, trivial⟩
      · trivial

/-- The scanned NAL units follow one another in the buffer without overlapping. -/
theorem ParseH264NALU_nalusFrom (data : List Byte) :
    nalusFrom data.length 0 (ParseH264NALU data) :=
  scan_nalusFrom data data.length data.length 0

theorem pokeBytes_length (mem : List Byte) (pos : Nat) (bs : List Byte)
    (h : pos + bs.length ≤ mem.length) : (pokeBytes mem pos bs).length = mem.length := by
  simp only [pokeBytes, List.length_append, List.length_take, List.length_drop]
  omega

theorem pokeBytes_drop_at (mem : List Byte) (pos : Nat) (bs : List Byte)
    (h : pos + bs.length ≤ mem.length) :
    (pokeBytes mem pos bs).drop pos = bs ++ mem.drop (pos + bs.length) := by
  have h1 : (mem.take pos).length = pos := by
    rw [List.length_take]; omega
  have h2 : bs.take (mem.length - pos) = bs := List.take_of_length_le (by omega)
  simp only [pokeBytes, h2, List.append_assoc]
  rw [List.drop_append_of_le_length (by omega), List.drop_of_length_le (by omega)]
  rfl

theorem pokeBytes_drop_after (mem : List Byte) (pos : Nat) (bs : List Byte) (q : Nat)
    (h : pos + bs.length ≤ mem.length) (hq : pos + bs.length ≤ q) :
    (pokeBytes mem pos bs).drop q = mem.drop q := by
  obtain ⟨k, rfl⟩ : ∃ k, q = pos + bs.length + k := ⟨q - (pos + bs.length), by omega⟩
  rw [← List.drop_drop, ← List.drop_drop, pokeBytes_drop_at mem pos bs h, List.drop_left,
    List.drop_drop]

theorem drop_agree_mono (a b : List Byte) (p q : Nat) (h : a.drop p = b.drop p) (hpq : p ≤ q) :
    a.drop q = b.drop q := by
  have : q = p + (q - p) := by omega
  rw [this, ← List.drop_drop, ← List.drop_drop, h]

theorem payload_in_memory (orig : List Byte) (base len off n : Nat) (h : off + n ≤ len) :
    slice (slice orig base len) off n = (orig.drop (base + off)).take n := by
  simp only [slice, List.drop_take, List.drop_drop, List.take_take]
  rw [Nat.min_eq_left (by omega), Nat.add_comm]

theorem toInt_of_lt (v : Nat) (h : v < 2147483648) : (Sample6.toInt v).toNat = v := by
  have h1 : v % U32 = v := Nat.mod_eq_of_lt (by simp only [U32]; omega)
  simp only [Sample6.toInt, h1, if_pos h, Int.toNat_ofNat]

theorem writeNalus6_packets (base : Nat) (key : Bool) (d : Nat) (orig : List Byte)
    (len : Nat) (nalus : List GstH264NalUnit) (o : Nat)
    (hch : nalusFrom len o nalus) (st st1 : Sample6.MP4Writer × List Byte)
    (hint : len + 4 < 2147483648)
    (hlen : st.2.length = orig.length) (hin : base + len ≤ orig.length)
    (hagree : st.2.drop (base + o) = orig.drop (base + o))
    (h : Sample6.writeNalus base key d st nalus = some st1) :
    st1.1.packets.map (fun p => p.data) = st.1.packets.map (fun p => p.data)
      ++ (nalus.filter GstH264NalUnit.isSlice).map
          (fun n => be32 n.size ++ n.payload (slice orig base len)) := by
  induction nalus generalizing o st with
  | nil =>
    simp only [Sample6.writeNalus, Option.some.injEq] at h
    subst h
    simp
  | cons n rest ih =>
    obtain ⟨h1, h2, h3, h4⟩ := hch
    simp only [Sample6.writeNalus] at h
    by_cases hs : n.isSlice = true
    · simp only [Sample6.writeNalu, hs, if_true, Sample6.rewriteStartCode] at h
      by_cases hlow : base + n.offset < 4
      · simp [hlow] at h
      · rw [if_neg hlow] at h
        simp only at h
        cases hfc : st.1.format_context with
        | none => simp [hfc] at h
        | some ctx =>
          simp only [hfc] at h
          have hp : base + n.offset - 4 + (be32 n.size).length ≤ st.2.length := by
            rw [be32_length, hlen]; omega
          have hag2 : (pokeBytes st.2 (base + n.offset - 4) (be32 n.size)).drop
              (base + (n.offset + n.size)) = orig.drop (base + (n.offset + n.size)) := by
            rw [pokeBytes_drop_after _ _ _ _ hp (by rw [be32_length]; omega)]
            exact drop_agree_mono _ _ _ _ hagree (by omega)
          have hpk : slice (pokeBytes st.2 (base + n.offset - 4) (be32 n.size))
              (base + n.offset - 4) (n.size + 4)
              = be32 n.size ++ n.payload (slice orig base len) := by
            simp only [slice, GstH264NalUnit.payload]
            rw [pokeBytes_drop_at _ _ _ hp, be32_length]
            have e1 : base + n.offset - 4 + 4 = base + n.offset := by omega
            rw [e1, drop_agree_mono _ _ _ _ hagree (by omega : base + o ≤ base + n.offset)]
            have e2 := payload_in_memory orig base len n.offset n.size h3
            simp only [slice] at e2
            rw [e2, List.take_append_eq_append_take, be32_length]
            have e3 : n.size + 4 - 4 = n.size := by omega
            rw [e3, List.take_of_length_le (by rw [be32_length]; omega)]
          have := ih (n.offset + n.size) h4 _
            (by simp only; rw [pokeBytes_length _ _ _ hp]; exact hlen) hag2 h
          rw [this]
          simp [List.filter_cons, hs, hpk, toInt_of_lt (n.size + 4) (by omega)]
    · have hs2 : n.isSlice = false := by simpa using hs
      simp only [Sample6.writeNalu, hs2] at h
      have := ih (n.offset + n.size) h4 st hlen
        (drop_agree_mono _ _ _ _ hagree (by omega)) (by simpa using h)
      rw [this]
      simp [List.filter_cons, hs2]

theorem WriteH264VideoSample6_packets (w w1 : Sample6.MP4Writer) (pre sample post mem1 : List Byte)
    (key : Bool) (d : Nat) (hint : sample.length + 4 < 2147483648)
    (h : Sample6.WriteH264VideoSample w (pre ++ sample ++ post) pre.length sample.length key d
      = some (w1, mem1)) :
    w1.packets.map (fun p => p.data) = w.packets.map (fun p => p.data) ++ slicePayloads sample := by
  have hsl : slice (pre ++ sample ++ post) pre.length sample.length = sample := by
    simp [slice, List.append_assoc]
  unfold Sample6.WriteH264VideoSample at h
  simp only [hsl] at h
  have hch := ParseH264NALU_nalusFrom sample
  have := writeNalus6_packets pre.length key d (pre ++ sample ++ post) sample.length
    (ParseH264NALU sample) 0 hch _ (w1, mem1) hint rfl (by simp) rfl h
  simp only [hsl] at this
  rw [this]
  simp only [slicePayloads, sliceNalus]
  split <;> rfl

/-- C9: the samples `WriteH264VideoSample` makes are exactly the scanned NAL units of
type SLICE (1) or SLICE_IDR (5), in scan order: over every sequence of calls the
payload writes of sample10 (one `mdat` per slice) and of sample9 (together with the
samples still pending before the stream exists) are the 4-byte length and payload of
each slice NAL unit and nothing else, and each call of sample6 hands the muxer exactly
these packets; SPS, PPS, SEI, AUD and other NAL units contribute no byte.  Holds for
samples whose size plus 4 fits 32 bits (sample6: fits `int`, the type of
`packet.size`), for the runs of sample10 and the calls of sample6 that do not crash,
and for the runs of sample9 that use no indeterminate member, whatever the constructor
left in `file_output_stream`. -/
theorem C9_only_slices_reach_mdat (calls : List Call)
    (hsz : ∀ c ∈ calls, c.sample.length + 4 < U32) :
    (∀ w, Sample10.run Sample10.MP4Writer.new calls = some w →
        dataWrites w.file_output_stream = calls.flatMap (fun c => slicePayloads c.sample)) ∧
    (∀ non_null w, Sample9.run (Sample9.MP4Writer.new non_null) calls = some w →
        dataWrites w.file_output_stream.written
            ++ w.builder.m_Samples.map (fun s => s.CopyTo.1)
          = calls.flatMap (fun c => slicePayloads c.sample)) ∧
    (∀ c ∈ calls, c.sample.length + 4 < 2147483648 →
      ∀ (w w1 : Sample6.MP4Writer) (pre post mem1 : List Byte),
        Sample6.WriteH264VideoSample w (pre ++ c.sample ++ post) pre.length c.sample.length
            c.is_key_frame c.duration = some (w1, mem1) →
        w1.packets.map (fun p => p.data)
          = w.packets.map (fun p => p.data) ++ slicePayloads c.sample) := by
  refine ⟨?_, ?_, ?_⟩
  · intro w hw
    have := run10_data calls _ w [] inv10_new hsz hw
    simpa [Sample10.MP4Writer.new, dataWrites] using this
  · intro non_null w hw
    have := run9_data calls _ w [] (inv9_new non_null) hsz hw
    rw [this]
    cases non_null <;>
      simp [Sample9.MP4Writer.new, Sample9.StreamPointer.written, dataWrites]
  · intro c _ hint w w1 pre post mem1 h
    exact WriteH264VideoSample6_packets w w1 pre c.sample post mem1 _ _ hint h

theorem C9_only_slices_reach_mdat_witness :
    (∀ c ∈ demoCalls, c.sample.length + 4 < U32) ∧
    (∃ w, Sample10.run Sample10.MP4Writer.new demoCalls = some w
      ∧ dataWrites w.file_output_stream
          = [[0, 0, 0, 2, 0x65, 0x88], [0, 0, 0, 2, 0x41, 0x9a], [0, 0, 0, 2, 0x41, 0x9b],
             [0, 0, 0, 2, 0x41, 0x9c]]) ∧
    (∃ w, Sample9.run (Sample9.MP4Writer.new false) demoCalls = some w
      ∧ w.builder.m_Samples = []
      ∧ dataWrites w.file_output_stream.written
          = [[0, 0, 0, 2, 0x65, 0x88], [0, 0, 0, 2, 0x41, 0x9a], [0, 0, 0, 2, 0x41, 0x9b],
             [0, 0, 0, 2, 0x41, 0x9c]]) ∧
    (∃ w1 mem1, Sample6.WriteH264VideoSample Sample6.demoWriter
          ([0xEE] ++ [0, 0, 0, 1, 0x06, 0x05, 0, 0, 0, 1, 0x41, 0x9b, 0, 0, 1, 0x41, 0x9c] ++ [])
          1 17 false 40 = some (w1, mem1)
      ∧ w1.packets.map (fun p => p.data) = [[0, 0, 0, 2, 0x41, 0x9b], [0, 0, 0, 2, 0x41, 0x9c]]) := by
  have hsz : ∀ c ∈ demoCalls, c.sample.length + 4 < U32 := by decide
  have h := C9_only_slices_reach_mdat demoCalls hsz
  refine ⟨hsz, ?_, ?_, ?_⟩
  · cases hr : Sample10.run Sample10.MP4Writer.new demoCalls with
    | none => exact absurd hr (by decide)
    | some w => exact ⟨w, rfl, by rw [h.1 w hr]; decide⟩
  · cases hr : Sample9.run (Sample9.MP4Writer.new false) demoCalls with
    | none => exact absurd hr (by decide)
    | some w =>
      have hp : (Sample9.run (Sample9.MP4Writer.new false) demoCalls).map
          (fun w => w.builder.m_Samples) = some [] := by decide
      rw [hr] at hp
      have hp2 : w.builder.m_Samples = [] := by simpa using hp
      have := h.2.1 false w hr
      rw [hp2, List.map_nil, List.append_nil] at this
      exact ⟨w, rfl, hp2, by rw [this]; decide⟩
  · cases hr : Sample6.WriteH264VideoSample Sample6.demoWriter
        ([0xEE] ++ [0, 0, 0, 1, 0x06, 0x05, 0, 0, 0, 1, 0x41, 0x9b, 0, 0, 1, 0x41, 0x9c] ++ [])
        1 17 false 40 with
    | none => exact absurd hr (by decide)
    | some r =>
      refine ⟨r.1, r.2, rfl, ?_⟩
      have := h.2.2 ⟨[0, 0, 0, 1, 0x06, 0x05, 0, 0, 0, 1, 0x41, 0x9b, 0, 0, 1, 0x41, 0x9c], false, 40⟩
        (by decide) (by decide) Sample6.demoWriter r.1 [0xEE] [] r.2 hr
      rw [this]
      decide

/-! ## The stored duration (C11) -/

theorem AP4_ConvertTime_round (d ts : Nat) :
    1000 * AP4_ConvertTime d 1000 ts ≤ d * ts + 500
    ∧ d * ts + 500 < 1000 * AP4_ConvertTime d 1000 ts + 1000 := by
  simp only [AP4_ConvertTime]
  rw [if_neg (by decide)]
  have h := Nat.div_add_mod (2 * d * ts + 1000) (2 * 1000)
  have hm := Nat.mod_lt (2 * d * ts + 1000) (show 0 < 2 * 1000 by decide)
  have hx : 2 * d * ts = 2 * (d * ts) := Nat.mul_assoc 2 d ts
  omega

/-- C11 (counterexample): the 64-bit duration 477218589 ms converts at the 9000 track
timescale to 4294967301 exactly (477218589 * 9000 = 4294967301 * 1000), and the
`(AP4_UI32)` cast in `Feed` stores 5 for the sample, in sample10 and in sample9. -/
theorem C11_narrowing_counterexample :
    477218589 < U64
    ∧ 477218589 * Sample10.AVCSegmentBuilder.new.m_Timescale = 4294967301 * 1000
    ∧ AP4_ConvertTime 477218589 1000 Sample10.AVCSegmentBuilder.new.m_Timescale = 4294967301
    ∧ (Sample10.AVCSegmentBuilder.Feed Sample10.AVCSegmentBuilder.new [0x65] 1 true
        477218589).m_Samples.map (fun s => s.duration) = [5]
    ∧ (Sample9.Feed (Sample9.MP4Writer.new false).builder [0x65] 1 true
        477218589).m_Samples.map (fun s => s.duration) = [5] := by
  decide

/-- C11: for every duration `d` passed to `Feed` (sample10 and sample9) the stored
duration is the rounded conversion of `d`, with 0 standing for 50 ms, reduced modulo
2^32 by the `(AP4_UI32)` cast; when `d` is not 0 and the rounded value fits 32 bits,
the stored duration is `round(d * timescale / 1000)` itself: the `r` with
`1000 * r ≤ d * timescale + 500 < 1000 * r + 1000`. -/
theorem C11_feed_duration (b : AP4_SegmentBuilder) (data : List Byte) (n : Nat) (key : Bool)
    (d : Nat) (hd : d ≠ 0) (hfit : d * b.m_Timescale + 500 < 1000 * U32) :
    (∀ d0 : Nat,
      (Sample10.AVCSegmentBuilder.Feed b data n key d0).m_Samples.map (fun s => s.duration)
        = b.m_Samples.map (fun s => s.duration)
          ++ [AP4_ConvertTime (if d0 = 0 then 50 else d0) 1000 b.m_Timescale % U32]
      ∧ (Sample9.Feed b data n key d0).m_Samples.map (fun s => s.duration)
        = b.m_Samples.map (fun s => s.duration)
          ++ [AP4_ConvertTime (if d0 = 0 then 50 else d0) 1000 b.m_Timescale % U32])
    ∧ ∃ r : Nat, 1000 * r ≤ d * b.m_Timescale + 500 ∧ d * b.m_Timescale + 500 < 1000 * r + 1000
      ∧ r < U32
      ∧ (Sample10.AVCSegmentBuilder.Feed b data n key d).m_Samples.map (fun s => s.duration)
          = b.m_Samples.map (fun s => s.duration) ++ [r]
      ∧ (Sample9.Feed b data n key d).m_Samples.map (fun s => s.duration)
          = b.m_Samples.map (fun s => s.duration) ++ [r] := by
  have hr := AP4_ConvertTime_round d b.m_Timescale
  have hlt : AP4_ConvertTime d 1000 b.m_Timescale < U32 := by omega
  refine ⟨fun d0 => ⟨by simp [feed10_samples, timescaleDuration],
    by simp [feed9_samples, timescaleDuration]⟩,
    AP4_ConvertTime d 1000 b.m_Timescale, hr.1, hr.2, hlt, ?_, ?_⟩
  · simp [feed10_samples, timescaleDuration, hd, Nat.mod_eq_of_lt hlt]
  · simp [feed9_samples, timescaleDuration, hd, Nat.mod_eq_of_lt hlt]

theorem C11_feed_duration_witness :
    (40 : Nat) ≠ 0 ∧ 40 * Sample10.AVCSegmentBuilder.new.m_Timescale + 500 < 1000 * U32
    ∧ ∃ r : Nat, 1000 * r ≤ 40 * Sample10.AVCSegmentBuilder.new.m_Timescale + 500
      ∧ 40 * Sample10.AVCSegmentBuilder.new.m_Timescale + 500 < 1000 * r + 1000
      ∧ r < U32
      ∧ (Sample10.AVCSegmentBuilder.Feed Sample10.AVCSegmentBuilder.new [0x65, 0x88] 2 true
          40).m_Samples.map (fun s => s.duration)
          = Sample10.AVCSegmentBuilder.new.m_Samples.map (fun s => s.duration) ++ [r]
      ∧ (Sample9.Feed Sample10.AVCSegmentBuilder.new [0x65, 0x88] 2 true
          40).m_Samples.map (fun s => s.duration)
          = Sample10.AVCSegmentBuilder.new.m_Samples.map (fun s => s.duration) ++ [r] :=
  ⟨by decide, by decide,
    (C11_feed_duration Sample10.AVCSegmentBuilder.new [0x65, 0x88] 2 true 40
      (by decide) (by decide)).2⟩

/-! ## The sample flags of the trun entries (C13) -/

theorem feedAll9_eq (b : AP4_SegmentBuilder) (ps : List (List Byte × Bool × Nat)) :
    Sample9.feedAll b ps = Sample10.feedAll b ps := rfl

/-- C13: after any run of `Feed` calls the trun of the fragment built from the pending
samples (sample10's `AddTrafAtom`, sample9's `WriteMediaSegment`) has one entry for
each pending sample, in order, and the `sample_flags` of the entry of a sample fed
with `is_key_frame = true` is 0x02000000, of any other 0x01010000. -/
theorem C13_sample_flags (b : AP4_SegmentBuilder) (ps : List (List Byte × Bool × Nat))
    (mfhd : AP4_MfhdAtom) (seq : Nat) :
    ((Sample10.AVCSegmentBuilder.AddTrafAtom (Sample10.feedAll b ps) mfhd).traf.trun.entries.map
        (fun e => e.sample_flags)
      = (b.m_Samples.map (fun s => s.sync) ++ ps.map (fun p => p.2.1)).map
          (fun key => if key then 0x02000000 else 0x01010000))
    ∧ ((Sample9.buildMoof (Sample9.feedAll b ps) seq).1.traf.trun.entries.map
        (fun e => e.sample_flags)
      = (b.m_Samples.map (fun s => s.sync) ++ ps.map (fun p => p.2.1)).map
          (fun key => if key then 0x02000000 else 0x01010000)) := by
  rw [Sample9.buildMoof_eq, feedAll9_eq, AddTrafAtom_entries, AddTrafAtom_entries,
    (feedAll_samples b ps).1]
  simp [entryOf, fedSample, Function.comp_def]

/-! ## The order of the scanned NAL units (C20) -/

theorem slice_to_end (data : List Byte) (o : Nat) :
    slice data o (data.length - o) = data.drop o := by
  simp [slice, List.take_of_length_le]

theorem nalusFrom_lower (length o : Nat) (l : List GstH264NalUnit) (h : nalusFrom length o l) :
    ∀ n ∈ l, o + 3 ≤ n.offset := by
  induction l generalizing o with
  | nil => simp
  | cons a rest ih =>
    intro n hn
    obtain ⟨h1, h2, h3, h4⟩ := h
    rcases List.mem_cons.1 hn with h | h
    · subst h; exact h1
    · have := ih _ h4 n h
      omega

theorem nalusFrom_pairwise (length o : Nat) (l : List GstH264NalUnit)
    (h : nalusFrom length o l) :
    l.Pairwise (fun a b => a.offset < b.offset ∧ a.offset + a.size + 3 ≤ b.offset) := by
  induction l generalizing o with
  | nil => exact List.Pairwise.nil
  | cons a rest ih =>
    obtain ⟨h1, h2, h3, h4⟩ := h
    refine List.Pairwise.cons ?_ (ih _ h4)
    intro b hb
    have := nalusFrom_lower _ _ _ h4 b hb
    omega

theorem slice_length_of_le (data : List Byte) (off n : Nat) (h : off + n ≤ data.length) :
    (slice data off n).length = n := by
  simp only [slice, List.length_take, List.length_drop]
  omega

/-- A store into the zero bytes that follow what has been stored so far. -/
theorem pokeBytes_zeros (pre bs : List Byte) (k q j : Nat) (hq : q = pre.length)
    (hk : bs.length + j = k) :
    pokeBytes (pre ++ List.replicate k 0) q bs = (pre ++ bs) ++ List.replicate j 0 := by
  subst hq
  subst hk
  simp [pokeBytes, List.take_append_eq_append_take, List.drop_append_eq_append_drop,
    List.take_of_length_le]

/-- C16: for an SPS of `s` bytes and a PPS of `p` bytes that lie inside the sample
buffer (`s`, `p` below 65536, as the 16-bit length fields hold them), the `extradata`
that sample6's `AddH264VideoTrack` fills in is exactly 01, profile_idc,
profile_compatibility, level_idc, FF, E1, the big-endian 16-bit `s`, the SPS bytes,
01, the big-endian 16-bit `p`, the PPS bytes; its length is `s + p + 11`, the
allocated `extradata_size`. -/
theorem C16_avcC_record (data : List Byte) (nal_sps nal_pps : GstH264NalUnit)
    (hs : nal_sps.offset + nal_sps.size ≤ data.length)
    (hp : nal_pps.offset + nal_pps.size ≤ data.length)
    (hs16 : nal_sps.size < 65536) (hp16 : nal_pps.size < 65536) :
    Sample6.AddH264VideoTrack.extradata data nal_sps nal_pps
      = [0x01, (gst_h264_parser_parse_sps data nal_sps).profile_idc,
          (((gst_h264_parser_parse_sps data nal_sps).constraint_set0_flag * 128)
            ||| ((gst_h264_parser_parse_sps data nal_sps).constraint_set1_flag * 64)
            ||| ((gst_h264_parser_parse_sps data nal_sps).constraint_set2_flag * 32)
            ||| ((gst_h264_parser_parse_sps data nal_sps).constraint_set3_flag * 16)) % 256,
          (gst_h264_parser_parse_sps data nal_sps).level_idc, 0xff, 0xe1]
        ++ be16 nal_sps.size ++ slice data nal_sps.offset nal_sps.size
        ++ [0x01] ++ be16 nal_pps.size ++ slice data nal_pps.offset nal_pps.size
    ∧ (Sample6.AddH264VideoTrack.extradata data nal_sps nal_pps).length
        = nal_sps.size + nal_pps.size + 11
    ∧ (slice data nal_sps.offset nal_sps.size).length = nal_sps.size
    ∧ (slice data nal_pps.offset nal_pps.size).length = nal_pps.size := by
  have hls := slice_length_of_le data _ _ hs
  have hlp := slice_length_of_le data _ _ hp
  have heq : Sample6.AddH264VideoTrack.extradata data nal_sps nal_pps
      = [0x01, (gst_h264_parser_parse_sps data nal_sps).profile_idc,
          (((gst_h264_parser_parse_sps data nal_sps).constraint_set0_flag * 128)
            ||| ((gst_h264_parser_parse_sps data nal_sps).constraint_set1_flag * 64)
            ||| ((gst_h264_parser_parse_sps data nal_sps).constraint_set2_flag * 32)
            ||| ((gst_h264_parser_parse_sps data nal_sps).constraint_set3_flag * 16)) % 256,
          (gst_h264_parser_parse_sps data nal_sps).level_idc, 0xff, 0xe1]
        ++ be16 nal_sps.size ++ slice data nal_sps.offset nal_sps.size
        ++ [0x01] ++ be16 nal_pps.size ++ slice data nal_pps.offset nal_pps.size := by
    simp only [Sample6.AddH264VideoTrack.extradata, GstH264NalUnit.payload,
      Nat.mod_eq_of_lt hs16, Nat.mod_eq_of_lt hp16]
    generalize (gst_h264_parser_parse_sps data nal_sps).profile_idc = vp
    generalize (gst_h264_parser_parse_sps data nal_sps).level_idc = vl
    generalize (((gst_h264_parser_parse_sps data nal_sps).constraint_set0_flag * 128)
            ||| ((gst_h264_parser_parse_sps data nal_sps).constraint_set1_flag * 64)
            ||| ((gst_h264_parser_parse_sps data nal_sps).constraint_set2_flag * 32)
            ||| ((gst_h264_parser_parse_sps data nal_sps).constraint_set3_flag * 16)) % 256 = vc
    rw [show List.replicate (nal_sps.size + nal_pps.size + 11) (0 : Byte)
        = [] ++ List.replicate (nal_sps.size + nal_pps.size + 11) 0 from rfl]
    rw [pokeBytes_zeros ([]) [0x01] (nal_sps.size + nal_pps.size + 11) (0) (nal_sps.size + nal_pps.size + 10)
      (rfl) (by simp only [List.length_singleton]; omega)]
    rw [pokeBytes_zeros ([] ++ [0x01]) [vp] (nal_sps.size + nal_pps.size + 10) (0 + 1) (nal_sps.size + nal_pps.size + 9)
      (by simp [be16]) (by simp only [List.length_singleton]; omega)]
    rw [pokeBytes_zeros ([] ++ [0x01] ++ [vp]) [vc] (nal_sps.size + nal_pps.size + 9) (0 + 1 + 1) (nal_sps.size + nal_pps.size + 8)
      (by simp [be16]) (by simp only [List.length_singleton]; omega)]
    rw [pokeBytes_zeros ([] ++ [0x01] ++ [vp] ++ [vc]) [vl] (nal_sps.size + nal_pps.size + 8) (0 + 1 + 1 + 1) (nal_sps.size + nal_pps.size + 7)
      (by simp [be16]) (by simp only [List.length_singleton]; omega)]
    rw [pokeBytes_zeros ([] ++ [0x01] ++ [vp] ++ [vc] ++ [vl]) [0xff] (nal_sps.size + nal_pps.size + 7) (0 + 1 + 1 + 1 + 1) (nal_sps.size + nal_pps.size + 6)
      (by simp [be16]) (by simp only [List.length_singleton]; omega)]
    rw [pokeBytes_zeros ([] ++ [0x01] ++ [vp] ++ [vc] ++ [vl] ++ [0xff]) [0xe1] (nal_sps.size + nal_pps.size + 6) (0 + 1 + 1 + 1 + 1 + 1) (nal_sps.size + nal_pps.size + 5)
      (by simp [be16]) (by simp only [List.length_singleton]; omega)]
    rw [pokeBytes_zeros ([] ++ [0x01] ++ [vp] ++ [vc] ++ [vl] ++ [0xff] ++ [0xe1]) (be16 nal_sps.size) (nal_sps.size + nal_pps.size + 5) (0 + 1 + 1 + 1 + 1 + 1 + 1) (nal_sps.size + nal_pps.size + 3)
      (by simp [be16]) (by simp only [be16, List.length_cons, List.length_nil]; omega)]
    rw [pokeBytes_zeros ([] ++ [0x01] ++ [vp] ++ [vc] ++ [vl] ++ [0xff] ++ [0xe1] ++ (be16 nal_sps.size)) (slice data nal_sps.offset nal_sps.size) (nal_sps.size + nal_pps.size + 3) (0 + 1 + 1 + 1 + 1 + 1 + 1 + 2) (nal_pps.size + 3)
      (by simp [be16]) (by rw [hls]; omega)]
    rw [pokeBytes_zeros ([] ++ [0x01] ++ [vp] ++ [vc] ++ [vl] ++ [0xff] ++ [0xe1] ++ (be16 nal_sps.size) ++ (slice data nal_sps.offset nal_sps.size)) [0x01] (nal_pps.size + 3) (0 + 1 + 1 + 1 + 1 + 1 + 1 + 2 + nal_sps.size) (nal_pps.size + 2)
      (by simp [be16, hls]; omega) (by simp only [List.length_singleton]; omega)]
    rw [pokeBytes_zeros ([] ++ [0x01] ++ [vp] ++ [vc] ++ [vl] ++ [0xff] ++ [0xe1] ++ (be16 nal_sps.size) ++ (slice data nal_sps.offset nal_sps.size) ++ [0x01]) (be16 nal_pps.size) (nal_pps.size + 2) (0 + 1 + 1 + 1 + 1 + 1 + 1 + 2 + nal_sps.size + 1) (nal_pps.size)
      (by simp [be16, hls]; omega) (by simp only [be16, List.length_cons, List.length_nil]; omega)]
    rw [pokeBytes_zeros ([] ++ [0x01] ++ [vp] ++ [vc] ++ [vl] ++ [0xff] ++ [0xe1] ++ (be16 nal_sps.size) ++ (slice data nal_sps.offset nal_sps.size) ++ [0x01] ++ (be16 nal_pps.size)) (slice data nal_pps.offset nal_pps.size) (nal_pps.size) (0 + 1 + 1 + 1 + 1 + 1 + 1 + 2 + nal_sps.size + 1 + 2) (0)
      (by simp [be16, hls]; omega) (by rw [hlp]; omega)]
    simp
  refine ⟨heq, ?_, hls, hlp⟩
  rw [heq]
  simp [be16, hls, hlp]
  omega

/-! ## The init segment (C12, C15, C17, C18) -/

theorem initWrites_append (a b : Stream) : initWrites (a ++ b) = initWrites a ++ initWrites b := by
  simp [initWrites]

theorem initWrites_map_data (bss : List (List Byte)) : initWrites (bss.map Written.data) = [] := by
  induction bss with
  | nil => rfl
  | cons x rest ih =>
    simp only [initWrites] at ih
    simp [initWrites, Written.isInit, ih]

theorem copySamples_data (ss : List AP4_Sample) (stream : Stream) :
    ∃ bss : List (List Byte), (Sample10.copySamples ss stream).1 = stream ++ bss.map Written.data := by
  induction ss generalizing stream with
  | nil => exact ⟨[], by simp [Sample10.copySamples]⟩
  | cons s tl ih =>
    simp only [Sample10.copySamples]
    split
    · obtain ⟨bss, h⟩ := ih (stream ++ [Written.data s.CopyTo.1])
      exact ⟨s.CopyTo.1 :: bss, by simp [h]⟩
    · exact ⟨[s.CopyTo.1], rfl⟩

/-- The writes of one fragment: they follow the stream as it was, hold no init atom,
and exactly one `moof`. -/
theorem fragment_shape (ss : List AP4_Sample) (stream : Stream) (m : MoofAtom) (a c : Nat) :
    ∃ rest, (Sample10.copySamples ss (stream ++ [Written.moof m]
        ++ [Written.ui32 a, Written.ui32 c])).1 = stream ++ rest
      ∧ initWrites rest = [] ∧ moofs rest = [m] := by
  obtain ⟨bss, hbss⟩ := copySamples_data ss
    (stream ++ [Written.moof m] ++ [Written.ui32 a, Written.ui32 c])
  refine ⟨[Written.moof m] ++ [Written.ui32 a, Written.ui32 c] ++ bss.map Written.data, ?_, ?_, ?_⟩
  · rw [hbss]; simp
  · rw [initWrites_append, initWrites_map_data]; rfl
  · rw [moofs_append, moofs_map_data]; rfl

/-- One step of sample10's NAL loop leaves the init flag alone and appends no init
atom; with a builder in place it returns, and a slice adds exactly one fragment. -/
theorem writeNalu10_shape (data : List Byte) (key : Bool) (d : Nat) (w : Sample10.MP4Writer)
    (nalu : GstH264NalUnit) :
    (∀ w1, Sample10.writeNalu data key d w nalu = some w1 →
      w1.is_write_init_segment = w.is_write_init_segment
      ∧ (w.avc_segment_builder.isSome = true → w1.avc_segment_builder.isSome = true)
      ∧ ∃ rest, w1.file_output_stream = w.file_output_stream ++ rest ∧ initWrites rest = [])
    ∧ (w.avc_segment_builder.isSome = true →
        ∃ w1, Sample10.writeNalu data key d w nalu = some w1) := by
  by_cases hs : nalu.isSlice = true
  · cases hb : w.avc_segment_builder with
    | none => simp [Sample10.writeNalu, hs, hb]
    | some b =>
      refine ⟨?_, fun _ => by simp [Sample10.writeNalu, hs, hb]⟩
      intro w1 h
      simp only [Sample10.writeNalu, hs, if_true, hb, Option.some.injEq] at h
      subst h
      refine ⟨rfl, fun _ => rfl, ?_⟩
      simp only [Sample10.WriteMdat_stream, Sample10.WriteMoofAtom]
      obtain ⟨rest, h1, h2, _⟩ := fragment_shape
        (Sample10.AVCSegmentBuilder.Feed b (data.drop nalu.offset) nalu.size key d).m_Samples
        w.file_output_stream _ _ _
      exact ⟨rest, h1, h2⟩
  · have hs2 : nalu.isSlice = false := by simpa using hs
    refine ⟨?_, fun _ => by simp [Sample10.writeNalu, hs2]⟩
    intro w1 h
    simp [Sample10.writeNalu, hs2] at h
    subst h
    exact ⟨rfl, fun h => h, [], by simp, rfl⟩

theorem writeNalus10_shape (data : List Byte) (key : Bool) (d : Nat)
    (nalus : List GstH264NalUnit) (w : Sample10.MP4Writer) :
    (∀ w1, Sample10.writeNalus data key d w nalus = some w1 →
      w1.is_write_init_segment = w.is_write_init_segment
      ∧ (w.avc_segment_builder.isSome = true → w1.avc_segment_builder.isSome = true)
      ∧ ∃ rest, w1.file_output_stream = w.file_output_stream ++ rest ∧ initWrites rest = [])
    ∧ (w.avc_segment_builder.isSome = true →
        ∃ w1, Sample10.writeNalus data key d w nalus = some w1) := by
  induction nalus generalizing w with
  | nil =>
    refine ⟨?_, fun _ => ⟨w, rfl⟩⟩
    intro w1 h
    simp [Sample10.writeNalus] at h
    subst h
    exact ⟨rfl, fun h => h, [], by simp, rfl⟩
  | cons n rest ih =>
    have hstep := writeNalu10_shape data key d w n
    constructor
    · intro w1 h
      simp only [Sample10.writeNalus] at h
      cases h2 : Sample10.writeNalu data key d w n with
      | none => simp [h2] at h
      | some w2 =>
        simp only [h2] at h
        obtain ⟨a1, a2, r1, a3, a4⟩ := hstep.1 w2 h2
        obtain ⟨b1, b2, r2, b3, b4⟩ := (ih w2).1 w1 h
        refine ⟨b1.trans a1, fun hb => b2 (a2 hb), r1 ++ r2, ?_, ?_⟩
        · rw [b3, a3, List.append_assoc]
        · rw [initWrites_append, a4, b4]; rfl
    · intro hb
      obtain ⟨w2, h2⟩ := hstep.2 hb
      obtain ⟨a1, a2, _⟩ := hstep.1 w2 h2
      obtain ⟨w1, h1⟩ := (ih w2).2 (a2 hb)
      exact ⟨w1, by simp only [Sample10.writeNalus, h2, h1]⟩

theorem WriteH264VideoSample10_started (w w1 : Sample10.MP4Writer) (c0 : Call)
    (sample : List Byte) (key : Bool) (d : Nat) (hS : Sample10.Shape (some c0) w)
    (h : Sample10.WriteH264VideoSample w sample key d = some w1) :
    Sample10.Shape (some c0) w1 := by
  obtain ⟨hi, hb, rest, hst, hr⟩ := hS
  simp only [Sample10.WriteH264VideoSample, hi, Bool.not_true, Bool.and_false] at h
  obtain ⟨a1, a2, r1, a3, a4⟩ := (writeNalus10_shape sample key d _ w).1 w1 h
  refine ⟨a1.trans hi, a2 hb, rest ++ r1, ?_, ?_⟩
  · rw [a3, hst, List.append_assoc]
  · rw [initWrites_append, hr, a4]; rfl

theorem WriteH264VideoSample10_idle (w w1 : Sample10.MP4Writer) (sample : List Byte) (d : Nat)
    (hS : Sample10.Shape none w)
    (h : Sample10.WriteH264VideoSample w sample false d = some w1) :
    Sample10.Shape none w1 := by
  obtain ⟨hi, hb, hst⟩ := hS
  simp only [Sample10.WriteH264VideoSample, Bool.false_and] at h
  have := (writeNalus10_none sample false d _ w w1 hb h).1
  subst this
  exact ⟨hi, hb, hst⟩

theorem WriteH264VideoSample10_first (w : Sample10.MP4Writer) (c : Call)
    (hS : Sample10.Shape none w) :
    ∃ w1, Sample10.WriteH264VideoSample w c.sample true c.duration = some w1
      ∧ Sample10.Shape (some c) w1 := by
  obtain ⟨hi, hb, hst⟩ := hS
  simp only [Sample10.WriteH264VideoSample, hi, Bool.not_false, Bool.and_self, if_true, hst]
  obtain ⟨w1, h1⟩ := (writeNalus10_shape c.sample true c.duration (ParseH264NALU c.sample)
    { w with avc_segment_builder := some Sample10.AVCSegmentBuilder.new,
             file_output_stream := Sample10.WriteMoovAtom (Sample10.WriteFtypAtom []) c.sample
               (ParseH264NALU c.sample),
             is_write_init_segment := true }).2 rfl
  obtain ⟨a1, a2, r1, a3, a4⟩ := (writeNalus10_shape c.sample true c.duration _ _).1 w1 h1
  exact ⟨w1, h1, a1, a2 rfl, r1, a3, a4⟩

theorem run10_started (calls : List Call) (w w1 : Sample10.MP4Writer) (c0 : Call)
    (hS : Sample10.Shape (some c0) w) (h : Sample10.run w calls = some w1) :
    Sample10.Shape (some c0) w1 := by
  induction calls generalizing w with
  | nil =>
    simp [Sample10.run] at h
    subst h
    exact hS
  | cons c rest ih =>
    simp only [Sample10.run] at h
    cases h2 : Sample10.WriteH264VideoSample w c.sample c.is_key_frame c.duration with
    | none => simp [h2] at h
    | some w2 =>
      simp only [h2] at h
      exact ih w2 (WriteH264VideoSample10_started w w2 c0 _ _ _ hS h2) h

theorem run10_shape (calls : List Call) (w w1 : Sample10.MP4Writer)
    (hS : Sample10.Shape none w) (h : Sample10.run w calls = some w1) :
    Sample10.Shape (calls.find? (fun c => c.is_key_frame)) w1 := by
  induction calls generalizing w with
  | nil =>
    simp [Sample10.run] at h
    subst h
    exact hS
  | cons c rest ih =>
    simp only [Sample10.run] at h
    cases h2 : Sample10.WriteH264VideoSample w c.sample c.is_key_frame c.duration with
    | none => simp [h2] at h
    | some w2 =>
      simp only [h2] at h
      cases hk : c.is_key_frame with
      | false =>
        rw [hk] at h2
        simp only [List.find?_cons, hk]
        exact ih w2 (WriteH264VideoSample10_idle w w2 _ _ hS h2) h
      | true =>
        rw [hk] at h2
        simp only [List.find?_cons, hk]
        obtain ⟨w3, h3, hS3⟩ := WriteH264VideoSample10_first w c hS
        rw [h2, Option.some.injEq] at h3
        subst h3
        exact run10_started rest w2 w1 c hS3 h

theorem shape10_new : Sample10.Shape none Sample10.MP4Writer.new := ⟨rfl, rfl, rfl⟩

/-! ### sample9 -/

theorem WriteMediaSegment9_builder (b : AP4_SegmentBuilder) (stream : Stream) (seq : Nat) :
    (Sample9.WriteMediaSegment b stream seq).2.1.m_TrackId = b.m_TrackId
    ∧ (Sample9.WriteMediaSegment b stream seq).2.1.m_Timescale = b.m_Timescale := by
  simp only [Sample9.WriteMediaSegment]
  split <;> exact ⟨rfl, rfl⟩

theorem writeNalu9_shape (data : List Byte) (key : Bool) (d : Nat) (w w1 : Sample9.MP4Writer)
    (nalu : GstH264NalUnit) (h : Sample9.writeNalu data key d w nalu = some w1) :
    w1.builder.m_TrackId = w.builder.m_TrackId
    ∧ w1.builder.m_Timescale = w.builder.m_Timescale
    ∧ w1.nal_sps = w.nal_sps
    ∧ w1.nal_pps = w.nal_pps
    ∧ (w.file_output_stream = Sample9.StreamPointer.null →
        w1.file_output_stream = Sample9.StreamPointer.null)
    ∧ (∀ s, w.file_output_stream = Sample9.StreamPointer.stream s →
        ∃ rest, w1.file_output_stream = Sample9.StreamPointer.stream (s ++ rest)
          ∧ initWrites rest = []) := by
  rcases writeNalu9_cases data key d w w1 nalu h with
    ⟨-, rfl⟩ | ⟨-, hst, rfl⟩ | ⟨-, s0, hst, rfl⟩
  · exact ⟨rfl, rfl, rfl, rfl, fun h => h, fun s h => ⟨[], by simpa using h, rfl⟩⟩
  · refine ⟨rfl, rfl, rfl, rfl, fun _ => hst, ?_⟩
    intro s hs
    rw [hst] at hs
    exact absurd hs (by simp)
  · have hb := WriteMediaSegment9_builder
      (Sample9.Feed w.builder (data.drop nalu.offset) nalu.size key d) s0
      ((w.sequence_number + 1) % U32)
    have hf1 : (Sample9.Feed w.builder (data.drop nalu.offset) nalu.size key d).m_TrackId
        = w.builder.m_TrackId := rfl
    have hf2 : (Sample9.Feed w.builder (data.drop nalu.offset) nalu.size key d).m_Timescale
        = w.builder.m_Timescale := rfl
    refine ⟨hb.1.trans hf1, hb.2.trans hf2, rfl, rfl, ?_, ?_⟩
    · intro hn
      rw [hst] at hn
      exact absurd hn (by simp)
    · intro s hs
      rw [hst, Sample9.StreamPointer.stream.injEq] at hs
      subst hs
      simp only [Sample9.WriteMediaSegment_stream]
      obtain ⟨rest, h1, h2, _⟩ := fragment_shape
        (Sample9.Feed w.builder (data.drop nalu.offset) nalu.size key d).m_Samples s0
        (Sample10.AVCSegmentBuilder.AddTrafAtom
          (Sample9.Feed w.builder (data.drop nalu.offset) nalu.size key d)
          { sequence_number := (w.sequence_number + 1) % U32 })
        ((8 + ((Sample9.Feed w.builder (data.drop nalu.offset) nalu.size key d).m_Samples.map
          (fun s => s.size)).sum) % U32) AP4_ATOM_TYPE_MDAT
      refine ⟨rest, ?_, h2⟩
      rw [← h1]
      simp

theorem writeNalus9_shape (data : List Byte) (key : Bool) (d : Nat)
    (nalus : List GstH264NalUnit) (w w1 : Sample9.MP4Writer)
    (h : Sample9.writeNalus data key d w nalus = some w1) :
    w1.builder.m_TrackId = w.builder.m_TrackId
    ∧ w1.builder.m_Timescale = w.builder.m_Timescale
    ∧ w1.nal_sps = w.nal_sps
    ∧ w1.nal_pps = w.nal_pps
    ∧ (w.file_output_stream = Sample9.StreamPointer.null →
        w1.file_output_stream = Sample9.StreamPointer.null)
    ∧ (∀ s, w.file_output_stream = Sample9.StreamPointer.stream s →
        ∃ rest, w1.file_output_stream = Sample9.StreamPointer.stream (s ++ rest)
          ∧ initWrites rest = []) := by
  induction nalus generalizing w with
  | nil =>
    simp only [Sample9.writeNalus, Option.some.injEq] at h
    subst h
    exact ⟨rfl, rfl, rfl, rfl, fun h => h, fun s h => ⟨[], by simpa using h, rfl⟩⟩
  | cons n rest ih =>
    simp only [Sample9.writeNalus] at h
    cases hn : Sample9.writeNalu data key d w n with
    | none => simp [hn] at h
    | some w2 =>
      rw [hn] at h
      obtain ⟨a1, a2, a3, a4, a5, a6⟩ := writeNalu9_shape data key d w w2 n hn
      obtain ⟨b1, b2, b3, b4, b5, b6⟩ := ih w2 h
      refine ⟨b1.trans a1, b2.trans a2, b3.trans a3, b4.trans a4, fun h => b5 (a5 h), ?_⟩
      intro s hs
      obtain ⟨r1, h1, h2⟩ := a6 s hs
      obtain ⟨r2, h3, h4⟩ := b6 _ h1
      refine ⟨r1 ++ r2, by rw [h3, List.append_assoc], ?_⟩
      rw [initWrites_append, h2, h4]; rfl

/-- With the pointer null or on a stream, sample9's NAL loop returns. -/
theorem writeNalus9_returns (data : List Byte) (key : Bool) (d : Nat)
    (nalus : List GstH264NalUnit) (w : Sample9.MP4Writer)
    (hp : w.file_output_stream ≠ Sample9.StreamPointer.invalid) :
    ∃ w1, Sample9.writeNalus data key d w nalus = some w1
      ∧ w1.file_output_stream ≠ Sample9.StreamPointer.invalid := by
  induction nalus generalizing w with
  | nil => exact ⟨w, rfl, hp⟩
  | cons n rest ih =>
    have hstep : ∃ w2, Sample9.writeNalu data key d w n = some w2
        ∧ w2.file_output_stream ≠ Sample9.StreamPointer.invalid := by
      cases hn : Sample9.writeNalu data key d w n with
      | none =>
        exfalso
        by_cases hs : n.isSlice = true
        · cases hst : w.file_output_stream with
          | invalid => exact hp hst
          | null => simp [Sample9.writeNalu, hs, hst] at hn
          | stream s => simp [Sample9.writeNalu, hs, hst] at hn
        · have hs2 : n.isSlice = false := by simpa using hs
          simp [Sample9.writeNalu, hs2] at hn
      | some w2 =>
        refine ⟨w2, rfl, ?_⟩
        rcases writeNalu9_cases data key d w w2 n hn with
          ⟨-, rfl⟩ | ⟨-, hst, rfl⟩ | ⟨-, s, hst, rfl⟩
        · exact hp
        · simp [hst]
        · simp
    obtain ⟨w2, h2, hp2⟩ := hstep
    obtain ⟨w1, h1, hp1⟩ := ih w2 hp2
    exact ⟨w1, by simp only [Sample9.writeNalus, h2, h1], hp1⟩

/-- The members after the assignment loop are the NAL units that the selection loop
of sample10 picks, with the scanned buffer as their `data`. -/
theorem assignParameterSets_select (data : List Byte) (nalus : List GstH264NalUnit)
    (m : Option Sample9.StoredNalUnit × Option Sample9.StoredNalUnit)
    (init : GstH264NalUnit × GstH264NalUnit)
    (h1 : ∀ s, m.1 = some s → s = { nalu := init.1, data := data })
    (h2 : ∀ p, m.2 = some p → p = { nalu := init.2, data := data }) :
    (∀ s, (Sample9.assignParameterSets data nalus m).1 = some s →
        s = { nalu := (selectParameterSets nalus init).1, data := data })
    ∧ (∀ p, (Sample9.assignParameterSets data nalus m).2 = some p →
        p = { nalu := (selectParameterSets nalus init).2, data := data }) := by
  induction nalus generalizing m init with
  | nil => exact ⟨h1, h2⟩
  | cons n rest ih =>
    simp only [Sample9.assignParameterSets, selectParameterSets, List.foldl_cons]
    by_cases c1 : n.type = GST_H264_NAL_SPS
    · simp only [if_pos c1]
      exact ih _ (n, init.2) (fun s hs => (Option.some.inj hs).symm) h2
    · by_cases c2 : n.type = GST_H264_NAL_PPS
      · simp only [if_neg c1, if_pos c2]
        exact ih _ (init.1, n) h1 (fun p hp => (Option.some.inj hp).symm)
      · simp only [if_neg c1, if_neg c2]
        exact ih m init h1 h2

theorem WriteH264VideoSample9_started (w w1 : Sample9.MP4Writer) (c0 : Call)
    (sample : List Byte) (key : Bool) (d : Nat) (hS : Sample9.Shape (some c0) w)
    (h : Sample9.WriteH264VideoSample w sample key d = some w1) :
    Sample9.Shape (some c0) w1 := by
  obtain ⟨ht, hts, hps, rest, hst, hr⟩ := hS
  simp only [Sample9.WriteH264VideoSample, Sample9.openStream, hst] at h
  obtain ⟨b1, b2, _, _, _, b6⟩ := writeNalus9_shape sample key d (ParseH264NALU sample) w w1 h
  obtain ⟨r1, h1, h2⟩ := b6 _ hst
  refine ⟨b1.trans ht, b2.trans hts, hps, rest ++ r1, by rw [h1, List.append_assoc], ?_⟩
  rw [initWrites_append, hr, h2]; rfl

theorem WriteH264VideoSample9_idle (w w1 : Sample9.MP4Writer) (sample : List Byte) (d : Nat)
    (hS : Sample9.Shape none w)
    (h : Sample9.WriteH264VideoSample w sample false d = some w1) :
    Sample9.Shape none w1 := by
  obtain ⟨ht, hts, hst, hsps, hpps⟩ := hS
  simp only [Sample9.WriteH264VideoSample, Sample9.openStream, hst, Bool.false_eq_true,
    if_false] at h
  obtain ⟨b1, b2, b3, b4, b5, _⟩ := writeNalus9_shape sample false d (ParseH264NALU sample)
    w w1 h
  exact ⟨b1.trans ht, b2.trans hts, b5 hst, b3.trans hsps, b4.trans hpps⟩

theorem WriteH264VideoSample9_first (w w1 : Sample9.MP4Writer) (c : Call)
    (hS : Sample9.Shape none w)
    (h : Sample9.WriteH264VideoSample w c.sample true c.duration = some w1) :
    Sample9.Shape (some c) w1 := by
  obtain ⟨ht, hts, hst, hsps, hpps⟩ := hS
  unfold Sample9.WriteH264VideoSample at h
  simp only at h
  cases ho : Sample9.openStream w c.sample (ParseH264NALU c.sample) true with
  | none => simp [ho] at h
  | some w0 =>
    rw [ho] at h
    rcases openStream9_cases w w0 c.sample _ true ho with ⟨-, hk⟩ | ⟨-, -, sps, pps, hsel, rfl⟩
    · exact absurd (hk hst) (by decide)
    · rw [hsps, hpps] at hsel
      have hsel1 := congrArg Prod.fst hsel
      have hsel2 := congrArg Prod.snd hsel
      simp only at hsel1 hsel2
      obtain ⟨e1, e2⟩ := assignParameterSets_select c.sample (ParseH264NALU c.sample)
        (none, none) (GstH264NalUnit.zero, GstH264NalUnit.zero)
        (fun s hs => by simp at hs) (fun p hp => by simp at hp)
      have hs1 := e1 sps hsel1
      have hp1 := e2 pps hsel2
      obtain ⟨b1, b2, _, _, _, b6⟩ := writeNalus9_shape c.sample true c.duration
        (ParseH264NALU c.sample) _ w1 h
      obtain ⟨r1, h1, h2⟩ := b6 _ rfl
      refine ⟨b1.trans ht, b2.trans hts, ⟨sps, pps, hsel⟩, r1, ?_, h2⟩
      rw [h1, hs1, hp1]
      simp only [Sample9.initSegment, Sample9.WriteInitSegment, ht, hts,
        Sample9.MP4Writer.new]

theorem run9_started (calls : List Call) (w w1 : Sample9.MP4Writer) (c0 : Call)
    (hS : Sample9.Shape (some c0) w) (h : Sample9.run w calls = some w1) :
    Sample9.Shape (some c0) w1 := by
  induction calls generalizing w with
  | nil =>
    simp only [Sample9.run, Option.some.injEq] at h
    subst h
    exact hS
  | cons c rest ih =>
    simp only [Sample9.run] at h
    cases h2 : Sample9.WriteH264VideoSample w c.sample c.is_key_frame c.duration with
    | none => simp [h2] at h
    | some w2 =>
      simp only [h2] at h
      exact ih w2 (WriteH264VideoSample9_started w w2 c0 _ _ _ hS h2) h

theorem run9_shape (calls : List Call) (w w1 : Sample9.MP4Writer)
    (hS : Sample9.Shape none w) (h : Sample9.run w calls = some w1) :
    Sample9.Shape (calls.find? (fun c => c.is_key_frame)) w1 := by
  induction calls generalizing w with
  | nil =>
    simp only [Sample9.run, Option.some.injEq] at h
    subst h
    exact hS
  | cons c rest ih =>
    simp only [Sample9.run] at h
    cases h2 : Sample9.WriteH264VideoSample w c.sample c.is_key_frame c.duration with
    | none => simp [h2] at h
    | some w2 =>
      simp only [h2] at h
      cases hk : c.is_key_frame with
      | false =>
        rw [hk] at h2
        simp only [List.find?_cons, hk]
        exact ih w2 (WriteH264VideoSample9_idle w w2 _ _ hS h2) h
      | true =>
        rw [hk] at h2
        simp only [List.find?_cons, hk]
        exact run9_started rest w2 w1 c (WriteH264VideoSample9_first w w2 c hS h2) h

theorem shape9_new : Sample9.Shape none (Sample9.MP4Writer.new false) :=
  ⟨rfl, rfl, rfl, rfl, rfl⟩

/-- Once the stream is open every call of sample9's `WriteH264VideoSample` returns;
before that every call without the key-frame flag does. -/
theorem run9_returns (calls : List Call) (w : Sample9.MP4Writer)
    (hp : w.file_output_stream ≠ Sample9.StreamPointer.invalid)
    (hk : w.file_output_stream = Sample9.StreamPointer.null →
      ∀ c ∈ calls, c.is_key_frame = false) :
    ∃ w1, Sample9.run w calls = some w1 := by
  induction calls generalizing w with
  | nil => exact ⟨w, rfl⟩
  | cons c rest ih =>
    have ho : Sample9.openStream w c.sample (ParseH264NALU c.sample) c.is_key_frame
        = some w := by
      cases hst : w.file_output_stream with
      | invalid => exact absurd hst hp
      | stream s => simp only [Sample9.openStream, hst]
      | null =>
        have := hk hst c (List.mem_cons_self _ _)
        simp [Sample9.openStream, hst, this]
    obtain ⟨w2, h2, hp2⟩ := writeNalus9_returns c.sample c.is_key_frame c.duration
      (ParseH264NALU c.sample) w hp
    have hc : Sample9.WriteH264VideoSample w c.sample c.is_key_frame c.duration = some w2 := by
      simp only [Sample9.WriteH264VideoSample, ho, h2]
    have hnull : w2.file_output_stream = Sample9.StreamPointer.null →
        w.file_output_stream = Sample9.StreamPointer.null := by
      intro h2n
      cases hst : w.file_output_stream with
      | invalid => exact absurd hst hp
      | null => rfl
      | stream s =>
        obtain ⟨r, hr, -⟩ := (writeNalus9_shape _ _ _ _ w w2 h2).2.2.2.2.2 s hst
        rw [hr] at h2n
        exact absurd h2n (by simp)
    obtain ⟨w1, h1⟩ := ih w2 hp2
      (fun h2n x hx => hk (hnull h2n) x (List.mem_cons_of_mem _ hx))
    exact ⟨w1, by simp only [Sample9.run, hc, h1]⟩

theorem initSegment10_eq (sample : List Byte) :
    Sample10.initSegment sample
      = [Written.ftyp 0x69736f35 512 [0x69736f36, 0x6d703431],
         Written.moov 1 9000 (Sample10.AVCSegmentBuilder.AddTrack sample
           (selectParameterSets (ParseH264NALU sample)
             (GstH264NalUnit.zero, GstH264NalUnit.zero)).1
           (selectParameterSets (ParseH264NALU sample)
             (GstH264NalUnit.zero, GstH264NalUnit.zero)).2)] := rfl

theorem initSegment9_eq (sample : List Byte) :
    Sample9.initSegment sample
      = [Written.ftyp 0x69736f35 512 [0x69736f36, 0x6d703431],
         Written.moov 1 9000 (Sample10.AVCSegmentBuilder.AddTrack sample
           (selectParameterSets (ParseH264NALU sample)
             (GstH264NalUnit.zero, GstH264NalUnit.zero)).1
           (selectParameterSets (ParseH264NALU sample)
             (GstH264NalUnit.zero, GstH264NalUnit.zero)).2)] := rfl

/-- C15: over every sequence of `WriteH264VideoSample` calls on one writer, for the
runs that return: nothing is written while no call had `is_key_frame = true`; once
there was one, the stream starts with the `ftyp` and the `moov` built from the sample
of the first such call, and no other `ftyp` or `moov` follows, so every `moof` and
`mdat` comes after the one init segment.  This holds for sample10, and for sample9
when the pointer `file_output_stream`, which the constructor does not initialise,
starts null; when it starts non-null sample9 writes nothing at all. -/
theorem C15_init_segment_once (calls : List Call) :
    (∀ w, Sample10.run Sample10.MP4Writer.new calls = some w →
      (calls.find? (fun c => c.is_key_frame) = none →
        w.file_output_stream = [] ∧ w.is_write_init_segment = false)
      ∧ (∀ c, calls.find? (fun c => c.is_key_frame) = some c →
        ∃ desc rest, w.file_output_stream
            = Written.ftyp 0x69736f35 512 [0x69736f36, 0x6d703431]
              :: Written.moov 1 9000 desc :: rest
          ∧ Sample10.initSegment c.sample
            = [Written.ftyp 0x69736f35 512 [0x69736f36, 0x6d703431], Written.moov 1 9000 desc]
          ∧ initWrites rest = [] ∧ w.is_write_init_segment = true))
    ∧ (∀ w, Sample9.run (Sample9.MP4Writer.new false) calls = some w →
      (calls.find? (fun c => c.is_key_frame) = none →
        w.file_output_stream = Sample9.StreamPointer.null)
      ∧ (∀ c, calls.find? (fun c => c.is_key_frame) = some c →
        ∃ desc rest, w.file_output_stream
            = Sample9.StreamPointer.stream
                (Written.ftyp 0x69736f35 512 [0x69736f36, 0x6d703431]
                  :: Written.moov 1 9000 desc :: rest)
          ∧ Sample9.initSegment c.sample
            = [Written.ftyp 0x69736f35 512 [0x69736f36, 0x6d703431], Written.moov 1 9000 desc]
          ∧ initWrites rest = []))
    ∧ (∀ w, Sample9.run (Sample9.MP4Writer.new true) calls = some w →
        w.file_output_stream = Sample9.StreamPointer.invalid
        ∧ w.file_output_stream.written = []) := by
  refine ⟨?_, ?_, ?_⟩
  · intro w hw
    have h10 := run10_shape calls _ w shape10_new hw
    constructor
    · intro hf
      rw [hf] at h10
      exact ⟨h10.2.2, h10.1⟩
    · intro c hf
      rw [hf] at h10
      obtain ⟨hi, _, rest, hst, hr⟩ := h10
      exact ⟨_, rest, by rw [hst, initSegment10_eq]; rfl, initSegment10_eq c.sample, hr, hi⟩
  · intro w hw
    have h9 := run9_shape calls _ w shape9_new hw
    constructor
    · intro hf
      rw [hf] at h9
      exact h9.2.2.1
    · intro c hf
      rw [hf] at h9
      obtain ⟨_, _, _, rest, hst, hr⟩ := h9
      exact ⟨_, rest, by rw [hst, initSegment9_eq]; rfl, initSegment9_eq c.sample, hr⟩
  · intro w hw
    have := run9_invalid calls _ w rfl hw
    subst this
    exact ⟨rfl, rfl⟩

theorem C15_init_segment_once_witness :
    (Sample10.run Sample10.MP4Writer.new demoCalls).isSome = true
    ∧ (Sample9.run (Sample9.MP4Writer.new false) demoCalls).isSome = true
    ∧ (demoCalls.find? (fun c => c.is_key_frame)).isSome = true
    ∧ (Sample9.run (Sample9.MP4Writer.new false) demoCalls).map
        (fun w => initWrites w.file_output_stream.written)
      = some (Sample9.initSegment
          [0, 0, 0, 1, 0x67, 0x42, 0, 0, 0, 1, 0x68, 0xce, 0, 0, 0, 1, 0x65, 0x88])
    ∧ (∀ w, Sample9.run (Sample9.MP4Writer.new false) demoCalls = some w →
      (demoCalls.find? (fun c => c.is_key_frame) = none →
        w.file_output_stream = Sample9.StreamPointer.null)
      ∧ (∀ c, demoCalls.find? (fun c => c.is_key_frame) = some c →
        ∃ desc rest, w.file_output_stream
            = Sample9.StreamPointer.stream
                (Written.ftyp 0x69736f35 512 [0x69736f36, 0x6d703431]
                  :: Written.moov 1 9000 desc :: rest)
          ∧ Sample9.initSegment c.sample
            = [Written.ftyp 0x69736f35 512 [0x69736f36, 0x6d703431], Written.moov 1 9000 desc]
          ∧ initWrites rest = [])) :=
  ⟨by decide, by decide, by decide, by decide, (C15_init_segment_once demoCalls).2.1⟩

theorem C16_avcC_record_witness :
    ParseH264NALU demoKeyFrame = [⟨7, 0, 4, 4⟩, ⟨8, 8, 12, 2⟩, ⟨5, 15, 18, 2⟩]
    ∧ Sample6.AddH264VideoTrack.extradata demoKeyFrame ⟨7, 0, 4, 4⟩ ⟨8, 8, 12, 2⟩
      = [0x01, 0x42, 0xC0, 0x1E, 0xff, 0xe1, 0, 4, 0x67, 0x42, 0xC0, 0x1E, 0x01, 0, 2, 0x68, 0xCE]
    ∧ (Sample6.AddH264VideoTrack.extradata demoKeyFrame ⟨7, 0, 4, 4⟩ ⟨8, 8, 12, 2⟩).length
      = 4 + 2 + 11 :=
  ⟨by decide,
   (C16_avcC_record demoKeyFrame ⟨7, 0, 4, 4⟩ ⟨8, 8, 12, 2⟩ (by decide) (by decide)
      (by decide) (by decide)).1.trans (by decide),
   (C16_avcC_record demoKeyFrame ⟨7, 0, 4, 4⟩ ⟨8, 8, 12, 2⟩ (by decide) (by decide)
      (by decide) (by decide)).2.1⟩

/-- C17: on the key frame `demoKeyFrame`, whose SPS has the constraint-flag byte 0xC0,
the `avcC` that sample10 and sample9 (with its pointer starting null) write in the
`moov` carries 0x42 and 0x1E from the SPS but 0x00 as profile_compatibility (the
literal `0` passed to `AP4_AvcSampleDescription`), while sample6 stores 0xC0 for the
same SPS. -/
theorem C17_profile_compatibility_is_zero :
    ParseH264NALU demoKeyFrame = [⟨7, 0, 4, 4⟩, ⟨8, 8, 12, 2⟩, ⟨5, 15, 18, 2⟩]
    ∧ GstH264NalUnit.payload demoKeyFrame ⟨7, 0, 4, 4⟩ = [0x67, 0x42, 0xC0, 0x1E]
    ∧ (Sample10.WriteH264VideoSample Sample10.MP4Writer.new demoKeyFrame true 40).map
        (fun w => avcCs w.file_output_stream)
      = some [[0x01, 0x42, 0x00, 0x1E, 0xff, 0xe1, 0, 4, 0x67, 0x42, 0xC0, 0x1E,
               0x01, 0, 2, 0x68, 0xCE]]
    ∧ (Sample9.WriteH264VideoSample (Sample9.MP4Writer.new false) demoKeyFrame true 40).map
        (fun w => avcCs w.file_output_stream.written)
      = some [[0x01, 0x42, 0x00, 0x1E, 0xff, 0xe1, 0, 4, 0x67, 0x42, 0xC0, 0x1E,
               0x01, 0, 2, 0x68, 0xCE]]
    ∧ Sample6.AddH264VideoTrack.extradata demoKeyFrame ⟨7, 0, 4, 4⟩ ⟨8, 8, 12, 2⟩
      = [0x01, 0x42, 0xC0, 0x1E, 0xff, 0xe1, 0, 4, 0x67, 0x42, 0xC0, 0x1E,
         0x01, 0, 2, 0x68, 0xCE] := by
  decide

/-- C14: a non-key slice written before any key frame is not dropped.  In sample10 the
call dereferences the empty `avc_segment_builder` (no result).  In sample9, when the
pointer left by the constructor is null, the call returns with nothing written, but
the sample stays pending, and the first fragment after the key frame carries its
duration (450 for 50 ms) and its bytes in front of those of the key frame; when the
pointer is not null the call writes through it (no result). -/
theorem C14_early_non_key_frame_not_dropped :
    Sample10.WriteH264VideoSample Sample10.MP4Writer.new [0, 0, 0, 1, 0x41, 0x9a] false 50 = none
    ∧ (Sample9.WriteH264VideoSample (Sample9.MP4Writer.new false) [0, 0, 0, 1, 0x41, 0x9a] false
        50).map (fun w => w.file_output_stream) = some Sample9.StreamPointer.null
    ∧ (Sample9.WriteH264VideoSample (Sample9.MP4Writer.new false) [0, 0, 0, 1, 0x41, 0x9a] false
        50).map (fun w => w.builder.m_Samples.map (fun s => (s.data_stream, s.duration)))
        = some [([0, 0, 0, 2, 0x41, 0x9a], 450)]
    ∧ (Sample9.run (Sample9.MP4Writer.new false)
        [⟨[0, 0, 0, 1, 0x41, 0x9a], false, 50⟩, ⟨demoKeyFrame, true, 40⟩]).map
        (fun w => ((moofs w.file_output_stream.written).map trunDurations,
          dataWrites w.file_output_stream.written))
        = some ([[450, 360]], [[0, 0, 0, 2, 0x41, 0x9a], [0, 0, 0, 2, 0x65, 0x88]])
    ∧ Sample9.WriteH264VideoSample (Sample9.MP4Writer.new true) [0, 0, 0, 1, 0x41, 0x9a] false
        50 = none := by
  decide

theorem scan_none_of_no_zero (l : List Byte) (h : ∀ x ∈ l, x ≠ 0) :
    scan_for_start_codes l = none := by
  induction l with
  | nil => rfl
  | cons a tl ih =>
    simp only [scan_for_start_codes]
    rw [if_neg (fun hc => h a (List.mem_cons_self _ _) hc.1),
      ih (fun x hx => h x (List.mem_cons_of_mem _ hx))]
    rfl

theorem identify_sps_of_key_frame (a : Byte) (t : List Byte) :
    gst_h264_parser_identify_nalu
      ([0, 0, 0, 1, 0x67, 0x42, 0xC0, 0x1E, 0, 0, 0, 1, 0x68, 0xCE, 0, 0, 0, 1] ++ a :: t) 0
      ([0, 0, 0, 1, 0x67, 0x42, 0xC0, 0x1E, 0, 0, 0, 1, 0x68, 0xCE, 0, 0, 0, 1] ++ a :: t).length
      = some ⟨7, 0, 4, 4⟩ := by
  simp only [gst_h264_parser_identify_nalu, gst_h264_parser_identify_nalu_unchecked, slice_to_end]
  rw [if_neg (by simp)]
  simp +decide [scan_for_start_codes, stripTrailingZeros, GST_H264_NAL_SPS, GST_H264_NAL_PPS,
    GST_H264_NAL_AU_DELIMITER]

theorem identify_pps_of_key_frame (a : Byte) (t : List Byte) :
    gst_h264_parser_identify_nalu
      ([0, 0, 0, 1, 0x67, 0x42, 0xC0, 0x1E, 0, 0, 0, 1, 0x68, 0xCE, 0, 0, 0, 1] ++ a :: t) 8
      ([0, 0, 0, 1, 0x67, 0x42, 0xC0, 0x1E, 0, 0, 0, 1, 0x68, 0xCE, 0, 0, 0, 1] ++ a :: t).length
      = some ⟨8, 8, 12, 2⟩ := by
  simp only [gst_h264_parser_identify_nalu, gst_h264_parser_identify_nalu_unchecked, slice_to_end]
  rw [if_neg (by simp)]
  simp +decide [scan_for_start_codes, stripTrailingZeros, GST_H264_NAL_SPS, GST_H264_NAL_PPS,
    GST_H264_NAL_AU_DELIMITER]

theorem identify_slice_of_key_frame (a : Byte) (t : List Byte) (h0 : ∀ x ∈ a :: t, x ≠ 0)
    (ha : a &&& 0x1f = 5) :
    gst_h264_parser_identify_nalu_unchecked
      ([0, 0, 0, 1, 0x67, 0x42, 0xC0, 0x1E, 0, 0, 0, 1, 0x68, 0xCE, 0, 0, 0, 1] ++ a :: t) 14
      ([0, 0, 0, 1, 0x67, 0x42, 0xC0, 0x1E, 0, 0, 0, 1, 0x68, 0xCE, 0, 0, 0, 1] ++ a :: t).length
      = some ⟨5, 15, 18, t.length + 1⟩
    ∧ gst_h264_parser_identify_nalu
      ([0, 0, 0, 1, 0x67, 0x42, 0xC0, 0x1E, 0, 0, 0, 1, 0x68, 0xCE, 0, 0, 0, 1] ++ a :: t) 14
      ([0, 0, 0, 1, 0x67, 0x42, 0xC0, 0x1E, 0, 0, 0, 1, 0x68, 0xCE, 0, 0, 0, 1] ++ a :: t).length
      = none := by
  have hs := scan_none_of_no_zero (a :: t) h0
  have hu : gst_h264_parser_identify_nalu_unchecked
      ([0, 0, 0, 1, 0x67, 0x42, 0xC0, 0x1E, 0, 0, 0, 1, 0x68, 0xCE, 0, 0, 0, 1] ++ a :: t) 14
      ([0, 0, 0, 1, 0x67, 0x42, 0xC0, 0x1E, 0, 0, 0, 1, 0x68, 0xCE, 0, 0, 0, 1] ++ a :: t).length
      = some ⟨5, 15, 18, t.length + 1⟩ := by
    simp only [gst_h264_parser_identify_nalu_unchecked, slice_to_end]
    rw [if_neg (by simp)]
    simp +decide [scan_for_start_codes, ha, GST_H264_NAL_SPS, GST_H264_NAL_PPS,
      GST_H264_NAL_AU_DELIMITER]
  refine ⟨hu, ?_⟩
  simp only [gst_h264_parser_identify_nalu, hu, slice_to_end]
  have hd : List.drop 18
      ([0, 0, 0, 1, 0x67, 0x42, 0xC0, 0x1E, 0, 0, 0, 1, 0x68, 0xCE, 0, 0, 0, 1] ++ a :: t)
      = a :: t := by simp
  rw [hd, hs]

/-- The scan of a key frame made of SPS, PPS and one IDR slice whose bytes are all
different from zero: three NAL units, the slice bounded by the end of the buffer. -/
theorem ParseH264NALU_key_frame (a : Byte) (t : List Byte) (h0 : ∀ x ∈ a :: t, x ≠ 0)
    (ha : a &&& 0x1f = 5) :
    ParseH264NALU
      ([0, 0, 0, 1, 0x67, 0x42, 0xC0, 0x1E, 0, 0, 0, 1, 0x68, 0xCE, 0, 0, 0, 1] ++ a :: t)
      = [⟨7, 0, 4, 4⟩, ⟨8, 8, 12, 2⟩, ⟨5, 15, 18, t.length + 1⟩] := by
  have hfuel : ([0, 0, 0, 1, 0x67, 0x42, 0xC0, 0x1E, 0, 0, 0, 1, 0x68, 0xCE, 0, 0, 0, 1]
      ++ a :: t).length = t.length + 16 + 1 + 1 + 1 := by simp
  have h3 := identify_slice_of_key_frame a t h0 ha
  unfold ParseH264NALU
  conv_lhs => arg 3; rw [hfuel]
  simp only [ParseH264NALU.scan, identify_sps_of_key_frame a t, identify_pps_of_key_frame a t,
    Nat.reduceAdd, h3.1, h3.2]

theorem ParseH264NALU_bigKeyFrame :
    ParseH264NALU bigKeyFrame = [⟨7, 0, 4, 4⟩, ⟨8, 8, 12, 2⟩, ⟨5, 15, 18, 1000⟩] := by
  have := ParseH264NALU_key_frame 0x65 (List.replicate 999 0x88)
    (by
      intro x hx
      rcases List.mem_cons.1 hx with h | h
      · subst h; decide
      · rw [List.eq_of_mem_replicate h]; decide)
    (by decide)
  rw [List.length_replicate] at this
  exact this

theorem writeNalus10_no_slice (data : List Byte) (key : Bool) (d : Nat)
    (nalus : List GstH264NalUnit) (w : Sample10.MP4Writer)
    (h : nalus.filter GstH264NalUnit.isSlice = []) :
    Sample10.writeNalus data key d w nalus = some w := by
  induction nalus with
  | nil => rfl
  | cons n rest ih =>
    by_cases hs : n.isSlice = true
    · simp [List.filter_cons, hs] at h
    · have hs2 : n.isSlice = false := by simpa using hs
      simp only [List.filter_cons, hs2] at h
      simp only [Sample10.writeNalus, Sample10.writeNalu, hs2]
      exact ih h

theorem writeNalus10_single_slice (data : List Byte) (key : Bool) (d : Nat)
    (nalus : List GstH264NalUnit) (w : Sample10.MP4Writer) (n : GstH264NalUnit)
    (h : nalus.filter GstH264NalUnit.isSlice = [n]) :
    Sample10.writeNalus data key d w nalus = Sample10.writeNalu data key d w n := by
  induction nalus with
  | nil => simp at h
  | cons x rest ih =>
    by_cases hs : x.isSlice = true
    · simp only [List.filter_cons, hs, if_true, List.cons.injEq] at h
      obtain ⟨hx, hrest⟩ := h
      subst hx
      simp only [Sample10.writeNalus]
      cases h2 : Sample10.writeNalu data key d w x with
      | none => rfl
      | some w2 => exact writeNalus10_no_slice data key d rest w2 hrest
    · have hs2 : x.isSlice = false := by simpa using hs
      simp only [List.filter_cons, hs2] at h
      have hx : Sample10.writeNalu data key d w x = some w := by
        simp [Sample10.writeNalu, hs2]
      simp only [Sample10.writeNalus, hx]
      exact ih h

/-- A key frame with exactly one slice NAL unit, written first on a new sample10
writer: the init segment, then one fragment whose trun has the one entry of the
slice, with the duration converted at the 9000 track timescale. -/
theorem first_key_frame_fragment (sample : List Byte) (n : GstH264NalUnit) (d : Nat)
    (hn : (ParseH264NALU sample).filter GstH264NalUnit.isSlice = [n]) :
    ∃ w1 desc rest m,
      Sample10.WriteH264VideoSample Sample10.MP4Writer.new sample true d = some w1
      ∧ w1.file_output_stream = Written.ftyp 0x69736f35 512 [0x69736f36, 0x6d703431]
          :: Written.moov 1 9000 desc :: rest
      ∧ initWrites rest = [] ∧ moofs rest = [m]
      ∧ m.traf.trun.entries
        = [{ sample_duration := timescaleDuration 9000 d, sample_size := (n.size + 4) % U32,
             sample_flags := 0x02000000, sample_composition_time_offset := 0 }] := by
  have hslice : n.isSlice = true := by
    have : n ∈ (ParseH264NALU sample).filter GstH264NalUnit.isSlice := by rw [hn]; simp
    exact (List.mem_filter.1 this).2
  obtain ⟨rest, h1, h2, h3⟩ := fragment_shape
    (Sample10.AVCSegmentBuilder.Feed Sample10.AVCSegmentBuilder.new (sample.drop n.offset)
      n.size true d).m_Samples
    (Sample10.WriteMoovAtom (Sample10.WriteFtypAtom []) sample (ParseH264NALU sample))
    (Sample10.AVCSegmentBuilder.AddTrafAtom
      (Sample10.AVCSegmentBuilder.Feed Sample10.AVCSegmentBuilder.new (sample.drop n.offset)
        n.size true d) { sequence_number := (0 + 1) % U32 })
    ((8 + ((Sample10.AVCSegmentBuilder.Feed Sample10.AVCSegmentBuilder.new
      (sample.drop n.offset) n.size true d).m_Samples.map (fun s => s.size)).sum) % U32)
    AP4_ATOM_TYPE_MDAT
  cases hres : Sample10.WriteH264VideoSample Sample10.MP4Writer.new sample true d with
  | none =>
    simp [Sample10.WriteH264VideoSample, Sample10.MP4Writer.new,
      writeNalus10_single_slice _ _ _ _ _ n hn, Sample10.writeNalu, hslice] at hres
  | some w1 =>
    simp only [Sample10.WriteH264VideoSample, Sample10.MP4Writer.new, Bool.not_false,
      Bool.and_self, if_true, writeNalus10_single_slice _ _ _ _ _ n hn, Sample10.writeNalu,
      hslice, Sample10.WriteMdat_stream, Sample10.WriteMoofAtom, Option.some.injEq] at hres
    subst hres
    refine ⟨_, Sample10.AVCSegmentBuilder.AddTrack sample
        (selectParameterSets (ParseH264NALU sample) (GstH264NalUnit.zero, GstH264NalUnit.zero)).1
        (selectParameterSets (ParseH264NALU sample) (GstH264NalUnit.zero, GstH264NalUnit.zero)).2,
      rest,
      Sample10.AVCSegmentBuilder.AddTrafAtom
        (Sample10.AVCSegmentBuilder.Feed Sample10.AVCSegmentBuilder.new (sample.drop n.offset)
          n.size true d) { sequence_number := (0 + 1) % U32 }, rfl, h1, h2, h3, ?_⟩
    rw [AddTrafAtom_entries, feed10_samples]
    simp [entryOf, Sample10.AVCSegmentBuilder.new, MP4_DEFAULT_VIDEO_TIMESCALE]

theorem bigKeyFrame_slices :
    (ParseH264NALU bigKeyFrame).filter GstH264NalUnit.isSlice = [⟨5, 15, 18, 1000⟩] := by
  rw [ParseH264NALU_bigKeyFrame]
  decide

/-- C12 (counterexample): the key frame `bigKeyFrame` (SPS, PPS and one IDR slice of
1000 bytes) written with duration 40 ms on a new sample10 writer.  The track
timescale is 9000, and the one trun entry of the one fragment has `sample_duration`
360, not 3600. -/
theorem C12_sample_duration_is_360 :
    (ParseH264NALU bigKeyFrame).filter GstH264NalUnit.isSlice = [⟨5, 15, 18, 1000⟩]
    ∧ MP4_DEFAULT_VIDEO_TIMESCALE = 9000
    ∧ ∃ w1 m,
        Sample10.WriteH264VideoSample Sample10.MP4Writer.new bigKeyFrame true 40 = some w1
        ∧ moofs w1.file_output_stream = [m]
        ∧ m.traf.trun.entries.map (fun e => e.sample_duration) = [360]
        ∧ (360 : Nat) ≠ 3600 := by
  refine ⟨bigKeyFrame_slices, rfl, ?_⟩
  obtain ⟨w1, desc, rest, m, h1, h2, _, h4, h5⟩ :=
    first_key_frame_fragment bigKeyFrame ⟨5, 15, 18, 1000⟩ 40 bigKeyFrame_slices
  refine ⟨w1, m, h1, ?_, ?_, by decide⟩
  · rw [h2]
    simpa [moofs] using h4
  · rw [h5]
    decide

/-- C12: when a key frame whose single slice NAL unit has a 1000-byte payload is the
first sample written on a sample10 writer, with duration 40 ms, the stream is the init
segment (`ftyp`, `moov`, written once) followed by one fragment whose trun has the
single entry sample_duration = 360 (the conversion of 40 ms at the track timescale
9000 of `MP4_DEFAULT_VIDEO_TIMESCALE`), sample_size = 1004, sample_flags = 0x02000000. -/
theorem C12_first_fragment_of_key_frame (sample : List Byte) (n : GstH264NalUnit)
    (hn : (ParseH264NALU sample).filter GstH264NalUnit.isSlice = [n]) (hsz : n.size = 1000) :
    ∃ w1 desc rest m,
      Sample10.WriteH264VideoSample Sample10.MP4Writer.new sample true 40 = some w1
      ∧ w1.file_output_stream = Written.ftyp 0x69736f35 512 [0x69736f36, 0x6d703431]
          :: Written.moov 1 9000 desc :: rest
      ∧ initWrites rest = [] ∧ moofs rest = [m]
      ∧ m.traf.trun.entries
        = [{ sample_duration := 360, sample_size := 1004, sample_flags := 0x02000000,
             sample_composition_time_offset := 0 }]
      ∧ AP4_ConvertTime 40 1000 MP4_DEFAULT_VIDEO_TIMESCALE = 360 := by
  obtain ⟨w1, desc, rest, m, h1, h2, h3, h4, h5⟩ := first_key_frame_fragment sample n 40 hn
  refine ⟨w1, desc, rest, m, h1, h2, h3, h4, ?_, by decide⟩
  rw [h5, hsz]
  decide

theorem C12_first_fragment_of_key_frame_witness :
    (ParseH264NALU bigKeyFrame).filter GstH264NalUnit.isSlice = [⟨5, 15, 18, 1000⟩]
    ∧ (⟨5, 15, 18, 1000⟩ : GstH264NalUnit).size = 1000
    ∧ ∃ w1 desc rest m,
      Sample10.WriteH264VideoSample Sample10.MP4Writer.new bigKeyFrame true 40 = some w1
      ∧ w1.file_output_stream = Written.ftyp 0x69736f35 512 [0x69736f36, 0x6d703431]
          :: Written.moov 1 9000 desc :: rest
      ∧ initWrites rest = [] ∧ moofs rest = [m]
      ∧ m.traf.trun.entries
        = [{ sample_duration := 360, sample_size := 1004, sample_flags := 0x02000000,
             sample_composition_time_offset := 0 }]
      ∧ AP4_ConvertTime 40 1000 MP4_DEFAULT_VIDEO_TIMESCALE = 360 :=
  ⟨bigKeyFrame_slices, rfl,
    C12_first_fragment_of_key_frame bigKeyFrame ⟨5, 15, 18, 1000⟩ bigKeyFrame_slices rfl⟩

/-! ## A sink that rejects writes (C19) -/

theorem writeAll_succeeds (f : FileOutputStream) (buffers : List (List Byte)) :
    (FileOutputStream.writeAll f buffers).1 = true := by
  induction buffers generalizing f with
  | nil => rfl
  | cons b rest ih =>
    simp only [FileOutputStream.writeAll, ih, Bool.and_true]
    rfl

/-- C19: a write the device rejects is not surfaced.  `WritePartial` returns
`AP4_SUCCESS` whatever `fwrite` stores, so every write of a fragment succeeds as far
as the writer can tell.  On a sample10 writer that has written the key frame
`demoKeyFrame`, the call for the non-key slice `00 00 00 01 41 9a` issues a fragment
of 118 bytes (`moof`, `mdat` header, sample); on a full device none of them is
stored, yet the call returns `true` and the sequence number has advanced to 2. -/
theorem C19_sink_failure_not_surfaced :
    (∀ (f : FileOutputStream) (buffers : List (List Byte)),
      (FileOutputStream.writeAll f buffers).1 = true)
    ∧ (Sample10.run Sample10.MP4Writer.new [⟨demoKeyFrame, true, 40⟩]).map
        (fun w => (w.sequence_number, w.file_output_stream.length)) = some (1, 6)
    ∧ (Sample10.run Sample10.MP4Writer.new [⟨demoKeyFrame, true, 40⟩]).bind
        (fun w => Sample10.WriteH264VideoSample.result w [0, 0, 0, 1, 0x41, 0x9a] false 40)
        = some true
    ∧ (Sample10.run Sample10.MP4Writer.new
          [⟨demoKeyFrame, true, 40⟩, ⟨[0, 0, 0, 1, 0x41, 0x9a], false, 40⟩]).map
        (fun w => (w.sequence_number,
          ((w.file_output_stream.drop 6).filterMap Written.bytes?).map List.length,
          FileOutputStream.writeAll { stored := [], room := 0, position := 0 }
            ((w.file_output_stream.drop 6).filterMap Written.bytes?)))
        = some (2, [104, 4, 4, 6], true, { stored := [], room := 0, position := 118 }) := by
  refine ⟨writeAll_succeeds, by decide, by decide, by decide⟩

/-! ## The split fragment writer and the single one (C26) -/

/-- C26: for every builder state (pending samples, media start time), stream and
sequence number, sample10's `WriteMoofAtom` followed by `MP4Writer::WriteMdat` leaves
the stream exactly as sample9's `WriteMediaSegment` does, write for write, and the
builder with the same pending list, media start time and media duration.  When every
pending sample can be copied, the writes added are the `moof`, the 32-bit `mdat`
size, the `mdat` type and the sample payloads, with the same bytes, the pending list
is empty and the media start time has advanced by the pending duration. -/
theorem C26_split_writer_equals_WriteMediaSegment (b : AP4_SegmentBuilder) (stream : Stream)
    (seq : Nat) :
    (Sample10.WriteMdat b (Sample10.WriteMoofAtom b stream seq)).2
        = (Sample9.WriteMediaSegment b stream seq).2.2
    ∧ (Sample10.WriteMdat b (Sample10.WriteMoofAtom b stream seq)).1.m_Samples
        = (Sample9.WriteMediaSegment b stream seq).2.1.m_Samples
    ∧ (Sample10.WriteMdat b (Sample10.WriteMoofAtom b stream seq)).1.m_MediaStartTime
        = (Sample9.WriteMediaSegment b stream seq).2.1.m_MediaStartTime
    ∧ (Sample10.WriteMdat b (Sample10.WriteMoofAtom b stream seq)).1.m_MediaDuration
        = (Sample9.WriteMediaSegment b stream seq).2.1.m_MediaDuration
    ∧ ((∀ s ∈ b.m_Samples, s.CopyTo.2 = true) →
        ∃ bytes, (Sample10.WriteMdat b (Sample10.WriteMoofAtom b stream seq)).2
            = stream ++ ([Written.moof (Sample10.AVCSegmentBuilder.AddTrafAtom b
                  { sequence_number := seq }),
                Written.ui32 ((8 + (b.m_Samples.map (fun s => s.size)).sum) % U32),
                Written.ui32 AP4_ATOM_TYPE_MDAT]
              ++ b.m_Samples.map (fun s => Written.data s.CopyTo.1))
          ∧ streamBytes? ([Written.moof (Sample10.AVCSegmentBuilder.AddTrafAtom b
                  { sequence_number := seq }),
                Written.ui32 ((8 + (b.m_Samples.map (fun s => s.size)).sum) % U32),
                Written.ui32 AP4_ATOM_TYPE_MDAT]
              ++ b.m_Samples.map (fun s => Written.data s.CopyTo.1)) = some bytes
          ∧ bytes = (Sample10.AVCSegmentBuilder.AddTrafAtom b { sequence_number := seq }).Write
              ++ be32 ((8 + (b.m_Samples.map (fun s => s.size)).sum) % U32)
              ++ be32 AP4_ATOM_TYPE_MDAT
              ++ (b.m_Samples.map (fun s => s.CopyTo.1)).flatten
          ∧ (Sample10.WriteMdat b (Sample10.WriteMoofAtom b stream seq)).1.m_Samples = []
          ∧ (Sample10.WriteMdat b (Sample10.WriteMoofAtom b stream seq)).1.m_MediaStartTime
              = (b.m_MediaStartTime + b.m_MediaDuration) % U64
          ∧ (Sample9.WriteMediaSegment b stream seq).1 = true) := by
  have hst : (Sample10.WriteMdat b (Sample10.WriteMoofAtom b stream seq)).2
      = (Sample9.WriteMediaSegment b stream seq).2.2 := by
    rw [Sample10.WriteMdat_stream, Sample9.WriteMediaSegment_stream]
    simp [Sample10.WriteMoofAtom]
  have hsz : (AP4_ATOM_HEADER_SIZE + Sample10.AVCSegmentBuilder.GetSampleSize b) % U32
      = (8 + (b.m_Samples.map (fun s => s.size)).sum) % U32 := by
    rw [GetSampleSize_eq]
    simp [AP4_ATOM_HEADER_SIZE]
  have hb : (Sample10.WriteMdat b (Sample10.WriteMoofAtom b stream seq)).1.m_Samples
        = (Sample9.WriteMediaSegment b stream seq).2.1.m_Samples
      ∧ (Sample10.WriteMdat b (Sample10.WriteMoofAtom b stream seq)).1.m_MediaStartTime
        = (Sample9.WriteMediaSegment b stream seq).2.1.m_MediaStartTime
      ∧ (Sample10.WriteMdat b (Sample10.WriteMoofAtom b stream seq)).1.m_MediaDuration
        = (Sample9.WriteMediaSegment b stream seq).2.1.m_MediaDuration := by
    simp only [Sample10.WriteMdat, Sample10.AVCSegmentBuilder.WriteMdat,
      Sample9.WriteMediaSegment, Sample9.copySamples_eq, Sample10.WriteMoofAtom,
      Sample9.buildMoof_mdat_size, Sample9.buildMoof_eq, hsz]
    split <;> exact ⟨rfl, rfl, rfl⟩
  refine ⟨hst, hb.1, hb.2.1, hb.2.2, ?_⟩
  · intro hok
    have h10 := WriteMdat10_ok b (Sample10.WriteMoofAtom b stream seq) hok
    have h9 := WriteMediaSegment9_ok b stream seq hok
    refine ⟨_, ?_, ?_, rfl, ?_, ?_, ?_⟩
    · rw [h10]; simp [Sample10.WriteMoofAtom]
    · have := streamBytes_data (b.m_Samples.map (fun s => s.CopyTo.1))
      simp only [List.map_map, Function.comp_def] at this
      simp [streamBytes?, Written.bytes?, this]
    · rw [h10]
    · rw [h10]
    · rw [h9]

/-! ## A copy that fails in `WriteMdat` (C28) -/

theorem copySamples_fails (ss : List AP4_Sample) (stream : Stream)
    (h : ∃ s ∈ ss, s.CopyTo.2 = false) : (Sample10.copySamples ss stream).2 = false := by
  induction ss generalizing stream with
  | nil => simp at h
  | cons x rest ih =>
    simp only [Sample10.copySamples]
    split
    · rename_i hx
      obtain ⟨s, hs, hf⟩ := h
      rcases List.mem_cons.1 hs with h1 | h1
      · subst h1; rw [hx] at hf; exact absurd hf (by decide)
      · exact ih _ ⟨s, h1, hf⟩
    · rfl

/-- C28: when one of the pending samples cannot be copied, `AVCSegmentBuilder::WriteMdat`
returns `false` and leaves the builder as it was: the pending list is not cleared and
the media start time and duration are not touched.  In the NAL loop of sample10's
`WriteH264VideoSample` the `moof` of that fragment is in the stream by then and the
sequence number has been incremented; the loop body goes on with the builder that
still holds the fed samples. -/
theorem C28_failed_copy_keeps_builder (w : Sample10.MP4Writer) (b0 : AP4_SegmentBuilder)
    (data : List Byte) (key : Bool) (d : Nat) (nalu : GstH264NalUnit)
    (hb : w.avc_segment_builder = some b0) (hs : nalu.isSlice = true)
    (hfail : ∃ s ∈ (Sample10.AVCSegmentBuilder.Feed b0 (data.drop nalu.offset) nalu.size key
      d).m_Samples, s.CopyTo.2 = false) :
    (∀ stream, (Sample10.AVCSegmentBuilder.WriteMdat
        (Sample10.AVCSegmentBuilder.Feed b0 (data.drop nalu.offset) nalu.size key d) stream).1
          = false
      ∧ (Sample10.AVCSegmentBuilder.WriteMdat
        (Sample10.AVCSegmentBuilder.Feed b0 (data.drop nalu.offset) nalu.size key d) stream).2.1
          = Sample10.AVCSegmentBuilder.Feed b0 (data.drop nalu.offset) nalu.size key d)
    ∧ ∃ w1, Sample10.writeNalu data key d w nalu = some w1
      ∧ w1.avc_segment_builder
          = some (Sample10.AVCSegmentBuilder.Feed b0 (data.drop nalu.offset) nalu.size key d)
      ∧ (∀ b1, w1.avc_segment_builder = some b1 →
          b1.m_Samples ≠ [] ∧ b1.m_MediaStartTime = b0.m_MediaStartTime)
      ∧ moofs w1.file_output_stream = moofs w.file_output_stream
          ++ [Sample10.AVCSegmentBuilder.AddTrafAtom
                (Sample10.AVCSegmentBuilder.Feed b0 (data.drop nalu.offset) nalu.size key d)
                { sequence_number := (w.sequence_number + 1) % U32 }]
      ∧ w1.sequence_number = (w.sequence_number + 1) % U32 := by
  have hw : ∀ stream, Sample10.AVCSegmentBuilder.WriteMdat
      (Sample10.AVCSegmentBuilder.Feed b0 (data.drop nalu.offset) nalu.size key d) stream
      = (false, Sample10.AVCSegmentBuilder.Feed b0 (data.drop nalu.offset) nalu.size key d,
          (Sample10.copySamples (Sample10.AVCSegmentBuilder.Feed b0 (data.drop nalu.offset)
            nalu.size key d).m_Samples stream).1) := by
    intro stream
    simp [Sample10.AVCSegmentBuilder.WriteMdat, copySamples_fails _ stream hfail]
  refine ⟨fun stream => by rw [hw stream]; exact ⟨rfl, rfl⟩, ?_⟩
  obtain ⟨rest, h1, _, h3⟩ := fragment_shape
    (Sample10.AVCSegmentBuilder.Feed b0 (data.drop nalu.offset) nalu.size key d).m_Samples
    w.file_output_stream
    (Sample10.AVCSegmentBuilder.AddTrafAtom
      (Sample10.AVCSegmentBuilder.Feed b0 (data.drop nalu.offset) nalu.size key d)
      { sequence_number := (w.sequence_number + 1) % U32 })
    ((8 + ((Sample10.AVCSegmentBuilder.Feed b0 (data.drop nalu.offset) nalu.size key
      d).m_Samples.map (fun s => s.size)).sum) % U32) AP4_ATOM_TYPE_MDAT
  have hwn : Sample10.writeNalu data key d w nalu = some
      { w with
        avc_segment_builder := some (Sample10.WriteMdat
          (Sample10.AVCSegmentBuilder.Feed b0 (data.drop nalu.offset) nalu.size key d)
          (Sample10.WriteMoofAtom
            (Sample10.AVCSegmentBuilder.Feed b0 (data.drop nalu.offset) nalu.size key d)
            w.file_output_stream ((w.sequence_number + 1) % U32))).1,
        file_output_stream := (Sample10.WriteMdat
          (Sample10.AVCSegmentBuilder.Feed b0 (data.drop nalu.offset) nalu.size key d)
          (Sample10.WriteMoofAtom
            (Sample10.AVCSegmentBuilder.Feed b0 (data.drop nalu.offset) nalu.size key d)
            w.file_output_stream ((w.sequence_number + 1) % U32))).2,
        sequence_number := (w.sequence_number + 1) % U32 } := by
    simp [Sample10.writeNalu, hs, hb]
  refine ⟨_, hwn, ?_, ?_, ?_, rfl⟩
  · simp only [Sample10.WriteMdat, hw]
  · intro b1 hb1
    simp only [Sample10.WriteMdat, hw, Option.some.injEq] at hb1
    subst hb1
    refine ⟨?_, rfl⟩
    rw [feed10_samples]
    simp
  · simp only [Sample10.WriteMdat_stream, Sample10.WriteMoofAtom, h1, moofs_append, h3]

theorem C28_failed_copy_keeps_builder_witness :
    Sample10.stuckWriter.avc_segment_builder
        = some { Sample10.AVCSegmentBuilder.new with
            m_MediaDuration := 360,
            m_Samples := [{ data_stream := [0x41, 0x9a], offset := 0, size := 5, duration := 360,
                            description_index := 0, dts := 0, cts_delta := 0, sync := false }] }
    ∧ ∃ w1, Sample10.writeNalu [0, 0, 0, 1, 0x41, 0x9b] false 40 Sample10.stuckWriter ⟨1, 0, 4, 2⟩
        = some w1
      ∧ (∀ b1, w1.avc_segment_builder = some b1 →
          b1.m_Samples ≠ [] ∧ b1.m_MediaStartTime = 0)
      ∧ (moofs w1.file_output_stream).length = 1
      ∧ w1.sequence_number = 1 := by
  obtain ⟨_, w1, h1, _, h3, h4, h5⟩ := C28_failed_copy_keeps_builder Sample10.stuckWriter _
    [0, 0, 0, 1, 0x41, 0x9b] false 40 ⟨1, 0, 4, 2⟩ rfl (by decide)
    ⟨{ data_stream := [0x41, 0x9a], offset := 0, size := 5, duration := 360,
       description_index := 0, dts := 0, cts_delta := 0, sync := false }, by decide, by decide⟩
  refine ⟨rfl, w1, h1, h3, ?_, h5⟩
  rw [h4]
  rfl

/-! ## The parameter sets of the init segment (C22) -/

theorem selectParameterSets_last (nalus : List GstH264NalUnit)
    (init : GstH264NalUnit × GstH264NalUnit) :
    selectParameterSets nalus init
      = (((nalus.filter (fun n => decide (n.type = GST_H264_NAL_SPS))).getLast?).getD init.1,
         ((nalus.filter (fun n => decide (n.type = GST_H264_NAL_PPS))).getLast?).getD init.2) := by
  induction nalus using List.reverseRecOn with
  | nil => rfl
  | append_singleton l a ih =>
    have hstep : selectParameterSets (l ++ [a]) init
        = (if a.type = GST_H264_NAL_SPS then (a, (selectParameterSets l init).2)
          else if a.type = GST_H264_NAL_PPS then ((selectParameterSets l init).1, a)
          else selectParameterSets l init) := by
      simp [selectParameterSets, List.foldl_append]
    rw [hstep, ih]
    have hne : GST_H264_NAL_SPS ≠ GST_H264_NAL_PPS := by decide
    by_cases h1 : a.type = GST_H264_NAL_SPS
    · have h2 : ¬ a.type = GST_H264_NAL_PPS := by rw [h1]; decide
      simp [h1, h2, hne, List.filter_append, List.getLast?_append]
    · by_cases h2 : a.type = GST_H264_NAL_PPS
      · simp [h1, h2, hne, hne.symm, List.filter_append, List.getLast?_append]
      · simp [h1, h2, List.filter_append]

theorem pairwise_getLast {α : Type} (R : α → α → Prop) (l : List α) (c : α)
    (hp : l.Pairwise R) (hl : l.getLast? = some c) : ∀ n ∈ l, n = c ∨ R n c := by
  obtain ⟨ys, rfl⟩ := List.getLast?_eq_some_iff.1 hl
  intro n hn
  rw [List.pairwise_append] at hp
  rcases List.mem_append.1 hn with h | h
  · exact Or.inr (hp.2.2 n h c (by simp))
  · exact Or.inl (by simpa using h)

/-- The last NAL unit of a type in scan order is the last in byte order. -/
theorem last_of_type_is_last (sample : List Byte) (t : Nat) (dflt n : GstH264NalUnit)
    (hn : n ∈ ParseH264NALU sample) (ht : n.type = t) :
    ((((ParseH264NALU sample).filter (fun n => decide (n.type = t))).getLast?).getD dflt).type = t
    ∧ (((ParseH264NALU sample).filter (fun n => decide (n.type = t))).getLast?).getD dflt
        ∈ ParseH264NALU sample
    ∧ n.offset ≤ ((((ParseH264NALU sample).filter
        (fun n => decide (n.type = t))).getLast?).getD dflt).offset := by
  have hmem : n ∈ (ParseH264NALU sample).filter (fun n => decide (n.type = t)) :=
    List.mem_filter.2 ⟨hn, by simpa using ht⟩
  cases hl : ((ParseH264NALU sample).filter (fun n => decide (n.type = t))).getLast? with
  | none =>
    rw [List.getLast?_eq_none_iff] at hl
    rw [hl] at hmem
    simp at hmem
  | some c =>
    have hc := List.mem_filter.1 (List.mem_of_getLast?_eq_some hl)
    have hp := (nalusFrom_pairwise _ _ _ (ParseH264NALU_nalusFrom sample)).filter
      (fun n => decide (n.type = t))
    simp only [Option.getD_some]
    refine ⟨by simpa using hc.2, hc.1, ?_⟩
    rcases pairwise_getLast _ _ c hp hl n hmem with h | h
    · rw [h]
    · exact Nat.le_of_lt h.1

theorem writeNalus6_context (base : Nat) (key : Bool) (d : Nat) (nalus : List GstH264NalUnit)
    (st st1 : Sample6.MP4Writer × List Byte)
    (h : Sample6.writeNalus base key d st nalus = some st1) :
    st1.1.format_context = st.1.format_context := by
  induction nalus generalizing st with
  | nil =>
    simp only [Sample6.writeNalus, Option.some.injEq] at h
    subst h
    rfl
  | cons n rest ih =>
    simp only [Sample6.writeNalus] at h
    cases h2 : Sample6.writeNalu base key d st n with
    | none => simp [h2] at h
    | some st2 =>
      simp only [h2] at h
      rw [ih st2 h]
      unfold Sample6.writeNalu at h2
      split at h2
      · split at h2
        · simp at h2
        · split at h2
          · simp at h2
          · simp only [Option.some.injEq] at h2
            subst h2
            rfl
      · simp only [Option.some.injEq] at h2
        subst h2
        rfl

/-- C22: the loop that picks the parameter sets keeps the last SPS and the last PPS of
the scanned NAL units, which are the ones at the highest offset in the sample; that
pair (in sample10 and sample6 the zeroed NAL unit where the sample has none) builds
the sample description of the `moov` that sample10 and sample9 write for the first
key-frame call of any call sequence that returns (sample9: with its pointer starting
null), and the `extradata` of the track that sample6 adds on a key frame while no track
exists. -/
theorem C22_last_parameter_set_wins (sample : List Byte) :
    (∀ init, selectParameterSets (ParseH264NALU sample) init
        = (lastSPS sample init.1, lastPPS sample init.2))
    ∧ (∀ n ∈ ParseH264NALU sample, n.type = GST_H264_NAL_SPS → ∀ dflt,
        (lastSPS sample dflt).type = GST_H264_NAL_SPS
        ∧ lastSPS sample dflt ∈ ParseH264NALU sample
        ∧ n.offset ≤ (lastSPS sample dflt).offset)
    ∧ (∀ n ∈ ParseH264NALU sample, n.type = GST_H264_NAL_PPS → ∀ dflt,
        (lastPPS sample dflt).type = GST_H264_NAL_PPS
        ∧ lastPPS sample dflt ∈ ParseH264NALU sample
        ∧ n.offset ≤ (lastPPS sample dflt).offset)
    ∧ (Sample10.AVCSegmentBuilder.AddTrack sample (lastSPS sample GstH264NalUnit.zero)
          (lastPPS sample GstH264NalUnit.zero)).sequence_parameters
        = [(lastSPS sample GstH264NalUnit.zero).payload sample]
    ∧ (Sample10.AVCSegmentBuilder.AddTrack sample (lastSPS sample GstH264NalUnit.zero)
          (lastPPS sample GstH264NalUnit.zero)).picture_parameters
        = [(lastPPS sample GstH264NalUnit.zero).payload sample]
    ∧ (∀ (calls : List Call) (c : Call) (w : Sample10.MP4Writer),
        calls.find? (fun c => c.is_key_frame) = some c → c.sample = sample →
        Sample10.run Sample10.MP4Writer.new calls = some w →
        ∃ rest, w.file_output_stream = Written.ftyp 0x69736f35 512 [0x69736f36, 0x6d703431]
          :: Written.moov 1 9000 (Sample10.AVCSegmentBuilder.AddTrack sample
              (lastSPS sample GstH264NalUnit.zero) (lastPPS sample GstH264NalUnit.zero))
          :: rest)
    ∧ (∀ (sps pps : Sample9.StoredNalUnit) (dflt : GstH264NalUnit),
        Sample9.assignParameterSets sample (ParseH264NALU sample) (none, none)
          = (some sps, some pps) →
        sps = { nalu := lastSPS sample dflt, data := sample }
        ∧ pps = { nalu := lastPPS sample dflt, data := sample })
    ∧ (∀ (calls : List Call) (c : Call) (w : Sample9.MP4Writer),
        calls.find? (fun c => c.is_key_frame) = some c → c.sample = sample →
        Sample9.run (Sample9.MP4Writer.new false) calls = some w →
        ∃ rest, w.file_output_stream
          = Sample9.StreamPointer.stream
              (Written.ftyp 0x69736f35 512 [0x69736f36, 0x6d703431]
                :: Written.moov 1 9000 (Sample10.AVCSegmentBuilder.AddTrack sample
                    (lastSPS sample GstH264NalUnit.zero) (lastPPS sample GstH264NalUnit.zero))
                :: rest))
    ∧ (∀ (w : Sample6.MP4Writer) (pre post : List Byte) (d : Nat)
        (r : Sample6.MP4Writer × List Byte),
        w.format_context = none →
        Sample6.WriteH264VideoSample w (pre ++ sample ++ post) pre.length sample.length true d
          = some r →
        r.1.format_context = some (Sample6.AddH264VideoTrack.extradata sample
          (lastSPS sample GstH264NalUnit.zero) (lastPPS sample GstH264NalUnit.zero))) := by
  have hsel : ∀ init, selectParameterSets (ParseH264NALU sample) init
      = (lastSPS sample init.1, lastPPS sample init.2) :=
    fun init => selectParameterSets_last _ init
  refine ⟨hsel, ?_, ?_, rfl, rfl, ?_, ?_, ?_, ?_⟩
  · intro n hn ht dflt
    exact last_of_type_is_last sample _ dflt n hn ht
  · intro n hn ht dflt
    exact last_of_type_is_last sample _ dflt n hn ht
  · intro calls c w hf hc hw
    have h10 := run10_shape calls _ w shape10_new hw
    rw [hf] at h10
    obtain ⟨_, _, rest, hst, _⟩ := h10
    refine ⟨rest, ?_⟩
    rw [hst, initSegment10_eq, hc, hsel]
    rfl
  · intro sps pps dflt ha
    obtain ⟨e1, e2⟩ := assignParameterSets_select sample (ParseH264NALU sample)
      (none, none) (dflt, dflt) (fun s hs => by simp at hs) (fun p hp => by simp at hp)
    have h1 := e1 sps (congrArg Prod.fst ha)
    have h2 := e2 pps (congrArg Prod.snd ha)
    rw [hsel] at h1 h2
    exact ⟨h1, h2⟩
  · intro calls c w hf hc hw
    have h9 := run9_shape calls _ w shape9_new hw
    rw [hf] at h9
    obtain ⟨_, _, _, rest, hst, _⟩ := h9
    refine ⟨rest, ?_⟩
    rw [hst, initSegment9_eq, hc, hsel]
    rfl
  · intro w pre post d r hctx h
    have hsl : slice (pre ++ sample ++ post) pre.length sample.length = sample := by
      simp [slice, List.append_assoc]
    unfold Sample6.WriteH264VideoSample at h
    simp only [hsl, hctx, Option.isNone_none, Bool.and_self, if_true] at h
    have := writeNalus6_context _ _ _ _ _ _ h
    rw [this, hsel]

theorem C22_last_parameter_set_wins_witness :
    ParseH264NALU twoSpsKeyFrame
      = [⟨7, 0, 4, 4⟩, ⟨8, 8, 12, 2⟩, ⟨7, 14, 18, 4⟩, ⟨8, 22, 26, 2⟩, ⟨5, 29, 32, 2⟩]
    ∧ lastSPS twoSpsKeyFrame GstH264NalUnit.zero = ⟨7, 14, 18, 4⟩
    ∧ lastPPS twoSpsKeyFrame GstH264NalUnit.zero = ⟨8, 22, 26, 2⟩
    ∧ (Sample10.run Sample10.MP4Writer.new [⟨twoSpsKeyFrame, true, 40⟩]).isSome = true
    ∧ (Sample9.run (Sample9.MP4Writer.new false) [⟨twoSpsKeyFrame, true, 40⟩]).map
        (fun w => avcCs w.file_output_stream.written)
      = some [[0x01, 0x64, 0x00, 0x28, 0xff, 0xe1, 0, 4, 0x67, 0x64, 0x10, 0x28,
               0x01, 0, 2, 0x68, 0xEE]]
    ∧ selectParameterSets (ParseH264NALU twoSpsKeyFrame)
        (GstH264NalUnit.zero, GstH264NalUnit.zero)
      = (lastSPS twoSpsKeyFrame GstH264NalUnit.zero, lastPPS twoSpsKeyFrame GstH264NalUnit.zero)
    ∧ (Sample10.AVCSegmentBuilder.AddTrack twoSpsKeyFrame
          (lastSPS twoSpsKeyFrame GstH264NalUnit.zero)
          (lastPPS twoSpsKeyFrame GstH264NalUnit.zero)).sequence_parameters
        = [[0x67, 0x64, 0x10, 0x28]] :=
  ⟨by decide, by decide, by decide, by decide, by decide,
    (C22_last_parameter_set_wins twoSpsKeyFrame).1 _,
    (C22_last_parameter_set_wins twoSpsKeyFrame).2.2.2.1.trans (by decide)⟩

/-! ## The flags of every fragment (C23, C24) -/

theorem feed_cts_zero (b : AP4_SegmentBuilder) (data : List Byte) (n : Nat) (key : Bool)
    (d : Nat) (h : ∀ s ∈ b.m_Samples, s.cts_delta = 0) :
    ∀ s ∈ (Sample10.AVCSegmentBuilder.Feed b data n key d).m_Samples, s.cts_delta = 0 := by
  intro s hs
  rw [feed10_samples, List.mem_append] at hs
  rcases hs with hs | hs
  · exact h s hs
  · rw [List.mem_singleton] at hs
    rw [hs]

theorem WriteMdat10_pending (b : AP4_SegmentBuilder) (stream : Stream) :
    ∀ s ∈ (Sample10.WriteMdat b stream).1.m_Samples, s ∈ b.m_Samples := by
  intro s hs
  simp only [Sample10.WriteMdat, Sample10.AVCSegmentBuilder.WriteMdat] at hs
  split at hs
  · simp at hs
  · exact hs

theorem WriteMediaSegment9_pending (b : AP4_SegmentBuilder) (stream : Stream) (seq : Nat) :
    ∀ s ∈ (Sample9.WriteMediaSegment b stream seq).2.1.m_Samples, s ∈ b.m_Samples := by
  intro s hs
  simp only [Sample9.WriteMediaSegment] at hs
  split at hs
  · simp at hs
  · exact hs

theorem writeNalu10_built (data : List Byte) (key : Bool) (d : Nat) (w w1 : Sample10.MP4Writer)
    (nalu : GstH264NalUnit) (hB : Sample10.Built w)
    (h : Sample10.writeNalu data key d w nalu = some w1) : Sample10.Built w1 := by
  by_cases hs : nalu.isSlice = true
  · cases hb : w.avc_segment_builder with
    | none => simp [Sample10.writeNalu, hs, hb] at h
    | some b =>
      simp only [Sample10.writeNalu, hs, if_true, hb, Option.some.injEq] at h
      subst h
      have hfeed := feed_cts_zero b (data.drop nalu.offset) nalu.size key d (hB.2 b hb)
      obtain ⟨rest, h1, _, h3⟩ := fragment_shape
        (Sample10.AVCSegmentBuilder.Feed b (data.drop nalu.offset) nalu.size key d).m_Samples
        w.file_output_stream
        (Sample10.AVCSegmentBuilder.AddTrafAtom
          (Sample10.AVCSegmentBuilder.Feed b (data.drop nalu.offset) nalu.size key d)
          { sequence_number := (w.sequence_number + 1) % U32 })
        ((8 + ((Sample10.AVCSegmentBuilder.Feed b (data.drop nalu.offset) nalu.size key
          d).m_Samples.map (fun s => s.size)).sum) % U32) AP4_ATOM_TYPE_MDAT
      constructor
      · intro m hm
        simp only [Sample10.WriteMdat_stream, Sample10.WriteMoofAtom, h1, moofs_append, h3,
          List.mem_append, List.mem_singleton] at hm
        rcases hm with hm | hm
        · exact hB.1 m hm
        · exact ⟨_, _, hm, by rw [feed10_samples]; simp, hfeed⟩
      · intro b1 hb1 s hs1
        simp only [Option.some.injEq] at hb1
        subst hb1
        exact hfeed s (WriteMdat10_pending _ _ s hs1)
  · have hs2 : nalu.isSlice = false := by simpa using hs
    simp [Sample10.writeNalu, hs2] at h
    subst h
    exact hB

theorem writeNalus10_built (data : List Byte) (key : Bool) (d : Nat)
    (nalus : List GstH264NalUnit) (w w1 : Sample10.MP4Writer) (hB : Sample10.Built w)
    (h : Sample10.writeNalus data key d w nalus = some w1) : Sample10.Built w1 := by
  induction nalus generalizing w with
  | nil =>
    simp [Sample10.writeNalus] at h
    subst h
    exact hB
  | cons n rest ih =>
    simp only [Sample10.writeNalus] at h
    cases h2 : Sample10.writeNalu data key d w n with
    | none => simp [h2] at h
    | some w2 =>
      simp only [h2] at h
      exact ih w2 (writeNalu10_built data key d w w2 n hB h2) h

theorem WriteH264VideoSample10_built (w w1 : Sample10.MP4Writer) (sample : List Byte)
    (key : Bool) (d : Nat) (hB : Sample10.Built w)
    (h : Sample10.WriteH264VideoSample w sample key d = some w1) : Sample10.Built w1 := by
  unfold Sample10.WriteH264VideoSample at h
  simp only at h
  refine writeNalus10_built sample key d _ _ w1 ?_ h
  split
  · constructor
    · intro m hm
      simp only [Sample10.WriteMoovAtom, Sample10.WriteFtypAtom, moofs_append] at hm
      simp [moofs] at hm
      exact hB.1 m hm
    · intro b hb s hs
      simp only [Option.some.injEq] at hb
      subst hb
      simp [Sample10.AVCSegmentBuilder.new] at hs
  · exact hB

theorem run10_built (calls : List Call) (w w1 : Sample10.MP4Writer) (hB : Sample10.Built w)
    (h : Sample10.run w calls = some w1) : Sample10.Built w1 := by
  induction calls generalizing w with
  | nil =>
    simp [Sample10.run] at h
    subst h
    exact hB
  | cons c rest ih =>
    simp only [Sample10.run] at h
    cases h2 : Sample10.WriteH264VideoSample w c.sample c.is_key_frame c.duration with
    | none => simp [h2] at h
    | some w2 =>
      simp only [h2] at h
      exact ih w2 (WriteH264VideoSample10_built w w2 _ _ _ hB h2) h

theorem built10_new : Sample10.Built Sample10.MP4Writer.new := by
  constructor
  · intro m hm
    simp [Sample10.MP4Writer.new, moofs] at hm
  · intro b hb
    simp [Sample10.MP4Writer.new] at hb

theorem writeNalu9_built (data : List Byte) (key : Bool) (d : Nat) (w w1 : Sample9.MP4Writer)
    (nalu : GstH264NalUnit) (hB : Sample9.Built w)
    (h : Sample9.writeNalu data key d w nalu = some w1) : Sample9.Built w1 := by
  have hfeed : ∀ s ∈ (Sample9.Feed w.builder (data.drop nalu.offset) nalu.size key
      d).m_Samples, s.cts_delta = 0 :=
    feed_cts_zero w.builder (data.drop nalu.offset) nalu.size key d hB.2
  rcases writeNalu9_cases data key d w w1 nalu h with
    ⟨-, rfl⟩ | ⟨-, hst, rfl⟩ | ⟨-, s0, hst, rfl⟩
  · exact hB
  · constructor
    · intro m hm
      simp [hst, Sample9.StreamPointer.written, moofs] at hm
    · exact hfeed
  · obtain ⟨rest, h1, _, h3⟩ := fragment_shape
      (Sample9.Feed w.builder (data.drop nalu.offset) nalu.size key d).m_Samples s0
      (Sample10.AVCSegmentBuilder.AddTrafAtom
        (Sample9.Feed w.builder (data.drop nalu.offset) nalu.size key d)
        { sequence_number := (w.sequence_number + 1) % U32 })
      ((8 + ((Sample9.Feed w.builder (data.drop nalu.offset) nalu.size key d).m_Samples.map
        (fun s => s.size)).sum) % U32) AP4_ATOM_TYPE_MDAT
    have hB1 := hB.1
    rw [hst] at hB1
    constructor
    · intro m hm
      simp only [Sample9.StreamPointer.written, Sample9.WriteMediaSegment_stream] at hm
      have h1' : (Sample10.copySamples
          (Sample9.Feed w.builder (data.drop nalu.offset) nalu.size key d).m_Samples
          (s0 ++ [Written.moof (Sample10.AVCSegmentBuilder.AddTrafAtom
              (Sample9.Feed w.builder (data.drop nalu.offset) nalu.size key d)
              { sequence_number := (w.sequence_number + 1) % U32 }),
            Written.ui32 ((8 + ((Sample9.Feed w.builder (data.drop nalu.offset) nalu.size key
              d).m_Samples.map (fun s => s.size)).sum) % U32),
            Written.ui32 AP4_ATOM_TYPE_MDAT])).1 = s0 ++ rest := by
        rw [← h1]; simp
      rw [h1', moofs_append, h3, List.mem_append, List.mem_singleton] at hm
      rcases hm with hm | hm
      · exact hB1 m (by simpa [Sample9.StreamPointer.written] using hm)
      · exact ⟨_, _, hm, by rw [feed9_samples]; simp, hfeed⟩
    · intro s hs1
      exact hfeed s (WriteMediaSegment9_pending _ _ _ s hs1)

theorem writeNalus9_built (data : List Byte) (key : Bool) (d : Nat)
    (nalus : List GstH264NalUnit) (w w1 : Sample9.MP4Writer) (hB : Sample9.Built w)
    (h : Sample9.writeNalus data key d w nalus = some w1) : Sample9.Built w1 := by
  induction nalus generalizing w with
  | nil =>
    simp only [Sample9.writeNalus, Option.some.injEq] at h
    subst h
    exact hB
  | cons n rest ih =>
    simp only [Sample9.writeNalus] at h
    cases hn : Sample9.writeNalu data key d w n with
    | none => simp [hn] at h
    | some w2 =>
      rw [hn] at h
      exact ih w2 (writeNalu9_built data key d w w2 n hB hn) h

theorem WriteH264VideoSample9_built (w w1 : Sample9.MP4Writer) (sample : List Byte)
    (key : Bool) (d : Nat) (hB : Sample9.Built w)
    (h : Sample9.WriteH264VideoSample w sample key d = some w1) : Sample9.Built w1 := by
  unfold Sample9.WriteH264VideoSample at h
  simp only at h
  cases ho : Sample9.openStream w sample (ParseH264NALU sample) key with
  | none => simp [ho] at h
  | some w0 =>
    rw [ho] at h
    apply writeNalus9_built _ _ _ _ w0 w1 _ h
    rcases openStream9_cases w w0 sample _ key ho with ⟨rfl, -⟩ | ⟨-, -, sps, pps, -, rfl⟩
    · exact hB
    · constructor
      · intro m hm
        simp [Sample9.StreamPointer.written, Sample9.WriteInitSegment, moofs] at hm
      · exact hB.2

theorem run9_built (calls : List Call) (w w1 : Sample9.MP4Writer) (hB : Sample9.Built w)
    (h : Sample9.run w calls = some w1) : Sample9.Built w1 := by
  induction calls generalizing w with
  | nil =>
    simp only [Sample9.run, Option.some.injEq] at h
    subst h
    exact hB
  | cons c rest ih =>
    simp only [Sample9.run] at h
    cases hc : Sample9.WriteH264VideoSample w c.sample c.is_key_frame c.duration with
    | none => simp [hc] at h
    | some w2 =>
      rw [hc] at h
      exact ih w2 (WriteH264VideoSample9_built w w2 _ _ _ hB hc) h

theorem built9_new (non_null : Bool) : Sample9.Built (Sample9.MP4Writer.new non_null) := by
  constructor
  · intro m hm
    cases non_null <;>
      simp [Sample9.MP4Writer.new, Sample9.StreamPointer.written, moofs] at hm
  · intro s hs
    simp [Sample9.MP4Writer.new] at hs

theorem tfhd_write (tid : Nat) :
    AP4_TfhdAtom.Write
      { flags := AP4_TFHD_FLAG_DEFAULT_BASE_IS_MOOF ||| AP4_TFHD_FLAG_DEFAULT_SAMPLE_FLAGS_PRESENT,
        track_id := tid, base_data_offset := 0, sample_description_index := 1,
        default_sample_duration := 0, default_sample_size := 0,
        default_sample_flags := 0x1010000 }
      = be32 20 ++ be32 AP4_ATOM_TYPE_TFHD ++ [0, 0x02, 0x00, 0x20] ++ be32 tid
        ++ [0x01, 0x01, 0x00, 0x00] := by
  have h1 : (AP4_TFHD_FLAG_DEFAULT_BASE_IS_MOOF ||| AP4_TFHD_FLAG_DEFAULT_SAMPLE_FLAGS_PRESENT)
      = 0x20020 := by decide
  simp only [AP4_TfhdAtom.Write, AP4_TfhdAtom.GetSize, AP4_TfhdAtom.ComputeSize, h1]
  have c1 : (0x20020 &&& AP4_TFHD_FLAG_BASE_DATA_OFFSET_PRESENT != 0) = false := by decide
  have c2 : (0x20020 &&& AP4_TFHD_FLAG_SAMPLE_DESCRIPTION_INDEX_PRESENT != 0) = false := by decide
  have c3 : (0x20020 &&& AP4_TFHD_FLAG_DEFAULT_SAMPLE_DURATION_PRESENT != 0) = false := by decide
  have c4 : (0x20020 &&& AP4_TFHD_FLAG_DEFAULT_SAMPLE_SIZE_PRESENT != 0) = false := by decide
  have c5 : (0x20020 &&& AP4_TFHD_FLAG_DEFAULT_SAMPLE_FLAGS_PRESENT != 0) = true := by decide
  simp only [c1, c2, c3, c4, c5, Bool.false_eq_true, if_false, if_true, List.append_nil,
    Nat.add_zero]
  rfl

theorem builtFragment_tfhd (m : MoofAtom) (h : builtFragment m) :
    m.traf.tfhd.flags
        = AP4_TFHD_FLAG_DEFAULT_BASE_IS_MOOF ||| AP4_TFHD_FLAG_DEFAULT_SAMPLE_FLAGS_PRESENT
    ∧ m.traf.tfhd.flags = 0x20020
    ∧ m.traf.tfhd.default_sample_flags = 0x01010000
    ∧ m.traf.tfhd.Write = be32 20 ++ be32 AP4_ATOM_TYPE_TFHD ++ [0, 0x02, 0x00, 0x20]
        ++ be32 m.traf.tfhd.track_id ++ [0x01, 0x01, 0x00, 0x00] := by
  obtain ⟨b, mfhd, rfl, _⟩ := h
  exact ⟨rfl, rfl, rfl, tfhd_write b.m_TrackId⟩

theorem builtFragment_trun (m : MoofAtom) (h : builtFragment m) :
    m.traf.trun.flags
        = AP4_TRUN_FLAG_DATA_OFFSET_PRESENT ||| AP4_TRUN_FLAG_SAMPLE_DURATION_PRESENT
          ||| AP4_TRUN_FLAG_SAMPLE_SIZE_PRESENT ||| AP4_TRUN_FLAG_SAMPLE_FLAGS_PRESENT
    ∧ m.traf.trun.flags = 0x701
    ∧ m.traf.trun.flags &&& AP4_TRUN_FLAG_SAMPLE_COMPOSITION_TIME_OFFSET_PRESENT = 0
    ∧ ∀ e ∈ m.traf.trun.entries, e.sample_composition_time_offset = 0 := by
  obtain ⟨b, mfhd, rfl, _, hc⟩ := h
  have hf : (Sample10.AVCSegmentBuilder.AddTrafAtom b mfhd).traf.trun.flags
      = AP4_TRUN_FLAG_DATA_OFFSET_PRESENT ||| AP4_TRUN_FLAG_SAMPLE_DURATION_PRESENT
          ||| AP4_TRUN_FLAG_SAMPLE_SIZE_PRESENT ||| AP4_TRUN_FLAG_SAMPLE_FLAGS_PRESENT := by
    simp only [Sample10.AVCSegmentBuilder.AddTrafAtom, AP4_TrunAtom.SetEntries,
      foldl_trunEntryStep_flags_zero _ _ hc, AP4_TrunAtom.new]
  refine ⟨hf, by rw [hf]; decide, by rw [hf]; decide, ?_⟩
  intro e he
  rw [AddTrafAtom_entries, List.mem_map] at he
  obtain ⟨s, hs, rfl⟩ := he
  exact hc s hs

/-- C23: the `tfhd` that `AddTrafAtom` (sample10) and `WriteMediaSegment` (sample9)
build for any builder state has the flags default-base-is-moof and
default-sample-flags-present and nothing else (0x020020) and the default sample flags
0x01010000, and over every sequence of calls (sample10 for the runs that return,
sample9 for the runs that use no indeterminate member, whatever the constructor left in
`file_output_stream`) every fragment written has such a `tfhd`; its serialisation is
the 20 bytes of size, type, version and flags, track id and default sample flags. -/
theorem C23_tfhd_default_sample_flags (calls : List Call) :
    (∀ (b : AP4_SegmentBuilder) (mfhd : AP4_MfhdAtom) (seq : Nat),
      (Sample10.AVCSegmentBuilder.AddTrafAtom b mfhd).traf.tfhd.flags
          = AP4_TFHD_FLAG_DEFAULT_BASE_IS_MOOF ||| AP4_TFHD_FLAG_DEFAULT_SAMPLE_FLAGS_PRESENT
      ∧ (Sample10.AVCSegmentBuilder.AddTrafAtom b mfhd).traf.tfhd.default_sample_flags
          = 0x01010000
      ∧ (Sample9.buildMoof b seq).1.traf.tfhd.flags
          = AP4_TFHD_FLAG_DEFAULT_BASE_IS_MOOF ||| AP4_TFHD_FLAG_DEFAULT_SAMPLE_FLAGS_PRESENT
      ∧ (Sample9.buildMoof b seq).1.traf.tfhd.default_sample_flags = 0x01010000)
    ∧ (∀ w, Sample10.run Sample10.MP4Writer.new calls = some w →
      ∀ m ∈ moofs w.file_output_stream,
        m.traf.tfhd.flags
            = AP4_TFHD_FLAG_DEFAULT_BASE_IS_MOOF ||| AP4_TFHD_FLAG_DEFAULT_SAMPLE_FLAGS_PRESENT
        ∧ m.traf.tfhd.flags = 0x20020
        ∧ m.traf.tfhd.default_sample_flags = 0x01010000
        ∧ m.traf.tfhd.Write = be32 20 ++ be32 AP4_ATOM_TYPE_TFHD ++ [0, 0x02, 0x00, 0x20]
            ++ be32 m.traf.tfhd.track_id ++ [0x01, 0x01, 0x00, 0x00])
    ∧ (∀ non_null w, Sample9.run (Sample9.MP4Writer.new non_null) calls = some w →
      ∀ m ∈ moofs w.file_output_stream.written,
        m.traf.tfhd.flags
            = AP4_TFHD_FLAG_DEFAULT_BASE_IS_MOOF ||| AP4_TFHD_FLAG_DEFAULT_SAMPLE_FLAGS_PRESENT
        ∧ m.traf.tfhd.flags = 0x20020
        ∧ m.traf.tfhd.default_sample_flags = 0x01010000
        ∧ m.traf.tfhd.Write = be32 20 ++ be32 AP4_ATOM_TYPE_TFHD ++ [0, 0x02, 0x00, 0x20]
            ++ be32 m.traf.tfhd.track_id ++ [0x01, 0x01, 0x00, 0x00]) :=
  ⟨fun b mfhd seq => ⟨rfl, rfl, by rw [Sample9.buildMoof_eq]; rfl,
      by rw [Sample9.buildMoof_eq]; rfl⟩,
   fun w hw m hm => builtFragment_tfhd m ((run10_built calls _ w built10_new hw).1 m hm),
   fun non_null w hw m hm =>
     builtFragment_tfhd m ((run9_built calls _ w (built9_new non_null) hw).1 m hm)⟩

theorem C23_tfhd_default_sample_flags_witness :
    (Sample10.run Sample10.MP4Writer.new demoCalls).map
        (fun w => (moofs w.file_output_stream).map
          (fun m => (m.traf.tfhd.flags, m.traf.tfhd.default_sample_flags)))
      = some [(0x20020, 0x01010000), (0x20020, 0x01010000), (0x20020, 0x01010000),
              (0x20020, 0x01010000)]
    ∧ (Sample9.run (Sample9.MP4Writer.new false) demoCalls).map
        (fun w => (moofs w.file_output_stream.written).map
          (fun m => (m.traf.tfhd.flags, m.traf.tfhd.default_sample_flags)))
      = some [(0x20020, 0x01010000), (0x20020, 0x01010000), (0x20020, 0x01010000),
              (0x20020, 0x01010000)]
    ∧ (∀ w, Sample10.run Sample10.MP4Writer.new demoCalls = some w →
      ∀ m ∈ moofs w.file_output_stream,
        m.traf.tfhd.flags
            = AP4_TFHD_FLAG_DEFAULT_BASE_IS_MOOF ||| AP4_TFHD_FLAG_DEFAULT_SAMPLE_FLAGS_PRESENT
        ∧ m.traf.tfhd.flags = 0x20020
        ∧ m.traf.tfhd.default_sample_flags = 0x01010000
        ∧ m.traf.tfhd.Write = be32 20 ++ be32 AP4_ATOM_TYPE_TFHD ++ [0, 0x02, 0x00, 0x20]
            ++ be32 m.traf.tfhd.track_id ++ [0x01, 0x01, 0x00, 0x00]) :=
  ⟨by decide, by decide, (C23_tfhd_default_sample_flags demoCalls).2.1⟩

/-- C24: `Feed` (sample10 and sample9) creates every sample with composition-time
offset 0, and over every sequence of calls (sample10 for the runs that return, sample9
for the runs that use no indeterminate member) the `trun` of every fragment written
has exactly the flags data-offset-present, sample-duration-present,
sample-size-present and sample-flags-present (0x000701): the
composition-time-offset-present flag is not set, and every entry has composition-time
offset 0. -/
theorem C24_trun_flags (calls : List Call) :
    (∀ (b : AP4_SegmentBuilder) (data : List Byte) (n : Nat) (key : Bool) (d : Nat),
      (Sample10.AVCSegmentBuilder.Feed b data n key d).m_Samples.map (fun s => s.cts_delta)
        = b.m_Samples.map (fun s => s.cts_delta) ++ [0]
      ∧ (Sample9.Feed b data n key d).m_Samples.map (fun s => s.cts_delta)
        = b.m_Samples.map (fun s => s.cts_delta) ++ [0])
    ∧ (∀ w, Sample10.run Sample10.MP4Writer.new calls = some w →
      ∀ m ∈ moofs w.file_output_stream,
        m.traf.trun.flags
            = AP4_TRUN_FLAG_DATA_OFFSET_PRESENT ||| AP4_TRUN_FLAG_SAMPLE_DURATION_PRESENT
              ||| AP4_TRUN_FLAG_SAMPLE_SIZE_PRESENT ||| AP4_TRUN_FLAG_SAMPLE_FLAGS_PRESENT
        ∧ m.traf.trun.flags = 0x701
        ∧ m.traf.trun.flags &&& AP4_TRUN_FLAG_SAMPLE_COMPOSITION_TIME_OFFSET_PRESENT = 0
        ∧ ∀ e ∈ m.traf.trun.entries, e.sample_composition_time_offset = 0)
    ∧ (∀ non_null w, Sample9.run (Sample9.MP4Writer.new non_null) calls = some w →
      ∀ m ∈ moofs w.file_output_stream.written,
        m.traf.trun.flags
            = AP4_TRUN_FLAG_DATA_OFFSET_PRESENT ||| AP4_TRUN_FLAG_SAMPLE_DURATION_PRESENT
              ||| AP4_TRUN_FLAG_SAMPLE_SIZE_PRESENT ||| AP4_TRUN_FLAG_SAMPLE_FLAGS_PRESENT
        ∧ m.traf.trun.flags = 0x701
        ∧ m.traf.trun.flags &&& AP4_TRUN_FLAG_SAMPLE_COMPOSITION_TIME_OFFSET_PRESENT = 0
        ∧ ∀ e ∈ m.traf.trun.entries, e.sample_composition_time_offset = 0) :=
  ⟨fun b data n key d => ⟨by simp [feed10_samples], by simp [feed9_samples]⟩,
   fun w hw m hm => builtFragment_trun m ((run10_built calls _ w built10_new hw).1 m hm),
   fun non_null w hw m hm =>
     builtFragment_trun m ((run9_built calls _ w (built9_new non_null) hw).1 m hm)⟩

theorem C24_trun_flags_witness :
    (Sample10.run Sample10.MP4Writer.new demoCalls).map
        (fun w => (moofs w.file_output_stream).map (fun m => m.traf.trun.flags))
      = some [0x701, 0x701, 0x701, 0x701]
    ∧ (∀ w, Sample10.run Sample10.MP4Writer.new demoCalls = some w →
      ∀ m ∈ moofs w.file_output_stream,
        m.traf.trun.flags
            = AP4_TRUN_FLAG_DATA_OFFSET_PRESENT ||| AP4_TRUN_FLAG_SAMPLE_DURATION_PRESENT
              ||| AP4_TRUN_FLAG_SAMPLE_SIZE_PRESENT ||| AP4_TRUN_FLAG_SAMPLE_FLAGS_PRESENT
        ∧ m.traf.trun.flags = 0x701
        ∧ m.traf.trun.flags &&& AP4_TRUN_FLAG_SAMPLE_COMPOSITION_TIME_OFFSET_PRESENT = 0
        ∧ ∀ e ∈ m.traf.trun.entries, e.sample_composition_time_offset = 0) :=
  ⟨by decide, (C24_trun_flags demoCalls).2.1⟩

/-! ## Positive durations and the timeline (C21) -/

theorem AP4_ConvertTime_9000 (d : Nat) : AP4_ConvertTime d 1000 9000 = 9 * d := by
  simp only [AP4_ConvertTime]
  rw [if_neg (by decide)]
  omega

/-- At the 9000 timescale the stored duration is 0 exactly for the non-zero multiples
of 2^32 ms. -/
theorem timescaleDuration_eq_zero_iff (d : Nat) :
    timescaleDuration 9000 d = 0 ↔ (d ≠ 0 ∧ d % U32 = 0) := by
  unfold timescaleDuration
  by_cases h0 : d = 0
  · subst h0
    simp only [if_true, AP4_ConvertTime_9000]
    constructor
    · intro h; exact absurd h (by decide)
    · intro h; exact absurd rfl h.1
  · simp only [h0, if_false, AP4_ConvertTime_9000, ne_eq, not_false_eq_true, true_and]
    constructor
    · intro h
      have h1 : U32 ∣ d * 9 := by
        rw [Nat.mul_comm]
        exact Nat.dvd_of_mod_eq_zero h
      exact Nat.mod_eq_zero_of_dvd (Nat.Coprime.dvd_of_dvd_mul_right (by decide) h1)
    · intro h
      have h1 : U32 ∣ d := Nat.dvd_of_mod_eq_zero h
      exact Nat.mod_eq_zero_of_dvd (Dvd.dvd.mul_left h1 9)

theorem fedDurations_pos (calls : List Call)
    (hd : ∀ c ∈ calls, c.duration = 0 ∨ c.duration % U32 ≠ 0) :
    ∀ x ∈ fedDurations 9000 calls, 0 < x := by
  intro x hx
  simp only [fedDurations, List.mem_flatMap, List.mem_map] at hx
  obtain ⟨c, hc, _, _, rfl⟩ := hx
  rcases Nat.eq_zero_or_pos (timescaleDuration 9000 c.duration) with h | h
  · have := (timescaleDuration_eq_zero_iff c.duration).1 h
    rcases hd c hc with h1 | h1
    · exact absurd h1 this.1
    · exact absurd this.2 h1
  · exact h

theorem sum_pos_of_ne_nil (l : List Nat) (hne : l ≠ []) (hp : ∀ x ∈ l, 0 < x) : 0 < l.sum := by
  cases l with
  | nil => exact absurd rfl hne
  | cons a rest =>
    have := hp a (List.mem_cons_self _ _)
    simp only [List.sum_cons]
    omega

theorem decodeTimesFrom_increasing (ms : List MoofAtom) (acc : Nat)
    (hpos : ∀ m ∈ ms, 0 < (trunDurations m).sum)
    (hfit : acc + (ms.flatMap trunDurations).sum < U64) :
    (decodeTimesFrom acc ms).Pairwise (fun a b => a < b)
    ∧ ∀ x ∈ decodeTimesFrom acc ms, acc ≤ x := by
  induction ms generalizing acc with
  | nil => exact ⟨List.Pairwise.nil, fun x hx => by simp [decodeTimesFrom] at hx⟩
  | cons m rest ih =>
    have hm := hpos m (List.mem_cons_self _ _)
    simp only [List.flatMap_cons, List.sum_append] at hfit
    obtain ⟨h1, h2⟩ := ih (acc + (trunDurations m).sum)
      (fun x hx => hpos x (List.mem_cons_of_mem _ hx)) (by omega)
    have hacc : acc % U64 = acc := Nat.mod_eq_of_lt (by omega)
    simp only [decodeTimesFrom, hacc]
    constructor
    · refine List.Pairwise.cons ?_ h1
      intro x hx
      have := h2 x hx
      omega
    · intro x hx
      rcases List.mem_cons.1 hx with h | h
      · omega
      · have := h2 x h
        omega

theorem builtFragment_durations (m : MoofAtom) (h : builtFragment m) : trunDurations m ≠ [] := by
  obtain ⟨b, mfhd, rfl, hne, _⟩ := h
  simp only [trunDurations, AddTrafAtom_entries, List.map_map, ne_eq, List.map_eq_nil_iff]
  exact hne

/-- Fragments that each hold at least one sample, with all durations positive and
their total below 2^64, carry strictly increasing decode times. -/
theorem decodeTimes_increasing (ms : List MoofAtom) (fed : List Nat)
    (h1 : decodeTimes ms = decodeTimesFrom 0 ms)
    (hB : ∀ m ∈ ms, builtFragment m)
    (hsub : ∀ x ∈ ms.flatMap trunDurations, x ∈ fed)
    (hpos : ∀ x ∈ fed, 0 < x)
    (hfit : (ms.flatMap trunDurations).sum < U64) :
    (decodeTimes ms).Pairwise (fun a b => a < b) := by
  rw [h1]
  refine (decodeTimesFrom_increasing ms 0 ?_ (by omega)).1
  intro m hm
  refine sum_pos_of_ne_nil _ (builtFragment_durations m (hB m hm)) ?_
  intro x hx
  exact hpos x (hsub x (List.mem_flatMap.2 ⟨m, hm, hx⟩))

/-- C21 (counterexample): a duration of 2^32 ms, a value of the 64-bit parameter,
converts to 9 * 2^32 at the 9000 timescale, and the `(AP4_UI32)` cast in `Feed`
stores 0.  In the run `stallCalls` the fragment of that sample has `sample_duration`
0, and the fragment after it carries the same base media decode time, 360: the
timeline stalls in sample10. -/
theorem C21_timeline_stalls :
    4294967296 < U64
    ∧ timescaleDuration MP4_DEFAULT_VIDEO_TIMESCALE 4294967296 = 0
    ∧ (Sample10.AVCSegmentBuilder.Feed Sample10.AVCSegmentBuilder.new [0x41, 0x9a] 2 false
        4294967296).m_Samples.map (fun s => s.duration) = [0]
    ∧ (Sample10.run Sample10.MP4Writer.new stallCalls).map
        (fun w => (decodeTimes (moofs w.file_output_stream),
          (moofs w.file_output_stream).map trunDurations))
      = some ([0, 360, 360], [[360], [0], [360]]) := by
  decide

/-- C21: at the 9000 track timescale of sample10 the stored duration of a sample is 0
exactly when the duration fed is a non-zero multiple of 2^32 ms.  For every sequence
of calls whose durations are below 2^48 ms and are not such multiples (0 included,
which stands for 50 ms) every sample duration is strictly positive, and, while the
total of the durations stays below 2^64, the base media decode time strictly increases
from each fragment to the next, for every run that returns. -/
theorem C21_positive_durations (calls : List Call)
    (hd : ∀ c ∈ calls, c.duration < 281474976710656
      ∧ (c.duration = 0 ∨ c.duration % U32 ≠ 0))
    (hfit : (fedDurations MP4_DEFAULT_VIDEO_TIMESCALE calls).sum < U64) :
    (∀ d, d < 281474976710656 →
      (timescaleDuration MP4_DEFAULT_VIDEO_TIMESCALE d = 0 ↔ (d ≠ 0 ∧ d % U32 = 0)))
    ∧ (∀ (b : AP4_SegmentBuilder) (data : List Byte) (n : Nat) (key : Bool), ∀ c ∈ calls,
        b.m_Timescale = MP4_DEFAULT_VIDEO_TIMESCALE →
        ∃ s, (Sample10.AVCSegmentBuilder.Feed b data n key c.duration).m_Samples
            = b.m_Samples ++ [s] ∧ 0 < s.duration)
    ∧ (∀ x ∈ fedDurations MP4_DEFAULT_VIDEO_TIMESCALE calls, 0 < x)
    ∧ (∀ w, Sample10.run Sample10.MP4Writer.new calls = some w →
        (decodeTimes (moofs w.file_output_stream)).Pairwise (fun a b => a < b)) := by
  have hd2 : ∀ c ∈ calls, c.duration = 0 ∨ c.duration % U32 ≠ 0 := fun c hc => (hd c hc).2
  have hpos := fedDurations_pos calls hd2
  refine ⟨fun d _ => timescaleDuration_eq_zero_iff d, ?_, hpos, ?_⟩
  · intro b data n key c hc hts
    refine ⟨_, feed10_samples b data n key c.duration, ?_⟩
    rw [hts]
    show 0 < timescaleDuration 9000 c.duration
    rcases Nat.eq_zero_or_pos (timescaleDuration 9000 c.duration) with h | h
    · have := (timescaleDuration_eq_zero_iff c.duration).1 h
      rcases hd2 c hc with h1 | h1
      · exact absurd h1 this.1
      · exact absurd this.2 h1
    · exact h
  · intro w hw
    have hI := run10_inv calls _ w [] inv10_new hw
    rw [List.nil_append] at hI
    obtain ⟨h1, -, -, h4, -⟩ := hI
    exact decodeTimes_increasing _ _ h1 (run10_built calls _ w built10_new hw).1
      (fun x hx => by rw [h4] at hx; exact hx) hpos (by rw [h4]; exact hfit)

theorem C21_positive_durations_witness :
    (∀ c ∈ demoCalls, c.duration < 281474976710656
      ∧ (c.duration = 0 ∨ c.duration % U32 ≠ 0))
    ∧ (fedDurations MP4_DEFAULT_VIDEO_TIMESCALE demoCalls).sum < U64
    ∧ fedDurations MP4_DEFAULT_VIDEO_TIMESCALE demoCalls = [360, 450, 360, 360]
    ∧ (Sample10.run Sample10.MP4Writer.new demoCalls).map
        (fun w => decodeTimes (moofs w.file_output_stream)) = some [0, 360, 810, 1170]
    ∧ (∀ w, Sample10.run Sample10.MP4Writer.new demoCalls = some w →
        (decodeTimes (moofs w.file_output_stream)).Pairwise (fun a b => a < b)) :=
  ⟨by decide, by decide, by decide, by decide,
    (C21_positive_durations demoCalls (by decide) (by decide)).2.2.2⟩

/-! ## One fragment per slice NAL unit (C25) -/

theorem writeNalu10_frag (data : List Byte) (key : Bool) (d : Nat) (w w1 : Sample10.MP4Writer)
    (nalu : GstH264NalUnit) (fed : List Nat) (b : AP4_SegmentBuilder)
    (hb : w.avc_segment_builder = some b) (hI : Sample10.Inv w fed)
    (h : Sample10.writeNalu data key d w nalu = some w1) :
    ∃ ms, moofs w1.file_output_stream = moofs w.file_output_stream ++ ms
      ∧ ms.map trunDurations
        = (if nalu.isSlice then [[timescaleDuration MP4_DEFAULT_VIDEO_TIMESCALE d]] else []) := by
  by_cases hs : nalu.isSlice = true
  · obtain ⟨-, -, -, -, h5⟩ := hI
    rw [hb] at h5
    obtain ⟨hs0, -, -, ht0, -, -⟩ := h5
    have hfeed := feed10_samples b (data.drop nalu.offset) nalu.size key d
    rw [hs0, List.nil_append, ht0] at hfeed
    simp only [Sample10.writeNalu, hs, if_true, hb, Option.some.injEq] at h
    subst h
    obtain ⟨rest, h1, _, h3⟩ := fragment_shape
      (Sample10.AVCSegmentBuilder.Feed b (data.drop nalu.offset) nalu.size key d).m_Samples
      w.file_output_stream
      (Sample10.AVCSegmentBuilder.AddTrafAtom
        (Sample10.AVCSegmentBuilder.Feed b (data.drop nalu.offset) nalu.size key d)
        { sequence_number := (w.sequence_number + 1) % U32 })
      ((8 + ((Sample10.AVCSegmentBuilder.Feed b (data.drop nalu.offset) nalu.size key
        d).m_Samples.map (fun s => s.size)).sum) % U32) AP4_ATOM_TYPE_MDAT
    refine ⟨[Sample10.AVCSegmentBuilder.AddTrafAtom
        (Sample10.AVCSegmentBuilder.Feed b (data.drop nalu.offset) nalu.size key d)
        { sequence_number := (w.sequence_number + 1) % U32 }],
      by simp only [Sample10.WriteMdat_stream, Sample10.WriteMoofAtom, h1, moofs_append, h3], ?_⟩
    simp [hs, trunDurations, AddTrafAtom_entries, hfeed, entryOf]
  · have hs2 : nalu.isSlice = false := by simpa using hs
    simp [Sample10.writeNalu, hs2] at h
    subst h
    exact ⟨[], by simp, by simp [hs2]⟩

theorem writeNalus10_frag (data : List Byte) (key : Bool) (d : Nat)
    (nalus : List GstH264NalUnit) (w w1 : Sample10.MP4Writer) (fed : List Nat)
    (b : AP4_SegmentBuilder) (hb : w.avc_segment_builder = some b) (hI : Sample10.Inv w fed)
    (hbound : ∀ n ∈ nalus, n.offset + n.size ≤ data.length)
    (h : Sample10.writeNalus data key d w nalus = some w1) :
    ∃ ms, moofs w1.file_output_stream = moofs w.file_output_stream ++ ms
      ∧ ms.map trunDurations = (nalus.filter GstH264NalUnit.isSlice).map
          (fun _ => [timescaleDuration MP4_DEFAULT_VIDEO_TIMESCALE d]) := by
  induction nalus generalizing w fed b with
  | nil =>
    simp [Sample10.writeNalus] at h
    subst h
    exact ⟨[], by simp, rfl⟩
  | cons n rest ih =>
    obtain ⟨w2, b2, hw2, hb2, hI2⟩ := writeNalu10_step data key d w n fed b hb hI
      (hbound n (List.mem_cons_self _ _))
    simp only [Sample10.writeNalus, hw2] at h
    obtain ⟨ms1, h1, h2⟩ := writeNalu10_frag data key d w w2 n fed b hb hI hw2
    obtain ⟨ms2, h3, h4⟩ := ih w2 _ b2 hb2 hI2
      (fun x hx => hbound x (List.mem_cons_of_mem _ hx)) h
    refine ⟨ms1 ++ ms2, by rw [h3, h1, List.append_assoc], ?_⟩
    rw [List.map_append, h2, h4]
    by_cases hs : n.isSlice = true
    · simp [List.filter_cons, hs]
    · have hs2 : n.isSlice = false := by simpa using hs
      simp [List.filter_cons, hs2]

theorem WriteH264VideoSample10_frag (w w1 : Sample10.MP4Writer) (fed : List Nat) (c : Call)
    (hI : Sample10.Inv w fed)
    (h : Sample10.WriteH264VideoSample w c.sample c.is_key_frame c.duration = some w1) :
    ∃ ms, moofs w1.file_output_stream = moofs w.file_output_stream ++ ms
      ∧ ms.map trunDurations = (sliceNalus c.sample).map
          (fun _ => [timescaleDuration MP4_DEFAULT_VIDEO_TIMESCALE c.duration]) := by
  have hbound : ∀ n ∈ ParseH264NALU c.sample, n.offset + n.size ≤ c.sample.length :=
    fun n hn => (ParseH264NALU_bound c.sample n hn).2.2
  unfold Sample10.WriteH264VideoSample at h
  simp only at h
  by_cases hk : (c.is_key_frame && !w.is_write_init_segment) = true
  · rw [if_pos hk] at h
    obtain ⟨h1, h2, h3, h4, h5⟩ := hI
    have hinit : w.is_write_init_segment = false := by
      simp only [Bool.and_eq_true, Bool.not_eq_true'] at hk
      exact hk.2
    have hnone : w.avc_segment_builder = none := by
      cases hb : w.avc_segment_builder with
      | none => rfl
      | some b =>
        rw [hb] at h5
        rw [h5.2.2.2.2.2] at hinit
        exact absurd hinit (by decide)
    rw [hnone] at h5
    have hfed : fed = [] := by rw [← h4, h5.1]; rfl
    have hm : moofs (Sample10.WriteMoovAtom (Sample10.WriteFtypAtom w.file_output_stream)
        c.sample (ParseH264NALU c.sample)) = moofs w.file_output_stream := by
      simp [Sample10.WriteMoovAtom, Sample10.WriteFtypAtom, moofs_append, moofs]
    have hI0 : Sample10.Inv
        { w with avc_segment_builder := some Sample10.AVCSegmentBuilder.new,
                 file_output_stream := Sample10.WriteMoovAtom
                   (Sample10.WriteFtypAtom w.file_output_stream) c.sample (ParseH264NALU c.sample),
                 is_write_init_segment := true } fed := by
      simp only [Sample10.Inv, hm, h5.1, hfed]
      simp [decodeTimes, decodeTimesFrom, sequenceNumbers, Sample10.AVCSegmentBuilder.new, h3,
        h5.1]
    obtain ⟨ms, hms, hd⟩ := writeNalus10_frag c.sample c.is_key_frame c.duration
      (ParseH264NALU c.sample) _ w1 fed _ rfl hI0 hbound h
    exact ⟨ms, by rw [hms, hm], hd⟩
  · rw [if_neg hk] at h
    cases hb : w.avc_segment_builder with
    | none =>
      obtain ⟨he, hf⟩ := writeNalus10_none _ _ _ _ _ _ hb h
      subst he
      exact ⟨[], by simp, by simp [sliceNalus, hf]⟩
    | some b =>
      exact writeNalus10_frag c.sample c.is_key_frame c.duration
        (ParseH264NALU c.sample) w w1 fed b hb hI hbound h

theorem decodeTimes_append (a b : List MoofAtom) :
    decodeTimes (a ++ b) = decodeTimes a ++ decodeTimes b := by
  simp [decodeTimes]

theorem decodeTimesFrom_append_list (acc : Nat) (a b : List MoofAtom) :
    decodeTimesFrom acc (a ++ b)
      = decodeTimesFrom acc a ++ decodeTimesFrom (acc + (a.flatMap trunDurations).sum) b := by
  induction a generalizing acc with
  | nil => simp [decodeTimesFrom]
  | cons x rest ih =>
    show acc % U64 :: decodeTimesFrom (acc + (trunDurations x).sum) (rest ++ b) = _
    rw [ih]
    simp [decodeTimesFrom, List.flatMap_cons, Nat.add_assoc]

theorem decodeTimesFrom_single (ms : List MoofAtom) (acc td : Nat)
    (h : ∀ m ∈ ms, trunDurations m = [td]) :
    decodeTimesFrom acc ms = (List.range ms.length).map (fun i => (acc + i * td) % U64) := by
  induction ms generalizing acc with
  | nil => rfl
  | cons m rest ih =>
    have hm := h m (List.mem_cons_self _ _)
    simp only [decodeTimesFrom, List.length_cons, List.range_succ_eq_map, List.map_cons,
      List.map_map, hm, List.sum_cons, List.sum_nil, Nat.add_zero]
    rw [ih _ (fun x hx => h x (List.mem_cons_of_mem _ hx))]
    simp only [Nat.zero_mul, Nat.add_zero, List.cons.injEq, true_and]
    apply List.map_congr_left
    intro i _
    simp only [Function.comp, Nat.succ_eq_add_one]
    congr 1
    rw [Nat.add_mul]
    omega

/-- C25: a call of sample10's `WriteH264VideoSample` on a sample with `n` slice NAL
units, after any run of calls, appends exactly `n` fragments; each holds one sample
whose duration is the converted duration of the whole input sample, so their base
media decode times are the time reached before the call plus 0, 1, ..., n - 1 times
that duration, the builder's media start time ends `n` durations later (as a 64-bit
value) and the sequence number `n` higher (as a 32-bit value). -/
theorem C25_one_fragment_per_slice (calls : List Call) (c : Call) (w w1 : Sample10.MP4Writer)
    (hw : Sample10.run Sample10.MP4Writer.new calls = some w)
    (hw1 : Sample10.WriteH264VideoSample w c.sample c.is_key_frame c.duration = some w1) :
    ∃ ms, moofs w1.file_output_stream = moofs w.file_output_stream ++ ms
      ∧ ms.length = (sliceNalus c.sample).length
      ∧ (∀ m ∈ ms, trunDurations m = [timescaleDuration MP4_DEFAULT_VIDEO_TIMESCALE c.duration])
      ∧ decodeTimes ms = (List.range (sliceNalus c.sample).length).map
          (fun i => ((fedDurations MP4_DEFAULT_VIDEO_TIMESCALE calls).sum
            + i * timescaleDuration MP4_DEFAULT_VIDEO_TIMESCALE c.duration) % U64)
      ∧ w1.sequence_number = (w.sequence_number + (sliceNalus c.sample).length) % U32
      ∧ (∀ b, w.avc_segment_builder = some b →
          b.m_MediaStartTime = (fedDurations MP4_DEFAULT_VIDEO_TIMESCALE calls).sum % U64)
      ∧ (∀ b1, w1.avc_segment_builder = some b1 →
          b1.m_MediaStartTime = ((fedDurations MP4_DEFAULT_VIDEO_TIMESCALE calls).sum
            + (sliceNalus c.sample).length
              * timescaleDuration MP4_DEFAULT_VIDEO_TIMESCALE c.duration) % U64) := by
  have hI := run10_inv calls _ w [] inv10_new hw
  rw [List.nil_append] at hI
  have hI1 := WriteH264VideoSample10_inv w w1 _ c hI hw1
  obtain ⟨ms, hms, hd⟩ := WriteH264VideoSample10_frag w w1 _ c hI hw1
  have hlen : ms.length = (sliceNalus c.sample).length := by
    have := congrArg List.length hd
    simpa using this
  have hall : ∀ m ∈ ms,
      trunDurations m = [timescaleDuration MP4_DEFAULT_VIDEO_TIMESCALE c.duration] := by
    intro m hm
    have : trunDurations m ∈ ms.map trunDurations := List.mem_map.2 ⟨m, hm, rfl⟩
    rw [hd, List.mem_map] at this
    obtain ⟨_, _, h⟩ := this
    exact h.symm
  have hsum : ((sliceNalus c.sample).map
      (fun _ => timescaleDuration MP4_DEFAULT_VIDEO_TIMESCALE c.duration)).sum
      = (sliceNalus c.sample).length
        * timescaleDuration MP4_DEFAULT_VIDEO_TIMESCALE c.duration := by
    simp [List.map_const', List.sum_replicate]
  obtain ⟨a1, a2, a3, a4, a5⟩ := hI
  obtain ⟨b1, b2, b3, b4, b5⟩ := hI1
  refine ⟨ms, hms, hlen, hall, ?_, ?_, ?_, ?_⟩
  · rw [hms, decodeTimes_append, decodeTimesFrom_append_list, a1, a4] at b1
    have := List.append_cancel_left b1
    rw [this, Nat.zero_add, decodeTimesFrom_single ms _ _ hall, hlen]
  · rw [b3, hms, List.length_append, hlen, a3]
    simp only [U32]
    omega
  · intro b hb
    rw [hb] at a5
    exact a5.2.2.2.2.1
  · intro b hb
    rw [hb] at b5
    rw [b5.2.2.2.2.1, List.sum_append, hsum]

theorem C25_one_fragment_per_slice_witness :
    Sample10.run Sample10.MP4Writer.new [] = some Sample10.MP4Writer.new
    ∧ (sliceNalus twoSliceKeyFrame).length = 2
    ∧ ∃ w1 ms,
      Sample10.WriteH264VideoSample Sample10.MP4Writer.new twoSliceKeyFrame true 40 = some w1
      ∧ moofs w1.file_output_stream = moofs Sample10.MP4Writer.new.file_output_stream ++ ms
      ∧ ms.length = 2
      ∧ (∀ m ∈ ms, trunDurations m = [360])
      ∧ decodeTimes ms = [0, 360]
      ∧ w1.sequence_number = 2 := by
  have hs : (sliceNalus twoSliceKeyFrame).length = 2 := by decide
  cases hr1 : Sample10.WriteH264VideoSample Sample10.MP4Writer.new twoSliceKeyFrame true 40 with
  | none => exact absurd hr1 (by decide)
  | some w1 =>
    obtain ⟨ms, h1, h2, h3, h4, h5, _⟩ := C25_one_fragment_per_slice []
      ⟨twoSliceKeyFrame, true, 40⟩ Sample10.MP4Writer.new w1 rfl hr1
    refine ⟨rfl, hs, w1, ms, rfl, h1, by rw [h2, hs], ?_, ?_, ?_⟩
    · intro m hm
      rw [h3 m hm]
      decide
    · rw [h4, hs]
      decide
    · rw [h5, hs]
      decide

/-! ## The AVC1-to-AnnexB loop of the reader (C27) -/

theorem ntohl_be32 (n : Nat) (h : n < U32) : ntohl (be32 n) = n := by
  simp only [ntohl, be32, List.getD_cons_zero, List.getD_cons_succ, U32] at *
  omega

theorem loop_read_type (done : List Byte) (n : Nat) (a : Byte) (p r : List Byte) :
    (done ++ (be32 n ++ (a :: p ++ r))).getD (done.length + 4) 0 = a := by
  rw [List.getD_append_right _ _ _ _ (by omega)]
  simp [be32]

theorem loop_read_length (done : List Byte) (n : Nat) (r : List Byte) :
    slice (done ++ (be32 n ++ r)) done.length 4 = be32 n := by
  simp [slice, be32]

theorem loop_store (done : List Byte) (n : Nat) (r : List Byte) :
    pokeBytes (done ++ (be32 n ++ r)) done.length (be32 1) = done ++ ([0, 0, 0, 1] ++ r) := by
  simp [pokeBytes, be32, List.take_append_eq_append_take, List.drop_append_eq_append_drop]

theorem isSlicePayload_cons (a : Byte) (p : List Byte) :
    isSlicePayload (a :: p) = true
      ↔ ¬ (a &&& 0x1F ≠ GST_H264_NAL_SLICE_IDR ∧ a &&& 0x1F ≠ GST_H264_NAL_SLICE) := by
  simp only [isSlicePayload, List.headD_cons, Bool.or_eq_true, beq_iff_eq]
  constructor
  · intro h hc
    rcases h with h | h
    · exact hc.1 h
    · exact hc.2 h
  · intro h
    by_cases h1 : a &&& 0x1F = GST_H264_NAL_SLICE_IDR
    · exact Or.inl h1
    · by_cases h2 : a &&& 0x1F = GST_H264_NAL_SLICE
      · exact Or.inr h2
      · exact absurd ⟨h1, h2⟩ h

/-- The loop from the length prefix of a NAL unit on: every prefix up to that of the
first slice NAL unit becomes `00 00 00 01`; one round of fuel per NAL unit is enough. -/
theorem ConvertAVC1ToAnnexB_loop (pre : List (List Byte)) (s tail done : List Byte)
    (fuel : Nat) (hfuel : pre.length < fuel)
    (hpre : ∀ p ∈ pre, p ≠ [] ∧ isSlicePayload p = false ∧ p.length + 4 < U32)
    (hs : isSlicePayload s = true) :
    Sample10.ConvertAVC1ToAnnexB.loop fuel
        (done ++ (avccSample pre ++ (be32 s.length ++ (s ++ tail)))) done.length
      = some (done ++ (annexBSample pre ++ ([0, 0, 0, 1] ++ (s ++ tail)))) := by
  induction pre generalizing done fuel with
  | nil =>
    obtain ⟨f, rfl⟩ : ∃ f, fuel = f + 1 := ⟨fuel - 1, by omega⟩
    cases s with
    | nil => simp [isSlicePayload, GST_H264_NAL_SLICE_IDR, GST_H264_NAL_SLICE] at hs
    | cons a s1 =>
      simp only [avccSample, annexBSample, List.map_nil, List.flatten_nil, List.nil_append,
        Sample10.ConvertAVC1ToAnnexB.loop]
      rw [if_pos (by simp [be32]), loop_read_type, if_neg ((isSlicePayload_cons a s1).1 hs),
        loop_store]
  | cons p rest ih =>
    obtain ⟨f, rfl⟩ : ∃ f, fuel = f + 1 := ⟨fuel - 1, by omega⟩
    obtain ⟨hp1, hp2, hp3⟩ := hpre p (List.mem_cons_self _ _)
    cases p with
    | nil => exact absurd rfl hp1
    | cons a p1 =>
      have hns : a &&& 0x1F ≠ GST_H264_NAL_SLICE_IDR ∧ a &&& 0x1F ≠ GST_H264_NAL_SLICE := by
        by_contra hc
        have := (isSlicePayload_cons a p1).2 hc
        rw [hp2] at this
        exact absurd this (by decide)
      have hmem : done ++ (avccSample ((a :: p1) :: rest) ++ (be32 s.length ++ (s ++ tail)))
          = done ++ (be32 (a :: p1).length
              ++ (a :: p1 ++ (avccSample rest ++ (be32 s.length ++ (s ++ tail))))) := by
        simp [avccSample, List.append_assoc]
      rw [hmem]
      simp only [Sample10.ConvertAVC1ToAnnexB.loop]
      rw [if_pos (by simp [be32]), loop_read_type, if_pos hns, loop_read_length, loop_store,
        ntohl_be32 _ (by omega), Nat.mod_eq_of_lt hp3]
      have hdone : done.length + ((a :: p1).length + 4)
          = (done ++ ([0, 0, 0, 1] ++ (a :: p1))).length := by
        simp only [List.length_append, List.length_cons, List.length_nil]
        omega
      have hmem2 : done ++ ([0, 0, 0, 1]
            ++ (a :: p1 ++ (avccSample rest ++ (be32 s.length ++ (s ++ tail)))))
          = (done ++ ([0, 0, 0, 1] ++ (a :: p1)))
              ++ (avccSample rest ++ (be32 s.length ++ (s ++ tail))) := by
        simp [List.append_assoc]
      rw [hdone, hmem2, ih (done ++ ([0, 0, 0, 1] ++ (a :: p1))) f
        (by simp only [List.length_cons] at hfuel; omega)
        (fun q hq => hpre q (List.mem_cons_of_mem _ hq))]
      simp [annexBSample, List.append_assoc]

theorem avccSample_append (a b : List (List Byte)) :
    avccSample (a ++ b) = avccSample a ++ avccSample b := by
  simp [avccSample]

theorem annexBSample_append (a b : List (List Byte)) :
    annexBSample (a ++ b) = annexBSample a ++ annexBSample b := by
  simp [annexBSample]

theorem avccSample_length (nals : List (List Byte)) :
    nals.length ≤ (avccSample nals).length
    ∧ ∀ p ∈ nals, p.length + 4 ≤ (avccSample nals).length := by
  induction nals with
  | nil => exact ⟨Nat.le_refl _, fun p hp => by simp at hp⟩
  | cons q rest ih =>
    have hl : (avccSample (q :: rest)).length = 4 + q.length + (avccSample rest).length := by
      simp [avccSample, be32_length]
      omega
    refine ⟨by rw [hl, List.length_cons]; omega, ?_⟩
    intro p hp
    rcases List.mem_cons.1 hp with h | h
    · subst h; omega
    · have := ih.2 p h
      omega

theorem annexBSample_length (nals : List (List Byte)) :
    (annexBSample nals).length = (avccSample nals).length := by
  induction nals with
  | nil => rfl
  | cons q rest ih =>
    have h1 : annexBSample (q :: rest) = [0, 0, 0, 1] ++ q ++ annexBSample rest := by
      simp [annexBSample]
    have h2 : avccSample (q :: rest) = be32 q.length ++ q ++ avccSample rest := by
      simp [avccSample]
    rw [h1, h2]
    simp only [List.length_append, be32_length, ih]
    rfl

/-- C27: for an AVCC sample of less than 2^32 bytes made of length-prefixed NAL units,
none of them empty before the first one of type 1 or 5, the AVC1-to-AnnexB step of
`MP4Reader::GetNextH264VideoSample` (sample10 and sample9) returns without reading
outside the sample; the result is the sample with every length prefix up to and
including that of the first slice NAL unit replaced by `00 00 00 01` and every other
byte as it was.  One round of the loop per NAL unit is enough fuel. -/
theorem C27_reader_loop_stops_at_first_slice (pre : List (List Byte)) (s : List Byte)
    (post : List (List Byte))
    (hpre : ∀ p ∈ pre, p ≠ [] ∧ isSlicePayload p = false)
    (hs : isSlicePayload s = true)
    (hlen : (avccSample (pre ++ s :: post)).length < U32) :
    Sample10.ConvertAVC1ToAnnexB (avccSample (pre ++ s :: post))
      = some (annexBSample (pre ++ [s]) ++ avccSample post)
    ∧ (annexBSample (pre ++ [s]) ++ avccSample post).length
      = (avccSample (pre ++ s :: post)).length
    ∧ ∀ fuel, pre.length < fuel →
        Sample10.ConvertAVC1ToAnnexB.loop fuel (avccSample (pre ++ s :: post)) 0
          = some (annexBSample (pre ++ [s]) ++ avccSample post) := by
  have hl := avccSample_length (pre ++ s :: post)
  have hpre2 : ∀ p ∈ pre, p ≠ [] ∧ isSlicePayload p = false ∧ p.length + 4 < U32 := by
    intro p hp
    have := hl.2 p (List.mem_append_left _ hp)
    exact ⟨(hpre p hp).1, (hpre p hp).2, by omega⟩
  have hsample : avccSample (pre ++ s :: post)
      = [] ++ (avccSample pre ++ (be32 s.length ++ (s ++ avccSample post))) := by
    simp [avccSample, List.append_assoc]
  have hres : annexBSample (pre ++ [s]) ++ avccSample post
      = [] ++ (annexBSample pre ++ ([0, 0, 0, 1] ++ (s ++ avccSample post))) := by
    simp [annexBSample, List.append_assoc]
  have hloop : ∀ fuel, pre.length < fuel →
      Sample10.ConvertAVC1ToAnnexB.loop fuel (avccSample (pre ++ s :: post)) 0
        = some (annexBSample (pre ++ [s]) ++ avccSample post) := by
    intro fuel hf
    rw [hsample, hres]
    exact ConvertAVC1ToAnnexB_loop pre s (avccSample post) [] fuel hf hpre2 hs
  have h4 : 4 ≤ (avccSample (pre ++ s :: post)).length := by
    have := hl.2 s (by simp)
    omega
  refine ⟨?_, ?_, hloop⟩
  · simp only [Sample10.ConvertAVC1ToAnnexB]
    rw [if_pos h4]
    apply hloop
    have := hl.1
    simp only [List.length_append, List.length_cons] at this
    omega
  · have e : pre ++ s :: post = (pre ++ [s]) ++ post := by simp
    rw [e, avccSample_append, List.length_append, List.length_append, annexBSample_length]

theorem C27_reader_loop_stops_at_first_slice_witness :
    (∀ p ∈ [[0x67, 0x42], [0x68, 0xce]], p ≠ [] ∧ isSlicePayload p = false)
    ∧ isSlicePayload [0x65, 0x88] = true
    ∧ avccSample ([[0x67, 0x42], [0x68, 0xce]] ++ [0x65, 0x88] :: [[0x65, 0x89]])
      = [0, 0, 0, 2, 0x67, 0x42, 0, 0, 0, 2, 0x68, 0xce, 0, 0, 0, 2, 0x65, 0x88,
         0, 0, 0, 2, 0x65, 0x89]
    ∧ Sample10.ConvertAVC1ToAnnexB
        (avccSample ([[0x67, 0x42], [0x68, 0xce]] ++ [0x65, 0x88] :: [[0x65, 0x89]]))
      = some [0, 0, 0, 1, 0x67, 0x42, 0, 0, 0, 1, 0x68, 0xce, 0, 0, 0, 1, 0x65, 0x88,
         0, 0, 0, 2, 0x65, 0x89] :=
  ⟨by decide, by decide, by decide,
    (C27_reader_loop_stops_at_first_slice [[0x67, 0x42], [0x68, 0xce]] [0x65, 0x88]
      [[0x65, 0x89]] (by decide) (by decide) (by decide)).1.trans (by decide)⟩

theorem mod_wrap (a c : Nat) (h : a < 2 * c) :
    a % c = if a < c then a else a - c := by
  split
  · exact Nat.mod_eq_of_lt (by assumption)
  · rw [Nat.mod_eq_sub_mod (by omega)]
    exact Nat.mod_eq_of_lt (by omega)

theorem range_map_add (a b : Nat) (f : Nat → Byte) :
    (List.range (a + b)).map f
      = (List.range a).map f ++ (List.range b).map (fun j => f (a + j)) := by
  rw [List.range_add, List.map_append, List.map_map]
  rfl

theorem range_map_congr (n : Nat) (f g : Nat → Byte) (h : ∀ i, i < n → f i = g i) :
    (List.range n).map f = (List.range n).map g :=
  List.map_congr_left (fun i hi => h i (List.mem_range.1 hi))

theorem take_eq_range_map (xs : List Byte) (n : Nat) (h : n ≤ xs.length) :
    xs.take n = (List.range n).map (fun j => xs.getD j 0) := by
  apply List.ext_getElem
  · simp; omega
  · intro i h1 h2
    simp at h1 h2
    simp [List.getD_eq_getElem?_getD, List.getElem?_eq_getElem (show i < xs.length by omega)]

theorem slice_eq_range_map (xs : List Byte) (a n : Nat) (h : a + n ≤ xs.length) :
    slice xs a n = (List.range n).map (fun j => xs.getD (a + j) 0) := by
  unfold slice
  rw [take_eq_range_map _ _ (by rw [List.length_drop]; omega)]
  apply range_map_congr
  intro i _
  simp [List.getD_eq_getElem?_getD, List.getElem?_drop]

theorem getD_pokeBytes (mem : List Byte) (pos : Nat) (bs : List Byte) (i : Nat)
    (h : pos + bs.length ≤ mem.length) :
    (pokeBytes mem pos bs).getD i 0
      = if pos ≤ i ∧ i < pos + bs.length then bs.getD (i - pos) 0 else mem.getD i 0 := by
  have h2 : bs.take (mem.length - pos) = bs := List.take_of_length_le (by omega)
  have h1 : (mem.take pos).length = pos := by
    rw [List.length_take]; omega
  simp only [pokeBytes, h2, List.getD_eq_getElem?_getD, List.append_assoc]
  by_cases c1 : i < pos
  · rw [List.getElem?_append_left (by omega), if_neg (by omega), List.getElem?_take_of_lt c1]
  · rw [List.getElem?_append_right (by omega), h1]
    by_cases c2 : i < pos + bs.length
    · rw [List.getElem?_append_left (by omega), if_pos ⟨by omega, c2⟩]
    · rw [List.getElem?_append_right (by omega), if_neg (by omega), List.getElem?_drop]
      congr 2
      omega
namespace Sample8

theorem valid_iff (cb : CircularBuffer) :
    cb.Valid ↔ cb.size_ ≤ cb.capacity_ ∧ cb.beg_index_ < cb.capacity_
      ∧ cb.end_index_ < cb.capacity_
      ∧ ((cb.beg_index_ + cb.size_ < cb.capacity_ ∧ cb.end_index_ = cb.beg_index_ + cb.size_)
        ∨ (cb.capacity_ ≤ cb.beg_index_ + cb.size_
          ∧ cb.end_index_ + cb.capacity_ = cb.beg_index_ + cb.size_)) := by
  unfold CircularBuffer.Valid
  constructor
  · rintro ⟨h1, h2, h3, h4⟩
    rw [mod_wrap _ _ (by omega)] at h4
    refine ⟨h1, h2, h3, ?_⟩
    split at h4 <;> omega
  · rintro ⟨h1, h2, h3, h4⟩
    refine ⟨h1, h2, h3, ?_⟩
    rw [mod_wrap _ _ (by omega)]
    split <;> omega

theorem sub32_eq (a b : Nat) (ha : a < U32) (hb : b ≤ a) : sub32 a b = a - b := by
  simp only [sub32, U32] at *
  omega

theorem write_valid (cb : CircularBuffer) (data : List Byte) (bytes : Nat)
    (hc : cb.capacity_ < U32) (hv : cb.Valid) :
    (cb.write data bytes).1.Valid
    ∧ (cb.write data bytes).1.capacity_ = cb.capacity_
    ∧ (cb.write data bytes).1.beg_index_ = cb.beg_index_
    ∧ (cb.write data bytes).1.size_ = cb.size_ + (cb.write data bytes).2
    ∧ (cb.write data bytes).2 = min bytes (cb.capacity_ - cb.size_) := by
  have hv2 := (valid_iff cb).1 hv
  obtain ⟨h1, h2, h3, h4⟩ := hv2
  by_cases hb : bytes = 0
  · subst hb
    simp only [CircularBuffer.write, if_true]
    refine ⟨?_, ?_, ?_, ?_, ?_⟩ <;> first | trivial | rfl | exact hv | simp
  · have e1 : sub32 cb.capacity_ cb.size_ = cb.capacity_ - cb.size_ := sub32_eq _ _ hc h1
    have e2 : sub32 cb.capacity_ cb.end_index_ = cb.capacity_ - cb.end_index_ :=
      sub32_eq _ _ hc (by omega)
    simp only [CircularBuffer.write, if_neg hb, e1, e2]
    by_cases c1 : min bytes (cb.capacity_ - cb.size_) ≤ cb.capacity_ - cb.end_index_
    · rw [if_pos c1]
      have e3 : (cb.end_index_ + min bytes (cb.capacity_ - cb.size_)) % U32
          = cb.end_index_ + min bytes (cb.capacity_ - cb.size_) := by
        simp only [U32] at *; omega
      have e4 : (cb.size_ + min bytes (cb.capacity_ - cb.size_)) % U32
          = cb.size_ + min bytes (cb.capacity_ - cb.size_) := by
        simp only [U32] at *; omega
      rw [valid_iff]
      simp only [e3, e4]
      refine ⟨?_, ?_, ?_, ?_, ?_⟩ <;> first | trivial | rfl | (split <;> omega)
    · rw [if_neg c1]
      have e4 : (cb.size_ + min bytes (cb.capacity_ - cb.size_)) % U32
          = cb.size_ + min bytes (cb.capacity_ - cb.size_) := by
        simp only [U32] at *; omega
      have e5 : sub32 (min bytes (cb.capacity_ - cb.size_)) (cb.capacity_ - cb.end_index_)
          = min bytes (cb.capacity_ - cb.size_) - (cb.capacity_ - cb.end_index_) :=
        sub32_eq _ _ (by simp only [U32] at *; omega) (by omega)
      rw [valid_iff]
      simp only [e4, e5]
      refine ⟨?_, ?_, ?_, ?_, ?_⟩ <;> first | trivial | rfl | omega

theorem read_valid (cb : CircularBuffer) (bytes : Nat)
    (hc : cb.capacity_ < U32) (hv : cb.Valid) :
    (cb.read bytes).1.Valid
    ∧ (cb.read bytes).1.capacity_ = cb.capacity_
    ∧ (cb.read bytes).1.data_ = cb.data_
    ∧ (cb.read bytes).1.size_ = cb.size_ - (cb.read bytes).2.2
    ∧ (cb.read bytes).2.2 = min bytes cb.size_ := by
  have hv2 := (valid_iff cb).1 hv
  obtain ⟨h1, h2, h3, h4⟩ := hv2
  by_cases hb : bytes = 0
  · subst hb
    simp only [CircularBuffer.read, if_true]
    refine ⟨?_, ?_, ?_, ?_, ?_⟩ <;> first | trivial | rfl | exact hv | simp
  · have e2 : sub32 cb.capacity_ cb.beg_index_ = cb.capacity_ - cb.beg_index_ :=
      sub32_eq _ _ hc (by omega)
    have e1 : sub32 cb.size_ (min bytes cb.size_) = cb.size_ - min bytes cb.size_ :=
      sub32_eq _ _ (by omega) (by omega)
    simp only [CircularBuffer.read, if_neg hb, e1, e2]
    by_cases c1 : min bytes cb.size_ ≤ cb.capacity_ - cb.beg_index_
    · rw [if_pos c1]
      have e3 : (cb.beg_index_ + min bytes cb.size_) % U32
          = cb.beg_index_ + min bytes cb.size_ := by
        simp only [U32] at *; omega
      rw [valid_iff]
      simp only [e3]
      refine ⟨?_, ?_, ?_, ?_, ?_⟩ <;> first | trivial | rfl | (split <;> omega)
    · rw [if_neg c1]
      have e5 : sub32 (min bytes cb.size_) (cb.capacity_ - cb.beg_index_)
          = min bytes cb.size_ - (cb.capacity_ - cb.beg_index_) :=
        sub32_eq _ _ (by simp only [U32] at *; omega) (by omega)
      rw [valid_iff]
      simp only [e5]
      refine ⟨?_, ?_, ?_, ?_, ?_⟩ <;> first | trivial | rfl | omega

end Sample8
namespace Sample8

theorem getD_slice (xs : List Byte) (a n i : Nat) (hi : i < n) :
    (slice xs a n).getD i 0 = xs.getD (a + i) 0 := by
  simp only [slice, List.getD_eq_getElem?_getD, List.getElem?_take_of_lt hi, List.getElem?_drop]

theorem write_one_step (cb : CircularBuffer) (data : List Byte) (bytes : Nat)
    (hc : cb.capacity_ < U32) (hv : cb.Valid) (hb : bytes ≠ 0)
    (h : min bytes (cb.capacity_ - cb.size_) ≤ cb.capacity_ - cb.end_index_) :
    cb.write data bytes
      = ({ cb with
            data_ := pokeBytes cb.data_ cb.end_index_
              (slice data 0 (min bytes (cb.capacity_ - cb.size_)))
            end_index_ :=
              if cb.end_index_ + min bytes (cb.capacity_ - cb.size_) = cb.capacity_ then 0
              else cb.end_index_ + min bytes (cb.capacity_ - cb.size_)
            size_ := cb.size_ + min bytes (cb.capacity_ - cb.size_) },
          min bytes (cb.capacity_ - cb.size_)) := by
  obtain ⟨h1, h2, h3, h4⟩ := (valid_iff cb).1 hv
  have e1 : sub32 cb.capacity_ cb.size_ = cb.capacity_ - cb.size_ := sub32_eq _ _ hc h1
  have e2 : sub32 cb.capacity_ cb.end_index_ = cb.capacity_ - cb.end_index_ :=
    sub32_eq _ _ hc (by omega)
  have e3 : (cb.end_index_ + min bytes (cb.capacity_ - cb.size_)) % U32
      = cb.end_index_ + min bytes (cb.capacity_ - cb.size_) := by
    simp only [U32] at *; omega
  have e4 : (cb.size_ + min bytes (cb.capacity_ - cb.size_)) % U32
      = cb.size_ + min bytes (cb.capacity_ - cb.size_) := by
    simp only [U32] at *; omega
  simp only [CircularBuffer.write, if_neg hb, e1, e2, if_pos h, e3, e4]

theorem write_two_steps (cb : CircularBuffer) (data : List Byte) (bytes : Nat)
    (hc : cb.capacity_ < U32) (hv : cb.Valid) (hb : bytes ≠ 0)
    (h : ¬ min bytes (cb.capacity_ - cb.size_) ≤ cb.capacity_ - cb.end_index_) :
    cb.write data bytes
      = ({ cb with
            data_ := pokeBytes
              (pokeBytes cb.data_ cb.end_index_ (slice data 0 (cb.capacity_ - cb.end_index_)))
              0 (slice data (cb.capacity_ - cb.end_index_)
                (min bytes (cb.capacity_ - cb.size_) - (cb.capacity_ - cb.end_index_)))
            end_index_ :=
              min bytes (cb.capacity_ - cb.size_) - (cb.capacity_ - cb.end_index_)
            size_ := cb.size_ + min bytes (cb.capacity_ - cb.size_) },
          min bytes (cb.capacity_ - cb.size_)) := by
  obtain ⟨h1, h2, h3, h4⟩ := (valid_iff cb).1 hv
  have e1 : sub32 cb.capacity_ cb.size_ = cb.capacity_ - cb.size_ := sub32_eq _ _ hc h1
  have e2 : sub32 cb.capacity_ cb.end_index_ = cb.capacity_ - cb.end_index_ :=
    sub32_eq _ _ hc (by omega)
  have e4 : (cb.size_ + min bytes (cb.capacity_ - cb.size_)) % U32
      = cb.size_ + min bytes (cb.capacity_ - cb.size_) := by
    simp only [U32] at *; omega
  have e5 : sub32 (min bytes (cb.capacity_ - cb.size_)) (cb.capacity_ - cb.end_index_)
      = min bytes (cb.capacity_ - cb.size_) - (cb.capacity_ - cb.end_index_) :=
    sub32_eq _ _ (by simp only [U32] at *; omega) (by omega)
  simp only [CircularBuffer.write, if_neg hb, e1, e2, if_neg h, e4, e5]

/-- A write appends the bytes it accepts to the queued bytes. -/
theorem write_contents (cb : CircularBuffer) (data : List Byte) (bytes : Nat)
    (hc : cb.capacity_ < U32) (hv : cb.Valid) (hd : cb.data_.length = cb.capacity_)
    (hb : bytes ≤ data.length) :
    (cb.write data bytes).1.data_.length = cb.capacity_
    ∧ (cb.write data bytes).1.contents
      = cb.contents ++ data.take (cb.write data bytes).2 := by
  obtain ⟨h1, h2, h3, h4⟩ := (valid_iff cb).1 hv
  by_cases hb0 : bytes = 0
  · subst hb0
    simp only [CircularBuffer.write, if_true]
    exact ⟨hd, by simp⟩
  · have hn : min bytes (cb.capacity_ - cb.size_) ≤ data.length := by omega
    have hn2 : min bytes (cb.capacity_ - cb.size_) ≤ cb.capacity_ - cb.size_ := by omega
    generalize hnn : min bytes (cb.capacity_ - cb.size_) = n at hn hn2
    by_cases c1 : n ≤ cb.capacity_ - cb.end_index_
    · rw [write_one_step cb data bytes hc hv hb0 (by rw [hnn]; exact c1), hnn]
      have hl : (slice data 0 n).length = n := slice_length_of_le _ _ _ (by omega)
      refine ⟨?_, ?_⟩
      · show (pokeBytes _ _ _).length = _
        rw [pokeBytes_length _ _ _ (by rw [hl]; omega), hd]
      · simp only [CircularBuffer.contents]
        rw [range_map_add, take_eq_range_map data n hn]
        congr 1
        · apply range_map_congr
          intro i hi
          rw [mod_wrap _ _ (by omega), getD_pokeBytes _ _ _ _ (by rw [hl]; omega), hl]
          rw [if_neg]
          intro hk
          split at hk <;> omega
        · apply range_map_congr
          intro j hj
          rw [mod_wrap _ _ (by omega), getD_pokeBytes _ _ _ _ (by rw [hl]; omega), hl]
          rw [if_pos (by split <;> omega), getD_slice _ _ _ _ (by split <;> omega)]
          congr 1
          split <;> omega
    · rw [write_two_steps cb data bytes hc hv hb0 (by rw [hnn]; exact c1), hnn]
      have hl1 : (slice data 0 (cb.capacity_ - cb.end_index_)).length
          = cb.capacity_ - cb.end_index_ := slice_length_of_le _ _ _ (by omega)
      have hl2 : (slice data (cb.capacity_ - cb.end_index_)
          (n - (cb.capacity_ - cb.end_index_))).length
          = n - (cb.capacity_ - cb.end_index_) := slice_length_of_le _ _ _ (by omega)
      have hp1 : (pokeBytes cb.data_ cb.end_index_
          (slice data 0 (cb.capacity_ - cb.end_index_))).length = cb.capacity_ := by
        rw [pokeBytes_length _ _ _ (by rw [hl1]; omega), hd]
      refine ⟨?_, ?_⟩
      · show (pokeBytes _ _ _).length = _
        rw [pokeBytes_length _ _ _ (by rw [hl2, hp1]; omega), hp1]
      · simp only [CircularBuffer.contents]
        rw [range_map_add, take_eq_range_map data n hn]
        congr 1
        · apply range_map_congr
          intro i hi
          rw [mod_wrap _ _ (by omega), getD_pokeBytes _ _ _ _ (by rw [hl2, hp1]; omega), hl2,
            if_neg (by split <;> omega),
            getD_pokeBytes _ _ _ _ (by rw [hl1]; omega), hl1, if_neg (by split <;> omega)]
        · apply range_map_congr
          intro j hj
          rw [mod_wrap _ _ (by omega), getD_pokeBytes _ _ _ _ (by rw [hl2, hp1]; omega), hl2]
          by_cases c2 : cb.beg_index_ + (cb.size_ + j) < cb.capacity_
          · rw [if_pos c2, if_neg (by omega),
              getD_pokeBytes _ _ _ _ (by rw [hl1]; omega), hl1, if_pos (by omega),
              getD_slice _ _ _ _ (by omega)]
            congr 1
            omega
          · rw [if_neg c2, if_pos (by omega), getD_slice _ _ _ _ (by omega)]
            congr 1
            omega

end Sample8
namespace Sample8

theorem read_one_step (cb : CircularBuffer) (bytes : Nat)
    (hc : cb.capacity_ < U32) (hv : cb.Valid) (hb : bytes ≠ 0)
    (h : min bytes cb.size_ ≤ cb.capacity_ - cb.beg_index_) :
    cb.read bytes
      = ({ cb with
            beg_index_ :=
              if cb.beg_index_ + min bytes cb.size_ = cb.capacity_ then 0
              else cb.beg_index_ + min bytes cb.size_
            size_ := cb.size_ - min bytes cb.size_ },
          slice cb.data_ cb.beg_index_ (min bytes cb.size_), min bytes cb.size_) := by
  obtain ⟨h1, h2, h3, h4⟩ := (valid_iff cb).1 hv
  have e2 : sub32 cb.capacity_ cb.beg_index_ = cb.capacity_ - cb.beg_index_ :=
    sub32_eq _ _ hc (by omega)
  have e1 : sub32 cb.size_ (min bytes cb.size_) = cb.size_ - min bytes cb.size_ :=
    sub32_eq _ _ (by omega) (by omega)
  have e3 : (cb.beg_index_ + min bytes cb.size_) % U32
      = cb.beg_index_ + min bytes cb.size_ := by
    simp only [U32] at *; omega
  simp only [CircularBuffer.read, if_neg hb, e1, e2, if_pos h, e3]

theorem read_two_steps (cb : CircularBuffer) (bytes : Nat)
    (hc : cb.capacity_ < U32) (hv : cb.Valid) (hb : bytes ≠ 0)
    (h : ¬ min bytes cb.size_ ≤ cb.capacity_ - cb.beg_index_) :
    cb.read bytes
      = ({ cb with
            beg_index_ := min bytes cb.size_ - (cb.capacity_ - cb.beg_index_)
            size_ := cb.size_ - min bytes cb.size_ },
          slice cb.data_ cb.beg_index_ (cb.capacity_ - cb.beg_index_)
            ++ slice cb.data_ 0 (min bytes cb.size_ - (cb.capacity_ - cb.beg_index_)),
          min bytes cb.size_) := by
  obtain ⟨h1, h2, h3, h4⟩ := (valid_iff cb).1 hv
  have e2 : sub32 cb.capacity_ cb.beg_index_ = cb.capacity_ - cb.beg_index_ :=
    sub32_eq _ _ hc (by omega)
  have e1 : sub32 cb.size_ (min bytes cb.size_) = cb.size_ - min bytes cb.size_ :=
    sub32_eq _ _ (by omega) (by omega)
  have e5 : sub32 (min bytes cb.size_) (cb.capacity_ - cb.beg_index_)
      = min bytes cb.size_ - (cb.capacity_ - cb.beg_index_) :=
    sub32_eq _ _ (by simp only [U32] at *; omega) (by omega)
  simp only [CircularBuffer.read, if_neg hb, e1, e2, if_neg h, e5]

theorem range_map_take_drop (s k : Nat) (f : Nat → Byte) (hk : k ≤ s) :
    ((List.range s).map f).take k = (List.range k).map f
    ∧ ((List.range s).map f).drop k = (List.range (s - k)).map (fun j => f (k + j)) := by
  have e : s = k + (s - k) := by omega
  have hl : ((List.range k).map f).length = k := by simp
  constructor
  · conv_lhs => rw [e, range_map_add]
    rw [List.take_append_of_le_length (by rw [hl]), List.take_of_length_le (by rw [hl])]
  · conv_lhs => rw [e, range_map_add]
    rw [List.drop_append_of_le_length (by rw [hl]), List.drop_of_length_le (by rw [hl])]
    rfl

/-- A read returns the oldest queued bytes and leaves the others queued. -/
theorem read_contents (cb : CircularBuffer) (bytes : Nat)
    (hc : cb.capacity_ < U32) (hv : cb.Valid) (hd : cb.data_.length = cb.capacity_) :
    (cb.read bytes).2.1 = cb.contents.take (cb.read bytes).2.2
    ∧ (cb.read bytes).1.contents = cb.contents.drop (cb.read bytes).2.2 := by
  obtain ⟨h1, h2, h3, h4⟩ := (valid_iff cb).1 hv
  by_cases hb0 : bytes = 0
  · subst hb0
    simp only [CircularBuffer.read, if_true]
    exact ⟨by simp, by simp⟩
  · have hn : min bytes cb.size_ ≤ cb.size_ := by omega
    generalize hnn : min bytes cb.size_ = n at hn
    have htd := range_map_take_drop cb.size_ n
      (fun i => cb.data_.getD ((cb.beg_index_ + i) % cb.capacity_) 0) hn
    by_cases c1 : n ≤ cb.capacity_ - cb.beg_index_
    · rw [read_one_step cb bytes hc hv hb0 (by rw [hnn]; exact c1), hnn]
      simp only [CircularBuffer.contents]
      rw [htd.1, htd.2]
      refine ⟨?_, ?_⟩
      · rw [slice_eq_range_map _ _ _ (by omega)]
        apply range_map_congr
        intro j hj
        rw [Nat.mod_eq_of_lt (by omega)]
      · apply range_map_congr
        intro j hj
        beta_reduce
        rw [mod_wrap _ _ (by split <;> omega), mod_wrap (cb.beg_index_ + (n + j)) _ (by omega)]
        congr 1
        split <;> split <;> split <;> omega
    · rw [read_two_steps cb bytes hc hv hb0 (by rw [hnn]; exact c1), hnn]
      simp only [CircularBuffer.contents]
      rw [htd.1, htd.2]
      refine ⟨?_, ?_⟩
      · have e : n = (cb.capacity_ - cb.beg_index_) + (n - (cb.capacity_ - cb.beg_index_)) := by
          omega
        conv_rhs => rw [e, range_map_add]
        rw [slice_eq_range_map _ _ _ (by omega), slice_eq_range_map _ _ _ (by omega)]
        congr 1
        · apply range_map_congr
          intro j hj
          rw [Nat.mod_eq_of_lt (by omega)]
        · apply range_map_congr
          intro j hj
          rw [mod_wrap _ _ (by omega), if_neg (by omega)]
          congr 1
          omega
      · apply range_map_congr
        intro j hj
        beta_reduce
        rw [mod_wrap _ _ (by omega), mod_wrap (cb.beg_index_ + (n + j)) _ (by omega)]
        congr 1
        split <;> split <;> omega

end Sample8
namespace Sample8

theorem new_valid (capacity : Nat) (fill : Nat → Byte) (hc : 0 < capacity) :
    (CircularBuffer.new capacity fill).Valid
    ∧ (CircularBuffer.new capacity fill).capacity_ = capacity
    ∧ (CircularBuffer.new capacity fill).data_.length = capacity
    ∧ (CircularBuffer.new capacity fill).contents = [] := by
  refine ⟨⟨Nat.zero_le _, hc, hc, ?_⟩, rfl, ?_, rfl⟩
  · show 0 = (0 + 0) % capacity
    simp
  · simp [CircularBuffer.new]

theorem step_valid (capacity : Nat) (hc2 : capacity < U32) (t : Trace) (op : Op)
    (hv : t.buffer.Valid) (hcap : t.buffer.capacity_ = capacity) :
    (t.step op).buffer.Valid ∧ (t.step op).buffer.capacity_ = capacity := by
  cases op with
  | write data bytes =>
    have h := write_valid t.buffer data bytes (by rw [hcap]; exact hc2) hv
    exact ⟨h.1, h.2.1.trans hcap⟩
  | read bytes =>
    have h := read_valid t.buffer bytes (by rw [hcap]; exact hc2) hv
    exact ⟨h.1, h.2.1.trans hcap⟩

theorem foldl_step_valid (capacity : Nat) (hc2 : capacity < U32) (ops : List Op) :
    ∀ t : Trace, t.buffer.Valid → t.buffer.capacity_ = capacity →
      (ops.foldl Trace.step t).buffer.Valid
      ∧ (ops.foldl Trace.step t).buffer.capacity_ = capacity := by
  induction ops with
  | nil => exact fun t hv hcap => ⟨hv, hcap⟩
  | cons op rest ih =>
    intro t hv hcap
    have h := step_valid capacity hc2 t op hv hcap
    exact ih (t.step op) h.1 h.2

theorem step_fifo (capacity : Nat) (hc2 : capacity < U32) (t : Trace) (op : Op)
    (hv : t.buffer.Valid) (hcap : t.buffer.capacity_ = capacity)
    (hd : t.buffer.data_.length = capacity)
    (hq : t.returned ++ t.buffer.contents = t.accepted) (hok : op.ok = true) :
    (t.step op).buffer.data_.length = capacity
    ∧ (t.step op).returned ++ (t.step op).buffer.contents = (t.step op).accepted := by
  have hc : t.buffer.capacity_ < U32 := by rw [hcap]; exact hc2
  cases op with
  | write data bytes =>
    have hb : bytes ≤ data.length := by simpa [Op.ok] using hok
    have h := write_contents t.buffer data bytes hc hv (hd.trans hcap.symm) hb
    refine ⟨h.1.trans hcap, ?_⟩
    show t.returned ++ (t.buffer.write data bytes).1.contents
      = t.accepted ++ data.take (t.buffer.write data bytes).2
    rw [h.2, ← List.append_assoc, hq]
  | read bytes =>
    have h := read_contents t.buffer bytes hc hv (hd.trans hcap.symm)
    have h2 := read_valid t.buffer bytes hc hv
    refine ⟨(congrArg List.length h2.2.2.1).trans hd, ?_⟩
    show (t.returned ++ (t.buffer.read bytes).2.1) ++ (t.buffer.read bytes).1.contents
      = t.accepted
    rw [h.1, h.2, List.append_assoc, List.take_append_drop, hq]

theorem foldl_step_fifo (capacity : Nat) (hc2 : capacity < U32) (ops : List Op) :
    ∀ t : Trace, t.buffer.Valid → t.buffer.capacity_ = capacity →
      t.buffer.data_.length = capacity → t.returned ++ t.buffer.contents = t.accepted →
      (∀ op ∈ ops, op.ok = true) →
      (ops.foldl Trace.step t).buffer.data_.length = capacity
      ∧ (ops.foldl Trace.step t).returned ++ (ops.foldl Trace.step t).buffer.contents
        = (ops.foldl Trace.step t).accepted := by
  induction ops with
  | nil => exact fun t _ _ hd hq _ => ⟨hd, hq⟩
  | cons op rest ih =>
    intro t hv hcap hd hq hok
    have h1 := step_valid capacity hc2 t op hv hcap
    have h2 := step_fifo capacity hc2 t op hv hcap hd hq (hok op (List.mem_cons_self _ _))
    exact ih (t.step op) h1.1 h1.2 h2.1 h2.2 (fun o ho => hok o (List.mem_cons_of_mem _ ho))

end Sample8

/-- C29: after any sequence of `write` and `read` calls on a `CircularBuffer` (sample8)
constructed with a capacity greater than 0 (an `unsigned int`, so below 2^32), the
capacity is the constructor's and `size_ <= capacity_`, `beg_index_ < capacity_`,
`end_index_ < capacity_` and `end_index_ = (beg_index_ + size_) mod capacity_` hold.
The indices do not depend on the bytes that are copied. -/
theorem C29_circular_buffer_indices (capacity : Nat) (fill : Nat → Byte)
    (ops : List Sample8.Op) (hc : 0 < capacity) (hc2 : capacity < U32) :
    (Sample8.run capacity fill ops).buffer.capacity_ = capacity
    ∧ (Sample8.run capacity fill ops).buffer.size_
      ≤ (Sample8.run capacity fill ops).buffer.capacity_
    ∧ (Sample8.run capacity fill ops).buffer.beg_index_
      < (Sample8.run capacity fill ops).buffer.capacity_
    ∧ (Sample8.run capacity fill ops).buffer.end_index_
      < (Sample8.run capacity fill ops).buffer.capacity_
    ∧ (Sample8.run capacity fill ops).buffer.end_index_
      = ((Sample8.run capacity fill ops).buffer.beg_index_
          + (Sample8.run capacity fill ops).buffer.size_)
        % (Sample8.run capacity fill ops).buffer.capacity_ := by
  have hn := Sample8.new_valid capacity fill hc
  have h := Sample8.foldl_step_valid capacity hc2 ops
    { buffer := Sample8.CircularBuffer.new capacity fill, accepted := [], returned := [] }
    hn.1 hn.2.1
  exact ⟨h.2, h.1⟩

theorem C29_circular_buffer_indices_witness :
    0 < 4 ∧ 4 < U32
    ∧ (Sample8.run 4 (fun _ => 0) Sample8.demoOps).buffer
      = { beg_index_ := 3, end_index_ := 3, size_ := 0, capacity_ := 4, data_ := [5, 6, 8, 4] }
    ∧ (Sample8.run 4 (fun _ => 0) Sample8.demoOps).buffer.end_index_
      = ((Sample8.run 4 (fun _ => 0) Sample8.demoOps).buffer.beg_index_
          + (Sample8.run 4 (fun _ => 0) Sample8.demoOps).buffer.size_)
        % (Sample8.run 4 (fun _ => 0) Sample8.demoOps).buffer.capacity_ :=
  ⟨by decide, by decide, by decide,
    (C29_circular_buffer_indices 4 (fun _ => 0) Sample8.demoOps (by decide)
      (by decide)).2.2.2.2⟩

/-- C30: `CircularBuffer` (sample8) is a FIFO byte queue.  After any sequence of calls
on a buffer constructed with a capacity greater than 0 (below 2^32), each write given at
least `bytes` bytes of input: the bytes returned by the reads followed by the bytes
still queued are the bytes accepted by the writes, so the returned bytes are a prefix of
the accepted ones; `size_` bytes are queued; a further write returns
`min(bytes, capacity - size)` and queues that many of the first bytes of its input
behind the others; a further read returns `min(bytes, size)`, stores that many of the
oldest queued bytes and leaves the others queued. -/
theorem C30_circular_buffer_fifo (capacity : Nat) (fill : Nat → Byte)
    (ops : List Sample8.Op) (hc : 0 < capacity) (hc2 : capacity < U32)
    (hops : ∀ op ∈ ops, op.ok = true) :
    (Sample8.run capacity fill ops).returned
        ++ (Sample8.run capacity fill ops).buffer.contents
      = (Sample8.run capacity fill ops).accepted
    ∧ (Sample8.run capacity fill ops).returned <+: (Sample8.run capacity fill ops).accepted
    ∧ (Sample8.run capacity fill ops).buffer.contents.length
      = (Sample8.run capacity fill ops).buffer.size_
    ∧ (∀ (data : List Byte) (bytes : Nat), bytes ≤ data.length →
        ((Sample8.run capacity fill ops).buffer.write data bytes).2
          = min bytes (capacity - (Sample8.run capacity fill ops).buffer.size_)
        ∧ ((Sample8.run capacity fill ops).buffer.write data bytes).1.contents
          = (Sample8.run capacity fill ops).buffer.contents
            ++ data.take (min bytes (capacity - (Sample8.run capacity fill ops).buffer.size_)))
    ∧ (∀ bytes : Nat,
        ((Sample8.run capacity fill ops).buffer.read bytes).2.2
          = min bytes (Sample8.run capacity fill ops).buffer.size_
        ∧ ((Sample8.run capacity fill ops).buffer.read bytes).2.1
          = (Sample8.run capacity fill ops).buffer.contents.take
              (min bytes (Sample8.run capacity fill ops).buffer.size_)
        ∧ ((Sample8.run capacity fill ops).buffer.read bytes).1.contents
          = (Sample8.run capacity fill ops).buffer.contents.drop
              (min bytes (Sample8.run capacity fill ops).buffer.size_)) := by
  have hn := Sample8.new_valid capacity fill hc
  have hv := Sample8.foldl_step_valid capacity hc2 ops
    { buffer := Sample8.CircularBuffer.new capacity fill, accepted := [], returned := [] }
    hn.1 hn.2.1
  have hf := Sample8.foldl_step_fifo capacity hc2 ops
    { buffer := Sample8.CircularBuffer.new capacity fill, accepted := [], returned := [] }
    hn.1 hn.2.1 hn.2.2.1 (by rw [hn.2.2.2]; rfl) hops
  have hcap : (Sample8.run capacity fill ops).buffer.capacity_ < U32 := by
    rw [show (Sample8.run capacity fill ops).buffer.capacity_ = capacity from hv.2]
    exact hc2
  have hd : (Sample8.run capacity fill ops).buffer.data_.length
      = (Sample8.run capacity fill ops).buffer.capacity_ := hf.1.trans hv.2.symm
  refine ⟨hf.2, ⟨_, hf.2⟩, by simp [Sample8.CircularBuffer.contents], ?_, ?_⟩
  · intro data bytes hb
    have h1 := Sample8.write_valid (Sample8.run capacity fill ops).buffer data bytes hcap hv.1
    have h2 := Sample8.write_contents (Sample8.run capacity fill ops).buffer data bytes hcap
      hv.1 hd hb
    have e : ((Sample8.run capacity fill ops).buffer.write data bytes).2
        = min bytes (capacity - (Sample8.run capacity fill ops).buffer.size_) := by
      rw [h1.2.2.2.2, show (Sample8.run capacity fill ops).buffer.capacity_ = capacity from hv.2]
    exact ⟨e, by rw [h2.2, e]⟩
  · intro bytes
    have h1 := Sample8.read_valid (Sample8.run capacity fill ops).buffer bytes hcap hv.1
    have h2 := Sample8.read_contents (Sample8.run capacity fill ops).buffer bytes hcap hv.1 hd
    exact ⟨h1.2.2.2.2, by rw [h2.1, h1.2.2.2.2], by rw [h2.2, h1.2.2.2.2]⟩

theorem C30_circular_buffer_fifo_witness :
    0 < 4 ∧ 4 < U32 ∧ (∀ op ∈ Sample8.demoOps, op.ok = true)
    ∧ (Sample8.run 4 (fun _ => 0) Sample8.demoOps).accepted = [1, 2, 3, 4, 5, 6, 8]
    ∧ (Sample8.run 4 (fun _ => 0) Sample8.demoOps).returned = [1, 2, 3, 4, 5, 6, 8]
    ∧ (Sample8.run 4 (fun _ => 0) Sample8.demoOps).returned
      <+: (Sample8.run 4 (fun _ => 0) Sample8.demoOps).accepted :=
  ⟨by decide, by decide, by decide, by decide, by decide,
    (C30_circular_buffer_fifo 4 (fun _ => 0) Sample8.demoOps (by decide) (by decide)
      (by decide)).2.1⟩

end FMP4
